import Mathlib

/-!
# Gaia: partition-aware transactional execution layer

A shallow embedding of the sharders, metadata initializers, transaction
skeleton, benchmark transaction bodies and loaders of the repository, and
theorems about them.

Conventions of the embedding:

* a `Key` and every `std::string` that is processed byte by byte is a list of
  byte values (`List Nat`, every element below 256);
* unsigned 32-bit arithmetic is arithmetic on `Nat` reduced modulo `2^32`;
* whether the C++ type `char` is signed is implementation-defined, so the
  functions that widen a `char` take a flag `charSigned` (true on x86-64 Linux);
* text that is only stored or compared (names, dates, error messages) is a
  Lean `String`.
-/

namespace Gaia

/-! ## Machine integers and byte strings -/

/-- Byte strings: the payload of `std::string` and of `Key`. -/
abbrev Bytes := List Nat

/-- Truncation to `uint32_t`. -/
def u32 (n : Nat) : Nat := n % 2 ^ 32

/-- Truncation to `uint64_t`. -/
def u64 (n : Nat) : Nat := n % 2 ^ 64

/-- The byte values of a text, one per character. -/
def bytesOf (s : String) : Bytes := s.toList.map Char.toNat

/-- Conversion of a `char` holding byte `b` to a `bits`-wide unsigned integer
(through `int`): zero extension when `char` is unsigned or the byte is below
0x80, sign extension otherwise. -/
def charToUnsigned (bits : Nat) (charSigned : Bool) (b : Nat) : Nat :=
  if charSigned && decide (128 ≤ b) then 2 ^ bits - 256 + b else b

/-- The value of `*reinterpret_cast<const uint32_t*>(p)` on a little-endian
machine, where `p` points at the bytes `b0 b1 b2 b3`. -/
def load32le (b0 b1 b2 b3 : Nat) : Nat :=
  b0 + 256 * b1 + 65536 * b2 + 16777216 * b3

/-- The first four bytes of a key read as a little-endian `uint32_t`; `none`
when the key is shorter than four bytes (the read is out of bounds). -/
def readU32 : Bytes → Option Nat
  | b0 :: b1 :: b2 :: b3 :: _ => some (load32le b0 b1 b2 b3)
  | _ => none

/-- Reinterpretation of an unsigned 32-bit pattern as `int`. -/
def toInt32 (u : Nat) : Int := if u < 2 ^ 31 then (u : Int) else (u : Int) - 2 ^ 32

/-- Conversion of an `int` to `uint32_t` (reduction modulo `2^32`). -/
def ofInt32 (i : Int) : Nat := (i % 2 ^ 32).toNat

/-- The four bytes of the little-endian encoding of a 32-bit value. -/
def encode32le (u : Nat) : Bytes :=
  [u % 256, u / 256 % 256, u / 65536 % 256, u / 16777216 % 256]

/-! ## Transaction skeleton (`transaction.h` of every family) -/

/-- The three phases of a transaction body. -/
inductive Phase
  | Read
  | Compute
  | Write
  deriving DecidableEq, Repr

/-- A transaction body: the virtual methods `Read`, `Compute`, `Write` acting on
the state `σ` of the transaction object. -/
structure TxnBody (σ : Type) where
  Read : σ → Bool × σ
  Compute : σ → σ
  Write : σ → Bool × σ

/-- Outcome of `Execute()`: the returned flag, the object state afterwards and
the virtual methods that were invoked, in order. -/
structure ExecResult (σ : Type) where
  ret : Bool
  state : σ
  calls : List Phase

/-- `PPSTransaction::Execute`. -/
def PPSTransaction.Execute {σ : Type} (b : TxnBody σ) (s : σ) : ExecResult σ :=
  let r := b.Read s
  if !r.1 then
    { ret := false, state := r.2, calls := [Phase.Read] }
  else
    let c := b.Compute r.2
    let w := b.Write c
    if !w.1 then
      { ret := false, state := w.2, calls := [Phase.Read, Phase.Compute, Phase.Write] }
    else
      { ret := true, state := w.2, calls := [Phase.Read, Phase.Compute, Phase.Write] }

/-- `SmallBankTransaction::Execute`. -/
def SmallBankTransaction.Execute {σ : Type} (b : TxnBody σ) (s : σ) : ExecResult σ :=
  let r := b.Read s
  if !r.1 then
    { ret := false, state := r.2, calls := [Phase.Read] }
  else
    let c := b.Compute r.2
    let w := b.Write c
    if !w.1 then
      { ret := false, state := w.2, calls := [Phase.Read, Phase.Compute, Phase.Write] }
    else
      { ret := true, state := w.2, calls := [Phase.Read, Phase.Compute, Phase.Write] }

/-- `DSHTransaction::Execute`. -/
def DSHTransaction.Execute {σ : Type} (b : TxnBody σ) (s : σ) : ExecResult σ :=
  let r := b.Read s
  if !r.1 then
    { ret := false, state := r.2, calls := [Phase.Read] }
  else
    let c := b.Compute r.2
    let w := b.Write c
    if !w.1 then
      { ret := false, state := w.2, calls := [Phase.Read, Phase.Compute, Phase.Write] }
    else
      { ret := true, state := w.2, calls := [Phase.Read, Phase.Compute, Phase.Write] }

/-- `MovieTransaction::Execute`. -/
def MovieTransaction.Execute {σ : Type} (b : TxnBody σ) (s : σ) : ExecResult σ :=
  let r := b.Read s
  if !r.1 then
    { ret := false, state := r.2, calls := [Phase.Read] }
  else
    let c := b.Compute r.2
    let w := b.Write c
    if !w.1 then
      { ret := false, state := w.2, calls := [Phase.Read, Phase.Compute, Phase.Write] }
    else
      { ret := true, state := w.2, calls := [Phase.Read, Phase.Compute, Phase.Write] }

/-- `SetError` of every family, as a function of the stored `error_`:
`if (error_.empty()) error_ = error;`. -/
def SetError (error_ : String) (error : String) : String :=
  if error_.isEmpty then error else error_

/-- The value of `error()` after a sequence of `SetError` calls on a fresh
transaction object (whose `error_` is empty). -/
def errorAfter (calls : List String) : String :=
  calls.foldl SetError ""

/-- The body `b` on an object that also keeps a journal of its own invocations:
each virtual method does what it does in `b` and appends its name to the journal
when it runs. The journal is written by the methods, not by `Execute()`. -/
def TxnBody.journaled {σ : Type} (b : TxnBody σ) : TxnBody (σ × List Phase) :=
  { Read := fun s => ((b.Read s.1).1, ((b.Read s.1).2, s.2 ++ [Phase.Read])),
    Compute := fun s => (b.Compute s.1, s.2 ++ [Phase.Compute]),
    Write := fun s => ((b.Write s.1).1, ((b.Write s.1).2, s.2 ++ [Phase.Write])) }

/-- What the phase-skipping contract says about an `Execute()` skeleton, for
every body and every object state. The result is true exactly when `Read` and
then `Write` returned true. When `Read` returned false the object is left as
`Read` left it and the journal of the methods holds `Read` alone: neither
`Compute` nor `Write` ran. When `Read` returned true the object is left as
`Write` left it after `Compute` after `Read`, and the journal holds `Read`,
`Compute`, `Write`, each once and in this order. `Compute` is in the journal
exactly once iff `Read` returned true, and the list of calls that the skeleton
reports is the journal. -/
def PhaseSkipping (Execute : (σ : Type) → TxnBody σ → σ → ExecResult σ) : Prop :=
  ∀ (σ : Type) (b : TxnBody σ) (s : σ),
    ((Execute σ b s).ret = true ↔
      ((b.Read s).1 = true ∧ (b.Write (b.Compute (b.Read s).2)).1 = true)) ∧
    ((b.Read s).1 = false →
      (Execute σ b s).state = (b.Read s).2 ∧
      (Execute (σ × List Phase) b.journaled (s, [])).state.2 = [Phase.Read]) ∧
    ((b.Read s).1 = true →
      (Execute σ b s).state = (b.Write (b.Compute (b.Read s).2)).2 ∧
      (Execute (σ × List Phase) b.journaled (s, [])).state.2 =
        [Phase.Read, Phase.Compute, Phase.Write]) ∧
    ((Execute (σ × List Phase) b.journaled (s, [])).state.2.count Phase.Compute = 1 ↔
      (b.Read s).1 = true) ∧
    (Execute (σ × List Phase) b.journaled (s, [])).state.1 = (Execute σ b s).state ∧
    (Execute σ b s).calls = (Execute (σ × List Phase) b.journaled (s, [])).state.2

/-! ## Hash functions of `common/sharder.cpp` -/

/-- `FNVHash(begin, end)`: the 64-bit accumulator is multiplied by the prime,
reduced modulo `2^32`, then xor-ed with the widened `char`; the result is
truncated to `uint32_t` on return. -/
def FNVHash (charSigned : Bool) (bytes : Bytes) : Nat :=
  u32 (bytes.foldl
    (fun hash b => (u64 (hash * 0x01000193) % 2 ^ 32) ^^^ charToUnsigned 64 charSigned b)
    0x811c9dc5)

/-- `ROTL32(x, r)` as the source writes it: `(x << r) | (x >> (32 - r))` on
`uint32_t`. -/
def rotl32 (x r : Nat) : Nat := u32 (x <<< r) ||| (x >>> (32 - r))

/-- One round of the block loop of `murmurhash3` on the block `k`. -/
def murmurRound (hash k : Nat) : Nat :=
  let k1 := u32 (k * 0xcc9e2d51)
  let k2 := rotl32 k1 15
  let k3 := u32 (k2 * 0x1b873593)
  let h1 := hash ^^^ k3
  let h2 := rotl32 h1 13
  u32 (h2 * 5 + 0xe6546b64)

/-- The 4-byte blocks that a loop `while (len >= 4) { ...; len -= 4; i += 4; }`
visits, in order, and the bytes left over (fewer than four). -/
def blocks4 : Bytes → List (Nat × Nat × Nat × Nat) × Bytes
  | b0 :: b1 :: b2 :: b3 :: rest => ((b0, b1, b2, b3) :: (blocks4 rest).1, (blocks4 rest).2)
  | rest => ([], rest)

/-- The `while (len >= 4)` loop of `murmurhash3`: returns the hash after the
loop and the bytes not consumed (fewer than four). -/
def murmurBlocks (hash : Nat) (str : Bytes) : Nat × Bytes :=
  ((blocks4 str).1.foldl (fun h b => murmurRound h (load32le b.1 b.2.1 b.2.2.1 b.2.2.2)) hash,
   (blocks4 str).2)

/-- The `switch (len)` of `murmurhash3` on the remaining bytes: every case ends
in `break`, so only one byte of the tail is used. -/
def murmurTail (charSigned : Bool) : Bytes → Nat
  | [_, _, b2] => u32 (charToUnsigned 32 charSigned b2 <<< 16)
  | [_, b1] => u32 (charToUnsigned 32 charSigned b1 <<< 8)
  | [b0] => charToUnsigned 32 charSigned b0
  | _ => 0

/-- The part of `murmurhash3` after the block loop: tail mixing, length xor and
final avalanche. -/
def murmurFinish (hash tail len : Nat) : Nat :=
  let t1 := u32 (tail * 0xcc9e2d51)
  let t2 := rotl32 t1 15
  let t3 := u32 (t2 * 0x1b873593)
  let h0 := hash ^^^ t3
  let h1 := u32 (h0 ^^^ len)
  let h2 := h1 ^^^ (h1 >>> 16)
  let h3 := u32 (h2 * 0x85ebca6b)
  let h4 := h3 ^^^ (h3 >>> 13)
  let h5 := u32 (h4 * 0xc2b2ae35)
  h5 ^^^ (h5 >>> 16)

/-- `murmurhash3` of `common/sharder.cpp` (seed 42). -/
def murmurhash3 (charSigned : Bool) (str : Bytes) : Nat :=
  let r := murmurBlocks 42 str
  murmurFinish r.1 (murmurTail charSigned r.2) str.length

/-- `smallbank::murmurhash3` of `execution/smallbank/metadata_initializer.cpp`. -/
def smallbank.murmurhash3 (charSigned : Bool) (str : Bytes) : Nat :=
  let r := murmurBlocks 42 str
  murmurFinish r.1 (murmurTail charSigned r.2) str.length

/-- `PartitionedSmallBankDataLoader::murmurhash3` of
`execution/smallbank/load_tables.cpp`. -/
def smallbank.PartitionedSmallBankDataLoader.murmurhash3 (charSigned : Bool) (str : Bytes) : Nat :=
  let r := murmurBlocks 42 str
  murmurFinish r.1 (murmurTail charSigned r.2) str.length

/-- `murmurhash3` of `workload/smallbank.cpp`. -/
def SmallBankWorkload.murmurhash3 (charSigned : Bool) (str : Bytes) : Nat :=
  let r := murmurBlocks 42 str
  murmurFinish r.1 (murmurTail charSigned r.2) str.length

/-! ### Reference hashes, written from the specification -/

/-- The standard FNV-1a 32-bit hash: start at `0x811c9dc5`; for each byte, xor
the byte, then multiply by `0x01000193` modulo `2^32`. -/
def FNV1a32 (bytes : Bytes) : Nat :=
  bytes.foldl (fun h b => u32 ((h ^^^ b) * 0x01000193)) 0x811c9dc5

/-- The standard FNV-1 32-bit hash: start at `0x811c9dc5`; for each byte,
multiply by `0x01000193` modulo `2^32`, then xor the byte. -/
def FNV1_32 (bytes : Bytes) : Nat :=
  bytes.foldl (fun h b => u32 (h * 0x01000193) ^^^ b) 0x811c9dc5

/-- Left rotation of a 32-bit word. -/
def refRotl32 (x r : Nat) : Nat := (x <<< r ||| x >>> (32 - r)) % 2 ^ 32

/-- Block mixing of the reference MurmurHash3_x86_32. -/
def refMixK (k : Nat) : Nat :=
  (refRotl32 ((k * 0xcc9e2d51) % 2 ^ 32) 15 * 0x1b873593) % 2 ^ 32

/-- One block step of the reference MurmurHash3_x86_32. -/
def refRound (h k : Nat) : Nat :=
  (refRotl32 (h ^^^ refMixK k) 13 * 5 + 0xe6546b64) % 2 ^ 32

/-- Body of the reference MurmurHash3_x86_32 over little-endian 4-byte blocks:
the hash after the blocks and the tail bytes. -/
def refBlocks (h : Nat) (s : Bytes) : Nat × Bytes :=
  ((blocks4 s).1.foldl (fun acc b => refRound acc (load32le b.1 b.2.1 b.2.2.1 b.2.2.2)) h,
   (blocks4 s).2)

/-- Tail word of the reference MurmurHash3_x86_32: the cases fall through, so
all remaining bytes (as unsigned bytes) enter the word. -/
def refTail : Bytes → Nat
  | [b0, b1, b2] => (b2 <<< 16) ^^^ (b1 <<< 8) ^^^ b0
  | [b0, b1] => (b1 <<< 8) ^^^ b0
  | [b0] => b0
  | _ => 0

/-- Final avalanche `fmix32` of the reference MurmurHash3. -/
def refFmix32 (h : Nat) : Nat :=
  let h1 := h ^^^ (h >>> 16)
  let h2 := (h1 * 0x85ebca6b) % 2 ^ 32
  let h3 := h2 ^^^ (h2 >>> 13)
  let h4 := (h3 * 0xc2b2ae35) % 2 ^ 32
  h4 ^^^ (h4 >>> 16)

/-- The reference `MurmurHash3_x86_32(s, seed)`. -/
def MurmurHash3_x86_32 (seed : Nat) (s : Bytes) : Nat :=
  let r := refBlocks seed s
  let h := r.1 ^^^ refMixK (refTail r.2)
  refFmix32 ((h ^^^ s.length) % 2 ^ 32)


/-! ## Text helpers of the standard library -/

/-- `std::to_string` on an integer: decimal digits, with a leading minus sign
for negative values. -/
def to_string : Int → String
  | Int.ofNat n => Nat.repr n
  | Int.negSucc n => "-" ++ Nat.repr (n + 1)

/-- `std::string::resize(n, c)`: truncate to `n` characters or pad with `c`. -/
def resize (s : String) (n : Nat) (c : Char) : String :=
  String.mk ((s.toList ++ List.replicate (n - s.length) c).take n)

/-- Whether a byte is an ASCII decimal digit. -/
def isDigitByte (b : Nat) : Bool := decide (48 ≤ b) && decide (b ≤ 57)

/-- The number denoted by a run of ASCII digits. -/
def digitsValue (ds : Bytes) : Nat := ds.foldl (fun a b => 10 * a + (b - 48)) 0

/-- `std::from_chars(first, last, value)` for `uint32_t` in base 10 on the bytes
`[first, last)`: the longest run of leading digits is converted; `none` when
there is no digit or the number does not fit 32 bits (the variable is then left
unassigned). -/
def from_chars_u32 (s : Bytes) : Option Nat :=
  let ds := s.takeWhile isDigitByte
  if ds.isEmpty then none
  else if digitsValue ds < 2 ^ 32 then some (digitsValue ds) else none

/-! ## Sharders (`common/sharder.cpp`) -/

/-- `HashSharder::compute_partition`. -/
def HashSharder.compute_partition (charSigned : Bool) (partition_key_num_bytes_ num_partitions_ : Nat)
    (key : Bytes) : Nat :=
  let stop := if partition_key_num_bytes_ ≥ key.length then key.length else partition_key_num_bytes_
  FNVHash charSigned (key.take stop) % num_partitions_

/-- `PPSSharder::compute_partition`: the first four bytes are read as `int id`
and `(id - 1)` is converted to `uint32_t` before the remainder is taken. -/
def PPSSharder.compute_partition (num_partitions_ : Nat) (key : Bytes) : Option Nat :=
  (readU32 key).map fun u => ofInt32 (toInt32 u - 1) % num_partitions_

/-- `SmallBankSharder::compute_partition`. -/
def SmallBankSharder.compute_partition (charSigned : Bool) (num_partitions_ : Nat) (key : Bytes) :
    Option Nat :=
  if key.length = 26 then
    some (murmurhash3 charSigned (key.take 24) % num_partitions_)
  else
    (readU32 key).map fun u => ofInt32 (toInt32 u) % num_partitions_

/-- `DSHSharder::compute_partition`. The result is `none` when the code reads
outside the key or uses a variable that `from_chars` left unassigned. -/
def DSHSharder.compute_partition (num_partitions_ : Nat) (key : Bytes) : Option Nat :=
  if key.length = 22 then
    match from_chars_u32 (key.take 2) with
    | none => none
    | some res =>
      if res ≤ 20 then
        match from_chars_u32 ((key.drop (20 - res)).take res) with
        | none => none
        | some id => some (id % num_partitions_)
      else none
  else
    (readU32 key).map fun id => id % num_partitions_

/-! ## Metadata initializers -/

/-- `PPSMetadataInitializer::Compute` (the home region; `none` when the
`CHECK_GE(key.size(), 4)` fails). -/
def pps.PPSMetadataInitializer.Compute (num_regions_ num_partitions_ : Nat) (key : Bytes) :
    Option Nat :=
  (readU32 key).map fun id => (u32 (id + 2 ^ 32 - 1) / num_partitions_) % num_regions_

/-- `SmallBankMetadataInitializer::Compute`. -/
def smallbank.SmallBankMetadataInitializer.Compute (charSigned : Bool)
    (num_regions_ num_partitions_ : Nat) (key : Bytes) : Option Nat :=
  if key.length = 26 then
    some ((smallbank.murmurhash3 charSigned (key.take 24) / num_partitions_) % num_regions_)
  else
    (readU32 key).map fun client_id => (client_id / num_partitions_) % num_regions_

/-! ## DSH helpers (`execution/dsh/utils.cpp`) -/

/-- `format_uname`: `none` stands for the `LOG(FATAL)` on names longer than 18
characters. -/
def dsh.format_uname (uname : String) : Option String :=
  let l := uname.length
  if l > 18 then none
  else some ("0" ++ to_string l ++ String.mk (List.replicate (18 - l) '_') ++ uname)


/-! ## PPS loader (`execution/pps/load_tables.cpp`) -/

/-- Tables of the PPS schema. -/
inductive pps.TableId
  | Product
  | Part
  | Supplier
  | ProductParts
  | SupplierParts
  deriving DecidableEq, Repr

/-- The primary key of a PPS row: its table and its `Int32` key cells. -/
structure pps.RowKey where
  table : pps.TableId
  pk : List Int
  deriving DecidableEq, Repr

/-- Modelled from the spec: the table facade (`execution/pps/table.h`) is not
part of the sources. The physical key is the concatenation of the primary-key
scalars serialized in their declared width (an `Int32` is its four
little-endian bytes); `suffix` stands for the bytes the facade appends after
them. -/
def pps.storageKey (k : pps.RowKey) (suffix : Bytes) : Bytes :=
  (k.pk.flatMap fun c => encode32le (ofInt32 c)) ++ suffix

/-- `PartitionedPPSDataLoader::computePartition` (C++ `%` truncates). -/
def pps.PartitionedPPSDataLoader.computePartition (num_partitions_ : Int) (id : Int) : Int :=
  Int.tmod (id - 1) num_partitions_

/-- `PartitionedPPSDataLoader::computeRegion`. -/
def pps.PartitionedPPSDataLoader.computeRegion (num_partitions_ num_regions_ : Int) (id : Int) : Int :=
  Int.tmod (Int.tdiv (id - 1) num_partitions_) num_regions_

/-- The ids `1..n` that pass the loader's filter
`computePartition(id) == local_partition_`. -/
def pps.PartitionedPPSDataLoader.localIds (num_partitions_ local_partition_ : Int) (n : Nat) :
    List Int :=
  ((List.range' 1 n).map Int.ofNat).filter fun id =>
    decide (pps.PartitionedPPSDataLoader.computePartition num_partitions_ id = local_partition_)

/-- `PartitionedPPSDataLoader::Load`: the primary keys of the rows it inserts, in
order. The non-key cells (random names, the randomly chosen part ids) are not
modelled; the `CHECK` on `num_parts_per_class_` stops the load before the
mapping tables. `kPartsPerProduct` and `kPartsPerSupplier` come from
`constants.h`, which is not part of the sources, and are parameters. -/
def pps.PartitionedPPSDataLoader.Load (kPartsPerProduct kPartsPerSupplier : Nat)
    (num_products_ num_parts_ num_suppliers_ : Nat)
    (num_regions_ num_partitions_ local_partition_ : Int) : List pps.RowKey :=
  let products := pps.PartitionedPPSDataLoader.localIds num_partitions_ local_partition_ num_products_
  let parts := pps.PartitionedPPSDataLoader.localIds num_partitions_ local_partition_ num_parts_
  let suppliers := pps.PartitionedPPSDataLoader.localIds num_partitions_ local_partition_ num_suppliers_
  let base :=
    products.map (fun id => { table := pps.TableId.Product, pk := [id] }) ++
    parts.map (fun id => { table := pps.TableId.Part, pk := [id] }) ++
    suppliers.map (fun id => { table := pps.TableId.Supplier, pk := [id] })
  let num_parts_per_class_ := Int.tdiv (num_parts_ : Int) (num_partitions_ * num_regions_)
  if num_parts_per_class_ ≥ 4 then
    base ++
    (products.flatMap fun id =>
      (List.range' 1 kPartsPerProduct).map fun (i : Nat) =>
        { table := pps.TableId.ProductParts, pk := [id, (i : Int)] }) ++
    (suppliers.flatMap fun id =>
      (List.range' 1 kPartsPerSupplier).map fun (i : Nat) =>
        { table := pps.TableId.SupplierParts, pk := [id, (i : Int)] })
  else base

/-! ## SmallBank loader (`execution/smallbank/load_tables.cpp`) -/

/-- A row inserted by the SmallBank loader. -/
inductive smallbank.Row
  | accounts (name : String) (id : Int)
  | checking (id : Int) (balance : Int)
  | savings (id : Int) (balance : Int)
  deriving DecidableEq, Repr

/-- The padded client name built by the loader and by the workload generator:
`"Client" + std::to_string(id)` resized to 24 characters with spaces. -/
def smallbank.clientName (id : Int) : String :=
  resize ("Client" ++ to_string id) 24 ' '

/-- The `for` loop of `LoadAccounts` over the ids still to visit; `draws` counts
the values already taken from `bal_rnd(rg)`, whose `k`-th value is `bal_rnd k`. -/
def smallbank.PartitionedSmallBankDataLoader.loop (charSigned : Bool) (bal_rnd : Nat → Int)
    (partition_ num_partitions_ : Int) : List Int → Nat → List smallbank.Row
  | [], _ => []
  | id :: rest, draws =>
    let client_name := smallbank.clientName id
    let hash_value := smallbank.PartitionedSmallBankDataLoader.murmurhash3 charSigned (bytesOf client_name)
    let acc :=
      if hash_value % ofInt32 num_partitions_ = ofInt32 partition_ then
        [smallbank.Row.accounts client_name id]
      else []
    if Int.tmod id num_partitions_ = partition_ then
      acc ++ [smallbank.Row.checking id (bal_rnd draws), smallbank.Row.savings id (bal_rnd (draws + 1))] ++
        smallbank.PartitionedSmallBankDataLoader.loop charSigned bal_rnd partition_ num_partitions_ rest (draws + 2)
    else
      acc ++ smallbank.PartitionedSmallBankDataLoader.loop charSigned bal_rnd partition_ num_partitions_ rest draws

/-- `PartitionedSmallBankDataLoader::LoadAccounts`: the rows inserted for the ids
`from_w_ .. to_w_ - 1`, in order. -/
def smallbank.PartitionedSmallBankDataLoader.LoadAccounts (charSigned : Bool) (bal_rnd : Nat → Int)
    (from_w_ to_w_ partition_ num_partitions_ : Int) : List smallbank.Row :=
  smallbank.PartitionedSmallBankDataLoader.loop charSigned bal_rnd partition_ num_partitions_
    ((List.range (to_w_ - from_w_).toNat).map fun (k : Nat) => from_w_ + (k : Int)) 0

/-! ## DSH loader (`execution/dsh/load_tables.cpp`) -/

/-- The loop `for (uint32_t i = partition_; i < num_u_; i += num_p_)` of
`LoadUsers`, unrolled at most `fuel` times: the ids visited from `i` on. -/
def dsh.PartitionedDSHLoader.loop (num_p_ num_u_ : Nat) : Nat → Nat → List Nat
  | 0, _ => []
  | fuel + 1, i =>
    if i < num_u_ then i :: dsh.PartitionedDSHLoader.loop num_p_ num_u_ fuel (u32 (i + num_p_))
    else []

/-- `PartitionedDSHLoader::LoadUsers`: the inserted rows (formatted user name,
password) in order. With `num_p_ ≥ 1` the loop runs at most `num_u_` times. -/
def dsh.PartitionedDSHLoader.LoadUsers (num_p_ partition_ num_u_ : Nat) :
    List (Option String × String) :=
  (dsh.PartitionedDSHLoader.loop num_p_ num_u_ num_u_ partition_).map fun (i : Nat) =>
    (dsh.format_uname (to_string (i : Int)), to_string (i : Int))

/-! ## Table facade and storage adapters

The table facade (`table.h`), the scalars (`scalar.h`) and the storage adapters
(`storage_adapter.h`) of the families are not part of the sources. They are
modelled from the specification: `Select(pk, columns)` hands the key to the
adapter and returns the requested cells of the row, or nothing when the adapter
has no value for the key; `Insert` and `Update` hand the key and the new cells
to the adapter and return its verdict; the adapter records every key it is
handed. The key-generation adapter has no value for any key. Fixed-width text
scalars are modelled by the text they were built from. -/

/-- Repetition of a loop body for `i = 0 .. n-1`. -/
def forLoop {σ : Type} (n : Nat) (body : Nat → σ → σ) (s : σ) : σ :=
  (List.range n).foldl (fun acc i => body i acc) s

namespace pps

/-- A call of the table facade as the storage adapter sees it. -/
inductive Op
  | select (k : RowKey)
  | update (k : RowKey) (value : Int)
  deriving DecidableEq, Repr

/-- The key of a facade call. -/
def Op.key : Op → RowKey
  | Op.select k => k
  | Op.update k _ => k

/-- Modelled from the spec: a storage adapter of the PPS family is not part of
the sources. It answers `Select` on each table from the rows it holds and
decides whether a write is accepted. -/
structure StorageAdapter where
  product : Int → Option String
  part : Int → Option (Int × String)
  productParts : Int → Int → Option Int
  supplierParts : Int → Int → Option Int
  writeOk : Op → Bool

/-- Modelled from the spec: the key-generation adapter
(`TxnKeyGenStorageAdapter`) is not part of the sources. Every `Select` returns
empty; `w` is its answer to writes. -/
def keyGenAdapter (w : Op → Bool) : StorageAdapter :=
  { product := fun _ => none, part := fun _ => none, productParts := fun _ _ => none,
    supplierParts := fun _ _ => none, writeOk := w }

/-- State shared by every PPS transaction object: the adapter, the facade calls
it has recorded so far, and `error_`. -/
structure TxnBase where
  storage : StorageAdapter
  ops : List Op
  error_ : String

/-- A fresh transaction object on an adapter. -/
def TxnBase.fresh (a : StorageAdapter) : TxnBase := { storage := a, ops := [], error_ := "" }

/-- The adapter records a facade call. -/
def TxnBase.record (b : TxnBase) (op : Op) : TxnBase := { b with ops := b.ops ++ [op] }

/-- `SetError(msg)`. -/
def TxnBase.fail (b : TxnBase) (msg : String) : TxnBase := { b with error_ := SetError b.error_ msg }

/-- The keys the adapter has recorded. -/
def TxnBase.keys (b : TxnBase) : List RowKey := b.ops.map Op.key

/-- Key of a Product row. -/
def productKey (id : Int) : RowKey := { table := TableId.Product, pk := [id] }

/-- Key of a Part row. -/
def partKey (id : Int) : RowKey := { table := TableId.Part, pk := [id] }

/-- Key of a ProductParts row. -/
def productPartsKey (product_id slot : Int) : RowKey :=
  { table := TableId.ProductParts, pk := [product_id, slot] }

/-- Key of a SupplierParts row. -/
def supplierPartsKey (supplier_id slot : Int) : RowKey :=
  { table := TableId.SupplierParts, pk := [supplier_id, slot] }

/-! ### get_product -/

/-- `GetProduct` object. -/
structure GetProduct extends TxnBase where
  product_id_ : Int
  product_name_ : String

/-- `GetProduct::GetProduct`. -/
def GetProduct.new (a : StorageAdapter) (product_id : Int) : GetProduct :=
  { TxnBase.fresh a with product_id_ := product_id, product_name_ := "" }

/-- `GetProduct::Read`. -/
def GetProduct.Read (t : GetProduct) : Bool × GetProduct :=
  let b := t.toTxnBase.record (Op.select (productKey t.product_id_))
  match t.storage.product t.product_id_ with
  | some name => (true, { t with toTxnBase := b, product_name_ := name })
  | none =>
    let msg := "The product with id " ++ to_string t.product_id_ ++ " does not exist"
    (false, { t with toTxnBase := b.fail msg })

/-- `GetProduct::Compute`. -/
def GetProduct.Compute (t : GetProduct) : GetProduct := t

/-- `GetProduct::Write`. -/
def GetProduct.Write (t : GetProduct) : Bool × GetProduct := (true, t)

/-- The `GetProduct` body. -/
def GetProduct.body : TxnBody GetProduct :=
  { Read := GetProduct.Read, Compute := GetProduct.Compute, Write := GetProduct.Write }

/-! ### get_part -/

/-- `GetPart` object. -/
structure GetPart extends TxnBase where
  part_id_ : Int
  part_name_ : String
  part_amount_ : Int

/-- `GetPart::GetPart`. -/
def GetPart.new (a : StorageAdapter) (part_id : Int) : GetPart :=
  { TxnBase.fresh a with part_id_ := part_id, part_name_ := "", part_amount_ := 0 }

/-- `GetPart::Read`. -/
def GetPart.Read (t : GetPart) : Bool × GetPart :=
  let b := t.toTxnBase.record (Op.select (partKey t.part_id_))
  match t.storage.part t.part_id_ with
  | some row => (true, { t with toTxnBase := b, part_name_ := row.2, part_amount_ := row.1 })
  | none => (false, { t with toTxnBase := b.fail "The part does not exist" })

/-- `GetPart::Compute`. -/
def GetPart.Compute (t : GetPart) : GetPart := t

/-- `GetPart::Write`. -/
def GetPart.Write (t : GetPart) : Bool × GetPart := (true, t)

/-- The `GetPart` body. -/
def GetPart.body : TxnBody GetPart :=
  { Read := GetPart.Read, Compute := GetPart.Compute, Write := GetPart.Write }

/-! ### Loops shared by order_parts, order_product and supplier_restock -/

/-- State of the three part-updating transactions that their loops touch. -/
structure PartsState extends TxnBase where
  parts_ids_ : List Int
  parts_amounts_ : List Int
  new_parts_amounts_ : List Int

/-- Constructor loop: one default amount and one default new amount per id. -/
def PartsState.new (a : StorageAdapter) (parts_ids : List Int) : PartsState :=
  { TxnBase.fresh a with
    parts_ids_ := parts_ids,
    parts_amounts_ := List.replicate parts_ids.length 0,
    new_parts_amounts_ := List.replicate parts_ids.length 0 }

/-- Body of the loop `auto res = part_.Select({parts_ids_[i]}, {AMOUNT}); ...`
of `Read`. The flag is the local `ok`. -/
def selectAmount (i : Nat) (s : Bool × PartsState) : Bool × PartsState :=
  let t := s.2
  let id := t.parts_ids_.getD i 0
  let b := t.toTxnBase.record (Op.select (partKey id))
  match t.storage.part id with
  | none => (false, { t with toTxnBase := b.fail "The part does not exist" })
  | some row => (s.1, { t with toTxnBase := b, parts_amounts_ := t.parts_amounts_.set i row.1 })

/-- Body of the loop of `Compute`: `new_parts_amounts_[i] = parts_amounts_[i] + delta`
(`delta` is -1 for orders and +1 for a restock). -/
def computeAmount (delta : Int) (i : Nat) (t : PartsState) : PartsState :=
  { t with new_parts_amounts_ := t.new_parts_amounts_.set i (t.parts_amounts_.getD i 0 + delta) }

/-- Body of the loop of `Write`: `part_.Update({parts_ids_[i]}, {AMOUNT},
{new_parts_amounts_[i]})`. -/
def updateAmount (i : Nat) (s : Bool × PartsState) : Bool × PartsState :=
  let t := s.2
  let op := Op.update (partKey (t.parts_ids_.getD i 0)) (t.new_parts_amounts_.getD i 0)
  let b := t.toTxnBase.record op
  if !t.storage.writeOk op then (false, { t with toTxnBase := b.fail "Cannot update part" })
  else (s.1, { t with toTxnBase := b })

/-! ### order_parts -/

/-- `OrderParts` object. -/
structure OrderParts extends PartsState

/-- `OrderParts::OrderParts`. -/
def OrderParts.new (a : StorageAdapter) (parts_ids : List Int) : OrderParts :=
  { PartsState.new a parts_ids with }

/-- `OrderParts::Read`. -/
def OrderParts.Read (t : OrderParts) : Bool × OrderParts :=
  let r := forLoop t.parts_ids_.length selectAmount (true, t.toPartsState)
  (r.1, { t with toPartsState := r.2 })

/-- `OrderParts::Compute`. -/
def OrderParts.Compute (t : OrderParts) : OrderParts :=
  { t with toPartsState := forLoop t.parts_ids_.length (computeAmount (-1)) t.toPartsState }

/-- `OrderParts::Write`. -/
def OrderParts.Write (t : OrderParts) : Bool × OrderParts :=
  let r := forLoop t.parts_ids_.length updateAmount (true, t.toPartsState)
  (r.1, { t with toPartsState := r.2 })

/-- The `OrderParts` body. -/
def OrderParts.body : TxnBody OrderParts :=
  { Read := OrderParts.Read, Compute := OrderParts.Compute, Write := OrderParts.Write }

/-! ### order_product -/

/-- `OrderProduct` object. -/
structure OrderProduct extends PartsState where
  product_id_ : Int

/-- `OrderProduct::OrderProduct`. -/
def OrderProduct.new (a : StorageAdapter) (product_id : Int) (parts_ids : List Int) : OrderProduct :=
  { PartsState.new a parts_ids with product_id_ := product_id }

/-- Body of the first loop of `OrderProduct::Read`: slot `i + 1` of the product
must hold `parts_ids_[i]`. -/
def OrderProduct.checkSlot (product_id_ : Int) (i : Nat) (s : Bool × PartsState) : Bool × PartsState :=
  let t := s.2
  let b := t.toTxnBase.record (Op.select (productPartsKey product_id_ ((i : Int) + 1)))
  match t.storage.productParts product_id_ ((i : Int) + 1) with
  | none => (false, { t with toTxnBase := b.fail "The product-part relationship does not exist" })
  | some part_id =>
    if part_id ≠ t.parts_ids_.getD i 0 then
      let msg := "The part doesn't correspond to the product (" ++ to_string part_id ++ " != " ++
        to_string (t.parts_ids_.getD i 0) ++ ")"
      (false, { t with toTxnBase := b.fail msg })
    else (s.1, { t with toTxnBase := b })

/-- `OrderProduct::Read`. -/
def OrderProduct.Read (kPartsPerProduct : Nat) (t : OrderProduct) : Bool × OrderProduct :=
  if t.parts_ids_.length ≠ kPartsPerProduct then
    (false, { t with toTxnBase := t.toTxnBase.fail "The number of parts is not correct" })
  else
    let r1 := forLoop kPartsPerProduct (OrderProduct.checkSlot t.product_id_) (true, t.toPartsState)
    let r2 := forLoop t.parts_ids_.length selectAmount r1
    (r2.1, { t with toPartsState := r2.2 })

/-- `OrderProduct::Compute`. -/
def OrderProduct.Compute (t : OrderProduct) : OrderProduct :=
  { t with toPartsState := forLoop t.parts_ids_.length (computeAmount (-1)) t.toPartsState }

/-- `OrderProduct::Write`. -/
def OrderProduct.Write (t : OrderProduct) : Bool × OrderProduct :=
  let r := forLoop t.parts_ids_.length updateAmount (true, t.toPartsState)
  (r.1, { t with toPartsState := r.2 })

/-- The `OrderProduct` body. -/
def OrderProduct.body (kPartsPerProduct : Nat) : TxnBody OrderProduct :=
  { Read := OrderProduct.Read kPartsPerProduct, Compute := OrderProduct.Compute,
    Write := OrderProduct.Write }

/-! ### supplier_restock -/

/-- `SupplierRestock` object. -/
structure SupplierRestock extends PartsState where
  suppplier_id_ : Int

/-- `SupplierRestock::SupplierRestock`. -/
def SupplierRestock.new (a : StorageAdapter) (supplier_id : Int) (parts_ids : List Int) :
    SupplierRestock :=
  { PartsState.new a parts_ids with suppplier_id_ := supplier_id }

/-- Body of the first loop of `SupplierRestock::Read`. -/
def SupplierRestock.checkSlot (suppplier_id_ : Int) (i : Nat) (s : Bool × PartsState) :
    Bool × PartsState :=
  let t := s.2
  let b := t.toTxnBase.record (Op.select (supplierPartsKey suppplier_id_ ((i : Int) + 1)))
  match t.storage.supplierParts suppplier_id_ ((i : Int) + 1) with
  | none => (false, { t with toTxnBase := b.fail "The supplier-part relationship does not exist" })
  | some part_id =>
    if part_id ≠ t.parts_ids_.getD i 0 then
      (false, { t with toTxnBase := b.fail "The part doesn't correspond to the supplier" })
    else (s.1, { t with toTxnBase := b })

/-- `SupplierRestock::Read`. -/
def SupplierRestock.Read (kPartsPerSupplier : Nat) (t : SupplierRestock) : Bool × SupplierRestock :=
  if t.parts_ids_.length ≠ kPartsPerSupplier then
    (false, { t with toTxnBase := t.toTxnBase.fail "The number of parts is not correct" })
  else
    let r1 := forLoop kPartsPerSupplier (SupplierRestock.checkSlot t.suppplier_id_) (true, t.toPartsState)
    let r2 := forLoop t.parts_ids_.length selectAmount r1
    (r2.1, { t with toPartsState := r2.2 })

/-- `SupplierRestock::Compute`. -/
def SupplierRestock.Compute (t : SupplierRestock) : SupplierRestock :=
  { t with toPartsState := forLoop t.parts_ids_.length (computeAmount 1) t.toPartsState }

/-- `SupplierRestock::Write`. -/
def SupplierRestock.Write (t : SupplierRestock) : Bool × SupplierRestock :=
  let r := forLoop t.parts_ids_.length updateAmount (true, t.toPartsState)
  (r.1, { t with toPartsState := r.2 })

/-- The `SupplierRestock` body. -/
def SupplierRestock.body (kPartsPerSupplier : Nat) : TxnBody SupplierRestock :=
  { Read := SupplierRestock.Read kPartsPerSupplier, Compute := SupplierRestock.Compute,
    Write := SupplierRestock.Write }

/-! ### get_parts_by_product and get_parts_by_supplier -/

/-- State of the two lookup transactions: the id looked up and the slots read. -/
structure LookupState extends TxnBase where
  id_ : Int
  parts_ids_ : List Int

/-- `GetPartsByProduct` object (`id_` is `product_id_`). -/
structure GetPartsByProduct extends LookupState

/-- `GetPartsByProduct::GetPartsByProduct`. -/
def GetPartsByProduct.new (kPartsPerProduct : Nat) (a : StorageAdapter) (product_id : Int) :
    GetPartsByProduct :=
  { TxnBase.fresh a with id_ := product_id, parts_ids_ := List.replicate kPartsPerProduct 0 }

/-- Body of the loop of `GetPartsByProduct::Read`. -/
def GetPartsByProduct.readSlot (i : Nat) (s : Bool × LookupState) : Bool × LookupState :=
  let t := s.2
  let b := t.toTxnBase.record (Op.select (productPartsKey t.id_ ((i : Int) + 1)))
  match t.storage.productParts t.id_ ((i : Int) + 1) with
  | none => (false, { t with toTxnBase := b.fail "The part does not exist" })
  | some part_id => (s.1, { t with toTxnBase := b, parts_ids_ := t.parts_ids_.set i part_id })

/-- `GetPartsByProduct::Read`. -/
def GetPartsByProduct.Read (t : GetPartsByProduct) : Bool × GetPartsByProduct :=
  let r := forLoop t.parts_ids_.length GetPartsByProduct.readSlot (true, t.toLookupState)
  (r.1, { t with toLookupState := r.2 })

/-- `GetPartsByProduct::Compute`. -/
def GetPartsByProduct.Compute (t : GetPartsByProduct) : GetPartsByProduct := t

/-- `GetPartsByProduct::Write`. -/
def GetPartsByProduct.Write (t : GetPartsByProduct) : Bool × GetPartsByProduct := (true, t)

/-- The `GetPartsByProduct` body. -/
def GetPartsByProduct.body : TxnBody GetPartsByProduct :=
  { Read := GetPartsByProduct.Read, Compute := GetPartsByProduct.Compute,
    Write := GetPartsByProduct.Write }

/-- `GetPartsBySupplier` object (`id_` is `supplier_id_`). -/
structure GetPartsBySupplier extends LookupState

/-- `GetPartsBySupplier::GetPartsBySupplier`. -/
def GetPartsBySupplier.new (kPartsPerSupplier : Nat) (a : StorageAdapter) (supplier_id : Int) :
    GetPartsBySupplier :=
  { TxnBase.fresh a with id_ := supplier_id, parts_ids_ := List.replicate kPartsPerSupplier 0 }

/-- Body of the loop of `GetPartsBySupplier::Read`. -/
def GetPartsBySupplier.readSlot (i : Nat) (s : Bool × LookupState) : Bool × LookupState :=
  let t := s.2
  let b := t.toTxnBase.record (Op.select (supplierPartsKey t.id_ ((i : Int) + 1)))
  match t.storage.supplierParts t.id_ ((i : Int) + 1) with
  | none => (false, { t with toTxnBase := b.fail "The part does not exist" })
  | some part_id => (s.1, { t with toTxnBase := b, parts_ids_ := t.parts_ids_.set i part_id })

/-- `GetPartsBySupplier::Read`. -/
def GetPartsBySupplier.Read (t : GetPartsBySupplier) : Bool × GetPartsBySupplier :=
  let r := forLoop t.parts_ids_.length GetPartsBySupplier.readSlot (true, t.toLookupState)
  (r.1, { t with toLookupState := r.2 })

/-- `GetPartsBySupplier::Compute`. -/
def GetPartsBySupplier.Compute (t : GetPartsBySupplier) : GetPartsBySupplier := t

/-- `GetPartsBySupplier::Write`. -/
def GetPartsBySupplier.Write (t : GetPartsBySupplier) : Bool × GetPartsBySupplier := (true, t)

/-- The `GetPartsBySupplier` body. -/
def GetPartsBySupplier.body : TxnBody GetPartsBySupplier :=
  { Read := GetPartsBySupplier.Read, Compute := GetPartsBySupplier.Compute,
    Write := GetPartsBySupplier.Write }

/-! ### update_product_part -/

/-- `UpdateProductPart` object. -/
structure UpdateProductPart extends TxnBase where
  product_id_ : Int
  part_id_first_ : Int
  part_id_last_ : Int

/-- `UpdateProductPart::UpdateProductPart`. -/
def UpdateProductPart.new (a : StorageAdapter) (product_id : Int) : UpdateProductPart :=
  { TxnBase.fresh a with product_id_ := product_id, part_id_first_ := 0, part_id_last_ := 0 }

/-- `UpdateProductPart::Read`. -/
def UpdateProductPart.Read (kPartsPerProduct : Nat) (t : UpdateProductPart) :
    Bool × UpdateProductPart :=
  let b1 := t.toTxnBase.record (Op.select (productPartsKey t.product_id_ 1))
  let r1 : Bool × UpdateProductPart :=
    match t.storage.productParts t.product_id_ 1 with
    | none => (false, { t with toTxnBase := b1.fail "Cannot find the first part id" })
    | some v => (true, { t with toTxnBase := b1, part_id_first_ := v })
  let t1 := r1.2
  let b2 := t1.toTxnBase.record (Op.select (productPartsKey t.product_id_ (kPartsPerProduct : Int)))
  match t.storage.productParts t.product_id_ (kPartsPerProduct : Int) with
  | none => (false, { t1 with toTxnBase := b2.fail "Cannot find the last part id" })
  | some v => (r1.1, { t1 with toTxnBase := b2, part_id_last_ := v })

/-- `UpdateProductPart::Compute`. -/
def UpdateProductPart.Compute (t : UpdateProductPart) : UpdateProductPart := t

/-- `UpdateProductPart::Write`. -/
def UpdateProductPart.Write (kPartsPerProduct : Nat) (t : UpdateProductPart) :
    Bool × UpdateProductPart :=
  let op1 := Op.update (productPartsKey t.product_id_ 1) t.part_id_last_
  let b1 := t.toTxnBase.record op1
  let r1 : Bool × TxnBase :=
    if !t.storage.writeOk op1 then (false, b1.fail "Cannot update the first part id") else (true, b1)
  let op2 := Op.update (productPartsKey t.product_id_ (kPartsPerProduct : Int)) t.part_id_first_
  let b2 := r1.2.record op2
  if !t.storage.writeOk op2 then
    (false, { t with toTxnBase := b2.fail "Cannot update the last part id" })
  else (r1.1, { t with toTxnBase := b2 })

/-- The `UpdateProductPart` body. -/
def UpdateProductPart.body (kPartsPerProduct : Nat) : TxnBody UpdateProductPart :=
  { Read := UpdateProductPart.Read kPartsPerProduct, Compute := UpdateProductPart.Compute,
    Write := UpdateProductPart.Write kPartsPerProduct }

/-! ### Procedures and the two ways of running a body -/

/-- A PPS procedure call with its arguments. -/
inductive Procedure
  | get_product (product_id : Int)
  | get_part (part_id : Int)
  | order_parts (parts_ids : List Int)
  | order_product (product_id : Int) (parts_ids : List Int)
  | supplier_restock (supplier_id : Int) (parts_ids : List Int)
  | get_parts_by_product (product_id : Int)
  | get_parts_by_supplier (supplier_id : Int)
  | update_product_part (product_id : Int)
  deriving Repr

/-- Key-generation pass of the workload generator and of the client: the body is
built on the given adapter and `Read()` then `Write()` are called, whatever
`Read()` returned (for the read-only bodies, whose `Write()` does nothing, only
`Read()` is called). The result is the list of facade calls recorded. -/
def keyGenPass (kPartsPerProduct kPartsPerSupplier : Nat) (a : StorageAdapter) : Procedure → List Op
  | Procedure.get_product id => (GetProduct.Read (GetProduct.new a id)).2.ops
  | Procedure.get_part id => (GetPart.Read (GetPart.new a id)).2.ops
  | Procedure.order_parts ids =>
    (OrderParts.Write (OrderParts.Read (OrderParts.new a ids)).2).2.ops
  | Procedure.order_product id ids =>
    (OrderProduct.Write (OrderProduct.Read kPartsPerProduct (OrderProduct.new a id ids)).2).2.ops
  | Procedure.supplier_restock id ids =>
    (SupplierRestock.Write (SupplierRestock.Read kPartsPerSupplier (SupplierRestock.new a id ids)).2).2.ops
  | Procedure.get_parts_by_product id =>
    (GetPartsByProduct.Read (GetPartsByProduct.new kPartsPerProduct a id)).2.ops
  | Procedure.get_parts_by_supplier id =>
    (GetPartsBySupplier.Read (GetPartsBySupplier.new kPartsPerSupplier a id)).2.ops
  | Procedure.update_product_part id =>
    (UpdateProductPart.Write kPartsPerProduct
      (UpdateProductPart.Read kPartsPerProduct (UpdateProductPart.new a id)).2).2.ops

/-- Execution pass (`PPSExecution::Execute` after argument parsing): the body is
built on the given adapter and `Execute()` is called. The result is the flag
returned and the list of facade calls recorded. -/
def executePass (kPartsPerProduct kPartsPerSupplier : Nat) (a : StorageAdapter) :
    Procedure → Bool × List Op
  | Procedure.get_product id =>
    let r := PPSTransaction.Execute GetProduct.body (GetProduct.new a id)
    (r.ret, r.state.ops)
  | Procedure.get_part id =>
    let r := PPSTransaction.Execute GetPart.body (GetPart.new a id)
    (r.ret, r.state.ops)
  | Procedure.order_parts ids =>
    let r := PPSTransaction.Execute OrderParts.body (OrderParts.new a ids)
    (r.ret, r.state.ops)
  | Procedure.order_product id ids =>
    let r := PPSTransaction.Execute (OrderProduct.body kPartsPerProduct) (OrderProduct.new a id ids)
    (r.ret, r.state.ops)
  | Procedure.supplier_restock id ids =>
    let r := PPSTransaction.Execute (SupplierRestock.body kPartsPerSupplier)
      (SupplierRestock.new a id ids)
    (r.ret, r.state.ops)
  | Procedure.get_parts_by_product id =>
    let r := PPSTransaction.Execute GetPartsByProduct.body (GetPartsByProduct.new kPartsPerProduct a id)
    (r.ret, r.state.ops)
  | Procedure.get_parts_by_supplier id =>
    let r := PPSTransaction.Execute GetPartsBySupplier.body
      (GetPartsBySupplier.new kPartsPerSupplier a id)
    (r.ret, r.state.ops)
  | Procedure.update_product_part id =>
    let r := PPSTransaction.Execute (UpdateProductPart.body kPartsPerProduct)
      (UpdateProductPart.new a id)
    (r.ret, r.state.ops)

end pps

namespace smallbank

/-- The primary key of a SmallBank row. -/
inductive RowKey
  | accounts (name : String)
  | checking (id : Int)
  | savings (id : Int)
  deriving DecidableEq, Repr

/-- A call of the table facade as the storage adapter sees it. -/
inductive Op
  | select (k : RowKey)
  | update (k : RowKey) (value : Int)
  deriving DecidableEq, Repr

/-- The key of a facade call. -/
def Op.key : Op → RowKey
  | Op.select k => k
  | Op.update k _ => k

/-- Modelled from the spec: a storage adapter of the SmallBank family is not
part of the sources. It answers `Select` on each table from the rows it holds
and decides whether a write is accepted. -/
structure StorageAdapter where
  accounts : String → Option Int
  checking : Int → Option Int
  savings : Int → Option Int
  writeOk : Op → Bool

/-- Modelled from the spec: the key-generation adapter
(`TxnKeyGenStorageAdapter`) is not part of the sources. Every `Select` returns
empty; `w` is its answer to writes. -/
def keyGenAdapter (w : Op → Bool) : StorageAdapter :=
  { accounts := fun _ => none, checking := fun _ => none, savings := fun _ => none, writeOk := w }

/-- State shared by every SmallBank transaction object. -/
structure TxnBase where
  storage : StorageAdapter
  ops : List Op
  error_ : String

/-- A fresh transaction object on an adapter. -/
def TxnBase.fresh (a : StorageAdapter) : TxnBase := { storage := a, ops := [], error_ := "" }

/-- The adapter records a facade call. -/
def TxnBase.record (b : TxnBase) (op : Op) : TxnBase := { b with ops := b.ops ++ [op] }

/-- `SetError(msg)`. -/
def TxnBase.fail (b : TxnBase) (msg : String) : TxnBase := { b with error_ := SetError b.error_ msg }

/-- A `Select` of one `Int32` column: the call is recorded; on an empty result
the error is set and the local `ok` becomes false, otherwise the cell is
returned. `dflt` is the value the receiving scalar holds before the call. -/
def selectInt (s : Bool × TxnBase) (k : RowKey) (row : Option Int) (msg : String) (dflt : Int) :
    (Bool × TxnBase) × Int :=
  let b := s.2.record (Op.select k)
  match row with
  | some v => ((s.1, b), v)
  | none => ((false, b.fail msg), dflt)

/-- An `Update` of one `Int32` column: the call is recorded; when the adapter
rejects it the error is set and the local `ok` becomes false. -/
def updateInt (s : Bool × TxnBase) (k : RowKey) (v : Int) (msg : String) : Bool × TxnBase :=
  let op := Op.update k v
  let b := s.2.record op
  if !s.2.storage.writeOk op then (false, b.fail msg) else (s.1, b)

/-! ### getCustomerIdByName -/

/-- `GetCustomerIdByNameTxn` object. -/
structure GetCustomerIdByNameTxn extends TxnBase where
  a_acount_name_ : String
  w_customer_id : Int

/-- `GetCustomerIdByNameTxn::GetCustomerIdByNameTxn`. -/
def GetCustomerIdByNameTxn.new (a : StorageAdapter) (acount_name : String) : GetCustomerIdByNameTxn :=
  { TxnBase.fresh a with a_acount_name_ := acount_name, w_customer_id := 0 }

/-- `GetCustomerIdByNameTxn::Read`. -/
def GetCustomerIdByNameTxn.Read (t : GetCustomerIdByNameTxn) : Bool × GetCustomerIdByNameTxn :=
  let r := selectInt (true, t.toTxnBase) (RowKey.accounts t.a_acount_name_)
    (t.storage.accounts t.a_acount_name_) "There is no account associated with this name" t.w_customer_id
  (r.1.1, { t with toTxnBase := r.1.2, w_customer_id := r.2 })

/-- `GetCustomerIdByNameTxn::Compute`. -/
def GetCustomerIdByNameTxn.Compute (t : GetCustomerIdByNameTxn) : GetCustomerIdByNameTxn := t

/-- `GetCustomerIdByNameTxn::Write`. -/
def GetCustomerIdByNameTxn.Write (t : GetCustomerIdByNameTxn) : Bool × GetCustomerIdByNameTxn :=
  (true, t)

/-- The `GetCustomerIdByNameTxn` body. -/
def GetCustomerIdByNameTxn.body : TxnBody GetCustomerIdByNameTxn :=
  { Read := GetCustomerIdByNameTxn.Read, Compute := GetCustomerIdByNameTxn.Compute,
    Write := GetCustomerIdByNameTxn.Write }

/-! ### balance -/

/-- `BalanceTxn` object. -/
structure BalanceTxn extends TxnBase where
  a_acount_name_ : String
  a_customer_id_ : Int
  w_customer_id : Int
  w_checkings_balance_ : Int
  w_savings_balance_ : Int
  w_total_balance_ : Int

/-- `BalanceTxn::BalanceTxn`. -/
def BalanceTxn.new (a : StorageAdapter) (acount_name : String) (customer_id : Int) : BalanceTxn :=
  { TxnBase.fresh a with
    a_acount_name_ := acount_name, a_customer_id_ := customer_id, w_customer_id := 0,
    w_checkings_balance_ := 0, w_savings_balance_ := 0, w_total_balance_ := 0 }

/-- `BalanceTxn::Read`. -/
def BalanceTxn.Read (t : BalanceTxn) : Bool × BalanceTxn :=
  let r1 := selectInt (true, t.toTxnBase) (RowKey.accounts t.a_acount_name_)
    (t.storage.accounts t.a_acount_name_) "There is no account associated with this name" t.w_customer_id
  let r2 := selectInt r1.1 (RowKey.checking t.a_customer_id_) (t.storage.checking t.a_customer_id_)
    "There is no account checkings associated with this customer_id" t.w_checkings_balance_
  let r3 := selectInt r2.1 (RowKey.savings t.a_customer_id_) (t.storage.savings t.a_customer_id_)
    "There is no account savings associated with this customer_id" t.w_savings_balance_
  (r3.1.1, { t with toTxnBase := r3.1.2, w_customer_id := r1.2, w_checkings_balance_ := r2.2,
                    w_savings_balance_ := r3.2 })

/-- `BalanceTxn::Compute`. -/
def BalanceTxn.Compute (t : BalanceTxn) : BalanceTxn :=
  { t with w_total_balance_ := t.w_checkings_balance_ + t.w_savings_balance_ }

/-- `BalanceTxn::Write`. -/
def BalanceTxn.Write (t : BalanceTxn) : Bool × BalanceTxn := (true, t)

/-- The `BalanceTxn` body. -/
def BalanceTxn.body : TxnBody BalanceTxn :=
  { Read := BalanceTxn.Read, Compute := BalanceTxn.Compute, Write := BalanceTxn.Write }

/-! ### depositChecking -/

/-- `DepositCheckingTxn` object. -/
structure DepositCheckingTxn extends TxnBase where
  a_acount_name_ : String
  a_customer_id_ : Int
  a_amount_ : Int
  w_customer_id : Int
  w_balance_ : Int
  w_new_checking_balance_ : Int

/-- `DepositCheckingTxn::DepositCheckingTxn`. -/
def DepositCheckingTxn.new (a : StorageAdapter) (acount_name : String) (customer_id amount : Int) :
    DepositCheckingTxn :=
  { TxnBase.fresh a with
    a_acount_name_ := acount_name, a_customer_id_ := customer_id, a_amount_ := amount,
    w_customer_id := 0, w_balance_ := 0, w_new_checking_balance_ := 0 }

/-- `DepositCheckingTxn::Read`. -/
def DepositCheckingTxn.Read (t : DepositCheckingTxn) : Bool × DepositCheckingTxn :=
  let r1 := selectInt (true, t.toTxnBase) (RowKey.accounts t.a_acount_name_)
    (t.storage.accounts t.a_acount_name_) "There is no account associated with this name" t.w_customer_id
  let r2 := selectInt r1.1 (RowKey.checking t.a_customer_id_) (t.storage.checking t.a_customer_id_)
    "There is no account associated with this customer_id" t.w_balance_
  (r2.1.1, { t with toTxnBase := r2.1.2, w_customer_id := r1.2, w_balance_ := r2.2 })

/-- `DepositCheckingTxn::Compute`. -/
def DepositCheckingTxn.Compute (t : DepositCheckingTxn) : DepositCheckingTxn :=
  { t with w_new_checking_balance_ := t.w_balance_ + t.a_amount_ }

/-- `DepositCheckingTxn::Write`. -/
def DepositCheckingTxn.Write (t : DepositCheckingTxn) : Bool × DepositCheckingTxn :=
  let r := updateInt (true, t.toTxnBase) (RowKey.checking t.a_customer_id_) t.w_new_checking_balance_
    "Cannot update Checking Ballance"
  (r.1, { t with toTxnBase := r.2 })

/-- The `DepositCheckingTxn` body. -/
def DepositCheckingTxn.body : TxnBody DepositCheckingTxn :=
  { Read := DepositCheckingTxn.Read, Compute := DepositCheckingTxn.Compute,
    Write := DepositCheckingTxn.Write }

/-! ### transactionSaving -/

/-- `TransactionSavingTxn` object. -/
structure TransactionSavingTxn extends TxnBase where
  a_acount_name_ : String
  a_customer_id_ : Int
  a_amount_ : Int
  w_customer_id : Int
  w_balance_ : Int
  w_new_checking_balance_ : Int

/-- `TransactionSavingTxn::TransactionSavingTxn`. -/
def TransactionSavingTxn.new (a : StorageAdapter) (acount_name : String) (customer_id amount : Int) :
    TransactionSavingTxn :=
  { TxnBase.fresh a with
    a_acount_name_ := acount_name, a_customer_id_ := customer_id, a_amount_ := amount,
    w_customer_id := 0, w_balance_ := 0, w_new_checking_balance_ := 0 }

/-- `TransactionSavingTxn::Read`. -/
def TransactionSavingTxn.Read (t : TransactionSavingTxn) : Bool × TransactionSavingTxn :=
  let r1 := selectInt (true, t.toTxnBase) (RowKey.accounts t.a_acount_name_)
    (t.storage.accounts t.a_acount_name_) "There is no account associated with this name" t.w_customer_id
  let r2 := selectInt r1.1 (RowKey.savings t.a_customer_id_) (t.storage.savings t.a_customer_id_)
    "There is no account associated with this customer_id" t.w_balance_
  (r2.1.1, { t with toTxnBase := r2.1.2, w_customer_id := r1.2, w_balance_ := r2.2 })

/-- `TransactionSavingTxn::Compute`. -/
def TransactionSavingTxn.Compute (t : TransactionSavingTxn) : TransactionSavingTxn :=
  { t with w_new_checking_balance_ := t.w_balance_ + t.a_amount_ }

/-- `TransactionSavingTxn::Write`. -/
def TransactionSavingTxn.Write (t : TransactionSavingTxn) : Bool × TransactionSavingTxn :=
  let r := updateInt (true, t.toTxnBase) (RowKey.savings t.a_customer_id_) t.w_new_checking_balance_
    "Cannot update Savings ballance"
  (r.1, { t with toTxnBase := r.2 })

/-- The `TransactionSavingTxn` body. -/
def TransactionSavingTxn.body : TxnBody TransactionSavingTxn :=
  { Read := TransactionSavingTxn.Read, Compute := TransactionSavingTxn.Compute,
    Write := TransactionSavingTxn.Write }

/-! ### amalgamate -/

/-- `AmalgamateTxn` object. -/
structure AmalgamateTxn extends TxnBase where
  a_first_acount_name_ : String
  a_second_acount_name_ : String
  a_first_customer_id_ : Int
  a_second_customer_id_ : Int
  w_first_customer_id : Int
  w_second_customer_id : Int
  w_checking_first_customer_id_ : Int
  w_savings_first_customer_id_ : Int
  w_checking_second_customer_id_ : Int
  w_new_checking_second_customer_id_ : Int

/-- `AmalgamateTxn::AmalgamateTxn`. -/
def AmalgamateTxn.new (a : StorageAdapter) (first_acount_name second_acount_name : String)
    (first_customer_id second_customer_id : Int) : AmalgamateTxn :=
  { TxnBase.fresh a with
    a_first_acount_name_ := first_acount_name, a_second_acount_name_ := second_acount_name,
    a_first_customer_id_ := first_customer_id, a_second_customer_id_ := second_customer_id,
    w_first_customer_id := 0, w_second_customer_id := 0, w_checking_first_customer_id_ := 0,
    w_savings_first_customer_id_ := 0, w_checking_second_customer_id_ := 0,
    w_new_checking_second_customer_id_ := 0 }

/-- `AmalgamateTxn::Read`. The fifth `Select` reads the Savings row of the second
customer into `w_checking_second_customer_id_`, as the source does. -/
def AmalgamateTxn.Read (t : AmalgamateTxn) : Bool × AmalgamateTxn :=
  let r1 := selectInt (true, t.toTxnBase) (RowKey.accounts t.a_first_acount_name_)
    (t.storage.accounts t.a_first_acount_name_) "There is no account associated with this name"
    t.w_first_customer_id
  let r2 := selectInt r1.1 (RowKey.accounts t.a_second_acount_name_)
    (t.storage.accounts t.a_second_acount_name_) "There is no account associated with this name"
    t.w_second_customer_id
  let r3 := selectInt r2.1 (RowKey.checking t.a_first_customer_id_)
    (t.storage.checking t.a_first_customer_id_)
    "There is no account checkings associated with this customer_id" t.w_checking_first_customer_id_
  let r4 := selectInt r3.1 (RowKey.savings t.a_first_customer_id_)
    (t.storage.savings t.a_first_customer_id_)
    "There is no account savings associated with this customer_id" t.w_savings_first_customer_id_
  let r5 := selectInt r4.1 (RowKey.savings t.a_second_customer_id_)
    (t.storage.savings t.a_second_customer_id_)
    "There is no account savings associated with this customer_id" t.w_checking_second_customer_id_
  (r5.1.1, { t with toTxnBase := r5.1.2, w_first_customer_id := r1.2, w_second_customer_id := r2.2,
                    w_checking_first_customer_id_ := r3.2, w_savings_first_customer_id_ := r4.2,
                    w_checking_second_customer_id_ := r5.2 })

/-- `AmalgamateTxn::Compute`. -/
def AmalgamateTxn.Compute (t : AmalgamateTxn) : AmalgamateTxn :=
  { t with
    w_new_checking_second_customer_id_ :=
      t.w_checking_first_customer_id_ + t.w_savings_first_customer_id_ +
        t.w_checking_second_customer_id_,
    w_savings_first_customer_id_ := 0,
    w_checking_second_customer_id_ := 0 }

/-- `AmalgamateTxn::Write`. -/
def AmalgamateTxn.Write (t : AmalgamateTxn) : Bool × AmalgamateTxn :=
  let r1 := updateInt (true, t.toTxnBase) (RowKey.checking t.a_first_customer_id_)
    t.w_savings_first_customer_id_ "Cannot update Checking Ballance"
  let r2 := updateInt r1 (RowKey.savings t.a_first_customer_id_)
    t.w_checking_second_customer_id_ "Cannot update Savings Ballance"
  let r3 := updateInt r2 (RowKey.checking t.a_second_customer_id_)
    t.w_new_checking_second_customer_id_ "Cannot update Checking Ballance"
  (r3.1, { t with toTxnBase := r3.2 })

/-- The `AmalgamateTxn` body. -/
def AmalgamateTxn.body : TxnBody AmalgamateTxn :=
  { Read := AmalgamateTxn.Read, Compute := AmalgamateTxn.Compute, Write := AmalgamateTxn.Write }

/-! ### writecheck -/

/-- `WritecheckTxn` object. -/
structure WritecheckTxn extends TxnBase where
  a_acount_name_ : String
  a_customer_id_ : Int
  a_value_ : Int
  w_customer_id : Int
  w_checking_customer_id_ : Int
  w_savings_customer_id_ : Int
  w_updated_balance_ : Int

/-- `WritecheckTxn::WritecheckTxn`. -/
def WritecheckTxn.new (a : StorageAdapter) (acount_name : String) (customer_id value : Int) :
    WritecheckTxn :=
  { TxnBase.fresh a with
    a_acount_name_ := acount_name, a_customer_id_ := customer_id, a_value_ := value,
    w_customer_id := 0, w_checking_customer_id_ := 0, w_savings_customer_id_ := 0,
    w_updated_balance_ := 0 }

/-- `WritecheckTxn::Read`. -/
def WritecheckTxn.Read (t : WritecheckTxn) : Bool × WritecheckTxn :=
  let r1 := selectInt (true, t.toTxnBase) (RowKey.accounts t.a_acount_name_)
    (t.storage.accounts t.a_acount_name_) "There is no account associated with this name" t.w_customer_id
  let r2 := selectInt r1.1 (RowKey.checking t.a_customer_id_) (t.storage.checking t.a_customer_id_)
    "There is no account checkings associated with this customer_id" t.w_checking_customer_id_
  let r3 := selectInt r2.1 (RowKey.savings t.a_customer_id_) (t.storage.savings t.a_customer_id_)
    "There is no account savings associated with this customer_id" t.w_savings_customer_id_
  (r3.1.1, { t with toTxnBase := r3.1.2, w_customer_id := r1.2, w_checking_customer_id_ := r2.2,
                    w_savings_customer_id_ := r3.2 })

/-- `WritecheckTxn::Compute`. -/
def WritecheckTxn.Compute (t : WritecheckTxn) : WritecheckTxn := t

/-- `WritecheckTxn::Write`. -/
def WritecheckTxn.Write (t : WritecheckTxn) : Bool × WritecheckTxn :=
  if t.w_checking_customer_id_ + t.w_savings_customer_id_ < t.a_value_ then
    let v := t.w_checking_customer_id_ - (t.a_value_ + 1)
    let r := updateInt (true, t.toTxnBase) (RowKey.checking t.a_customer_id_) v
      "Cannot update Checking Ballance"
    (r.1, { t with toTxnBase := r.2, w_updated_balance_ := v })
  else
    let v := t.w_checking_customer_id_ - t.a_value_
    let r := updateInt (true, t.toTxnBase) (RowKey.checking t.a_customer_id_) v
      "Cannot update Checking Ballance"
    (r.1, { t with toTxnBase := r.2, w_updated_balance_ := v })

/-- The `WritecheckTxn` body. -/
def WritecheckTxn.body : TxnBody WritecheckTxn :=
  { Read := WritecheckTxn.Read, Compute := WritecheckTxn.Compute, Write := WritecheckTxn.Write }

/-! ### Procedures and the two ways of running a body -/

/-- A SmallBank procedure call with its arguments. -/
inductive Procedure
  | getCustomerIdByName (name : String)
  | balance (name : String) (id : Int)
  | depositChecking (name : String) (id amount : Int)
  | transactionSaving (name : String) (id amount : Int)
  | amalgamate (first_name second_name : String) (first_id second_id : Int)
  | writecheck (name : String) (id value : Int)
  deriving Repr

/-- Key-generation pass of the workload generator: the body is built on the
given adapter and `Read()` then `Write()` are called, whatever `Read()` returned
(for `getCustomerIdByName` only `Read()` is called; its `Write()` does nothing).
The result is the list of facade calls recorded. -/
def keyGenPass (a : StorageAdapter) : Procedure → List Op
  | Procedure.getCustomerIdByName n =>
    (GetCustomerIdByNameTxn.Read (GetCustomerIdByNameTxn.new a n)).2.ops
  | Procedure.balance n id => (BalanceTxn.Write (BalanceTxn.Read (BalanceTxn.new a n id)).2).2.ops
  | Procedure.depositChecking n id amt =>
    (DepositCheckingTxn.Write (DepositCheckingTxn.Read (DepositCheckingTxn.new a n id amt)).2).2.ops
  | Procedure.transactionSaving n id amt =>
    (TransactionSavingTxn.Write (TransactionSavingTxn.Read (TransactionSavingTxn.new a n id amt)).2).2.ops
  | Procedure.amalgamate n1 n2 id1 id2 =>
    (AmalgamateTxn.Write (AmalgamateTxn.Read (AmalgamateTxn.new a n1 n2 id1 id2)).2).2.ops
  | Procedure.writecheck n id v =>
    (WritecheckTxn.Write (WritecheckTxn.Read (WritecheckTxn.new a n id v)).2).2.ops

/-- Execution pass (`SmallBankExecution::Execute` after argument parsing): the
body is built on the given adapter and `Execute()` is called. The result is the
flag returned and the list of facade calls recorded. -/
def executePass (a : StorageAdapter) : Procedure → Bool × List Op
  | Procedure.getCustomerIdByName n =>
    let r := SmallBankTransaction.Execute GetCustomerIdByNameTxn.body (GetCustomerIdByNameTxn.new a n)
    (r.ret, r.state.ops)
  | Procedure.balance n id =>
    let r := SmallBankTransaction.Execute BalanceTxn.body (BalanceTxn.new a n id)
    (r.ret, r.state.ops)
  | Procedure.depositChecking n id amt =>
    let r := SmallBankTransaction.Execute DepositCheckingTxn.body (DepositCheckingTxn.new a n id amt)
    (r.ret, r.state.ops)
  | Procedure.transactionSaving n id amt =>
    let r := SmallBankTransaction.Execute TransactionSavingTxn.body (TransactionSavingTxn.new a n id amt)
    (r.ret, r.state.ops)
  | Procedure.amalgamate n1 n2 id1 id2 =>
    let r := SmallBankTransaction.Execute AmalgamateTxn.body (AmalgamateTxn.new a n1 n2 id1 id2)
    (r.ret, r.state.ops)
  | Procedure.writecheck n id v =>
    let r := SmallBankTransaction.Execute WritecheckTxn.body (WritecheckTxn.new a n id v)
    (r.ret, r.state.ops)

end smallbank

namespace pps

/-- Keys of the Part rows named by a list of ids, in order. -/
def partKeys (ids : List Int) : List RowKey :=
  (List.range ids.length).map fun (i : Nat) => partKey (ids.getD i 0)

/-- Keys read by a procedure, as a function of its arguments alone. -/
def readKeys (kPartsPerProduct kPartsPerSupplier : Nat) : Procedure → List RowKey
  | Procedure.get_product id => [productKey id]
  | Procedure.get_part id => [partKey id]
  | Procedure.order_parts ids => partKeys ids
  | Procedure.order_product id ids =>
    if ids.length ≠ kPartsPerProduct then []
    else ((List.range kPartsPerProduct).map fun (i : Nat) => productPartsKey id ((i : Int) + 1)) ++
      partKeys ids
  | Procedure.supplier_restock id ids =>
    if ids.length ≠ kPartsPerSupplier then []
    else ((List.range kPartsPerSupplier).map fun (i : Nat) => supplierPartsKey id ((i : Int) + 1)) ++
      partKeys ids
  | Procedure.get_parts_by_product id =>
    (List.range kPartsPerProduct).map fun (i : Nat) => productPartsKey id ((i : Int) + 1)
  | Procedure.get_parts_by_supplier id =>
    (List.range kPartsPerSupplier).map fun (i : Nat) => supplierPartsKey id ((i : Int) + 1)
  | Procedure.update_product_part id =>
    [productPartsKey id 1, productPartsKey id (kPartsPerProduct : Int)]

/-- Keys written by a procedure, as a function of its arguments alone. -/
def writeKeys (kPartsPerProduct : Nat) : Procedure → List RowKey
  | Procedure.order_parts ids => partKeys ids
  | Procedure.order_product _ ids => partKeys ids
  | Procedure.supplier_restock _ ids => partKeys ids
  | Procedure.update_product_part id =>
    [productPartsKey id 1, productPartsKey id (kPartsPerProduct : Int)]
  | _ => []

end pps

namespace smallbank

/-- Keys read by a procedure, as a function of its arguments alone. -/
def readKeys : Procedure → List RowKey
  | Procedure.getCustomerIdByName n => [RowKey.accounts n]
  | Procedure.balance n id => [RowKey.accounts n, RowKey.checking id, RowKey.savings id]
  | Procedure.depositChecking n id _ => [RowKey.accounts n, RowKey.checking id]
  | Procedure.transactionSaving n id _ => [RowKey.accounts n, RowKey.savings id]
  | Procedure.amalgamate n1 n2 id1 id2 =>
    [RowKey.accounts n1, RowKey.accounts n2, RowKey.checking id1, RowKey.savings id1,
     RowKey.savings id2]
  | Procedure.writecheck n id _ => [RowKey.accounts n, RowKey.checking id, RowKey.savings id]

/-- Keys written by a procedure, as a function of its arguments alone. -/
def writeKeys : Procedure → List RowKey
  | Procedure.getCustomerIdByName _ => []
  | Procedure.balance _ _ => []
  | Procedure.depositChecking _ id _ => [RowKey.checking id]
  | Procedure.transactionSaving _ id _ => [RowKey.savings id]
  | Procedure.amalgamate _ _ id1 id2 => [RowKey.checking id1, RowKey.savings id1, RowKey.checking id2]
  | Procedure.writecheck _ id _ => [RowKey.checking id]

end smallbank

namespace dsh

/-- `kMaxStay` of `utils.h`. -/
def kMaxStay : Nat := 14

/-- `kRecommendationReadSize` of `utils.h`. -/
def kRecommendationReadSize : Nat := 10

/-- `dist` of `utils.h`: `(x1 - x2) * (x1 - x2) + (y1 - y2) * (y1 - y2)` in
`double` arithmetic. A finite `double` is the rational number it stands for, and
every operation returns its exact result rounded by `fl`, the rounding of
`double` arithmetic, which is a parameter. -/
def dist (fl : ℚ → ℚ) (x1 y1 x2 y2 : ℚ) : ℚ :=
  fl (fl (fl (x1 - x2) * fl (x1 - x2)) + fl (fl (y1 - y2) * fl (y1 - y2)))

/-- `format_date`. -/
def format_date (d m y : Int) : String :=
  (if d < 10 then "0" else "") ++ to_string d ++ "-" ++ (if m < 10 then "0" else "") ++
    to_string m ++ "-" ++ to_string y

/-- `std::from_chars(first, last, value)` for `int` in base 10 on the bytes
`[first, last)`: an optional minus sign and the longest run of digits; `none`
when there is no digit or the number does not fit (the variable is then left
unassigned). -/
def from_chars_int (s : Bytes) : Option Int :=
  match s with
  | 45 :: rest =>
    let ds := rest.takeWhile isDigitByte
    if ds.isEmpty then none
    else if digitsValue ds ≤ 2 ^ 31 then some (-(digitsValue ds : Int)) else none
  | _ =>
    let ds := s.takeWhile isDigitByte
    if ds.isEmpty then none
    else if digitsValue ds < 2 ^ 31 then some (digitsValue ds : Int) else none

/-- `months_in_year` of `date_interp`. -/
def months_in_year : List Int := [31, 28, 31, 30, 31, 30, 31, 31, 30, 31, 30, 31]

/-- The `while` loop of `date_interp`, unrolled at most `fuel` times: the dates
pushed from the cursor `(d1, m1, y1)` until it reaches `(d2, m2, y2)`. `none`
when the bound is exhausted or `months_in_year` is indexed out of range. -/
def date_interp_loop (d2 m2 y2 : Int) : Nat → Int → Int → Int → Option (List String)
  | 0, _, _, _ => none
  | fuel + 1, d1, m1, y1 =>
    if d1 ≠ d2 ∨ m1 ≠ m2 ∨ y1 ≠ y2 then
      if m1 < 1 ∨ m1 > 12 then none
      else
        let next :=
          if d1 + 1 > months_in_year.getD (m1 - 1).toNat 0 then
            if m1 + 1 > 12 then date_interp_loop d2 m2 y2 fuel 1 1 (y1 + 1)
            else date_interp_loop d2 m2 y2 fuel 1 (m1 + 1) y1
          else date_interp_loop d2 m2 y2 fuel (d1 + 1) m1 y1
        next.map fun r => format_date d1 m1 y1 :: r
    else some []

/-- `date_interp`: the dates of the stay `[in_date, out_date)` as `dd-mm-yyyy`
texts. The result is `none` when the code reads outside a text, uses a field
that `from_chars` left unassigned, indexes `months_in_year` out of range or
never leaves its loop. The loop is unrolled `366 * (y2 - y1 + 1) + 100` times:
the cursor moves one day at a time, so after that many steps it is past the
year `y2` and cannot meet the end date any more. -/
def date_interp (in_date out_date : String) : Option (List String) :=
  let i := bytesOf in_date
  let o := bytesOf out_date
  if i.length < 10 ∨ o.length < 10 then none
  else
    match from_chars_int (i.take 2), from_chars_int ((i.drop 3).take 2),
        from_chars_int ((i.drop 6).take 4), from_chars_int (o.take 2),
        from_chars_int ((o.drop 3).take 2), from_chars_int ((o.drop 6).take 4) with
    | some d1, some m1, some y1, some d2, some m2, some y2 =>
      if ¬ (y1 < y2 ∨ (y1 = y2 ∧ (m1 < m2 ∨ (m1 = m2 ∧ d1 < d2)))) then some []
      else date_interp_loop d2 m2 y2 (366 * (y2 - y1 + 1).toNat + 100) d1 m1 y1
    | _, _, _, _, _, _ => none

/-- The primary key of a DSH row. The reservation id of a Reservation row is
optional because `ReservationTxn::new_id_` is never assigned. -/
inductive RowKey
  | user (username : String)
  | hotel (id : Int)
  | reservationCount (hotel_id : Int) (date : String)
  | reservation (hotel_id : Int) (rid : Option Int)
  deriving DecidableEq, Repr

/-- A cell handed to `Insert` or `Update`. -/
inductive Cell
  | int (v : Int)
  | text (s : String)
  deriving DecidableEq, Repr

/-- A call of the table facade as the storage adapter sees it. -/
inductive Op
  | select (k : RowKey)
  | insert (k : RowKey) (cells : List Cell)
  | update (k : RowKey) (cells : List Cell)
  deriving DecidableEq, Repr

/-- The key of a facade call. -/
def Op.key : Op → RowKey
  | Op.select k => k
  | Op.insert k _ => k
  | Op.update k _ => k

/-- The non-key cells of a Hotel row. The four `Float64` cells hold finite
doubles, the rational numbers they stand for; the capacity is an `Int32`
cell. -/
structure HotelRow where
  lat : ℚ
  lon : ℚ
  rating : ℚ
  price : ℚ
  capacity : Int
  deriving DecidableEq, Repr

/-- Modelled from the spec: a storage adapter of the DSH family is not part of
the sources. It answers `Select` on each table from the rows it holds and
decides whether a write is accepted. -/
structure StorageAdapter where
  users : String → Option String
  hotels : Int → Option HotelRow
  reservationCounts : Int → String → Option Int
  writeOk : Op → Bool

/-- Modelled from the spec: the key-generation adapter
(`TxnKeyGenStorageAdapter`) is not part of the sources. Every `Select` returns
empty; `w` is its answer to writes. -/
def keyGenAdapter (w : Op → Bool) : StorageAdapter :=
  { users := fun _ => none, hotels := fun _ => none, reservationCounts := fun _ _ => none,
    writeOk := w }

/-- State shared by every DSH transaction object. `fault` is set when the run
leaves defined behaviour (a null scalar is dereferenced, an array is indexed out
of range, a loop never ends); what is recorded after that has no meaning. -/
structure TxnBase where
  storage : StorageAdapter
  ops : List Op
  error_ : String
  fault : Bool

/-- A fresh transaction object on an adapter. -/
def TxnBase.fresh (a : StorageAdapter) : TxnBase :=
  { storage := a, ops := [], error_ := "", fault := false }

/-- The adapter records a facade call. -/
def TxnBase.record (b : TxnBase) (op : Op) : TxnBase := { b with ops := b.ops ++ [op] }

/-- `SetError(msg)`. -/
def TxnBase.fail (b : TxnBase) (msg : String) : TxnBase := { b with error_ := SetError b.error_ msg }

/-- The keys the adapter has recorded. -/
def TxnBase.keys (b : TxnBase) : List RowKey := b.ops.map Op.key

/-! ### reservation -/

/-- `ReservationTxn` object. `ptrGreater` is the outcome of the comparison
`num_rooms_ > hotel_capacity_` in `Read`, which compares the two scalar
pointers. -/
structure ReservationTxn extends TxnBase where
  in_date_ : String
  out_date_ : String
  hotel_id_ : Int
  cust_name_ : String
  num_rooms_ : Int
  username_ : String
  password_ : String
  new_id_ : Option Int
  date_range_ : List String
  hotel_capacity_ : Int
  saved_password_ : String
  new_reservation_count : List (Option Int)
  correct_password_ : Bool
  ptrGreater : Bool

/-- `ReservationTxn::ReservationTxn`; `none` when `format_uname` aborts. -/
def ReservationTxn.new (a : StorageAdapter) (ptrGreater : Bool) (username password in_date out_date : String)
    (hotel_id : Int) (cust_name : String) (num_rooms : Int) : Option ReservationTxn :=
  (format_uname username).map fun uname =>
    { TxnBase.fresh a with
      in_date_ := in_date, out_date_ := out_date, hotel_id_ := hotel_id, cust_name_ := cust_name,
      num_rooms_ := num_rooms, username_ := uname, password_ := password, new_id_ := none,
      date_range_ := [], hotel_capacity_ := 0, saved_password_ := "",
      new_reservation_count := List.replicate kMaxStay none, correct_password_ := false,
      ptrGreater := ptrGreater }

/-- The assignment `new_reservation_count[i] = ...`; an index outside the array
is a fault. -/
def ReservationTxn.setCount (t : ReservationTxn) (i : Nat) (v : Int) : ReservationTxn :=
  if i < kMaxStay then { t with new_reservation_count := t.new_reservation_count.set i (some v) }
  else { t with fault := true }

/-- Body of the `for` loop of `ReservationTxn::Read`; the flag is the local `ok`. -/
def ReservationTxn.readCount (i : Nat) (s : Bool × ReservationTxn) : Bool × ReservationTxn :=
  let t := s.2
  let date := t.date_range_.getD i ""
  let b := t.toTxnBase.record (Op.select (RowKey.reservationCount t.hotel_id_ date))
  let t1 : ReservationTxn := { t with toTxnBase := b }
  if !s.1 then (s.1, t1)
  else
    match t.storage.reservationCounts t.hotel_id_ date with
    | none => (s.1, t1.setCount i (t.hotel_capacity_ - t.num_rooms_))
    | some count =>
      let new_room_count := count - t.num_rooms_
      if new_room_count < 0 then
        let t2 : ReservationTxn := { t1 with toTxnBase := b.fail ("Too many reservations on " ++ date) }
        (false, t2.setCount i new_room_count)
      else (s.1, t1.setCount i new_room_count)

/-- `ReservationTxn::Read`. -/
def ReservationTxn.Read (t : ReservationTxn) : Bool × ReservationTxn :=
  let b1 := t.toTxnBase.record (Op.select (RowKey.user t.username_))
  let r1 : Bool × ReservationTxn :=
    match t.storage.users t.username_ with
    | some pw => (true, { t with toTxnBase := b1, saved_password_ := pw })
    | none => (false, { t with toTxnBase := b1.fail "User not found" })
  let b2 := r1.2.toTxnBase.record (Op.select (RowKey.hotel t.hotel_id_))
  let r2 : Bool × ReservationTxn :=
    match t.storage.hotels t.hotel_id_ with
    | some row => (r1.1, { r1.2 with toTxnBase := b2, hotel_capacity_ := row.capacity })
    | none => (false, { r1.2 with toTxnBase := b2.fail "Hotel capacity does not exist" })
  let r3 : Bool × ReservationTxn :=
    if r2.1 && t.ptrGreater then
      (false, { r2.2 with toTxnBase := r2.2.toTxnBase.fail "Hotel capacity is too low" })
    else r2
  match date_interp t.in_date_ t.out_date_ with
  | none => (false, { r3.2 with fault := true })
  | some range =>
    let t4 : ReservationTxn := { r3.2 with date_range_ := range }
    let r4 : Bool × ReservationTxn :=
      if range.length > kMaxStay then
        (false, { t4 with toTxnBase := t4.toTxnBase.fail "Stay is too long" })
      else (r3.1, t4)
    forLoop range.length ReservationTxn.readCount r4

/-- `ReservationTxn::Compute`. -/
def ReservationTxn.Compute (t : ReservationTxn) : ReservationTxn :=
  { t with correct_password_ := decide (t.saved_password_ = t.password_) }

/-- The `for` loop of `ReservationTxn::Write` over the indices still to visit;
the flag is false when the loop returned early. -/
def ReservationTxn.writeCounts : List Nat → ReservationTxn → Bool × ReservationTxn
  | [], t => (true, t)
  | i :: rest, t =>
    match t.new_reservation_count.getD i none with
    | none => (false, { t with fault := true })
    | some count =>
      let k := RowKey.reservationCount t.hotel_id_ (t.date_range_.getD i "")
      let op :=
        if count + t.num_rooms_ = t.hotel_capacity_ then Op.insert k [Cell.int count]
        else Op.update k [Cell.int count]
      let b := t.toTxnBase.record op
      if !t.storage.writeOk op then
        (false, { t with toTxnBase := b.fail "Reservation count update failed" })
      else ReservationTxn.writeCounts rest { t with toTxnBase := b }

/-- `ReservationTxn::Write`. -/
def ReservationTxn.Write (t : ReservationTxn) : Bool × ReservationTxn :=
  let r := ReservationTxn.writeCounts (List.range t.date_range_.length) t
  if !r.1 then (false, r.2)
  else
    let op := Op.insert (RowKey.reservation t.hotel_id_ t.new_id_)
      [Cell.text t.cust_name_, Cell.text t.in_date_, Cell.text t.out_date_, Cell.int t.num_rooms_]
    let b := r.2.toTxnBase.record op
    if !t.storage.writeOk op then (false, { r.2 with toTxnBase := b.fail "Reservation insertion failed" })
    else (true, { r.2 with toTxnBase := b })

/-- The `ReservationTxn` body. -/
def ReservationTxn.body : TxnBody ReservationTxn :=
  { Read := ReservationTxn.Read, Compute := ReservationTxn.Compute, Write := ReservationTxn.Write }

/-- What `reserve_hotel` of the workload generator, `BuildDSHTranscation` of
the client and the execution wrapper do with a reservation: build the body on
the adapter and call `Execute()`. The result is the flag returned and the
object afterwards; `none` when the constructor aborts. -/
def reservationPass (a : StorageAdapter) (ptrGreater : Bool) (username password in_date out_date : String)
    (hotel_id : Int) (cust_name : String) (num_rooms : Int) : Option (ExecResult ReservationTxn) :=
  (ReservationTxn.new a ptrGreater username password in_date out_date hotel_id cust_name num_rooms).map
    fun t => DSHTransaction.Execute ReservationTxn.body t

end dsh

namespace dsh

/-! ### search -/

/-- `SearchTxn` object. The coordinates are `Float64` scalars: finite doubles,
the rational numbers they stand for. -/
structure SearchTxn extends TxnBase where
  in_date_ : String
  out_date_ : String
  lat_ : ℚ
  lon_ : ℚ
  hotel_ids_ : List Int

/-- `SearchTxn::SearchTxn`: at most `kRecommendationReadSize` ids are copied. -/
def SearchTxn.new (a : StorageAdapter) (in_date out_date : String) (lat lon : ℚ) (h_ids : List Int) :
    SearchTxn :=
  { TxnBase.fresh a with
    in_date_ := in_date, out_date_ := out_date, lat_ := lat, lon_ := lon,
    hotel_ids_ := h_ids.take kRecommendationReadSize }

/-- Body of the first loop of `SearchTxn::Read`: the hotel is selected and, when
found, pushed on `distance_ranking` with its distance; `fl` is the rounding of
`double` arithmetic. -/
def SearchTxn.rankHotel (fl : ℚ → ℚ) (s : (Bool × SearchTxn) × List (ℚ × Int)) (h_id : Int) :
    (Bool × SearchTxn) × List (ℚ × Int) :=
  let t := s.1.2
  let b := t.toTxnBase.record (Op.select (RowKey.hotel h_id))
  match t.storage.hotels h_id with
  | some row => ((s.1.1, { t with toTxnBase := b }), s.2 ++ [(dist fl t.lat_ t.lon_ row.lat row.lon, h_id)])
  | none => ((false, { t with toTxnBase := b.fail "Hotel not found" }), s.2)

/-- The inner loop of `SearchTxn::Read` over the dates still to check for one
hotel. The first component is `all_dates_available` when the loop is left. -/
def SearchTxn.checkDates (hotel : Int) : List String → Bool × SearchTxn → Bool × (Bool × SearchTxn)
  | [], s => (true, s)
  | date :: rest, s =>
    let t := s.2
    let b := t.toTxnBase.record (Op.select (RowKey.reservationCount hotel date))
    match t.storage.reservationCounts hotel date with
    | some count =>
      if count ≤ 0 then (false, (s.1, { t with toTxnBase := b }))
      else SearchTxn.checkDates hotel rest (s.1, { t with toTxnBase := b })
    | none =>
      let b2 := b.record (Op.select (RowKey.hotel hotel))
      match t.storage.hotels hotel with
      | none =>
        SearchTxn.checkDates hotel rest (false, { t with toTxnBase := b2.fail "Hotel capacity not found" })
      | some row =>
        if row.capacity ≤ 0 then (false, (s.1, { t with toTxnBase := b2 }))
        else SearchTxn.checkDates hotel rest (s.1, { t with toTxnBase := b2 })

/-- The outer loop of `SearchTxn::Read` over the ranked hotels still to check. -/
def SearchTxn.checkHotels (date_range : List String) : List (ℚ × Int) → Bool × SearchTxn →
    Bool × SearchTxn
  | [], s => s
  | hotel :: rest, s =>
    let r := SearchTxn.checkDates hotel.2 date_range s
    if r.1 then r.2 else SearchTxn.checkHotels date_range rest r.2

/-- `SearchTxn::Read`. `std::sort` by distance is modelled by a stable insertion
sort. When fewer than `kRecommendationReadSize` ids were given the array holds
null scalars, and when `date_interp` does not return the run is a fault; `fl`
is the rounding of `double` arithmetic. -/
def SearchTxn.Read (fl : ℚ → ℚ) (t : SearchTxn) : Bool × SearchTxn :=
  let r1 := t.hotel_ids_.foldl (SearchTxn.rankHotel fl) ((true, t), [])
  if t.hotel_ids_.length < kRecommendationReadSize then
    (false, { r1.1.2 with fault := true })
  else
    let distance_ranking := r1.2.insertionSort fun p q => p.1 ≤ q.1
    match date_interp t.in_date_ t.out_date_ with
    | none => (false, { r1.1.2 with fault := true })
    | some date_range => SearchTxn.checkHotels date_range distance_ranking r1.1

/-- `SearchTxn::Compute`. -/
def SearchTxn.Compute (t : SearchTxn) : SearchTxn := t

/-- `SearchTxn::Write`. -/
def SearchTxn.Write (t : SearchTxn) : Bool × SearchTxn := (true, t)

/-- The `SearchTxn` body. -/
def SearchTxn.body (fl : ℚ → ℚ) : TxnBody SearchTxn :=
  { Read := SearchTxn.Read fl, Compute := SearchTxn.Compute, Write := SearchTxn.Write }

/-- The keys selected by `SearchTxn::Read` for an argument list on a storage. -/
def searchReadKeys (fl : ℚ → ℚ) (a : StorageAdapter) (in_date out_date : String) (lat lon : ℚ)
    (h_ids : List Int) : List RowKey :=
  (SearchTxn.Read fl (SearchTxn.new a in_date out_date lat lon h_ids)).2.keys

/-- The keys the date-checking loop of `SearchTxn::Read` may select for one hotel. -/
def searchKeyOf (hotel : Int) (k : RowKey) : Prop :=
  k = RowKey.hotel hotel ∨ ∃ date, k = RowKey.reservationCount hotel date

end dsh

/-! ## Execution wrappers

`execution/pps.cpp`, `execution/smallbank.cpp` and `execution/movie.cpp`. The
`Transaction` message, `ApplyWrites` and the adapter that serves a running
transaction are not part of the sources. -/

/-- How a run ends when it does not return: a C++ exception leaves the function,
or the behaviour is undefined (an element is read past the end of the argument
list). -/
inductive Fault
  | exception (type : String)
  | undefined
  deriving DecidableEq, Repr

/-- The fault of a run, if it did not return. -/
def faultOf {α : Type} : Except Fault α → Option Fault
  | Except.error f => some f
  | Except.ok _ => none

/-- `isspace` in the "C" locale. -/
def isSpaceByte (b : Nat) : Bool := decide (b = 32) || (decide (9 ≤ b) && decide (b ≤ 13))

/-- The conversion behind `std::stoi` and `std::stoll` (base 10): leading white
space is skipped, one sign is accepted, the longest run of digits is converted
and what follows is ignored. Without a digit `std::invalid_argument` is thrown,
and `std::out_of_range` when the value is outside `[lo, hi]`. -/
def strtoRange (lo hi : Int) (str : String) : Except Fault Int :=
  let s := (bytesOf str).dropWhile isSpaceByte
  let body := if s.head? = some 45 ∨ s.head? = some 43 then s.tail else s
  let ds := body.takeWhile isDigitByte
  if ds.isEmpty then Except.error (Fault.exception "std::invalid_argument")
  else
    let v : Int := if s.head? = some 45 then -(digitsValue ds : Int) else (digitsValue ds : Int)
    if v < lo ∨ hi < v then Except.error (Fault.exception "std::out_of_range") else Except.ok v

/-- `std::stoi`. -/
def stoi (str : String) : Except Fault Int := strtoRange (-(2 ^ 31)) (2 ^ 31 - 1) str

/-- `std::stoll`. -/
def stoll (str : String) : Except Fault Int := strtoRange (-(2 ^ 63)) (2 ^ 63 - 1) str

/-- `args[i]` on the argument list of a procedure; reading past the end is
undefined. -/
def argAt (args : List String) (i : Nat) : Except Fault String :=
  match args.get? i with
  | some a => Except.ok a
  | none => Except.error Fault.undefined

/-- Modelled from the spec: `TransactionStatus` of the wire message. -/
inductive TransactionStatus
  | PENDING
  | COMMITTED
  | ABORTED
  deriving DecidableEq, Repr

/-- Modelled from the spec: the fields of the `Transaction` wire message that the
execution wrappers use; `procedures` holds `code.procedures[].args`. -/
structure Transaction where
  procedures : List (List String)
  status : TransactionStatus
  abort_reason : String
  deriving DecidableEq, Repr

/-- A transaction as it is handed to a wrapper. -/
def Transaction.submit (procedures : List (List String)) : Transaction :=
  { procedures := procedures, status := TransactionStatus.PENDING, abort_reason := "" }

/-- What a wrapper leaves behind when it returns: the transaction, whether
`ApplyWrites` was invoked, and the storage afterwards. -/
structure Executed (σ : Type) where
  txn : Transaction
  applied : Bool
  storage : σ

/-- The statements `txn.set_status(ABORTED); txn.set_abort_reason(reason); return;`. -/
def abortWith {σ : Type} (storage : σ) (txn : Transaction) (reason : String) : Executed σ :=
  { txn := { txn with status := TransactionStatus.ABORTED, abort_reason := reason },
    applied := false, storage := storage }

/-- The tail of every branch of a wrapper: when the body's `Execute()` returned
false the transaction is aborted with the family text followed by `error()`,
otherwise the end of the wrapper is reached, the status becomes COMMITTED and
`ApplyWrites` is invoked on the writes the body staged. -/
def conclude {σ ω : Type} (apply : List ω → σ → σ) (storage : σ) (txn : Transaction)
    (family : String) (ret : Bool) (error : String) (ops : List ω) : Executed σ :=
  if !ret then abortWith storage txn (family ++ error)
  else
    { txn := { txn with status := TransactionStatus.COMMITTED }, applied := true,
      storage := apply ops storage }

/-- The argument list of the first procedure; empty when there is no procedure. -/
def Transaction.args (txn : Transaction) : List String := txn.procedures.headD []

/-- What the wrapper needs from a body after `Execute()`: the flag returned,
`error()` and the facade calls recorded by the adapter. -/
structure BodyRun (ω : Type) where
  ret : Bool
  error : String
  ops : List ω

namespace pps

/-- Modelled from the spec: `ApplyWrites` is not part of the sources. One staged
`Update` replaces the updated cell of the row it names (the amount of a Part
row, the part id of a ProductParts or SupplierParts row); a row that does not
exist stays absent, and a `Select` stages nothing. Every partition applies the
writes of its own rows, so on the rows of all partitions taken together every
staged write is applied. -/
def applyWrite (a : StorageAdapter) : Op → StorageAdapter
  | Op.select _ => a
  | Op.update k v =>
    match k.table, k.pk with
    | TableId.Part, [id] =>
      { a with part := fun j => if j = id then (a.part j).map fun row => (v, row.2) else a.part j }
    | TableId.ProductParts, [p, slot] =>
      { a with productParts := fun i j =>
          if i = p ∧ j = slot then (a.productParts i j).map fun _ => v else a.productParts i j }
    | TableId.SupplierParts, [s, slot] =>
      { a with supplierParts := fun i j =>
          if i = s ∧ j = slot then (a.supplierParts i j).map fun _ => v else a.supplierParts i j }
    | _, _ => a

/-- Modelled from the spec: `ApplyWrites` applies the staged writes in the order
in which they were staged. -/
def applyWrites (ops : List Op) (a : StorageAdapter) : StorageAdapter :=
  ops.foldl applyWrite a

/-- The body that `PPSExecution::Execute` builds for a procedure call, after
`Execute()`. -/
def executeBody (kPartsPerProduct kPartsPerSupplier : Nat) (a : StorageAdapter) :
    Procedure → BodyRun Op
  | Procedure.get_product id =>
    let r := PPSTransaction.Execute GetProduct.body (GetProduct.new a id)
    { ret := r.ret, error := r.state.error_, ops := r.state.ops }
  | Procedure.get_part id =>
    let r := PPSTransaction.Execute GetPart.body (GetPart.new a id)
    { ret := r.ret, error := r.state.error_, ops := r.state.ops }
  | Procedure.order_parts ids =>
    let r := PPSTransaction.Execute OrderParts.body (OrderParts.new a ids)
    { ret := r.ret, error := r.state.error_, ops := r.state.ops }
  | Procedure.order_product id ids =>
    let r := PPSTransaction.Execute (OrderProduct.body kPartsPerProduct) (OrderProduct.new a id ids)
    { ret := r.ret, error := r.state.error_, ops := r.state.ops }
  | Procedure.supplier_restock id ids =>
    let r := PPSTransaction.Execute (SupplierRestock.body kPartsPerSupplier)
      (SupplierRestock.new a id ids)
    { ret := r.ret, error := r.state.error_, ops := r.state.ops }
  | Procedure.get_parts_by_product id =>
    let r := PPSTransaction.Execute GetPartsByProduct.body (GetPartsByProduct.new kPartsPerProduct a id)
    { ret := r.ret, error := r.state.error_, ops := r.state.ops }
  | Procedure.get_parts_by_supplier id =>
    let r := PPSTransaction.Execute GetPartsBySupplier.body
      (GetPartsBySupplier.new kPartsPerSupplier a id)
    { ret := r.ret, error := r.state.error_, ops := r.state.ops }
  | Procedure.update_product_part id =>
    let r := PPSTransaction.Execute (UpdateProductPart.body kPartsPerProduct)
      (UpdateProductPart.new a id)
    { ret := r.ret, error := r.state.error_, ops := r.state.ops }

/-- The text with which `PPSExecution::Execute` starts the abort reason of a
procedure whose body failed. -/
def family : Procedure → String
  | Procedure.get_product _ => "GetProduct Txn - "
  | Procedure.get_part _ => "GetPart Txn - "
  | Procedure.order_parts _ => "OrderParts Txn - "
  | Procedure.order_product _ _ => "OrderProduct Txn - "
  | Procedure.supplier_restock _ _ => "SupplierRestock Txn - "
  | Procedure.get_parts_by_product _ => "GetPartsByProduct Txn - "
  | Procedure.get_parts_by_supplier _ => "GetPartsBySupplier Txn - "
  | Procedure.update_product_part _ => "UpdateProductPart Txn - "

end pps

/-- The dispatch of `PPSExecution::Execute` on `args[0]`: the procedure call
whose body the selected branch builds, or the reason with which the wrapper
aborts without building a body. The run faults when `std::stoi` throws or an
argument is read that the list does not have; no branch compares `args.size()`
with the number of arguments it reads. -/
def PPSExecution.procedureOf (args : List String) : Except Fault (Except String pps.Procedure) :=
  if args.isEmpty then pure (Except.error "Invalid code")
  else
    let txn_name := args.headD ""
    if txn_name = "get_product" then do
      let product_id ← stoi (← argAt args 1)
      pure (Except.ok (pps.Procedure.get_product product_id))
    else if txn_name = "get_part" then do
      let part_id ← stoi (← argAt args 1)
      pure (Except.ok (pps.Procedure.get_part part_id))
    else if txn_name = "order_parts" then do
      let parts_ids ← (args.drop 1).mapM stoi
      pure (Except.ok (pps.Procedure.order_parts parts_ids))
    else if txn_name = "order_product" then do
      let product_id ← stoi (← argAt args 1)
      let parts_ids ← (args.drop 2).mapM stoi
      pure (Except.ok (pps.Procedure.order_product product_id parts_ids))
    else if txn_name = "supplier_restock" then do
      let supplier_id ← stoi (← argAt args 1)
      let parts_ids ← (args.drop 2).mapM stoi
      pure (Except.ok (pps.Procedure.supplier_restock supplier_id parts_ids))
    else if txn_name = "get_parts_by_product" then do
      let product_id ← stoi (← argAt args 1)
      pure (Except.ok (pps.Procedure.get_parts_by_product product_id))
    else if txn_name = "get_parts_by_supplier" then do
      let supplier_id ← stoi (← argAt args 1)
      pure (Except.ok (pps.Procedure.get_parts_by_supplier supplier_id))
    else if txn_name = "update_product_part" then do
      let product_id ← stoi (← argAt args 1)
      pure (Except.ok (pps.Procedure.update_product_part product_id))
    else pure (Except.error "Unknown procedure name")

/-- `PPSExecution::Execute` on a storage: the dispatch, then the body's
`Execute()`, then abort or commit. -/
def PPSExecution.Execute (kPartsPerProduct kPartsPerSupplier : Nat) (storage : pps.StorageAdapter)
    (txn : Transaction) : Except Fault (Executed pps.StorageAdapter) :=
  match PPSExecution.procedureOf txn.args with
  | Except.error f => Except.error f
  | Except.ok (Except.error reason) => Except.ok (abortWith storage txn reason)
  | Except.ok (Except.ok p) =>
    let r := pps.executeBody kPartsPerProduct kPartsPerSupplier storage p
    Except.ok (conclude pps.applyWrites storage txn (pps.family p) r.ret r.error r.ops)


namespace smallbank

/-- Modelled from the spec: `ApplyWrites` is not part of the sources. One staged
`Update` replaces the cell of the row it names (the id of an Accounts row, the
balance of a Checking or Savings row); a row that does not exist stays absent,
and a `Select` stages nothing. Every partition applies the writes of its own
rows, so on the rows of all partitions taken together every staged write is
applied. -/
def applyWrite (a : StorageAdapter) : Op → StorageAdapter
  | Op.select _ => a
  | Op.update (RowKey.accounts n) v =>
    { a with accounts := fun m => if m = n then (a.accounts m).map fun _ => v else a.accounts m }
  | Op.update (RowKey.checking id) v =>
    { a with checking := fun j => if j = id then (a.checking j).map fun _ => v else a.checking j }
  | Op.update (RowKey.savings id) v =>
    { a with savings := fun j => if j = id then (a.savings j).map fun _ => v else a.savings j }

/-- Modelled from the spec: `ApplyWrites` applies the staged writes in the order
in which they were staged. -/
def applyWrites (ops : List Op) (a : StorageAdapter) : StorageAdapter :=
  ops.foldl applyWrite a

/-- The body that `SmallBankExecution::Execute` builds for a procedure call,
after `Execute()`. -/
def executeBody (a : StorageAdapter) : Procedure → BodyRun Op
  | Procedure.getCustomerIdByName n =>
    let r := SmallBankTransaction.Execute GetCustomerIdByNameTxn.body (GetCustomerIdByNameTxn.new a n)
    { ret := r.ret, error := r.state.error_, ops := r.state.ops }
  | Procedure.balance n id =>
    let r := SmallBankTransaction.Execute BalanceTxn.body (BalanceTxn.new a n id)
    { ret := r.ret, error := r.state.error_, ops := r.state.ops }
  | Procedure.depositChecking n id amt =>
    let r := SmallBankTransaction.Execute DepositCheckingTxn.body (DepositCheckingTxn.new a n id amt)
    { ret := r.ret, error := r.state.error_, ops := r.state.ops }
  | Procedure.transactionSaving n id amt =>
    let r := SmallBankTransaction.Execute TransactionSavingTxn.body (TransactionSavingTxn.new a n id amt)
    { ret := r.ret, error := r.state.error_, ops := r.state.ops }
  | Procedure.amalgamate n1 n2 id1 id2 =>
    let r := SmallBankTransaction.Execute AmalgamateTxn.body (AmalgamateTxn.new a n1 n2 id1 id2)
    { ret := r.ret, error := r.state.error_, ops := r.state.ops }
  | Procedure.writecheck n id v =>
    let r := SmallBankTransaction.Execute WritecheckTxn.body (WritecheckTxn.new a n id v)
    { ret := r.ret, error := r.state.error_, ops := r.state.ops }

/-- The text with which `SmallBankExecution::Execute` starts the abort reason of
a procedure. -/
def family : Procedure → String
  | Procedure.getCustomerIdByName _ => "getCustomerIdByName Txn - "
  | Procedure.balance _ _ => "BalanceTxn Txn - "
  | Procedure.depositChecking _ _ _ => "DepositCheckingTxn Txn - "
  | Procedure.transactionSaving _ _ _ => "TransactionSavingTxn Txn - "
  | Procedure.amalgamate _ _ _ _ => "AmalgamateTxn Txn - "
  | Procedure.writecheck _ _ _ => "WritecheckTxn Txn - "

end smallbank

/-- The dispatch of `SmallBankExecution::Execute` on `args[0]`: the procedure
call whose body the selected branch builds, or the reason with which the wrapper
aborts without building a body (every branch first compares `args.size()` with
the number of arguments it reads). The run faults when `std::stoi` throws. -/
def SmallBankExecution.procedureOf (args : List String) :
    Except Fault (Except String smallbank.Procedure) :=
  if args.isEmpty then pure (Except.error "Invalid code")
  else
    let txn_name := args.headD ""
    if txn_name = "getCustomerIdByName" then
      if args.length ≠ 2 then pure (Except.error "getCustomerIdByName Txn - Invalid number of arguments")
      else do
        let acount_name ← argAt args 1
        pure (Except.ok (smallbank.Procedure.getCustomerIdByName acount_name))
    else if txn_name = "balance" then
      if args.length ≠ 3 then pure (Except.error "BalanceTxn Txn - Invalid number of arguments")
      else do
        let acount_name ← argAt args 1
        let customer_id ← stoi (← argAt args 2)
        pure (Except.ok (smallbank.Procedure.balance acount_name customer_id))
    else if txn_name = "depositChecking" then
      if args.length ≠ 4 then pure (Except.error "DepositCheckingTxn Txn - Invalid number of arguments")
      else do
        let acount_name ← argAt args 1
        let customer_id ← stoi (← argAt args 2)
        let amount ← stoi (← argAt args 3)
        pure (Except.ok (smallbank.Procedure.depositChecking acount_name customer_id amount))
    else if txn_name = "transactionSaving" then
      if args.length ≠ 4 then pure (Except.error "TransactionSavingTxn Txn - Invalid number of arguments")
      else do
        let acount_name ← argAt args 1
        let customer_id ← stoi (← argAt args 2)
        let amount ← stoi (← argAt args 3)
        pure (Except.ok (smallbank.Procedure.transactionSaving acount_name customer_id amount))
    else if txn_name = "amalgamate" then
      if args.length ≠ 5 then pure (Except.error "AmalgamateTxn Txn - Invalid number of arguments")
      else do
        let first_customer_name ← argAt args 1
        let second_customer_name ← argAt args 2
        let first_customer_id ← stoi (← argAt args 3)
        let second_customer_id ← stoi (← argAt args 4)
        pure (Except.ok (smallbank.Procedure.amalgamate first_customer_name second_customer_name
          first_customer_id second_customer_id))
    else if txn_name = "writecheck" then
      if args.length ≠ 4 then pure (Except.error "WritecheckTxn Txn - Invalid number of arguments")
      else do
        let acount_name ← argAt args 1
        let customer_id ← stoi (← argAt args 2)
        let value ← stoi (← argAt args 3)
        pure (Except.ok (smallbank.Procedure.writecheck acount_name customer_id value))
    else pure (Except.error "Unknown procedure name")

/-- `SmallBankExecution::Execute` on a storage: the dispatch, then the body's
`Execute()`, then abort or commit. -/
def SmallBankExecution.Execute (storage : smallbank.StorageAdapter) (txn : Transaction) :
    Except Fault (Executed smallbank.StorageAdapter) :=
  match SmallBankExecution.procedureOf txn.args with
  | Except.error f => Except.error f
  | Except.ok (Except.error reason) => Except.ok (abortWith storage txn reason)
  | Except.ok (Except.ok p) =>
    let r := smallbank.executeBody storage p
    Except.ok (conclude smallbank.applyWrites storage txn (smallbank.family p) r.ret r.error r.ops)


namespace movie

/-- The primary key of a Movie-family row. -/
inductive RowKey
  | user (username : String)
  | movie (title : String)
  | review (review_id : Int)
  deriving DecidableEq, Repr

/-- The non-key cells of a User row. -/
structure UserRow where
  user_id : Int
  password : String
  last_name : String
  first_name : String
  reviews : Int
  deriving DecidableEq, Repr

/-- The non-key cells of a Review row, in the order in which `Write` hands them
to `Insert`. -/
structure ReviewRow where
  req_id : Int
  text : String
  rating : Int
  timestamp : Int
  movie_id : String
  user_id : Int
  deriving DecidableEq, Repr

/-- A call of the table facade as the storage adapter sees it. -/
inductive Op
  | select (k : RowKey)
  | insertReview (review_id : Int) (row : ReviewRow)
  | updateReviews (username : String) (reviews : Int)
  deriving DecidableEq, Repr

/-- The key of a facade call. -/
def Op.key : Op → RowKey
  | Op.select k => k
  | Op.insertReview id _ => RowKey.review id
  | Op.updateReviews u _ => RowKey.user u

/-- Modelled from the spec: a storage adapter of the Movie family is not part of
the sources. It answers `Select` on each table from the rows it holds and
decides whether a write is accepted. -/
structure StorageAdapter where
  users : String → Option UserRow
  movies : String → Option String
  reviews : Int → Option ReviewRow
  writeOk : Op → Bool

/-- State shared by every Movie transaction object. -/
structure TxnBase where
  storage : StorageAdapter
  ops : List Op
  error_ : String

/-- A fresh transaction object on an adapter. -/
def TxnBase.fresh (a : StorageAdapter) : TxnBase := { storage := a, ops := [], error_ := "" }

/-- The adapter records a facade call. -/
def TxnBase.record (b : TxnBase) (op : Op) : TxnBase := { b with ops := b.ops ++ [op] }

/-- `SetError(msg)`. -/
def TxnBase.fail (b : TxnBase) (msg : String) : TxnBase := { b with error_ := SetError b.error_ msg }

/-- `NewReviewTxn` object. -/
structure NewReviewTxn extends TxnBase where
  a_username_ : String
  a_title_ : String
  a_rating_ : Int
  a_timestamp_ : Int
  a_req_id_ : Int
  a_text_ : String
  a_review_id_ : Int
  r_user_id : Int
  r_movie_id : String
  r_reviews : Int
  c_reviews : Int

/-- `NewReviewTxn::NewReviewTxn`. -/
def NewReviewTxn.new (a : StorageAdapter) (req_id rating : Int) (username title : String)
    (timestamp review_id : Int) (text : String) : NewReviewTxn :=
  { TxnBase.fresh a with
    a_username_ := username, a_title_ := title, a_rating_ := rating, a_timestamp_ := timestamp,
    a_req_id_ := req_id, a_text_ := text, a_review_id_ := review_id,
    r_user_id := 0, r_movie_id := "", r_reviews := 0, c_reviews := 0 }

/-- `NewReviewTxn::Read`. -/
def NewReviewTxn.Read (t : NewReviewTxn) : Bool × NewReviewTxn :=
  let b1 := t.toTxnBase.record (Op.select (RowKey.user t.a_username_))
  let r1 : Bool × NewReviewTxn :=
    match t.storage.users t.a_username_ with
    | some row => (true, { t with toTxnBase := b1, r_user_id := row.user_id, r_reviews := row.reviews })
    | none => (false, { t with toTxnBase := b1.fail "User does not exist" })
  let b2 := r1.2.toTxnBase.record (Op.select (RowKey.movie t.a_title_))
  match t.storage.movies t.a_title_ with
  | some id => (r1.1, { r1.2 with toTxnBase := b2, r_movie_id := id })
  | none => (false, { r1.2 with toTxnBase := b2.fail "Movie does not exist" })

/-- `NewReviewTxn::Compute`. -/
def NewReviewTxn.Compute (t : NewReviewTxn) : NewReviewTxn :=
  { t with c_reviews := t.r_reviews + 1 }

/-- `NewReviewTxn::Write`. -/
def NewReviewTxn.Write (t : NewReviewTxn) : Bool × NewReviewTxn :=
  let op1 := Op.insertReview t.a_review_id_
    { req_id := t.a_req_id_, text := t.a_text_, rating := t.a_rating_, timestamp := t.a_timestamp_,
      movie_id := t.r_movie_id, user_id := t.r_user_id }
  let b1 := t.toTxnBase.record op1
  let r1 : Bool × TxnBase :=
    if !t.storage.writeOk op1 then (false, b1.fail "Could not insert review") else (true, b1)
  let op2 := Op.updateReviews t.a_username_ t.c_reviews
  let b2 := r1.2.record op2
  if !t.storage.writeOk op2 then
    (false, { t with toTxnBase := b2.fail "Could not update user reviews" })
  else (r1.1, { t with toTxnBase := b2 })

/-- The `NewReviewTxn` body. -/
def NewReviewTxn.body : TxnBody NewReviewTxn :=
  { Read := NewReviewTxn.Read, Compute := NewReviewTxn.Compute, Write := NewReviewTxn.Write }

/-- A Movie procedure call with its arguments, in the order of the constructor
of `NewReviewTxn`. -/
inductive Procedure
  | new_review (req_id rating : Int) (username title : String) (timestamp review_id : Int)
      (text : String)
  deriving Repr

/-- Modelled from the spec: `ApplyWrites` is not part of the sources. A staged
`Insert` stores the Review row under its id, a staged `Update` replaces the
`reviews` cell of the User row it names (a row that does not exist stays
absent), and a `Select` stages nothing. -/
def applyWrite (a : StorageAdapter) : Op → StorageAdapter
  | Op.select _ => a
  | Op.insertReview id row =>
    { a with reviews := fun j => if j = id then some row else a.reviews j }
  | Op.updateReviews u v =>
    { a with users := fun n =>
        if n = u then (a.users n).map fun row => { row with reviews := v } else a.users n }

/-- Modelled from the spec: `ApplyWrites` applies the staged writes in the order
in which they were staged. -/
def applyWrites (ops : List Op) (a : StorageAdapter) : StorageAdapter :=
  ops.foldl applyWrite a

/-- The body that `MovieExecution::Execute` builds for a procedure call, after
`Execute()`. -/
def executeBody (a : StorageAdapter) : Procedure → BodyRun Op
  | Procedure.new_review req_id rating username title timestamp review_id text =>
    let r := MovieTransaction.Execute NewReviewTxn.body
      (NewReviewTxn.new a req_id rating username title timestamp review_id text)
    { ret := r.ret, error := r.state.error_, ops := r.state.ops }

/-- The text with which `MovieExecution::Execute` starts the abort reason of a
procedure whose body failed. -/
def family : Procedure → String
  | Procedure.new_review _ _ _ _ _ _ _ => "Review Txn - "

end movie

/-- The dispatch of `MovieExecution::Execute` on `args[0]`: the procedure call
whose body the selected branch builds, or the reason with which the wrapper
aborts without building a body. The run faults when `std::stoi` or `std::stoll`
throws. -/
def MovieExecution.procedureOf (args : List String) : Except Fault (Except String movie.Procedure) :=
  if args.isEmpty then pure (Except.error "Invalid code")
  else
    let txn_name := args.headD ""
    if txn_name = "new_review" then
      if args.length ≠ 8 then pure (Except.error "NewReview Txn - Invalid number of arguments")
      else do
        let a_username ← argAt args 1
        let a_title ← argAt args 2
        let a_rating ← stoi (← argAt args 3)
        let a_timestamp ← stoll (← argAt args 4)
        let a_req_id ← stoll (← argAt args 5)
        let a_text ← argAt args 6
        let a_review_id ← stoll (← argAt args 7)
        pure (Except.ok (movie.Procedure.new_review a_req_id a_rating a_username a_title a_timestamp
          a_review_id a_text))
    else pure (Except.error "Unknown procedure name")

/-- `MovieExecution::Execute` on a storage: the dispatch, then the body's
`Execute()`, then abort or commit. -/
def MovieExecution.Execute (storage : movie.StorageAdapter) (txn : Transaction) :
    Except Fault (Executed movie.StorageAdapter) :=
  match MovieExecution.procedureOf txn.args with
  | Except.error f => Except.error f
  | Except.ok (Except.error reason) => Except.ok (abortWith storage txn reason)
  | Except.ok (Except.ok p) =>
    let r := movie.executeBody storage p
    Except.ok (conclude movie.applyWrites storage txn (movie.family p) r.ret r.error r.ops)

/-- What commit/abort atomicity says about one run of a wrapper on `storage`,
where `bodyTrue` tells whether a body was built and its `Execute()` returned
true: the wrapper returns; the transaction is COMMITTED with `ApplyWrites`
invoked exactly when `bodyTrue`; otherwise it is ABORTED with a non-empty
reason, `ApplyWrites` is not invoked and the storage is the one given. -/
def WrapperAtomic {σ : Type} (storage : σ) (run : Except Fault (Executed σ)) (bodyTrue : Bool) : Prop :=
  ∃ r, run = Except.ok r ∧
    ((r.txn.status = TransactionStatus.COMMITTED ∧ r.applied = true) ↔ bodyTrue = true) ∧
    (bodyTrue = false →
      r.txn.status = TransactionStatus.ABORTED ∧ r.txn.abort_reason ≠ "" ∧ r.applied = false ∧
        r.storage = storage)

/-- Whether the dispatch selected a procedure whose body's `Execute()` returned
true. -/
def bodyReturnedTrue {π : Type} (q : Except String π) (ret : π → Bool) : Bool :=
  match q with
  | Except.ok p => ret p
  | Except.error _ => false


/-- A PPS storage with 100 products, 100 parts of amount 10, and two slots per
product and per supplier (slot `s` holds part `s`); every write is accepted. -/
def pps.sampleStorage : pps.StorageAdapter :=
  { product := fun i => if 1 ≤ i ∧ i ≤ 100 then some "product" else none,
    part := fun i => if 1 ≤ i ∧ i ≤ 100 then some (10, "part") else none,
    productParts := fun p s => if 1 ≤ p ∧ p ≤ 100 ∧ 1 ≤ s ∧ s ≤ 2 then some s else none,
    supplierParts := fun p s => if 1 ≤ p ∧ p ≤ 100 ∧ 1 ≤ s ∧ s ≤ 2 then some s else none,
    writeOk := fun _ => true }

/-- A SmallBank storage with two customers: "Client17" with id 17, checking 500
and savings 300, and "Client2" with id 2, checking 100 and savings 7; every
write is accepted. -/
def smallbank.sampleStorage : smallbank.StorageAdapter :=
  { accounts := fun n => if n = "Client17" then some 17 else if n = "Client2" then some 2 else none,
    checking := fun i => if i = 17 then some 500 else if i = 2 then some 100 else none,
    savings := fun i => if i = 17 then some 300 else if i = 2 then some 7 else none,
    writeOk := fun _ => true }

/-- A Movie storage with one user and one movie; every write is accepted. -/
def movie.sampleStorage : movie.StorageAdapter :=
  { users := fun n =>
      if n = "000000000001_username" then
        some { user_id := 1, password := "password_0001", last_name := "last_name_0001",
               first_name := "first_name_0001", reviews := 0 }
      else none,
    movies := fun t => if t = "000000000001_Avatar" then some "0001" else none,
    reviews := fun _ => none,
    writeOk := fun _ => true }


/-- The procedure names of `SmallBankExecution::Execute` with the value that
the branch requires of `args.size()` (the name included). -/
def SmallBankExecution.argCount : List (String × Nat) :=
  [("getCustomerIdByName", 2), ("balance", 3), ("depositChecking", 4), ("transactionSaving", 4),
   ("amalgamate", 5), ("writecheck", 4)]

/-- The procedure name of `MovieExecution::Execute` with the value that the
branch requires of `args.size()` (the name included). -/
def MovieExecution.argCount : List (String × Nat) := [("new_review", 8)]


/-- Whether a value is representable as `int32_t`. -/
def fitsInt32 (i : Int) : Bool := decide (-(2 ^ 31) ≤ i) && decide (i < 2 ^ 31)

/-- The storage after a SmallBank procedure whose body's `Execute()` returned
true and whose staged writes `ApplyWrites` applied; `none` when `Execute()`
returned false. -/
def smallbank.afterCommit (a : smallbank.StorageAdapter) (p : smallbank.Procedure) :
    Option smallbank.StorageAdapter :=
  let r := smallbank.executeBody a p
  if r.ret then some (smallbank.applyWrites r.ops a) else none

/-- The storage after a PPS procedure whose body's `Execute()` returned true and
whose staged writes `ApplyWrites` applied; `none` when `Execute()` returned
false. -/
def pps.afterCommit (kPartsPerProduct kPartsPerSupplier : Nat) (a : pps.StorageAdapter)
    (p : pps.Procedure) : Option pps.StorageAdapter :=
  let r := pps.executeBody kPartsPerProduct kPartsPerSupplier a p
  if r.ret then some (pps.applyWrites r.ops a) else none


namespace pps

/-- The staged writes among the recorded facade calls. -/
def writesOf (ops : List Op) : List Op :=
  ops.filter fun op =>
    match op with
    | Op.select _ => false
    | Op.update _ _ => true

/-- The amount of a part in a storage (0 when the row does not exist). -/
def amountOf (a : StorageAdapter) (id : Int) : Int :=
  match a.part id with
  | some row => row.1
  | none => 0

end pps

/-- What it means that the amounts of the listed parts moved by `delta` from
storage `a` to storage `a'`: every listed part has its previous amount plus
`delta` and its previous name, every part not listed and every other table are
unchanged. -/
def pps.AmountsShifted (delta : Int) (ids : List Int) (a a' : pps.StorageAdapter) : Prop :=
  (∀ id ∈ ids, ∀ (amt : Int) (name : String),
    a.part id = some (amt, name) → a'.part id = some (amt + delta, name)) ∧
  (∀ id, id ∉ ids → a'.part id = a.part id) ∧
  a'.product = a.product ∧ a'.productParts = a.productParts ∧ a'.supplierParts = a.supplierParts


/-- The scenario of the specification for the capacity check: user "1" (stored
under its formatted name), hotel 1 with capacity 2, and a ReservationCount of 1
for hotel 1 on 01-06-2020; every write is accepted. -/
def dsh.sampleStorage : dsh.StorageAdapter :=
  { users := fun u => if u = "01_________________1" then some "1" else none,
    hotels := fun i =>
      if i = 1 then some { lat := 0, lon := 0, rating := 3, price := 100, capacity := 2 } else none,
    reservationCounts := fun h d => if h = 1 ∧ d = "01-06-2020" then some 1 else none,
    writeOk := fun _ => true }


namespace dsh

/-! ### recommendation -/

/-- `kMaxHotelPrice` of `utils.h`. -/
def kMaxHotelPrice : ℚ := 10000

/-- `RecommendTxn::RecommendationType`. -/
inductive RecommendationType
  | DISTANCE
  | RATING
  | PRICE
  deriving DecidableEq, Repr

/-- `RecommendTxn::RecommendationScalar`: the cells of one hotel read. The
`Float64` cells hold finite doubles, the rational numbers they stand for, and
are compared as such. -/
structure RecommendationScalar where
  h_id : Int
  lat : ℚ
  lon : ℚ
  rating : ℚ
  price : ℚ
  deriving DecidableEq, Repr

/-- `RecommendTxn` object. An entry of `read_recommendations_` is `none` while
its scalar pointers are null. -/
structure RecommendTxn extends TxnBase where
  type_ : RecommendationType
  lat_ : ℚ
  lon_ : ℚ
  hotel_ids_ : List Int
  read_recommendations_ : List (Option RecommendationScalar)
  chosen_hotel_id_ : Int
  chosen_dist_ : ℚ
  chosen_price_ : ℚ
  chosen_rating_ : ℚ

/-- `RecommendTxn::RecommendTxn`: at most `kRecommendationReadSize` ids are
copied; the chosen values start at `0xFFFFFFFF`, `kMaxHotelPrice` and 0. -/
def RecommendTxn.new (a : StorageAdapter) (type : RecommendationType) (lat lon : ℚ)
    (h_ids : List Int) : RecommendTxn :=
  { TxnBase.fresh a with
    type_ := type, lat_ := lat, lon_ := lon, hotel_ids_ := h_ids.take kRecommendationReadSize,
    read_recommendations_ := List.replicate kRecommendationReadSize none,
    chosen_hotel_id_ := 0, chosen_dist_ := 0xFFFFFFFF, chosen_price_ := kMaxHotelPrice,
    chosen_rating_ := 0 }

/-- Body of the loop of `RecommendTxn::Read` for the id at index `i`: the whole
Hotel row is selected (its first cell is the id) and stored in slot `i`. -/
def RecommendTxn.readHotel (s : (Bool × RecommendTxn) × Nat) (h_id : Int) :
    (Bool × RecommendTxn) × Nat :=
  let t := s.1.2
  let b := t.toTxnBase.record (Op.select (RowKey.hotel h_id))
  match t.storage.hotels h_id with
  | some row =>
    ((s.1.1, { t with
        toTxnBase := b,
        read_recommendations_ := t.read_recommendations_.set s.2
          (some { h_id := h_id, lat := row.lat, lon := row.lon, rating := row.rating,
                  price := row.price }) }), s.2 + 1)
  | none => ((false, { t with toTxnBase := b.fail "Cannot find recommendation hotel" }), s.2 + 1)

/-- `RecommendTxn::Read`. When fewer than `kRecommendationReadSize` ids were
given the array of ids holds null scalars and the run is a fault. -/
def RecommendTxn.Read (t : RecommendTxn) : Bool × RecommendTxn :=
  let r := (t.hotel_ids_.foldl RecommendTxn.readHotel ((true, t), 0)).1
  if t.hotel_ids_.length < kRecommendationReadSize then (false, { r.2 with fault := true })
  else r

/-- One step of a loop of `RecommendTxn::Compute` on the pair (chosen value,
chosen hotel id): the hotel replaces the choice when its value is strictly
better. -/
def RecommendTxn.choose (better : ℚ → ℚ → Bool) (value : RecommendationScalar → ℚ)
    (chosen : ℚ × Int) (s : RecommendationScalar) : ℚ × Int :=
  if better (value s) chosen.1 then (value s, s.h_id) else chosen

/-- `RecommendTxn::Compute`. A null entry of `read_recommendations_` is
dereferenced by the loop, which is a fault; `fl` is the rounding of `double`
arithmetic inside `dist`. -/
def RecommendTxn.Compute (fl : ℚ → ℚ) (t : RecommendTxn) : RecommendTxn :=
  match t.read_recommendations_.allSome with
  | none => { t with fault := true }
  | some rows =>
    match t.type_ with
    | RecommendationType.DISTANCE =>
      let r := rows.foldl
        (RecommendTxn.choose (fun d c => decide (d < c)) fun s => dist fl s.lat s.lon t.lat_ t.lon_)
        (t.chosen_dist_, t.chosen_hotel_id_)
      { t with chosen_dist_ := r.1, chosen_hotel_id_ := r.2 }
    | RecommendationType.PRICE =>
      let r := rows.foldl (RecommendTxn.choose (fun p c => decide (p < c)) fun s => s.price)
        (t.chosen_price_, t.chosen_hotel_id_)
      { t with chosen_price_ := r.1, chosen_hotel_id_ := r.2 }
    | RecommendationType.RATING =>
      let r := rows.foldl (RecommendTxn.choose (fun p c => decide (p > c)) fun s => s.rating)
        (t.chosen_rating_, t.chosen_hotel_id_)
      { t with chosen_rating_ := r.1, chosen_hotel_id_ := r.2 }

/-- `RecommendTxn::Write`. -/
def RecommendTxn.Write (t : RecommendTxn) : Bool × RecommendTxn := (true, t)

/-- The `RecommendTxn` body. -/
def RecommendTxn.body (fl : ℚ → ℚ) : TxnBody RecommendTxn :=
  { Read := RecommendTxn.Read, Compute := RecommendTxn.Compute fl, Write := RecommendTxn.Write }

/-- The value that `Compute` minimises for a recommendation type and a query
point: the value that `dist` returns, the price, or the negated rating (the
rating is maximised, so its negation is minimised). -/
def RecommendTxn.cost (fl : ℚ → ℚ) (type : RecommendationType) (lat lon : ℚ)
    (s : RecommendationScalar) : ℚ :=
  match type with
  | RecommendationType.DISTANCE => dist fl s.lat s.lon lat lon
  | RecommendationType.PRICE => s.price
  | RecommendationType.RATING => -s.rating

/-- The cost with which `Compute` starts for a recommendation type: a hotel is
chosen only when its cost is strictly below it. -/
def RecommendTxn.startCost : RecommendationType → ℚ
  | RecommendationType.DISTANCE => 0xFFFFFFFF
  | RecommendationType.PRICE => kMaxHotelPrice
  | RecommendationType.RATING => 0

/-- A storage with hotels 1 to 10, all of rating 0, price 10000 and coordinates
(100000, 0); every write is accepted. -/
def recommendStorage : StorageAdapter :=
  { users := fun _ => none,
    hotels := fun i =>
      if 1 ≤ i ∧ i ≤ 10 then
        some { lat := 100000, lon := 0, rating := 0, price := 10000, capacity := 10 }
      else none,
    reservationCounts := fun _ _ => none,
    writeOk := fun _ => true }

/-- A storage with hotels 1 to 10, where hotel `i` has coordinates `(i, 0)`,
rating `i mod 4` and price `100 - 7 * (i mod 3)`; every write is accepted. -/
def variedStorage : StorageAdapter :=
  { users := fun _ => none,
    hotels := fun i =>
      if 1 ≤ i ∧ i ≤ 10 then
        some { lat := (i : ℚ), lon := 0, rating := ((i % 4 : Int) : ℚ),
               price := ((100 - 7 * (i % 3) : Int) : ℚ), capacity := 10 }
      else none,
    reservationCounts := fun _ _ => none,
    writeOk := fun _ => true }

end dsh


/-- The cells that `RecommendTxn::Read` keeps of the Hotel row of an id (zeros
when the row does not exist). -/
def dsh.recommendationOf (a : dsh.StorageAdapter) (h_id : Int) : dsh.RecommendationScalar :=
  match a.hotels h_id with
  | some row => { h_id := h_id, lat := row.lat, lon := row.lon, rating := row.rating, price := row.price }
  | none => { h_id := h_id, lat := 0, lon := 0, rating := 0, price := 0 }


namespace dsh

/-! ### The 365-day calendar -/

/-- The number of days of month `m` (1 to 12) in the calendar without leap
years. -/
def daysInMonth (m : Int) : Int := months_in_year.getD (m - 1).toNat 0

/-- Whether `(d, m, y)` names a day of the calendar without leap years. -/
def validDay (d m y : Int) : Prop := 1 ≤ m ∧ m ≤ 12 ∧ 1 ≤ d ∧ d ≤ daysInMonth m ∧ 0 ≤ y

/-- The number of days of a year that lie before month `m`. -/
def daysBeforeMonth (m : Int) : Int := (months_in_year.take (m - 1).toNat).sum

/-- The day number `N` of a day: days are numbered consecutively, 365 to a
year. -/
def dayNumber (d m y : Int) : Int := 365 * y + daysBeforeMonth m + d

/-- The day after a day of the calendar. -/
def nextDay (c : Int × Int × Int) : Int × Int × Int :=
  if c.1 < daysInMonth c.2.1 then (c.1 + 1, c.2.1, c.2.2)
  else if c.2.1 < 12 then (1, c.2.1 + 1, c.2.2)
  else (1, 1, c.2.2 + 1)

/-- The day `k` days after a day of the calendar. -/
def addDays : Nat → Int × Int × Int → Int × Int × Int
  | 0, c => c
  | k + 1, c => addDays k (nextDay c)

/-- The `dd-mm-yyyy` text of a day. -/
def formatDay (c : Int × Int × Int) : String := format_date c.1 c.2.1 c.2.2

end dsh


/-- The number of nights between two days: `max(0, N(out) - N(in))`. -/
def dsh.nights (d1 m1 y1 d2 m2 y2 : Int) : Nat :=
  (dsh.dayNumber d2 m2 y2 - dsh.dayNumber d1 m1 y1).toNat


/-! ## Workload generators

`workload/movie.cpp`, `workload/pps.cpp`, `workload/smallbank.cpp` and
`workload/dsh.cpp`. The values a generator draws from its random engine are
arguments of the definitions. -/

/-- `movie::addLeadingZeros` (`execution/movie/load_tables.h`): `zeroes` copies
of `'0'` are inserted in front; a negative `zeroes` is converted to a huge
`size_t` and `std::string::insert` throws. -/
def movie.addLeadingZeros (totallength : Nat) (original : String) : Except Fault String :=
  if totallength < original.length then Except.error (Fault.exception "std::length_error")
  else Except.ok (String.mk (List.replicate (totallength - original.length) '0') ++ original)

/-- `movie::addTrailingSpaces` (`execution/movie/load_tables.h`). -/
def movie.addTrailingSpaces (totallength : Nat) (original : String) : Except Fault String :=
  if totallength < original.length then Except.error (Fault.exception "std::length_error")
  else Except.ok (original ++ String.mk (List.replicate (totallength - original.length) ' '))

/-- The procedure that `MovieWorkload::NewReview` adds to the transaction
(`add_args` calls, in order). -/
def MovieWorkload.procedureArgs (req_id rating : Int) (username title : String)
    (timestamp review_id : Int) (text : String) : List String :=
  ["newReview", to_string req_id, to_string rating, username, title, to_string timestamp,
   to_string review_id, text]

/-- `MovieWorkload::NewReview` once the ids, the rating and the text are drawn:
the call of the key-generation `NewReviewTxn` (its constructor arguments) and the
argument list added to the transaction. `movies` is the title table of
`constants.h`, which is not part of the sources. -/
def MovieWorkload.NewReview (movies : Int → String) (user_id reviewid titleindex rating : Int)
    (text : String) : Except Fault (movie.Procedure × List String) := do
  let req_id := reviewid
  let review_id := reviewid
  let timestamp := reviewid
  let userid ← movie.addLeadingZeros 12 (to_string user_id)
  let username := userid ++ "_username"
  let titleidx ← movie.addLeadingZeros 12 (to_string titleindex)
  let title ← movie.addTrailingSpaces 100 (titleidx ++ "_" ++ movies titleindex)
  pure (movie.Procedure.new_review req_id rating username title timestamp review_id text,
    MovieWorkload.procedureArgs req_id rating username title timestamp review_id text)


/-! ### PPS generator (`workload/pps.cpp`) -/

/-- `NURand` of `workload/pps.cpp` after its two draws: `rand1` is drawn from
`[0, A]` with `A = skew * (y - x + 1)` and `rand2` from `[x, y]`. The only call
has `x = 0`, so both draws are non-negative; `skew` only bounds `rand1`. -/
def PPSWorkload.NURand (rand1 rand2 : Nat) (x y : Int) : Int :=
  Int.tmod ((rand1 ||| rand2 : Nat) : Int) (y - x + 1) + x

/-- What one call of `selectProduct` draws from `rg_`: the two Bernoulli
results, the Bernoulli result for the sunflower redirection (drawn when a target
region is set), the uniform region (drawn when it is needed) and the two draws
of `NURand`. -/
structure PPSWorkload.Draws where
  is_mh : Bool
  is_mp : Bool
  follow_sunflower : Bool
  region : Int
  rand1 : Nat
  rand2 : Nat

/-- The region selection of `selectProduct`. -/
def PPSWorkload.chosenRegion (sunflower_target_region_ nearest local_region_ : Int)
    (d : PPSWorkload.Draws) : Int :=
  let follow_sunflower := if sunflower_target_region_ = -1 then false else d.follow_sunflower
  if follow_sunflower then sunflower_target_region_
  else if !d.is_mh && decide (nearest = 1) then local_region_
  else d.region

/-- The category of `selectProduct`: `(is_mh << 1) | is_mp`. -/
def PPSWorkload.cateogry (d : PPSWorkload.Draws) : Nat :=
  (d.is_mh.toNat <<< 1) ||| d.is_mp.toNat

/-- The value that `selectProduct` passes to `NURand`'s result, `choice`. -/
def PPSWorkload.choice (num_products num_partitions_ num_regions_ : Int) (d : PPSWorkload.Draws) :
    Int :=
  let total_blocks_per_cateogory := Int.tdiv num_products (4 * num_partitions_ * num_regions_)
  PPSWorkload.NURand d.rand1 d.rand2 0 (total_blocks_per_cateogory * num_partitions_ - 1)

/-- `PPSWorkload::selectProduct`; `none` stands for the failing `CHECK` on the
product id. -/
def PPSWorkload.selectProduct (num_products num_partitions_ num_regions_ : Int)
    (sunflower_target_region_ nearest local_region_ : Int) (d : PPSWorkload.Draws) : Option Int :=
  let chosen_region := PPSWorkload.chosenRegion sunflower_target_region_ nearest local_region_ d
  let choice := PPSWorkload.choice num_products num_partitions_ num_regions_ d
  let chosen_block_within_cateogory := Int.tdiv choice num_partitions_
  let chosen_partition := Int.tmod choice num_partitions_
  let cateogry : Int := (PPSWorkload.cateogry d : Int)
  let product_id := chosen_block_within_cateogory * (4 * num_partitions_ * num_regions_) +
    chosen_region * num_partitions_ + chosen_partition + 1 + (cateogry * num_partitions_ * num_regions_)
  if product_id > 0 ∧ product_id ≤ num_products then some product_id else none


/-! ### SmallBank loader threads (`smallbank::LoadTables`) -/

/-- The value that an `int` expression leaves when its exact result is `i`: `i`
itself when it fits 32 bits, and otherwise the two's-complement value (signed
overflow is undefined in C++; this is what the usual targets compute). -/
def wrapInt32 (i : Int) : Int := toInt32 (ofInt32 i)

/-- The pairs `(range_start, range_end)` that `smallbank::LoadTables` hands to
its threads `i = 0 .. num_threads - 1`; `range`, `i * range` and
`(i + 1) * range` are `int` values (`i + 1` is at most `num_threads`). -/
def smallbank.LoadTables.ranges (num_clients num_threads : Int) : List (Int × Int) :=
  let range := wrapInt32 (Int.tdiv num_clients num_threads + 1)
  (List.range num_threads.toNat).map fun (i : Nat) =>
    (wrapInt32 ((i : Int) * range), min (wrapInt32 (((i : Int) + 1) * range)) num_clients)

/-- `smallbank::LoadTables`: the rows inserted by the threads, listed thread
after thread. Every thread runs `LoadAccounts` on its own range and draws the
balances from its own default-constructed engine, whose `k`-th value is
`bal_rnd k`; `num_regions` is only logged. -/
def smallbank.LoadTables (charSigned : Bool) (bal_rnd : Nat → Int)
    (num_clients num_partitions partition num_threads : Int) : List smallbank.Row :=
  (smallbank.LoadTables.ranges num_clients num_threads).flatMap fun r =>
    smallbank.PartitionedSmallBankDataLoader.LoadAccounts charSigned bal_rnd r.1 r.2 partition
      num_partitions

/-- A loaded row with its balance cell blanked: the row's table, its key and,
for an Accounts row, the customer id. -/
def smallbank.Row.forgetBalance : smallbank.Row → smallbank.Row
  | smallbank.Row.accounts name id => smallbank.Row.accounts name id
  | smallbank.Row.checking id _ => smallbank.Row.checking id 0
  | smallbank.Row.savings id _ => smallbank.Row.savings id 0

/-- The rows, balances blanked, that the loader of partition `partition_`
inserts for client `id`. -/
def smallbank.rowsOfClient (charSigned : Bool) (partition_ num_partitions_ : Int) (id : Int) :
    List smallbank.Row :=
  (if smallbank.PartitionedSmallBankDataLoader.murmurhash3 charSigned
        (bytesOf (smallbank.clientName id)) % ofInt32 num_partitions_ = ofInt32 partition_ then
      [smallbank.Row.accounts (smallbank.clientName id) id]
    else []) ++
  (if Int.tmod id num_partitions_ = partition_ then
      [smallbank.Row.checking id 0, smallbank.Row.savings id 0]
    else [])


/-- `PPSWorkload::updateForSunflowerScenario`: the value of
`sunflower_redirect_pct_` after the call. The quotients
`1.0 * elapsed_time / duration` and `sunflower_redirect_pct_ / 100.0` are
doubles in the source; they are taken here as exact rationals. -/
def PPSWorkload.updateForSunflowerScenario (sunflower_target_region_ sunflower_redirect_pct_ : Int)
    (duration elapsed_time : Int) : Int :=
  if sunflower_target_region_ = -1 then sunflower_redirect_pct_
  else if (1 : ℚ) * (elapsed_time : ℚ) / (duration : ℚ) > (sunflower_redirect_pct_ : ℚ) / 100 then
    sunflower_redirect_pct_ + 10
  else sunflower_redirect_pct_

/-- The value of `sunflower_redirect_pct_` after a sequence of calls
`updateForSunflowerScenario(duration, elapsed_time)` on a generator that the
constructor has just built (`sunflower_redirect_pct_(0)`). -/
def PPSWorkload.sunflowerRun (sunflower_target_region_ : Int) (calls : List (Int × Int)) : Int :=
  calls.foldl
    (fun pct c => PPSWorkload.updateForSunflowerScenario sunflower_target_region_ pct c.1 c.2) 0


/-! ### DSH generator (`workload/dsh.cpp`) -/

/-- The pieces of `str` between the characters of `delims`; `cur` holds the
piece being read, last character first. -/
def SplitLoop (delims : List Char) : List Char → List Char → List String
  | [], cur => [String.mk cur.reverse]
  | c :: cs, cur =>
    if c ∈ delims then String.mk cur.reverse :: SplitLoop delims cs []
    else SplitLoop delims cs (c :: cur)

/-- Modelled from the spec: `Split` (`common/string_utils.h`) is not part of the
sources. A row of the sunflower file is `t, w_0, ..., w_{R-1}`: the fields are
the pieces between the delimiters. -/
def Split (str delims : String) : List String :=
  SplitLoop delims.toList str.toList []

/-- `DeathStarHotelWorkload::load_sunflower` on the lines of the sunflower file:
the entries appended to `sf_weights_`, or `none` when a line does not have
`num_regions + 1` fields (`LOG(FATAL)`). `stod` stands for `std::stod`, whose
values are doubles. -/
def DeathStarHotelWorkload.load_sunflower {δ : Type} (stod : String → δ) (num_regions : Nat)
    (lines : List String) : Option (List (δ × List δ)) :=
  lines.mapM fun line =>
    let values := Split line ","
    if values.length ≠ num_regions + 1 then none
    else
      let temp := (List.range num_regions).map fun i => stod (values.getD i "")
      some (stod (values.getD 0 ""), temp)


/-! ### Product-to-parts mapping of the PPS loader -/

/-- `v[i]` on a `std::vector` with an `int` index; `none` when the index is
outside the vector (the behaviour is then undefined). -/
def vectorAt {α : Type} (v : List α) (i : Int) : Option α :=
  if i < 0 then none else v[i.toNat]?

/-- `remote_regions_` as the constructor of `PartitionedPPSDataLoader` builds
it: row `i` lists the regions `j ≠ i` in increasing order. -/
def pps.PartitionedPPSDataLoader.remoteRegions (num_regions_ : Int) : List (List Int) :=
  (List.range num_regions_.toNat).map fun (i : Nat) =>
    ((List.range num_regions_.toNat).map fun (j : Nat) => (j : Int)).filter fun j =>
      decide ((i : Int) ≠ j)

/-- `remote_partitions_` as the constructor builds it: the partitions
`i ≠ local_partition_` in increasing order. -/
def pps.PartitionedPPSDataLoader.remotePartitions (num_partitions_ local_partition_ : Int) :
    List Int :=
  ((List.range num_partitions_.toNat).map fun (i : Nat) => (i : Int)).filter fun i =>
    decide (i ≠ local_partition_)

/-- `chooseRandomPart` once `part_index_within_class` is drawn. -/
def pps.PartitionedPPSDataLoader.chooseRandomPart (num_partitions_ num_regions_ : Int)
    (part_index_within_class chosen_region chosen_partition : Int) : Int :=
  let normalized_part_id := num_partitions_ * chosen_region + chosen_partition + 1
  (part_index_within_class - 1) * num_partitions_ * num_regions_ + normalized_part_id

/-- The partition chosen in one iteration of the category 2 and category 4
branches of `Load`, from the drawn `chosen_partition_index`. -/
def pps.PartitionedPPSDataLoader.chosenPartition (remote_partitions_ : List Int)
    (max_partitions_ local_partition_ chosen_partition_index : Int) : Option Int :=
  if chosen_partition_index = max_partitions_ - 1 then some local_partition_
  else vectorAt remote_partitions_ chosen_partition_index

/-- The region chosen in one iteration of the category 3 and category 4 branches
of `Load`, from the drawn `chosen_region_index`. -/
def pps.PartitionedPPSDataLoader.chosenRegion (remote_regions_ : List (List Int))
    (max_regions_ product_region chosen_region_index : Int) : Option Int :=
  if chosen_region_index = max_regions_ - 1 then some product_region
  else (vectorAt remote_regions_ product_region).bind fun row => vectorAt row chosen_region_index

/-- What one iteration of a category branch draws from `rg_`. -/
structure pps.PartitionedPPSDataLoader.PartDraw where
  chosen_partition_index : Int
  chosen_region_index : Int
  part_index_within_class : Int

/-- One iteration `i` of the branch `(count_product_parts / num_regions_) % 4`
of `Load` for a product of region `product_region`: the part id inserted, or
`none` when a remote list is read outside its bounds. `remote_partitions_` and
`remote_regions_` are the lists as the preceding `std::shuffle` calls left
them. -/
def pps.PartitionedPPSDataLoader.selectPart (num_partitions_ num_regions_ local_partition_ : Int)
    (max_regions_ max_partitions_ : Int) (remote_partitions_ : List Int)
    (remote_regions_ : List (List Int)) (category : Nat) (product_region : Int)
    (d : pps.PartitionedPPSDataLoader.PartDraw) : Option Int :=
  match category with
  | 0 =>
    some (pps.PartitionedPPSDataLoader.chooseRandomPart num_partitions_ num_regions_
      d.part_index_within_class product_region local_partition_)
  | 1 =>
    (pps.PartitionedPPSDataLoader.chosenPartition remote_partitions_ max_partitions_
      local_partition_ d.chosen_partition_index).map fun chosen_partition =>
      pps.PartitionedPPSDataLoader.chooseRandomPart num_partitions_ num_regions_
        d.part_index_within_class product_region chosen_partition
  | 2 =>
    (pps.PartitionedPPSDataLoader.chosenRegion remote_regions_ max_regions_ product_region
      d.chosen_region_index).map fun chosen_region =>
      pps.PartitionedPPSDataLoader.chooseRandomPart num_partitions_ num_regions_
        d.part_index_within_class chosen_region local_partition_
  | _ =>
    (pps.PartitionedPPSDataLoader.chosenPartition remote_partitions_ max_partitions_
      local_partition_ d.chosen_partition_index).bind fun chosen_partition =>
    (pps.PartitionedPPSDataLoader.chosenRegion remote_regions_ max_regions_ product_region
      d.chosen_region_index).map fun chosen_region =>
      pps.PartitionedPPSDataLoader.chooseRandomPart num_partitions_ num_regions_
        d.part_index_within_class chosen_region chosen_partition

/-- The parts selected for one product: the `kPartsPerProduct` iterations of its
category branch, one draw each. -/
def pps.PartitionedPPSDataLoader.selectParts (num_partitions_ num_regions_ local_partition_ : Int)
    (max_regions_ max_partitions_ : Int) (remote_partitions_ : List Int)
    (remote_regions_ : List (List Int)) (count_product_parts : Int) (product_id : Int)
    (draws : List pps.PartitionedPPSDataLoader.PartDraw) : Option (List Int) :=
  let product_region := pps.PartitionedPPSDataLoader.computeRegion num_partitions_ num_regions_ product_id
  let category := (Int.tmod (Int.tdiv count_product_parts num_regions_) 4).toNat
  draws.mapM fun d =>
    pps.PartitionedPPSDataLoader.selectPart num_partitions_ num_regions_ local_partition_
      max_regions_ max_partitions_ remote_partitions_ remote_regions_ category product_region d


/-! ### Dependent transactions of the generators -/

/-- Modelled from the spec: an entry of `keys[]` of the `Transaction` wire
message as far as the generators read it, the key bytes and
`value_entry.value`. -/
structure KeyEntry where
  key : Bytes
  value : Bytes
  deriving DecidableEq, Repr

/-- A transaction that came back to the generator after its execution: the key
entries with their values and `code.procedures[].args`. -/
structure ReturnedTransaction where
  keys : List KeyEntry
  procedures : List (List String)
  deriving DecidableEq, Repr

/-- `std::memcpy(&x, bytes.data() + offset, sizeof(int))`: the `int` stored
little-endian at `offset`; `none` when the four bytes do not all lie inside
`bytes`. -/
def memcpyInt (bytes : Bytes) (offset : Nat) : Option Int :=
  (readU32 (bytes.drop offset)).map toInt32

/-- Modelled from the spec: `TransactionProfile::DependencyType`
(`workload/workload.h` is not part of the sources). -/
inductive DependencyType
  | NONE
  | FIRST_PHASE
  | SECOND_PHASE
  deriving DecidableEq, Repr

/-- The values of `TransactionProfile::TransactionType` that the SmallBank
generator assigns. -/
inductive TransactionType
  | NOTHING
  | BALANCE
  | DEPOSIT_CHECKING
  | TRANSACTION_SAVING
  | AMALGAMATE
  | WRITECHECK
  deriving DecidableEq, Repr

/-- Modelled from the spec: `TransactionProfile`, the generator's out-of-band
annotation. `transaction_type` and `dependency_type` are `none` as long as the
generator has not assigned them. -/
structure TransactionProfile where
  client_txn_id : Nat
  is_multi_partition : Bool
  is_multi_home : Bool
  is_foreign_single_home : Bool
  transaction_type : Option TransactionType
  dependency_type : Option DependencyType
  deriving DecidableEq, Repr

/-- What one call of `NextTransaction` returns: the facade calls that the
key-generation adapter recorded (their keys become `keys[]` of the
transaction), the argument list of the procedure added to the transaction, and
the profile. -/
structure Emitted (ω : Type) where
  ops : List ω
  procedure : List String
  profile : TransactionProfile

/-- The members of `PPSWorkload` that `NextTransaction` uses; `nearest` is the
parameter `params_.GetInt32(NEAREST)`. -/
structure PPSWorkload where
  num_products_ : Int
  num_parts : Int
  num_partitions_ : Int
  num_regions_ : Int
  local_region_ : Int
  nearest : Int
  sunflower_target_region_ : Int
  sunflower_redirect_pct_ : Int
  client_txn_id_counter_ : Nat
  prev_txn_ : Option ReturnedTransaction
  parts_to_retrieve_ : List Int

/-- What one call of `PPSWorkload::NextTransaction` draws from `rg_`: the
transaction type (`select_pps_txn(rg_)`), the draws of `selectProduct` and the
part id of `getPartTransaction`. -/
structure PPSWorkload.Rand where
  txn : Nat
  product : PPSWorkload.Draws
  part_id : Int

/-- The constructor of `PPSWorkload`: `parts_to_retrieve_` holds
`1 .. kPartsPerProduct`, no previous transaction is held and the redirect
percentage is 0. -/
def PPSWorkload.new (kPartsPerProduct : Nat) (num_products num_parts num_partitions num_regions : Int)
    (local_region nearest sunflower_target_region : Int) : PPSWorkload :=
  { num_products_ := num_products, num_parts := num_parts, num_partitions_ := num_partitions,
    num_regions_ := num_regions, local_region_ := local_region, nearest := nearest,
    sunflower_target_region_ := sunflower_target_region, sunflower_redirect_pct_ := 0,
    client_txn_id_counter_ := 0, prev_txn_ := none,
    parts_to_retrieve_ := (List.range kPartsPerProduct).map fun (i : Nat) => (i : Int) + 1 }

/-- Body of the loop of `NextTransaction` over the keys of `prev_txn_`: the slot
index is read at offset 5 of the key, checked, and the value is copied into
`parts_to_retrieve_[index - 1]`. `none` when the `CHECK` fails or a read or the
write is out of bounds. -/
def PPSWorkload.retrievePart (kPartsPerProduct : Nat) (parts_to_retrieve_ : List Int)
    (k : KeyEntry) : Option (List Int) := do
  let index ← memcpyInt k.key 5
  if index > 0 ∧ index ≤ (kPartsPerProduct : Int) then
    let v ← memcpyInt k.value 0
    if (index - 1).toNat < parts_to_retrieve_.length then
      some (parts_to_retrieve_.set (index - 1).toNat v)
    else none
  else none

/-- The profile with which `NextTransaction` starts. -/
def PPSWorkload.startProfile (w : PPSWorkload) : TransactionProfile :=
  { client_txn_id := w.client_txn_id_counter_, is_multi_partition := false, is_multi_home := false,
    is_foreign_single_home := false, transaction_type := none,
    dependency_type := some DependencyType.NONE }

/-- The transaction built around one key-generation pass: the recorded calls and
the procedure `name, args...`. -/
def PPSWorkload.emit (kPartsPerProduct kPartsPerSupplier : Nat) (wr : pps.Op → Bool)
    (pro : TransactionProfile) (p : pps.Procedure) (args : List String) : Emitted pps.Op :=
  { ops := pps.keyGenPass kPartsPerProduct kPartsPerSupplier (pps.keyGenAdapter wr) p,
    procedure := args, profile := pro }

/-- `PPSWorkload::orderProductTransaction` for a product id other than `-1`
(second phase); `none` when the `CHECK` on the category fails. -/
def PPSWorkload.orderProductTransaction (kPartsPerProduct kPartsPerSupplier : Nat)
    (wr : pps.Op → Bool) (w : PPSWorkload) (pro : TransactionProfile) (product_id : Int) :
    Option (Emitted pps.Op) :=
  let category := Int.tdiv (Int.tmod (product_id - 1) (4 * w.num_partitions_ * w.num_regions_))
    (w.num_partitions_ * w.num_regions_)
  if category ≥ 0 ∧ category < 4 then
    some (PPSWorkload.emit kPartsPerProduct kPartsPerSupplier wr pro
      (pps.Procedure.order_product product_id w.parts_to_retrieve_)
      ("order_product" :: to_string product_id :: w.parts_to_retrieve_.map to_string))
  else none

/-- `PPSWorkload::NextTransaction`: the generator afterwards and what the call
returns; `none` when the call does not return (a `CHECK` fails, `std::stoi`
throws, or a read is out of bounds). `wr` is the answer of the key-generation
adapter to staged writes. -/
def PPSWorkload.NextTransaction (kPartsPerProduct kPartsPerSupplier : Nat) (wr : pps.Op → Bool)
    (w : PPSWorkload) (rnd : PPSWorkload.Rand) : Option (PPSWorkload × Emitted pps.Op) :=
  let pro := PPSWorkload.startProfile w
  match w.prev_txn_ with
  | some prev =>
    if prev.keys.length ≠ kPartsPerProduct then none
    else do
      let parts ← prev.keys.foldlM (PPSWorkload.retrievePart kPartsPerProduct) w.parts_to_retrieve_
      let arg ← ((prev.procedures.get? 0).bind fun args => args.get? 1)
      let product_id ← (stoi arg).toOption
      if product_id > 0 ∧ product_id ≤ w.num_products_ then
        let w1 := { w with parts_to_retrieve_ := parts, prev_txn_ := none }
        let pro1 := { pro with dependency_type := some DependencyType.SECOND_PHASE }
        let e ← PPSWorkload.orderProductTransaction kPartsPerProduct kPartsPerSupplier wr w1 pro1
          product_id
        some ({ w1 with client_txn_id_counter_ := w.client_txn_id_counter_ + 1 }, e)
      else none
  | none =>
    let product := PPSWorkload.selectProduct w.num_products_ w.num_partitions_ w.num_regions_
      w.sunflower_target_region_ w.nearest w.local_region_ rnd.product
    let w1 := { w with client_txn_id_counter_ := w.client_txn_id_counter_ + 1 }
    let emit := PPSWorkload.emit kPartsPerProduct kPartsPerSupplier wr
    match rnd.txn with
    | 0 =>
      product.map fun product_id =>
        (w1, emit { pro with dependency_type := some DependencyType.FIRST_PHASE }
          (pps.Procedure.get_parts_by_product product_id)
          ["get_parts_by_product", to_string product_id])
    | 1 =>
      product.map fun product_id =>
        (w1, emit pro (pps.Procedure.get_parts_by_product product_id)
          ["get_parts_by_product", to_string product_id])
    | 2 =>
      product.map fun product_id =>
        (w1, emit pro (pps.Procedure.update_product_part product_id)
          ["update_product_part", to_string product_id])
    | 3 =>
      product.map fun product_id =>
        (w1, emit pro (pps.Procedure.get_product product_id) ["get_product", to_string product_id])
    | 4 => some (w1, emit pro (pps.Procedure.get_part rnd.part_id) ["get_part", to_string rnd.part_id])
    | _ => none

/-- A PPS generator for 100 products and parts on two partitions and two regions
with two parts per product, holding the completed first phase for product 13 (a
product of category IV): the key of slot 2 came back with part 4 and the key of
slot 1 with part 1. -/
def PPSWorkload.sampleSecondPhase : PPSWorkload :=
  { PPSWorkload.new 2 100 100 2 2 0 1 (-1) with
    prev_txn_ := some
      { keys := [{ key := [13, 0, 0, 0, 3, 2, 0, 0, 0], value := [4, 0, 0, 0] },
                 { key := [13, 0, 0, 0, 3, 1, 0, 0, 0], value := [1, 0, 0, 0] }],
        procedures := [["get_parts_by_product", "13"]] } }

/-- Draws for one call of `PPSWorkload::NextTransaction`. -/
def PPSWorkload.sampleRand : PPSWorkload.Rand :=
  { txn := 0,
    product := { is_mh := false, is_mp := false, follow_sunflower := false, region := 0, rand1 := 0,
                 rand2 := 0 },
    part_id := 1 }


/-! ### SmallBank generator (`workload/smallbank.cpp`) -/

/-- The members of `SmallBankWorkload` that `NextTransaction` uses; `mh` is the
parameter `params_.GetDouble(MH)` and `num_clients` the size of
`client_names_by_id_`. -/
structure SmallBankWorkload where
  num_clients : Int
  mh : ℚ
  client_txn_id_counter_ : Nat
  returned_first_customer_id : Int
  am_returned_first_customer_id : Int
  am_returned_second_customer_id : Int
  pending_balance_txn_ : Option ReturnedTransaction
  pending_saving_txn_ : Option ReturnedTransaction
  pending_deposit_txn_ : Option ReturnedTransaction
  pending_writecheck_txn_ : Option ReturnedTransaction
  pending_amalgamate_txn_ : Option ReturnedTransaction
  previous_amalgamate_txn_ : Option ReturnedTransaction

/-- What one call of `SmallBankWorkload::NextTransaction` draws from `rg_`: the
transaction type (`select_smallbank_txn(rg_)`), the account name that a first
phase picks, the destination account of the second phase of amalgamate (`none`
when its rejection loops do not end) and the amount of a second phase. -/
structure SmallBankWorkload.Rand where
  txn : Nat
  name : String
  dst : Option String
  amount : Int

/-- `client_names_by_id_[id]`: the constructor stores the padded name of every
client id below `num_clients`; `operator[]` yields the empty string for any
other id. -/
def SmallBankWorkload.client_names_by_id_ (w : SmallBankWorkload) (id : Int) : String :=
  if 0 ≤ id ∧ id < w.num_clients then smallbank.clientName id else ""

/-- The customer id that a second phase reads from a pending transaction:
`CHECK(keys_size() == 1)` and the `memcpy` from the value of `keys(0)`. -/
def SmallBankWorkload.returnedId (t : ReturnedTransaction) : Option Int :=
  match t.keys with
  | [k] => memcpyInt k.value 0
  | _ => none

/-- The profile with which `NextTransaction` starts. -/
def SmallBankWorkload.startProfile (w : SmallBankWorkload) : TransactionProfile :=
  { client_txn_id := w.client_txn_id_counter_, is_multi_partition := false, is_multi_home := false,
    is_foreign_single_home := false, transaction_type := none, dependency_type := none }

/-- `GetCustomerIdByName(txn, pro, choice, name)` inside a first phase, followed
by the assignments of the caller: the key-generation pass calls `Read()`, the
procedure is `getCustomerIdByName name`, the profile says `FIRST_PHASE` and
carries the transaction type `type`. -/
def SmallBankWorkload.firstPhase (wr : smallbank.Op → Bool) (pro : TransactionProfile)
    (type : TransactionType) (name : String) : Emitted smallbank.Op :=
  { ops := smallbank.keyGenPass (smallbank.keyGenAdapter wr) (smallbank.Procedure.getCustomerIdByName name),
    procedure := ["getCustomerIdByName", name],
    profile := { pro with dependency_type := some DependencyType.FIRST_PHASE,
                          transaction_type := some type } }

/-- The last phase of a SmallBank transaction: the key-generation pass calls
`Read()` and `Write()` of the body, the profile says `SECOND_PHASE` and carries
the transaction type `NOTHING`. -/
def SmallBankWorkload.lastPhase (wr : smallbank.Op → Bool) (pro : TransactionProfile)
    (p : smallbank.Procedure) (args : List String) : Emitted smallbank.Op :=
  { ops := smallbank.keyGenPass (smallbank.keyGenAdapter wr) p,
    procedure := args,
    profile := { pro with dependency_type := some DependencyType.SECOND_PHASE,
                          transaction_type := some TransactionType.NOTHING } }

/-- The `else` branch of `NextTransaction`: a first phase chosen by
`select_smallbank_txn(rg_)`; `none` for `LOG(FATAL)`. -/
def SmallBankWorkload.freshTransaction (wr : smallbank.Op → Bool) (pro : TransactionProfile)
    (rnd : SmallBankWorkload.Rand) : Option (Emitted smallbank.Op) :=
  match rnd.txn with
  | 0 => some (SmallBankWorkload.firstPhase wr pro TransactionType.BALANCE rnd.name)
  | 1 => some (SmallBankWorkload.firstPhase wr pro TransactionType.DEPOSIT_CHECKING rnd.name)
  | 2 => some (SmallBankWorkload.firstPhase wr pro TransactionType.TRANSACTION_SAVING rnd.name)
  | 3 => some (SmallBankWorkload.firstPhase wr pro TransactionType.AMALGAMATE rnd.name)
  | 4 => some (SmallBankWorkload.firstPhase wr pro TransactionType.WRITECHECK rnd.name)
  | _ => none

/-- `SmallBankWorkload::NextTransaction`: the generator afterwards and what the
call returns; `none` when the call does not return (a `CHECK` fails, a read is
out of bounds, or a rejection loop does not end). `wr` is the answer of the
key-generation adapter to staged writes. -/
def SmallBankWorkload.NextTransaction (wr : smallbank.Op → Bool) (w : SmallBankWorkload)
    (rnd : SmallBankWorkload.Rand) : Option (SmallBankWorkload × Emitted smallbank.Op) :=
  let pro := SmallBankWorkload.startProfile w
  let next := w.client_txn_id_counter_ + 1
  match w.pending_balance_txn_ with
  | some t =>
    (SmallBankWorkload.returnedId t).map fun id =>
      ({ w with returned_first_customer_id := id, pending_balance_txn_ := none,
                client_txn_id_counter_ := next },
       SmallBankWorkload.lastPhase wr pro
         (smallbank.Procedure.balance (w.client_names_by_id_ id) id)
         ["balance", w.client_names_by_id_ id, to_string id])
  | none =>
  match w.pending_deposit_txn_ with
  | some t =>
    (SmallBankWorkload.returnedId t).map fun id =>
      ({ w with returned_first_customer_id := id, pending_deposit_txn_ := none,
                client_txn_id_counter_ := next },
       SmallBankWorkload.lastPhase wr pro
         (smallbank.Procedure.depositChecking (w.client_names_by_id_ id) id rnd.amount)
         ["depositChecking", w.client_names_by_id_ id, to_string id, to_string rnd.amount])
  | none =>
  match w.pending_saving_txn_ with
  | some t =>
    (SmallBankWorkload.returnedId t).map fun id =>
      ({ w with returned_first_customer_id := id, pending_saving_txn_ := none,
                client_txn_id_counter_ := next },
       SmallBankWorkload.lastPhase wr pro
         (smallbank.Procedure.transactionSaving (w.client_names_by_id_ id) id rnd.amount)
         ["transactionSaving", w.client_names_by_id_ id, to_string id, to_string rnd.amount])
  | none =>
  match w.pending_writecheck_txn_ with
  | some t =>
    (SmallBankWorkload.returnedId t).map fun id =>
      ({ w with returned_first_customer_id := id, pending_writecheck_txn_ := none,
                client_txn_id_counter_ := next },
       SmallBankWorkload.lastPhase wr pro
         (smallbank.Procedure.writecheck (w.client_names_by_id_ id) id rnd.amount)
         ["writecheck", w.client_names_by_id_ id, to_string id, to_string rnd.amount])
  | none =>
  match w.pending_amalgamate_txn_, w.previous_amalgamate_txn_ with
  | some t2, none =>
    rnd.dst.map fun dst =>
      ({ w with previous_amalgamate_txn_ := some t2, pending_amalgamate_txn_ := none,
                client_txn_id_counter_ := next },
       SmallBankWorkload.firstPhase wr pro TransactionType.AMALGAMATE dst)
  | some t2, some t1 =>
    if w.mh ≠ 0 then do
      let id1 ← SmallBankWorkload.returnedId t1
      let id2 ← SmallBankWorkload.returnedId t2
      some ({ w with am_returned_first_customer_id := id1, am_returned_second_customer_id := id2,
                     pending_amalgamate_txn_ := none, previous_amalgamate_txn_ := none,
                     client_txn_id_counter_ := next },
            SmallBankWorkload.lastPhase wr pro
              (smallbank.Procedure.amalgamate (w.client_names_by_id_ id1) (w.client_names_by_id_ id2)
                id1 id2)
              ["amalgamate", w.client_names_by_id_ id1, w.client_names_by_id_ id2, to_string id1,
               to_string id2])
    else
      (SmallBankWorkload.freshTransaction wr pro rnd).map fun e =>
        ({ w with client_txn_id_counter_ := next }, e)
  | none, _ =>
    (SmallBankWorkload.freshTransaction wr pro rnd).map fun e =>
      ({ w with client_txn_id_counter_ := next }, e)

/-- A SmallBank generator for 12 clients with `mh = 50` holding the completed
first phase of a balance for client 1. -/
def SmallBankWorkload.sampleBalance : SmallBankWorkload :=
  { num_clients := 12, mh := 50, client_txn_id_counter_ := 1, returned_first_customer_id := 0,
    am_returned_first_customer_id := 0, am_returned_second_customer_id := 0,
    pending_balance_txn_ := some
      { keys := [{ key := bytesOf (smallbank.clientName 1) ++ [0, 0], value := [1, 0, 0, 0] }],
        procedures := [["getCustomerIdByName", smallbank.clientName 1]] },
    pending_saving_txn_ := none, pending_deposit_txn_ := none, pending_writecheck_txn_ := none,
    pending_amalgamate_txn_ := none, previous_amalgamate_txn_ := none }

/-- A SmallBank generator for 12 clients with the given `mh` holding the two completed
first phases of an amalgamate, for clients 1 and 2. -/
def SmallBankWorkload.sampleAmalgamate (mh : ℚ) : SmallBankWorkload :=
  { num_clients := 12, mh := mh, client_txn_id_counter_ := 2, returned_first_customer_id := 0,
    am_returned_first_customer_id := 0, am_returned_second_customer_id := 0,
    pending_balance_txn_ := none, pending_saving_txn_ := none, pending_deposit_txn_ := none,
    pending_writecheck_txn_ := none,
    pending_amalgamate_txn_ := some
      { keys := [{ key := bytesOf (smallbank.clientName 2) ++ [0, 0], value := [2, 0, 0, 0] }],
        procedures := [["getCustomerIdByName", smallbank.clientName 2]] },
    previous_amalgamate_txn_ := some
      { keys := [{ key := bytesOf (smallbank.clientName 1) ++ [0, 0], value := [1, 0, 0, 0] }],
        procedures := [["getCustomerIdByName", smallbank.clientName 1]] } }

/-- Draws for one call of `SmallBankWorkload::NextTransaction`. -/
def SmallBankWorkload.sampleRand : SmallBankWorkload.Rand :=
  { txn := 0, name := smallbank.clientName 3, dst := some (smallbank.clientName 4), amount := 100 }

/-- Modelled from the spec: the table facade (`execution/smallbank/table.h`) is
not part of the sources. The physical key is the concatenation of the
primary-key scalars serialized in their declared width (a `FixedText<24>` name is
its 24 bytes, an `Int32` its four little-endian bytes); `suffix` stands for the
bytes the facade appends after them. -/
def smallbank.storageKey (k : smallbank.RowKey) (suffix : Bytes) : Bytes :=
  match k with
  | smallbank.RowKey.accounts name => bytesOf name ++ suffix
  | smallbank.RowKey.checking id => encode32le (ofInt32 id) ++ suffix
  | smallbank.RowKey.savings id => encode32le (ofInt32 id) ++ suffix


/-! ### DSH generator: indices and sampling -/

/-- The partition under which the constructor of `DeathStarHotelWorkload` files
id `i` in `u_index_` and `h_index_`: `i % num_partitions` on `uint32_t`. -/
def DeathStarHotelWorkload.indexPartition (num_partitions i : Nat) : Nat :=
  u32 i % num_partitions

/-- The home under which the constructor files id `i`:
`(i - 1) / num_partitions % num_regions` with `i` a `uint32_t`, so the
subtraction wraps at `i = 0`. -/
def DeathStarHotelWorkload.indexHome (num_partitions num_regions i : Nat) : Nat :=
  u32 (i + 2 ^ 32 - 1) / num_partitions % num_regions

/-- `PartitionedDSHLoader::computePartition`: the `int` argument is converted to
`uint32_t` for the remainder by `num_p_`. -/
def dsh.PartitionedDSHLoader.computePartition (num_p_ : Nat) (id : Int) : Nat :=
  ofInt32 id % num_p_

/-- `PartitionedDSHLoader::computeRegion`. -/
def dsh.PartitionedDSHLoader.computeRegion (num_p_ num_r_ : Nat) (id : Int) : Nat :=
  ofInt32 id / num_p_ % num_r_

/-- The region that `user_login` computes from the draw `region` of
`uniform_int_distribution(0, GetNumRegions(config_) - 2)` and the value of
`local_region()`. -/
def DeathStarHotelWorkload.foreignRegion (local_region region : Int) : Int :=
  if region ≥ local_region then region else region + 1

/-- The bounds `(a, b)` that `sample_once` passes to
`std::uniform_int_distribution<size_t>` for a source of `size` elements; `hot`
is the outcome of `hot_active_ && hot_dist(rg_)`. The subtraction
`hot_cnt - 1ul` is on `size_t` and wraps at `hot_cnt = 0`. -/
def DeathStarHotelWorkload.sampleBounds (size hot_cnt : Nat) (hot : Bool) : Nat × Nat :=
  if hot then (0, max 1 (u64 (hot_cnt + 2 ^ 64 - 1)))
  else (u64 (hot_cnt + 2 ^ 64 - 1), size)

/-- `sample_once` once the index is drawn: the element `source[draw]`. `none`
when the distribution is built with `a > b` or the index is outside `source`
(the behaviour is then undefined). -/
def DeathStarHotelWorkload.sample_once {α : Type} (source : List α) (hot_cnt : Nat) (hot : Bool)
    (draw : Nat) : Option α :=
  let bounds := DeathStarHotelWorkload.sampleBounds source.length hot_cnt hot
  if bounds.1 ≤ bounds.2 then source[draw]? else none


/-- The loop of `Load` that builds the product-to-parts mapping, over the
product ids still to visit: the products it handles (those of the local
partition), each with the value of `count_product_parts` on its visit. -/
def pps.PartitionedPPSDataLoader.productVisits (num_partitions_ local_partition_ : Int) :
    List Int → Int → List (Int × Int)
  | [], _ => []
  | product_id :: rest, count_product_parts =>
    if pps.PartitionedPPSDataLoader.computePartition num_partitions_ product_id = local_partition_ then
      (product_id, count_product_parts) ::
        pps.PartitionedPPSDataLoader.productVisits num_partitions_ local_partition_ rest
          (count_product_parts + 1)
    else
      pps.PartitionedPPSDataLoader.productVisits num_partitions_ local_partition_ rest
        count_product_parts

/-- The category branch that `Load` takes for a product:
`(count_product_parts / num_regions_) % 4`. -/
def pps.PartitionedPPSDataLoader.category (num_regions_ count_product_parts : Int) : Int :=
  Int.tmod (Int.tdiv count_product_parts num_regions_) 4

/-- The category that `PPSWorkload::orderProductTransaction` computes for a
product id, the inverse of the layout of `selectProduct`. -/
def PPSWorkload.categoryOf (num_partitions_ num_regions_ product_id : Int) : Int :=
  Int.tdiv (Int.tmod (product_id - 1) (4 * num_partitions_ * num_regions_))
    (num_partitions_ * num_regions_)


/-- The reservation object `t` with another password text and comparison
result; every other member is that of `t`. -/
def dsh.ReservationTxn.withPassword (t : dsh.ReservationTxn) (password : String) (correct : Bool) :
    dsh.ReservationTxn :=
  { t with password_ := password, correct_password_ := correct }


/-! ### DSH generator: dates -/

/-- `date` of dsh.cpp. -/
structure DeathStarHotelWorkload.date where
  d : Nat
  m : Nat
  y : Nat
  deriving DecidableEq, Repr

/-- The four values that `rand_date_range_from_range` draws from its engine, in
the order of the calls: the year, the month, the day and the length of the
stay. -/
structure DeathStarHotelWorkload.DateDraws where
  y : Nat
  m : Nat
  d : Nat
  l : Nat
  deriving DecidableEq, Repr

/-- `days_in_month` of `rand_date_range_from_range`. -/
def DeathStarHotelWorkload.days_in_month : List Int :=
  [31, 28, 31, 30, 31, 30, 31, 31, 30, 31, 30, 31]

/-- `rand_date_range_from_range(start, end, rg)` on the values `r` that the four
distributions return. `none` when `days_in_month` is indexed outside its twelve
entries, when a distribution is built on bounds `a > b`, or when a value of `r`
is outside the bounds of its distribution (the engine cannot return it). -/
def DeathStarHotelWorkload.rand_date_range_from_range
    (start end_ : DeathStarHotelWorkload.date) (r : DeathStarHotelWorkload.DateDraws) :
    Option (String × String) :=
  let y := r.y
  if ¬ (start.y ≤ end_.y ∧ start.y ≤ y ∧ y ≤ end_.y) then none
  else
    let start_m := if y = start.y then start.m else 1
    let end_m := if y = end_.y then end_.m else 12
    let m := r.m
    if ¬ (start_m ≤ end_m ∧ start_m ≤ m ∧ m ≤ end_m) then none
    else
      match DeathStarHotelWorkload.days_in_month[u32 (m + 2 ^ 32 - 1)]? with
      | none => none
      | some days =>
        let start_d : Int := if y = start.y ∧ m = start.m then toInt32 start.d else 1
        let end_d : Int := if y = end_.y ∧ m = end_.m then toInt32 end_.d else days
        let d := r.d
        if ¬ (ofInt32 start_d ≤ ofInt32 end_d ∧ ofInt32 start_d ≤ d ∧ d ≤ ofInt32 end_d) then none
        else
          let l := r.l
          if ¬ (1 ≤ l ∧ l ≤ ofInt32 (dsh.kMaxStay : Int)) then none
          else
            let d_l := u32 (d + l)
            let m_l : Int := toInt32 m
            let y_l : Int := toInt32 y
            let in_date := dsh.format_date (toInt32 d) (toInt32 m) (toInt32 y)
            if d_l > ofInt32 days then
              let d_l := u32 (d_l + 2 ^ 32 - ofInt32 days)
              let m_l := m_l + 1
              if m_l > 12 then some (in_date, dsh.format_date (toInt32 d_l) 1 (y_l + 1))
              else some (in_date, dsh.format_date (toInt32 d_l) m_l y_l)
            else some (in_date, dsh.format_date (toInt32 d_l) m_l y_l)


/-! ### SmallBank generator: the second phase of amalgamate -/

/-- `client_partition_map_[partition][home]` as the constructor fills it: the
client ids `i` below `num_clients`, in increasing order, with
`i % num_partitions = partition` and `(i / num_partitions) % num_regions = home`;
`none` when an index is outside the map. -/
def SmallBankWorkload.client_partition_map_ (num_partitions num_regions num_clients : Nat)
    (partition home : Int) : Option (List Int) :=
  if 0 ≤ partition ∧ partition < num_partitions ∧ 0 ≤ home ∧ home < num_regions then
    some (((List.range num_clients).filter fun i =>
      i % num_partitions = partition.toNat ∧ i / num_partitions % num_regions = home.toNat).map
        fun (i : Nat) => (i : Int))
  else none

/-- `NURand` of `workload/smallbank.cpp` after its two draws: `rand1` is drawn
from `[0, A]` and `rand2` from `[x, y]`. -/
def SmallBankWorkload.NURand (rand1 rand2 : Nat) (x y : Int) : Int :=
  Int.tmod ((rand1 ||| rand2 : Nat) : Int) (y - x + 1) + x

/-- What the second phase of `Amalgamate` draws from `rg_`: the two rolls, the
successive values of `rand_partition`, the successive values of `rand_home`, and
the successive pairs of draws of `NURand` inside `pick_client_index`. -/
structure SmallBankWorkload.AmalgamateDraws where
  is_multi_home : Bool
  is_multi_partition : Bool
  partitions : List Int
  homes : List Int
  indices : List (Nat × Nat)

/-- The loop `do id_home2 = pick_valid_home(partition2, 1); while (id_home1 ==
id_home2)` on the successive values of `rand_home`: a value whose class is
empty is drawn again inside `pick_valid_home`, a value equal to `id_home1` is
drawn again by the outer loop. `none` when the values run out before the loops
end or the map is indexed outside. -/
def SmallBankWorkload.pickHome (num_partitions num_regions num_clients : Nat)
    (partition2 id_home1 : Int) : List Int → Option Int
  | [] => none
  | home :: rest =>
    match SmallBankWorkload.client_partition_map_ num_partitions num_regions num_clients partition2
        home with
    | none => none
    | some ids =>
      if ids.length < 1 then
        SmallBankWorkload.pickHome num_partitions num_regions num_clients partition2 id_home1 rest
      else if id_home1 = home then
        SmallBankWorkload.pickHome num_partitions num_regions num_clients partition2 id_home1 rest
      else some home

/-- The loop `do idx2 = pick_client_index(partition2, id_home2); while
(am_returned_first_customer_id == idx2)` on the successive draws of `NURand`;
`size` is the size of the class. `none` when the draws run out before the loop
ends or the class is empty. -/
def SmallBankWorkload.pickIndex (size : Int) (am_returned_first_customer_id : Int) :
    List (Nat × Nat) → Option Int
  | [] => none
  | r :: rest =>
    if size ≤ 0 then none
    else
      let idx2 := SmallBankWorkload.NURand r.1 r.2 0 (size - 1)
      if am_returned_first_customer_id = idx2 then
        SmallBankWorkload.pickIndex size am_returned_first_customer_id rest
      else some idx2

/-- The source class that the second phase of `Amalgamate` works with:
`partition1` and `id_home1`, computed from the member
`am_returned_first_customer_id`. For the non-negative ids of clients the signed
and the unsigned reading of `%` and `/` agree. -/
def SmallBankWorkload.amalgamateSource (num_partitions num_regions : Nat) (w : SmallBankWorkload) :
    Int × Int :=
  (Int.tmod w.am_returned_first_customer_id num_partitions,
   Int.tmod (Int.tdiv w.am_returned_first_customer_id num_partitions) num_regions)

/-- `Amalgamate(txn, pro, 2)` up to the assignment of `amalgamate_dst_`: the
account name that the phase looks up. `none` when a rejection loop does not end
on the draws given, a vector is indexed outside, or a divisor is zero. -/
def SmallBankWorkload.amalgamateDst (num_partitions num_regions : Nat) (w : SmallBankWorkload)
    (dr : SmallBankWorkload.AmalgamateDraws) : Option String :=
  if num_partitions = 0 ∨ num_regions = 0 then none
  else do
    let partition1 := (SmallBankWorkload.amalgamateSource num_partitions num_regions w).1
    let id_home1 := (SmallBankWorkload.amalgamateSource num_partitions num_regions w).2
    let partition2 ←
      if dr.is_multi_partition then dr.partitions.find? fun p => decide (p ≠ partition1)
      else some partition1
    let id_home2 ←
      if dr.is_multi_home then
        SmallBankWorkload.pickHome num_partitions num_regions w.num_clients.toNat partition2 id_home1
          dr.homes
      else some id_home1
    let ids ← SmallBankWorkload.client_partition_map_ num_partitions num_regions w.num_clients.toNat
      partition2 id_home2
    let idx2 ← SmallBankWorkload.pickIndex ids.length w.am_returned_first_customer_id dr.indices
    let dst ← vectorAt ids idx2
    some (w.client_names_by_id_ dst)

/-- A SmallBank generator for 12 clients on two partitions and two regions
holding the completed first phase of an amalgamate that returned the customer
id `returned`, while the member `am_returned_first_customer_id` holds `held`. -/
def SmallBankWorkload.samplePhaseTwo (returned : Nat) (held : Int) : SmallBankWorkload :=
  { num_clients := 12, mh := 50, client_txn_id_counter_ := 1, returned_first_customer_id := 0,
    am_returned_first_customer_id := held, am_returned_second_customer_id := 0,
    pending_balance_txn_ := none, pending_saving_txn_ := none, pending_deposit_txn_ := none,
    pending_writecheck_txn_ := none,
    pending_amalgamate_txn_ := some
      { keys := [{ key := bytesOf (smallbank.clientName returned) ++ [0, 0],
                   value := encode32le returned }],
        procedures := [["getCustomerIdByName", smallbank.clientName returned]] },
    previous_amalgamate_txn_ := none }


/-- The reasons with which `PPSExecution::Execute` aborts before it builds a
body. -/
def PPSExecution.dispatchReasons : List String := ["Invalid code", "Unknown procedure name"]

/-- The reasons with which `SmallBankExecution::Execute` aborts before it builds
a body. -/
def SmallBankExecution.dispatchReasons : List String :=
  ["Invalid code", "Unknown procedure name",
   "getCustomerIdByName Txn - Invalid number of arguments",
   "BalanceTxn Txn - Invalid number of arguments",
   "DepositCheckingTxn Txn - Invalid number of arguments",
   "TransactionSavingTxn Txn - Invalid number of arguments",
   "AmalgamateTxn Txn - Invalid number of arguments",
   "WritecheckTxn Txn - Invalid number of arguments"]

/-- The reasons with which `MovieExecution::Execute` aborts before it builds a
body. -/
def MovieExecution.dispatchReasons : List String :=
  ["Invalid code", "Unknown procedure name", "NewReview Txn - Invalid number of arguments"]

/-- What a run of a wrapper leaves behind, by the result `q` of its dispatch on
the transaction `txn` and the storage `storage`. The wrapper returns. When the
dispatch built no body, the transaction is `txn` with the status ABORTED and one
of the dispatch reasons, and the storage is the one given. When the body's
`Execute()` returned false, the transaction is `txn` with the status ABORTED and
the family text followed by the body's `error()`, and the storage is the one
given. When the body's `Execute()` returned true, the transaction is `txn` with
the status COMMITTED and the storage is what `ApplyWrites` makes of the given
storage with the writes the body staged. -/
def WrapperOutcome {σ π ω : Type} (apply : List ω → σ → σ) (family : π → String)
    (body : π → BodyRun ω) (reasons : List String) (storage : σ) (txn : Transaction)
    (q : Except String π) (run : Except Fault (Executed σ)) : Prop :=
  ∃ r, run = Except.ok r ∧
    match q with
    | Except.error reason =>
      reason ∈ reasons ∧
      r.txn = { txn with status := TransactionStatus.ABORTED, abort_reason := reason } ∧
      r.applied = false ∧ r.storage = storage
    | Except.ok p =>
      ((body p).ret = false →
        r.txn = { txn with status := TransactionStatus.ABORTED,
                           abort_reason := family p ++ (body p).error } ∧
        r.applied = false ∧ r.storage = storage) ∧
      ((body p).ret = true →
        r.txn = { txn with status := TransactionStatus.COMMITTED } ∧
        r.applied = true ∧ r.storage = apply (body p).ops storage)


/-! # Theorems -/



/-- Folding `SetError` over later calls keeps a non-empty `error_`. -/
theorem foldl_SetError (calls : List String) (e : String) :
    calls.foldl SetError e =
      if e.isEmpty then (calls.find? fun s => !s.isEmpty).getD "" else e := by
  induction calls generalizing e with
  | nil =>
    by_cases h : e.isEmpty = true
    · simp [h, (String.isEmpty_iff e).1 h]
    · simp [h]
  | cons c cs ih =>
    simp only [List.foldl_cons, ih, List.find?_cons]
    by_cases he : e.isEmpty = true
    · by_cases hc : c.isEmpty = true
      · simp [SetError, he, hc]
      · simp [SetError, he, hc]
    · simp [SetError, he]

/-- C10 (sticky error): after any sequence of `SetError` calls on a fresh
transaction object, `error()` is the first non-empty string passed, or the empty
string when there is none; after `SetError("A"); SetError("B")` it is `"A"`; and
`SetError("")` never changes `error()`. -/
theorem setError_sticky (calls : List String) :
    errorAfter calls = ((calls.find? fun s => !s.isEmpty).getD "") ∧
    errorAfter ["A", "B"] = "A" ∧
    (∀ e : String, SetError e "" = e) ∧
    (∀ pre post : List String, errorAfter (pre ++ "" :: post) = errorAfter (pre ++ post)) := by
  have hempty : ∀ e : String, SetError e "" = e := by
    intro e
    by_cases h : e.isEmpty = true
    · simp [SetError, h, (String.isEmpty_iff e).1 h]
    · simp [SetError, h]
  refine ⟨?_, ?_, hempty, ?_⟩
  · have h0 : ("" : String).isEmpty = true := by decide
    simp [errorAfter, foldl_SetError, h0]
  · decide
  · intro pre post
    simp [errorAfter, List.foldl_append, hempty]

/-- C9 (phase skipping): for every body of the PPS, SmallBank, DSH and Movie
families and every object state, `Execute()` returns true iff `Read()` and
`Write()` returned true; when `Read()` returned false the object is left as
`Read()` left it and the journal kept by the methods themselves holds `Read`
alone, so neither `Compute()` nor `Write()` was called; when `Read()` returned
true the object is left as `Write()` left it after `Compute()` after `Read()`
and the journal holds `Read`, `Compute`, `Write` once each; `Compute()` is
called exactly once iff `Read()` returned true. -/
theorem execute_phase_skipping :
    PhaseSkipping (fun σ => @PPSTransaction.Execute σ) ∧
    PhaseSkipping (fun σ => @SmallBankTransaction.Execute σ) ∧
    PhaseSkipping (fun σ => @DSHTransaction.Execute σ) ∧
    PhaseSkipping (fun σ => @MovieTransaction.Execute σ) := by
  refine ⟨?_, ?_, ?_, ?_⟩ <;>
  · intro σ b s
    simp only [PPSTransaction.Execute, SmallBankTransaction.Execute, DSHTransaction.Execute,
      MovieTransaction.Execute, TxnBody.journaled]
    cases hr : (b.Read s).1 <;> cases hw : (b.Write (b.Compute (b.Read s).2)).1 <;>
      simp [hr, hw]


/-! ### Hash sharder -/

/-- The loop body of `FNVHash` is the FNV-1 step whenever the widened `char`
equals the byte. -/
theorem FNVHash_step (charSigned : Bool) (h b : Nat)
    (hb : charSigned = false ∨ b < 128) :
    (u64 (h * 0x01000193) % 2 ^ 32) ^^^ charToUnsigned 64 charSigned b =
      u32 (h * 0x01000193) ^^^ b := by
  have h1 : u64 (h * 0x01000193) % 2 ^ 32 = u32 (h * 0x01000193) := by
    unfold u64 u32
    exact Nat.mod_mod_of_dvd _ (by norm_num)
  have h2 : charToUnsigned 64 charSigned b = b := by
    unfold charToUnsigned
    rcases hb with hb | hb
    · simp [hb]
    · have : ¬ 128 ≤ b := by omega
      simp [this]
  rw [h1, h2]

/-- FNV-1 of bytes stays below `2^32`. -/
theorem FNV1_32_foldl_lt (bytes : Bytes) (h0 : Nat) (hh : h0 < 2 ^ 32)
    (hb : ∀ b ∈ bytes, b < 256) :
    bytes.foldl (fun h b => u32 (h * 0x01000193) ^^^ b) h0 < 2 ^ 32 := by
  induction bytes generalizing h0 with
  | nil => simpa using hh
  | cons b bs ih =>
    simp only [List.foldl_cons]
    apply ih
    · apply Nat.xor_lt_two_pow
      · exact Nat.mod_lt _ (by norm_num)
      · have := hb b (by simp)
        omega
    · intro x hx
      exact hb x (by simp [hx])

/-- The accumulator of `FNVHash` follows FNV-1 on bytes whose widening is the
byte itself. -/
theorem FNVHash_foldl (charSigned : Bool) (bytes : Bytes) (h0 : Nat)
    (hb : charSigned = false ∨ ∀ b ∈ bytes, b < 128) :
    bytes.foldl (fun hash b => (u64 (hash * 0x01000193) % 2 ^ 32) ^^^ charToUnsigned 64 charSigned b) h0 =
      bytes.foldl (fun h b => u32 (h * 0x01000193) ^^^ b) h0 := by
  induction bytes generalizing h0 with
  | nil => rfl
  | cons b bs ih =>
    simp only [List.foldl_cons]
    rw [FNVHash_step charSigned h0 b (by
      rcases hb with hb | hb
      · exact Or.inl hb
      · exact Or.inr (hb b (by simp)))]
    apply ih
    rcases hb with hb | hb
    · exact Or.inl hb
    · exact Or.inr (fun x hx => hb x (by simp [hx]))

/-- The prefix hashed by `HashSharder::compute_partition` is `key.take B`. -/
theorem HashSharder_take (B : Nat) (key : Bytes) :
    key.take (if B ≥ key.length then key.length else B) = key.take B := by
  by_cases h : B ≥ key.length
  · simp [h, List.take_of_length_le h]
  · simp [h]

/-- C7 (counterexample): on the one-byte key "a" with `B = 4` and `P = 4` the
sharder returns 2, while FNV-1a-32 of the key modulo 4 is 0. -/
theorem hashSharder_not_fnv1a :
    HashSharder.compute_partition true 4 4 (bytesOf "a") = 2 ∧
    HashSharder.compute_partition false 4 4 (bytesOf "a") = 2 ∧
    FNV1a32 ((bytesOf "a").take 4) % 4 = 0 := by
  decide

/-- C7 (amended): for every key of bytes, every `B` and every `P ≥ 1`, when
`char` is unsigned or the hashed bytes are below 0x80, the sharder returns
FNV-1-32 (multiply by the prime, then xor the byte) of the first `B` bytes of
the key (the whole key if it has at most `B` bytes), modulo `P`. -/
theorem hashSharder_is_fnv1 (charSigned : Bool) (key : Bytes) (B P : Nat) (hP : 1 ≤ P)
    (hbytes : ∀ b ∈ key, b < 256)
    (hchar : charSigned = false ∨ ∀ b ∈ key.take B, b < 128) :
    HashSharder.compute_partition charSigned B P key = FNV1_32 (key.take B) % P ∧
    HashSharder.compute_partition charSigned B P key < P := by
  have hval : HashSharder.compute_partition charSigned B P key = FNV1_32 (key.take B) % P := by
    unfold HashSharder.compute_partition FNVHash FNV1_32
    simp only [HashSharder_take]
    rw [FNVHash_foldl charSigned (key.take B) _ hchar]
    have hlt := FNV1_32_foldl_lt (key.take B) 0x811c9dc5 (by norm_num)
      (fun b hb => hbytes b (List.mem_of_mem_take hb))
    rw [u32, Nat.mod_eq_of_lt hlt]
  refine ⟨hval, ?_⟩
  rw [hval]
  exact Nat.mod_lt _ (by omega)

/-- Witness for `hashSharder_is_fnv1`: the key "abcd" with `B = 4`, `P = 4`. -/
theorem hashSharder_is_fnv1_witness :
    HashSharder.compute_partition true 4 4 (bytesOf "abcd") = FNV1_32 ((bytesOf "abcd").take 4) % 4 ∧
    HashSharder.compute_partition true 4 4 (bytesOf "abcd") < 4 :=
  hashSharder_is_fnv1 true (bytesOf "abcd") 4 4 (by decide) (by decide) (Or.inr (by decide))

/-- Reading back the little-endian encoding of a 32-bit value. -/
theorem readU32_encode32le (u : Nat) (hu : u < 2 ^ 32) (rest : Bytes) :
    readU32 (encode32le u ++ rest) = some u := by
  simp only [encode32le, readU32, List.cons_append, List.nil_append, load32le, Option.some.injEq]
  omega

/-- An id in `[0, 2^31)` survives the round trip through `int`. -/
theorem toInt32_of_lt (u : Nat) (hu : u < 2 ^ 31) : toInt32 u = (u : Int) := by
  unfold toInt32
  rw [if_pos hu]

/-- Conversion of a non-negative `int` to `uint32_t`. -/
theorem ofInt32_natCast (n : Nat) (hn : n < 2 ^ 32) : ofInt32 (n : Int) = n := by
  unfold ofInt32
  have : ((n : Int) % 2 ^ 32) = (n : Int) := by
    apply Int.emod_eq_of_lt <;> omega
  rw [this]
  simp

/-- `PPSSharder::compute_partition` on a key that starts with the encoding of
`id`. -/
theorem PPSSharder_encode (id P : Nat) (h1 : 1 ≤ id) (h2 : id < 2 ^ 31) (rest : Bytes) :
    PPSSharder.compute_partition P (encode32le id ++ rest) = some ((id - 1) % P) := by
  unfold PPSSharder.compute_partition
  rw [readU32_encode32le id (by omega)]
  simp only [Option.map_some', Option.some.injEq]
  rw [toInt32_of_lt id h2]
  have : ((id : Int) - 1) = ((id - 1 : Nat) : Int) := by omega
  rw [this, ofInt32_natCast (id - 1) (by omega)]

/-- The loader's `computePartition` on a positive id. -/
theorem pps_computePartition_eq (id P : Nat) (h1 : 1 ≤ id) :
    pps.PartitionedPPSDataLoader.computePartition (P : Int) (id : Int) = (((id - 1) % P : Nat) : Int) := by
  unfold pps.PartitionedPPSDataLoader.computePartition
  have : ((id : Int) - 1) = ((id - 1 : Nat) : Int) := by omega
  rw [this, Int.tmod_eq_emod (by omega) (by omega)]
  simp

/-- The loader's `computeRegion` on a positive id. -/
theorem pps_computeRegion_eq (id P R : Nat) (h1 : 1 ≤ id) :
    pps.PartitionedPPSDataLoader.computeRegion (P : Int) (R : Int) (id : Int) =
      (((id - 1) / P % R : Nat) : Int) := by
  unfold pps.PartitionedPPSDataLoader.computeRegion
  have : ((id : Int) - 1) = ((id - 1 : Nat) : Int) := by omega
  rw [this, Int.tdiv_eq_ediv (by omega) (by omega)]
  rw [Int.tmod_eq_emod (by positivity) (by omega)]
  simp

/-- Membership in the loader's filtered id list. -/
theorem pps_mem_localIds (P p : Int) (n : Nat) (x : Int) :
    x ∈ pps.PartitionedPPSDataLoader.localIds P p n ↔
      ∃ id : Nat, x = (id : Int) ∧ 1 ≤ id ∧ id ≤ n ∧
        pps.PartitionedPPSDataLoader.computePartition P (id : Int) = p := by
  unfold pps.PartitionedPPSDataLoader.localIds
  simp only [List.mem_filter, List.mem_map, List.mem_range'_1, decide_eq_true_eq]
  constructor
  · rintro ⟨⟨a, ⟨ha1, ha2⟩, rfl⟩, hp⟩
    exact ⟨a, rfl, ha1, by omega, hp⟩
  · rintro ⟨id, rfl, h1, h2, hp⟩
    exact ⟨⟨id, ⟨h1, by omega⟩, rfl⟩, hp⟩

/-- Every key inserted by the PPS loader starts with an id that passed the
partition filter. -/
theorem pps_load_key_shape (kPP kSP nProd nParts nSupp : Nat) (R P p : Int) (k : pps.RowKey)
    (hk : k ∈ pps.PartitionedPPSDataLoader.Load kPP kSP nProd nParts nSupp R P p) :
    ∃ (id : Nat) (tail : List Int), k.pk = (id : Int) :: tail ∧ 1 ≤ id ∧
      (id ≤ nProd ∨ id ≤ nParts ∨ id ≤ nSupp) ∧
      pps.PartitionedPPSDataLoader.computePartition P (id : Int) = p := by
  unfold pps.PartitionedPPSDataLoader.Load at hk
  have base : ∀ k : pps.RowKey,
      k ∈ (pps.PartitionedPPSDataLoader.localIds P p nProd).map
            (fun id => ({ table := pps.TableId.Product, pk := [id] } : pps.RowKey)) ++
          (pps.PartitionedPPSDataLoader.localIds P p nParts).map
            (fun id => ({ table := pps.TableId.Part, pk := [id] } : pps.RowKey)) ++
          (pps.PartitionedPPSDataLoader.localIds P p nSupp).map
            (fun id => ({ table := pps.TableId.Supplier, pk := [id] } : pps.RowKey)) →
      ∃ (id : Nat) (tail : List Int), k.pk = (id : Int) :: tail ∧ 1 ≤ id ∧
        (id ≤ nProd ∨ id ≤ nParts ∨ id ≤ nSupp) ∧
        pps.PartitionedPPSDataLoader.computePartition P (id : Int) = p := by
    intro k hk
    simp only [List.mem_append, List.mem_map] at hk
    rcases hk with (⟨x, hx, rfl⟩ | ⟨x, hx, rfl⟩) | ⟨x, hx, rfl⟩
    · obtain ⟨id, rfl, h1, h2, hp⟩ := (pps_mem_localIds P p nProd x).1 hx
      exact ⟨id, [], rfl, h1, Or.inl h2, hp⟩
    · obtain ⟨id, rfl, h1, h2, hp⟩ := (pps_mem_localIds P p nParts x).1 hx
      exact ⟨id, [], rfl, h1, Or.inr (Or.inl h2), hp⟩
    · obtain ⟨id, rfl, h1, h2, hp⟩ := (pps_mem_localIds P p nSupp x).1 hx
      exact ⟨id, [], rfl, h1, Or.inr (Or.inr h2), hp⟩
  simp only at hk
  split at hk
  · rw [List.mem_append, List.mem_append] at hk
    rcases hk with (hk | hk) | hk
    · exact base k hk
    · simp only [List.mem_flatMap, List.mem_map] at hk
      obtain ⟨x, hx, i, _, rfl⟩ := hk
      obtain ⟨id, rfl, h1, h2, hp⟩ := (pps_mem_localIds P p nProd x).1 hx
      exact ⟨id, [(i : Int)], rfl, h1, Or.inl h2, hp⟩
    · simp only [List.mem_flatMap, List.mem_map] at hk
      obtain ⟨x, hx, i, _, rfl⟩ := hk
      obtain ⟨id, rfl, h1, h2, hp⟩ := (pps_mem_localIds P p nSupp x).1 hx
      exact ⟨id, [(i : Int)], rfl, h1, Or.inr (Or.inr h2), hp⟩
  · exact base k hk

/-- C4 (PPS placement consistency): for every 32-bit id `≥ 1` and every
`P, R ≥ 1`, on a key whose first four bytes are the little-endian encoding of
`id`, `PPSSharder::compute_partition` equals the loader's
`computePartition(id) = (id-1) mod P` and `PPSMetadataInitializer::Compute`
equals the loader's `computeRegion(id) = ((id-1)/P) mod R`; hence every row key
the PPS loader inserts for `local_partition` `p` is mapped by the sharder to
`p`, and `p` lies in `[0, P)`. -/
theorem pps_placement_consistency (id P R : Nat) (hid : 1 ≤ id) (hid32 : id < 2 ^ 31)
    (hP : 1 ≤ P) (_hR : 1 ≤ R) (rest : Bytes) :
    PPSSharder.compute_partition P (encode32le id ++ rest) = some ((id - 1) % P) ∧
    pps.PartitionedPPSDataLoader.computePartition (P : Int) (id : Int) = (((id - 1) % P : Nat) : Int) ∧
    pps.PPSMetadataInitializer.Compute R P (encode32le id ++ rest) = some ((id - 1) / P % R) ∧
    pps.PartitionedPPSDataLoader.computeRegion (P : Int) (R : Int) (id : Int) =
      (((id - 1) / P % R : Nat) : Int) ∧
    (∀ (kPP kSP nProd nParts nSupp : Nat) (p : Int) (k : pps.RowKey) (suffix : Bytes),
      nProd < 2 ^ 31 → nParts < 2 ^ 31 → nSupp < 2 ^ 31 →
      k ∈ pps.PartitionedPPSDataLoader.Load kPP kSP nProd nParts nSupp (R : Int) (P : Int) p →
      0 ≤ p ∧ p < (P : Int) ∧
      PPSSharder.compute_partition P (pps.storageKey k suffix) = some p.toNat) := by
  refine ⟨PPSSharder_encode id P hid hid32 rest, pps_computePartition_eq id P hid, ?_,
    pps_computeRegion_eq id P R hid, ?_⟩
  · unfold pps.PPSMetadataInitializer.Compute
    rw [readU32_encode32le id (by omega)]
    simp only [Option.map_some', Option.some.injEq]
    have : u32 (id + 2 ^ 32 - 1) = id - 1 := by
      unfold u32
      omega
    rw [this]
  · intro kPP kSP nProd nParts nSupp p k suffix h1 h2 h3 hk
    obtain ⟨i, tail, hpk, hi1, hi2, hp⟩ := pps_load_key_shape kPP kSP nProd nParts nSupp R P p k hk
    rw [pps_computePartition_eq i P hi1] at hp
    have hlt : (i - 1) % P < P := Nat.mod_lt _ (by omega)
    have hi32 : i < 2 ^ 31 := by omega
    refine ⟨by omega, by omega, ?_⟩
    have hkey : pps.storageKey k suffix =
        encode32le i ++ ((tail.flatMap fun c => encode32le (ofInt32 c)) ++ suffix) := by
      unfold pps.storageKey
      rw [hpk]
      simp [List.flatMap_cons, ofInt32_natCast i (by omega)]
    rw [hkey, PPSSharder_encode i P hi1 hi32]
    rw [← hp, Int.toNat_ofNat]

/-- Witness for `pps_placement_consistency`: id 7 with `P = 4`, `R = 3`. -/
theorem pps_placement_consistency_witness :
    PPSSharder.compute_partition 4 (encode32le 7 ++ []) = some ((7 - 1) % 4) ∧
    pps.PartitionedPPSDataLoader.computePartition ((4 : Nat) : Int) ((7 : Nat) : Int) =
      (((7 - 1) % 4 : Nat) : Int) ∧
    pps.PPSMetadataInitializer.Compute 3 4 (encode32le 7 ++ []) = some ((7 - 1) / 4 % 3) ∧
    pps.PartitionedPPSDataLoader.computeRegion ((4 : Nat) : Int) ((3 : Nat) : Int) ((7 : Nat) : Int) =
      (((7 - 1) / 4 % 3 : Nat) : Int) ∧
    (∀ (kPP kSP nProd nParts nSupp : Nat) (p : Int) (k : pps.RowKey) (suffix : Bytes),
      nProd < 2 ^ 31 → nParts < 2 ^ 31 → nSupp < 2 ^ 31 →
      k ∈ pps.PartitionedPPSDataLoader.Load kPP kSP nProd nParts nSupp ((3 : Nat) : Int) ((4 : Nat) : Int) p →
      0 ≤ p ∧ p < ((4 : Nat) : Int) ∧
      PPSSharder.compute_partition 4 (pps.storageKey k suffix) = some p.toNat) :=
  pps_placement_consistency 7 4 3 (by decide) (by decide) (by decide) (by decide) []


/-! ### SmallBank placement -/

/-- A resized string has exactly the requested number of characters. -/
theorem bytesOf_resize_length (s : String) (n : Nat) (c : Char) :
    (bytesOf (resize s n c)).length = n := by
  unfold bytesOf resize
  rcases s with ⟨l⟩
  simp only [String.toList, String.length, List.length_map, List.length_take, List.length_append,
    List.length_replicate]
  omega

/-- One iteration of the loader loop. -/
theorem smallbank_loop_cons (cs : Bool) (bal : Nat → Int) (p P : Int) (id : Int)
    (rest : List Int) (d : Nat) :
    smallbank.PartitionedSmallBankDataLoader.loop cs bal p P (id :: rest) d =
      (if smallbank.PartitionedSmallBankDataLoader.murmurhash3 cs (bytesOf (smallbank.clientName id)) %
          ofInt32 P = ofInt32 p then [smallbank.Row.accounts (smallbank.clientName id) id] else []) ++
      (if Int.tmod id P = p then
        [smallbank.Row.checking id (bal d), smallbank.Row.savings id (bal (d + 1))] ++
          smallbank.PartitionedSmallBankDataLoader.loop cs bal p P rest (d + 2)
       else smallbank.PartitionedSmallBankDataLoader.loop cs bal p P rest d) := by
  rw [smallbank.PartitionedSmallBankDataLoader.loop]
  by_cases h : Int.tmod id P = p <;> simp [h]

/-- Rows of the Accounts table produced by the loader loop. -/
theorem smallbank_loop_accounts (cs : Bool) (bal : Nat → Int) (p P : Int) (ids : List Int) (d : Nat)
    (n : String) (x : Int) :
    smallbank.Row.accounts n x ∈ smallbank.PartitionedSmallBankDataLoader.loop cs bal p P ids d ↔
      x ∈ ids ∧ n = smallbank.clientName x ∧
        smallbank.PartitionedSmallBankDataLoader.murmurhash3 cs (bytesOf (smallbank.clientName x)) %
          ofInt32 P = ofInt32 p := by
  induction ids generalizing d with
  | nil => simp [smallbank.PartitionedSmallBankDataLoader.loop]
  | cons id rest ih =>
    rw [smallbank_loop_cons]
    by_cases h1 : Int.tmod id P = p <;>
    by_cases h2 : smallbank.PartitionedSmallBankDataLoader.murmurhash3 cs
        (bytesOf (smallbank.clientName id)) % ofInt32 P = ofInt32 p <;>
    simp only [h1, h2, if_true, if_false, List.mem_append, List.mem_cons, List.mem_singleton,
      smallbank.Row.accounts.injEq, List.not_mem_nil, or_false, false_or, reduceCtorEq, ih,
      List.nil_append, List.cons_append] <;>
    constructor <;> intro h
    · rcases h with ⟨rfl, rfl⟩ | h
      · exact ⟨Or.inl rfl, rfl, h2⟩
      · exact ⟨Or.inr h.1, h.2⟩
    · rcases h with ⟨rfl | h, h3, h4⟩
      · exact Or.inl ⟨h3, rfl⟩
      · exact Or.inr ⟨h, h3, h4⟩
    · exact ⟨Or.inr h.1, h.2⟩
    · rcases h with ⟨rfl | h, h3, h4⟩
      · exact absurd h4 h2
      · exact ⟨h, h3, h4⟩
    · rcases h with ⟨rfl, rfl⟩ | h
      · exact ⟨Or.inl rfl, rfl, h2⟩
      · exact ⟨Or.inr h.1, h.2⟩
    · rcases h with ⟨rfl | h, h3, h4⟩
      · exact Or.inl ⟨h3, rfl⟩
      · exact Or.inr ⟨h, h3, h4⟩
    · exact ⟨Or.inr h.1, h.2⟩
    · rcases h with ⟨rfl | h, h3, h4⟩
      · exact absurd h4 h2
      · exact ⟨h, h3, h4⟩

/-- Rows of the Checking table produced by the loader loop. -/
theorem smallbank_loop_checking (cs : Bool) (bal : Nat → Int) (p P : Int) (ids : List Int) (d : Nat)
    (x : Int) :
    (∃ b, smallbank.Row.checking x b ∈ smallbank.PartitionedSmallBankDataLoader.loop cs bal p P ids d) ↔
      x ∈ ids ∧ Int.tmod x P = p := by
  induction ids generalizing d with
  | nil => simp [smallbank.PartitionedSmallBankDataLoader.loop]
  | cons id rest ih =>
    rw [smallbank_loop_cons]
    by_cases h1 : Int.tmod id P = p <;>
    by_cases h2 : smallbank.PartitionedSmallBankDataLoader.murmurhash3 cs
        (bytesOf (smallbank.clientName id)) % ofInt32 P = ofInt32 p <;>
    simp only [h1, h2, if_true, if_false, List.mem_append, List.mem_cons, List.mem_singleton,
      smallbank.Row.checking.injEq, List.not_mem_nil, or_false, false_or, reduceCtorEq,
      List.nil_append, List.cons_append] <;>
    constructor <;> intro h
    · rcases h with ⟨b, ⟨rfl, _⟩ | hb⟩
      · exact ⟨Or.inl rfl, h1⟩
      · have := (ih (d + 2)).1 ⟨b, hb⟩
        exact ⟨Or.inr this.1, this.2⟩
    · rcases h with ⟨rfl | h, h3⟩
      · exact ⟨bal d, Or.inl ⟨rfl, rfl⟩⟩
      · obtain ⟨b, hb⟩ := (ih (d + 2)).2 ⟨h, h3⟩
        exact ⟨b, Or.inr hb⟩
    · rcases h with ⟨b, ⟨rfl, _⟩ | hb⟩
      · exact ⟨Or.inl rfl, h1⟩
      · have := (ih (d + 2)).1 ⟨b, hb⟩
        exact ⟨Or.inr this.1, this.2⟩
    · rcases h with ⟨rfl | h, h3⟩
      · exact ⟨bal d, Or.inl ⟨rfl, rfl⟩⟩
      · obtain ⟨b, hb⟩ := (ih (d + 2)).2 ⟨h, h3⟩
        exact ⟨b, Or.inr hb⟩
    · have := (ih d).1 h
      exact ⟨Or.inr this.1, this.2⟩
    · rcases h with ⟨rfl | h, h3⟩
      · exact absurd h3 h1
      · exact (ih d).2 ⟨h, h3⟩
    · have := (ih d).1 h
      exact ⟨Or.inr this.1, this.2⟩
    · rcases h with ⟨rfl | h, h3⟩
      · exact absurd h3 h1
      · exact (ih d).2 ⟨h, h3⟩

/-- Rows of the Savings table produced by the loader loop. -/
theorem smallbank_loop_savings (cs : Bool) (bal : Nat → Int) (p P : Int) (ids : List Int) (d : Nat)
    (x : Int) :
    (∃ b, smallbank.Row.savings x b ∈ smallbank.PartitionedSmallBankDataLoader.loop cs bal p P ids d) ↔
      x ∈ ids ∧ Int.tmod x P = p := by
  induction ids generalizing d with
  | nil => simp [smallbank.PartitionedSmallBankDataLoader.loop]
  | cons id rest ih =>
    rw [smallbank_loop_cons]
    by_cases h1 : Int.tmod id P = p <;>
    by_cases h2 : smallbank.PartitionedSmallBankDataLoader.murmurhash3 cs
        (bytesOf (smallbank.clientName id)) % ofInt32 P = ofInt32 p <;>
    simp only [h1, h2, if_true, if_false, List.mem_append, List.mem_cons, List.mem_singleton,
      smallbank.Row.savings.injEq, List.not_mem_nil, or_false, false_or, reduceCtorEq,
      List.nil_append, List.cons_append] <;>
    constructor <;> intro h
    · rcases h with ⟨b, ⟨rfl, _⟩ | hb⟩
      · exact ⟨Or.inl rfl, h1⟩
      · have := (ih (d + 2)).1 ⟨b, hb⟩
        exact ⟨Or.inr this.1, this.2⟩
    · rcases h with ⟨rfl | h, h3⟩
      · exact ⟨bal (d + 1), Or.inl ⟨rfl, rfl⟩⟩
      · obtain ⟨b, hb⟩ := (ih (d + 2)).2 ⟨h, h3⟩
        exact ⟨b, Or.inr hb⟩
    · rcases h with ⟨b, ⟨rfl, _⟩ | hb⟩
      · exact ⟨Or.inl rfl, h1⟩
      · have := (ih (d + 2)).1 ⟨b, hb⟩
        exact ⟨Or.inr this.1, this.2⟩
    · rcases h with ⟨rfl | h, h3⟩
      · exact ⟨bal (d + 1), Or.inl ⟨rfl, rfl⟩⟩
      · obtain ⟨b, hb⟩ := (ih (d + 2)).2 ⟨h, h3⟩
        exact ⟨b, Or.inr hb⟩
    · have := (ih d).1 h
      exact ⟨Or.inr this.1, this.2⟩
    · rcases h with ⟨rfl | h, h3⟩
      · exact absurd h3 h1
      · exact (ih d).2 ⟨h, h3⟩
    · have := (ih d).1 h
      exact ⟨Or.inr this.1, this.2⟩
    · rcases h with ⟨rfl | h, h3⟩
      · exact absurd h3 h1
      · exact (ih d).2 ⟨h, h3⟩


/-- The ids visited by `LoadAccounts`. -/
theorem smallbank_mem_ids (from_w to_w x : Int) :
    x ∈ (List.range (to_w - from_w).toNat).map (fun (k : Nat) => from_w + (k : Int)) ↔
      from_w ≤ x ∧ x < to_w := by
  simp only [List.mem_map, List.mem_range]
  constructor
  · rintro ⟨k, hk, rfl⟩
    have hk2 : (k : Int) < to_w - from_w := by omega
    have hk3 : (0 : Int) ≤ (k : Int) := Int.ofNat_nonneg k
    constructor <;> omega
  · rintro ⟨h1, h2⟩
    refine ⟨(x - from_w).toNat, by omega, ?_⟩
    have : ((x - from_w).toNat : Int) = x - from_w := Int.toNat_of_nonneg (by omega)
    omega

/-- C5 (SmallBank placement consistency): for every client id `i ≥ 0` with
`name_i = "Client" + decimal(i)` padded to 24 bytes, the four `murmurhash3`
copies agree on a value `h`; the loader of partition `p` inserts
`Accounts(name_i)` exactly when `h mod P = p`, which is the sharder's partition
of any 26-byte key beginning with `name_i`, whose home is `(h / P) mod R`;
`Checking(i)` and `Savings(i)` are inserted exactly when `i mod P = p`, which is
the sharder's partition of a non-26-byte key beginning with the little-endian
`int32` `i`, whose home is `(i / P) mod R`. -/
theorem smallbank_placement_consistency (charSigned : Bool) (i P R : Nat) (hi : i < 2 ^ 31)
    (hP : 1 ≤ P) (hP32 : P < 2 ^ 31) (_hR : 1 ≤ R) :
    (smallbank.murmurhash3 charSigned (bytesOf (smallbank.clientName i)) =
        murmurhash3 charSigned (bytesOf (smallbank.clientName i)) ∧
      smallbank.PartitionedSmallBankDataLoader.murmurhash3 charSigned (bytesOf (smallbank.clientName i)) =
        murmurhash3 charSigned (bytesOf (smallbank.clientName i)) ∧
      SmallBankWorkload.murmurhash3 charSigned (bytesOf (smallbank.clientName i)) =
        murmurhash3 charSigned (bytesOf (smallbank.clientName i))) ∧
    (∀ (bal : Nat → Int) (from_w to_w : Int) (p : Nat), p < 2 ^ 31 →
      (smallbank.Row.accounts (smallbank.clientName i) i ∈
          smallbank.PartitionedSmallBankDataLoader.LoadAccounts charSigned bal from_w to_w p P ↔
        from_w ≤ i ∧ (i : Int) < to_w ∧
          murmurhash3 charSigned (bytesOf (smallbank.clientName i)) % P = p)) ∧
    (∀ b1 b2 : Nat,
      SmallBankSharder.compute_partition charSigned P (bytesOf (smallbank.clientName i) ++ [b1, b2]) =
        some (murmurhash3 charSigned (bytesOf (smallbank.clientName i)) % P) ∧
      smallbank.SmallBankMetadataInitializer.Compute charSigned R P
          (bytesOf (smallbank.clientName i) ++ [b1, b2]) =
        some (murmurhash3 charSigned (bytesOf (smallbank.clientName i)) / P % R)) ∧
    (∀ (bal : Nat → Int) (from_w to_w : Int) (p : Nat),
      ((∃ b, smallbank.Row.checking i b ∈
          smallbank.PartitionedSmallBankDataLoader.LoadAccounts charSigned bal from_w to_w p P) ↔
        from_w ≤ i ∧ (i : Int) < to_w ∧ i % P = p) ∧
      ((∃ b, smallbank.Row.savings i b ∈
          smallbank.PartitionedSmallBankDataLoader.LoadAccounts charSigned bal from_w to_w p P) ↔
        from_w ≤ i ∧ (i : Int) < to_w ∧ i % P = p)) ∧
    (∀ rest : Bytes, (encode32le i ++ rest).length ≠ 26 →
      SmallBankSharder.compute_partition charSigned P (encode32le i ++ rest) = some (i % P) ∧
      smallbank.SmallBankMetadataInitializer.Compute charSigned R P (encode32le i ++ rest) =
        some (i / P % R)) := by
  have hlen : ∀ b1 b2 : Nat, (bytesOf (smallbank.clientName i) ++ [b1, b2]).length = 26 := by
    intro b1 b2
    rw [List.length_append, smallbank.clientName, bytesOf_resize_length]
    rfl
  have htake : ∀ b1 b2 : Nat,
      (bytesOf (smallbank.clientName i) ++ [b1, b2]).take 24 = bytesOf (smallbank.clientName i) := by
    intro b1 b2
    apply List.take_left'
    rw [smallbank.clientName, bytesOf_resize_length]
  have htmod : Int.tmod (i : Int) (P : Int) = ((i % P : Nat) : Int) := by
    rw [Int.tmod_eq_emod (by omega) (by omega)]
    simp
  refine ⟨⟨rfl, rfl, rfl⟩, ?_, ?_, ?_, ?_⟩
  · intro bal from_w to_w p hp
    unfold smallbank.PartitionedSmallBankDataLoader.LoadAccounts
    rw [smallbank_loop_accounts, smallbank_mem_ids]
    rw [ofInt32_natCast P (by omega), ofInt32_natCast p (by omega)]
    constructor
    · rintro ⟨⟨h1, h2⟩, _, h3⟩
      exact ⟨h1, h2, h3⟩
    · rintro ⟨h1, h2, h3⟩
      exact ⟨⟨h1, h2⟩, rfl, h3⟩
  · intro b1 b2
    unfold SmallBankSharder.compute_partition smallbank.SmallBankMetadataInitializer.Compute
    rw [if_pos (hlen b1 b2), if_pos (hlen b1 b2), htake]
    exact ⟨rfl, rfl⟩
  · intro bal from_w to_w p
    unfold smallbank.PartitionedSmallBankDataLoader.LoadAccounts
    rw [smallbank_loop_checking, smallbank_loop_savings, smallbank_mem_ids, htmod]
    constructor
    · constructor
      · rintro ⟨⟨h1, h2⟩, h3⟩
        exact ⟨h1, h2, by exact_mod_cast h3⟩
      · rintro ⟨h1, h2, h3⟩
        exact ⟨⟨h1, h2⟩, by exact_mod_cast h3⟩
    · constructor
      · rintro ⟨⟨h1, h2⟩, h3⟩
        exact ⟨h1, h2, by exact_mod_cast h3⟩
      · rintro ⟨h1, h2, h3⟩
        exact ⟨⟨h1, h2⟩, by exact_mod_cast h3⟩
  · intro rest hrest
    unfold SmallBankSharder.compute_partition smallbank.SmallBankMetadataInitializer.Compute
    rw [if_neg hrest, if_neg hrest, readU32_encode32le i (by omega)]
    simp only [Option.map_some', Option.some.injEq]
    rw [toInt32_of_lt i hi, ofInt32_natCast i (by omega)]
    exact ⟨rfl, trivial⟩

/-- Witness for `smallbank_placement_consistency`: client 0 with `P = 4`,
`R = 3`. -/
theorem smallbank_placement_consistency_witness :
    SmallBankSharder.compute_partition true 4 (bytesOf (smallbank.clientName (0 : Nat)) ++ [0, 0]) =
      some (murmurhash3 true (bytesOf (smallbank.clientName (0 : Nat))) % 4) :=
  ((smallbank_placement_consistency true 0 4 3 (by decide) (by decide) (by decide)
    (by decide)).2.2.1 0 0).1


/-! ### DSH user-name sharding -/

/-- The byte of a decimal digit character. -/
theorem digitChar_toNat (k : Nat) (hk : k < 10) : (Nat.digitChar k).toNat = 48 + k := by
  interval_cases k <;> rfl

/-- The accumulator of `Nat.toDigitsCore` is only appended to. -/
theorem toDigitsCore_append (fuel n : Nat) (ds : List Char) :
    Nat.toDigitsCore 10 fuel n ds = Nat.toDigitsCore 10 fuel n [] ++ ds := by
  induction fuel generalizing n ds with
  | zero => simp [Nat.toDigitsCore]
  | succ f ih =>
    simp only [Nat.toDigitsCore]
    split
    · simp
    · rw [ih (n / 10) (Nat.digitChar (n % 10) :: ds), ih (n / 10) [Nat.digitChar (n % 10)]]
      simp

/-- The bytes of the decimal digits of `n` are digits and denote `n`. -/
theorem toDigitsCore_spec (fuel n : Nat) (h : n < fuel) :
    (∀ b ∈ (Nat.toDigitsCore 10 fuel n []).map Char.toNat, isDigitByte b = true) ∧
    digitsValue ((Nat.toDigitsCore 10 fuel n []).map Char.toNat) = n ∧
    0 < (Nat.toDigitsCore 10 fuel n []).length := by
  induction fuel generalizing n with
  | zero => omega
  | succ f ih =>
    have hd : (Nat.digitChar (n % 10)).toNat = 48 + n % 10 := digitChar_toNat _ (Nat.mod_lt _ (by omega))
    simp only [Nat.toDigitsCore]
    split
    · rename_i h0
      refine ⟨?_, ?_, by simp⟩
      · intro b hb
        simp only [List.map_cons, List.map_nil, List.mem_singleton] at hb
        subst hb
        rw [hd]
        simp only [isDigitByte, Bool.and_eq_true, decide_eq_true_eq]
        omega
      · simp only [List.map_cons, List.map_nil, digitsValue, List.foldl_cons, List.foldl_nil, hd]
        omega
    · rename_i h0
      have hlt : n / 10 < f := by omega
      obtain ⟨h1, h2, h3⟩ := ih (n / 10) hlt
      rw [toDigitsCore_append]
      refine ⟨?_, ?_, by simp⟩
      · intro b hb
        simp only [List.map_append, List.map_cons, List.map_nil, List.mem_append,
          List.mem_singleton] at hb
        rcases hb with hb | hb
        · exact h1 b hb
        · subst hb
          rw [hd]
          simp only [isDigitByte, Bool.and_eq_true, decide_eq_true_eq]
          omega
      · unfold digitsValue at h2 ⊢
        simp only [List.map_append, List.map_cons, List.map_nil, List.foldl_append,
          List.foldl_cons, List.foldl_nil, h2, hd]
        omega

/-- The bytes of `std::to_string(n)` for a non-negative `n`. -/
theorem bytesOf_to_string (n : Nat) :
    bytesOf (to_string (n : Int)) = (Nat.toDigits 10 n).map Char.toNat := by
  rfl

/-- `from_chars` on a run of digits followed by the end of the range. -/
theorem from_chars_u32_digits (ds : Bytes) (hd : ∀ b ∈ ds, isDigitByte b = true) (hne : ds ≠ [])
    (hv : digitsValue ds < 2 ^ 32) : from_chars_u32 ds = some (digitsValue ds) := by
  unfold from_chars_u32
  have htw : ds.takeWhile isDigitByte = ds := by
    rw [List.takeWhile_eq_self_iff]
    exact hd
  simp only [htw]
  cases ds with
  | nil => exact absurd rfl hne
  | cons a as =>
    rw [if_neg (by simp), if_pos hv]


/-- Bytes of a concatenation. -/
theorem bytesOf_append (a b : String) : bytesOf (a ++ b) = bytesOf a ++ bytesOf b := by
  simp [bytesOf, String.toList, String.data_append]

/-- The decimal digits of a one-digit number. -/
theorem toDigits_small (l : Nat) (hl : l < 10) : Nat.toDigits 10 l = [Nat.digitChar l] := by
  unfold Nat.toDigits
  simp only [Nat.toDigitsCore]
  have h0 : l / 10 = 0 := by omega
  have h1 : l % 10 = l := by omega
  simp [h0, h1]

/-- Shape of the key built from `format_uname(std::to_string(n))`. -/
theorem format_uname_to_string (n : Nat) (hn : n < 10 ^ 9) :
    ∃ u : String, dsh.format_uname (to_string (n : Int)) = some u ∧
      ∃ l : Nat, 1 ≤ l ∧ l ≤ 9 ∧ ((Nat.toDigits 10 n).map Char.toNat).length = l ∧
        bytesOf u = (48 :: (48 + l) :: List.replicate (18 - l) 95) ++ (Nat.toDigits 10 n).map Char.toNat := by
  have hlen9 : (Nat.repr n).length ≤ 9 := Nat.repr_length n 9 (by norm_num) hn
  have hlenEq : (to_string (n : Int)).length = (Nat.toDigits 10 n).length := rfl
  have hlenEq2 : (Nat.repr n).length = (Nat.toDigits 10 n).length := rfl
  have hpos : 0 < (Nat.toDigits 10 n).length := (toDigitsCore_spec (n + 1) n (by omega)).2.2
  have hfu : dsh.format_uname (to_string (n : Int)) =
      some ("0" ++ to_string ((Nat.toDigits 10 n).length : Int) ++
        String.mk (List.replicate (18 - (Nat.toDigits 10 n).length) '_') ++ to_string (n : Int)) := by
    unfold dsh.format_uname
    simp only
    rw [if_neg (by rw [hlenEq]; omega), hlenEq]
  refine ⟨_, hfu, (Nat.toDigits 10 n).length, by omega, by omega, by simp, ?_⟩
  rw [bytesOf_append, bytesOf_append, bytesOf_append, bytesOf_to_string, bytesOf_to_string,
    toDigits_small _ (by omega)]
  have h95 : bytesOf (String.mk (List.replicate (18 - (Nat.toDigits 10 n).length) '_')) =
      List.replicate (18 - (Nat.toDigits 10 n).length) 95 := by
    simp [bytesOf, String.toList]
  rw [h95]
  simp only [List.map_cons, List.map_nil, digitChar_toNat _ (show (Nat.toDigits 10 n).length < 10 by omega)]
  rfl

/-- `DSHSharder::compute_partition` on a 22-byte key that holds the formatted
user id `n`. -/
theorem DSHSharder_formatted (n P l : Nat) (b1 b2 : Nat) (hn : n < 10 ^ 9) (hl1 : 1 ≤ l) (hl9 : l ≤ 9)
    (hlen : ((Nat.toDigits 10 n).map Char.toNat).length = l) :
    DSHSharder.compute_partition P
      (((48 :: (48 + l) :: List.replicate (18 - l) 95) ++ (Nat.toDigits 10 n).map Char.toNat) ++ [b1, b2]) =
      some (n % P) := by
  obtain ⟨hd, hv, _⟩ := toDigitsCore_spec (n + 1) n (by omega)
  have hd2 : ∀ b ∈ (Nat.toDigits 10 n).map Char.toNat, isDigitByte b = true := hd
  have hv2 : digitsValue ((Nat.toDigits 10 n).map Char.toNat) = n := hv
  generalize (Nat.toDigits 10 n).map Char.toNat = ds at hlen hd2 hv2
  have hA : (48 :: (48 + l) :: List.replicate (18 - l) 95).length = 20 - l := by
    simp only [List.length_cons, List.length_replicate]
    omega
  have hkeylen : (((48 :: (48 + l) :: List.replicate (18 - l) 95) ++ ds) ++ [b1, b2]).length = 22 := by
    rw [List.length_append, List.length_append, hA, hlen]
    simp only [List.length_cons, List.length_nil]
    omega
  have htake2 : (((48 :: (48 + l) :: List.replicate (18 - l) 95) ++ ds) ++ [b1, b2]).take 2 =
      [48, 48 + l] := by
    simp
  have hdrop : ((((48 :: (48 + l) :: List.replicate (18 - l) 95) ++ ds) ++ [b1, b2]).drop (20 - l)).take l =
      ds := by
    rw [List.append_assoc, List.drop_left' hA]
    exact List.take_left' hlen
  have hres : from_chars_u32 [48, 48 + l] = some l := by
    rw [from_chars_u32_digits]
    · simp [digitsValue]
    · intro b hb
      simp only [List.mem_cons, List.mem_singleton, List.not_mem_nil, or_false] at hb
      rcases hb with rfl | rfl <;> (simp [isDigitByte]; try omega)
    · simp
    · simp [digitsValue]
      omega
  have hne : ds ≠ [] := by
    intro h
    rw [h] at hlen
    simp at hlen
    omega
  have hid : from_chars_u32 ds = some n := by
    rw [from_chars_u32_digits ds hd2 hne (by rw [hv2]; omega), hv2]
  unfold DSHSharder.compute_partition
  rw [if_pos hkeylen, htake2, hres]
  simp only
  rw [if_pos (by omega), hdrop, hid]


/-- The ids visited by the `LoadUsers` loop, when the counter cannot wrap and
the unrolling bound covers the remaining range. -/
theorem dsh_loop_mem (P numU : Nat) (hP : 1 ≤ P) (hw : numU + P ≤ 2 ^ 32) (fuel i x : Nat)
    (hf : numU ≤ i + fuel) :
    x ∈ dsh.PartitionedDSHLoader.loop P numU fuel i ↔ i ≤ x ∧ x < numU ∧ P ∣ x - i := by
  induction fuel generalizing i with
  | zero =>
    simp only [dsh.PartitionedDSHLoader.loop, List.not_mem_nil, false_iff]
    omega
  | succ f ih =>
    simp only [dsh.PartitionedDSHLoader.loop]
    by_cases hi : i < numU
    · have hu : u32 (i + P) = i + P := by
        unfold u32
        exact Nat.mod_eq_of_lt (by omega)
      rw [if_pos hi, List.mem_cons, hu, ih (i + P) (by omega)]
      constructor
      · rintro (rfl | ⟨h1, h2, h3⟩)
        · exact ⟨le_refl _, hi, by simp⟩
        · refine ⟨by omega, h2, ?_⟩
          have : x - i = (x - (i + P)) + P := by omega
          rw [this]
          exact Dvd.dvd.add h3 (dvd_refl P)
      · rintro ⟨h1, h2, h3⟩
        by_cases hx : x = i
        · exact Or.inl hx
        · right
          have hpos : 0 < x - i := by omega
          have hle : P ≤ x - i := Nat.le_of_dvd hpos h3
          refine ⟨by omega, h2, ?_⟩
          have : x - (i + P) = (x - i) - P := by omega
          rw [this]
          exact Nat.dvd_sub' h3 (dvd_refl P)
    · rw [if_neg hi]
      simp only [List.not_mem_nil, false_iff]
      omega

/-- C6 (DSH user-name sharding round trip): for every user id `n < 10^9`, every
`P ≥ 1` and any two trailing bytes, `DSHSharder::compute_partition` on the
22-byte key `format_uname(decimal(n))` followed by those bytes is `n mod P`;
hence the loader of partition `p` inserts the users `p, p+P, p+2P, ...` below
`num_users`, and each of them is mapped by the sharder to `p`. -/
theorem dsh_username_sharding (n P : Nat) (hn : n < 10 ^ 9) (hP : 1 ≤ P) (b1 b2 : Nat) :
    (∃ u : String, dsh.format_uname (to_string (n : Int)) = some u ∧
      (bytesOf u ++ [b1, b2]).length = 22 ∧
      DSHSharder.compute_partition P (bytesOf u ++ [b1, b2]) = some (n % P)) ∧
    (∀ p numU : Nat, p < P → P < 2 ^ 31 → numU ≤ 10 ^ 9 →
      (∀ k : Nat, p + k * P < numU →
        (dsh.format_uname (to_string ((p + k * P : Nat) : Int)), to_string ((p + k * P : Nat) : Int)) ∈
          dsh.PartitionedDSHLoader.LoadUsers P p numU) ∧
      (∀ row ∈ dsh.PartitionedDSHLoader.LoadUsers P p numU,
        ∃ u : String, row.1 = some u ∧
          DSHSharder.compute_partition P (bytesOf u ++ [b1, b2]) = some p)) := by
  have key : ∀ m : Nat, m < 10 ^ 9 →
      ∃ u : String, dsh.format_uname (to_string (m : Int)) = some u ∧
        (bytesOf u ++ [b1, b2]).length = 22 ∧
        DSHSharder.compute_partition P (bytesOf u ++ [b1, b2]) = some (m % P) := by
    intro m hm
    obtain ⟨u, hu, l, hl1, hl9, hlen, hb⟩ := format_uname_to_string m hm
    refine ⟨u, hu, ?_, ?_⟩
    · rw [hb]
      simp only [List.length_append, List.length_cons, List.length_replicate, List.length_nil, hlen]
      omega
    · rw [hb]
      exact DSHSharder_formatted m P l b1 b2 hm hl1 hl9 hlen
  refine ⟨key n hn, ?_⟩
  intro p numU hp hP31 hU
  have hmem := fun x => dsh_loop_mem P numU hP (by omega) numU p x (by omega)
  constructor
  · intro k hk
    unfold dsh.PartitionedDSHLoader.LoadUsers
    rw [List.mem_map]
    refine ⟨p + k * P, (hmem _).2 ⟨by omega, hk, ?_⟩, rfl⟩
    have : p + k * P - p = k * P := by omega
    rw [this]
    exact Dvd.intro_left k rfl
  · intro row hrow
    unfold dsh.PartitionedDSHLoader.LoadUsers at hrow
    rw [List.mem_map] at hrow
    obtain ⟨i, hi, rfl⟩ := hrow
    obtain ⟨h1, h2, h3⟩ := (hmem i).1 hi
    obtain ⟨u, hu, _, hc⟩ := key i (by omega)
    refine ⟨u, hu, ?_⟩
    rw [hc]
    congr 1
    obtain ⟨c, hc2⟩ := h3
    have hi2 : i = p + P * c := by omega
    rw [hi2, Nat.add_mul_mod_self_left]
    exact Nat.mod_eq_of_lt hp

/-- Witness for `dsh_username_sharding`: user 7 with `P = 4` and trailing bytes
0, 0. -/
theorem dsh_username_sharding_witness :
    ∃ u : String, dsh.format_uname (to_string ((7 : Nat) : Int)) = some u ∧
      (bytesOf u ++ [0, 0]).length = 22 ∧
      DSHSharder.compute_partition 4 (bytesOf u ++ [0, 0]) = some (7 % 4) :=
  (dsh_username_sharding 7 4 (by norm_num) (by norm_num) 0 0).1


/-! ### KeyGen superset for PPS and SmallBank -/

/-- One more iteration of a `for` loop. -/
theorem forLoop_succ {σ : Type} (n : Nat) (body : Nat → σ → σ) (s : σ) :
    forLoop (n + 1) body s = body n (forLoop n body s) := by
  simp [forLoop, List.range_succ, List.foldl_append]

/-- Keys recorded by a loop whose body keeps an invariant and records one key
per iteration. -/
theorem forLoop_keys {σ κ : Type} (keys : σ → List κ) (I : σ → Prop) (body : Nat → σ → σ)
    (k : Nat → κ) (h : ∀ i s, I s → I (body i s) ∧ keys (body i s) = keys s ++ [k i])
    (n : Nat) (s : σ) (hs : I s) :
    I (forLoop n body s) ∧ keys (forLoop n body s) = keys s ++ (List.range n).map k := by
  induction n with
  | zero => simp [forLoop, hs]
  | succ m ih =>
    rw [forLoop_succ]
    obtain ⟨h1, h2⟩ := h m _ ih.1
    refine ⟨h1, ?_⟩
    rw [h2, ih.2, List.range_succ, List.map_append]
    simp

/-- A loop whose body keeps an invariant keeps it. -/
theorem forLoop_inv {σ : Type} (I : σ → Prop) (body : Nat → σ → σ)
    (h : ∀ i s, I s → I (body i s)) (n : Nat) (s : σ) (hs : I s) : I (forLoop n body s) := by
  induction n with
  | zero => simpa [forLoop] using hs
  | succ m ih =>
    rw [forLoop_succ]
    exact h m _ ih

namespace pps

/-- Keys recorded by the amount-reading loop. -/
theorem selectAmount_loop (n : Nat) (s : Bool × PartsState) :
    (forLoop n selectAmount s).2.parts_ids_ = s.2.parts_ids_ ∧
    (forLoop n selectAmount s).2.keys =
      s.2.keys ++ (List.range n).map fun (i : Nat) => partKey (s.2.parts_ids_.getD i 0) := by
  have h := forLoop_keys (fun r : Bool × PartsState => r.2.keys)
    (fun r => r.2.parts_ids_ = s.2.parts_ids_) selectAmount
    (fun i => partKey (s.2.parts_ids_.getD i 0))
    (by
      intro i r hr
      unfold selectAmount
      simp only
      cases hrow : r.2.storage.part (r.2.parts_ids_.getD i 0) <;>
        simp [hr, TxnBase.keys, TxnBase.record, TxnBase.fail, Op.key])
    n s rfl
  exact h

/-- Keys recorded by the amount-writing loop. -/
theorem updateAmount_loop (n : Nat) (s : Bool × PartsState) :
    (forLoop n updateAmount s).2.parts_ids_ = s.2.parts_ids_ ∧
    (forLoop n updateAmount s).2.keys =
      s.2.keys ++ (List.range n).map fun (i : Nat) => partKey (s.2.parts_ids_.getD i 0) := by
  have h := forLoop_keys (fun r : Bool × PartsState => r.2.keys)
    (fun r => r.2.parts_ids_ = s.2.parts_ids_) updateAmount
    (fun i => partKey (s.2.parts_ids_.getD i 0))
    (by
      intro i r hr
      unfold updateAmount
      simp only
      split <;> simp [hr, TxnBase.keys, TxnBase.record, TxnBase.fail, Op.key])
    n s rfl
  exact h

/-- The `Compute` loop records nothing and keeps the ids. -/
theorem computeAmount_loop (delta : Int) (n : Nat) (t : PartsState) :
    (forLoop n (computeAmount delta) t).parts_ids_ = t.parts_ids_ ∧
    (forLoop n (computeAmount delta) t).ops = t.ops ∧
    (forLoop n (computeAmount delta) t).storage = t.storage := by
  exact forLoop_inv (fun r : PartsState =>
      r.parts_ids_ = t.parts_ids_ ∧ r.ops = t.ops ∧ r.storage = t.storage)
    (computeAmount delta) (by intro i r hr; simpa [computeAmount] using hr) n t ⟨rfl, rfl, rfl⟩

/-- Keys recorded by the slot-checking loop of `OrderProduct::Read`. -/
theorem OrderProduct_checkSlot_loop (pid : Int) (n : Nat) (s : Bool × PartsState) :
    (forLoop n (OrderProduct.checkSlot pid) s).2.parts_ids_ = s.2.parts_ids_ ∧
    (forLoop n (OrderProduct.checkSlot pid) s).2.keys =
      s.2.keys ++ (List.range n).map fun (i : Nat) => productPartsKey pid ((i : Int) + 1) := by
  have h := forLoop_keys (fun r : Bool × PartsState => r.2.keys)
    (fun r => r.2.parts_ids_ = s.2.parts_ids_) (OrderProduct.checkSlot pid)
    (fun i => productPartsKey pid ((i : Int) + 1))
    (by
      intro i r hr
      unfold OrderProduct.checkSlot
      simp only
      cases hrow : r.2.storage.productParts pid ((i : Int) + 1) with
      | none => simp [hr, TxnBase.keys, TxnBase.record, TxnBase.fail, Op.key]
      | some v =>
        simp only
        split <;> simp [hr, TxnBase.keys, TxnBase.record, TxnBase.fail, Op.key])
    n s rfl
  exact h

/-- Keys recorded by the slot-checking loop of `SupplierRestock::Read`. -/
theorem SupplierRestock_checkSlot_loop (sid : Int) (n : Nat) (s : Bool × PartsState) :
    (forLoop n (SupplierRestock.checkSlot sid) s).2.parts_ids_ = s.2.parts_ids_ ∧
    (forLoop n (SupplierRestock.checkSlot sid) s).2.keys =
      s.2.keys ++ (List.range n).map fun (i : Nat) => supplierPartsKey sid ((i : Int) + 1) := by
  have h := forLoop_keys (fun r : Bool × PartsState => r.2.keys)
    (fun r => r.2.parts_ids_ = s.2.parts_ids_) (SupplierRestock.checkSlot sid)
    (fun i => supplierPartsKey sid ((i : Int) + 1))
    (by
      intro i r hr
      unfold SupplierRestock.checkSlot
      simp only
      cases hrow : r.2.storage.supplierParts sid ((i : Int) + 1) with
      | none => simp [hr, TxnBase.keys, TxnBase.record, TxnBase.fail, Op.key]
      | some v =>
        simp only
        split <;> simp [hr, TxnBase.keys, TxnBase.record, TxnBase.fail, Op.key])
    n s rfl
  exact h

/-- Keys recorded by the loop of `GetPartsByProduct::Read`. -/
theorem GetPartsByProduct_readSlot_loop (n : Nat) (s : Bool × LookupState) :
    (forLoop n GetPartsByProduct.readSlot s).2.keys =
      s.2.keys ++ (List.range n).map fun (i : Nat) => productPartsKey s.2.id_ ((i : Int) + 1) := by
  have h := forLoop_keys (fun r : Bool × LookupState => r.2.keys)
    (fun r => r.2.id_ = s.2.id_) GetPartsByProduct.readSlot
    (fun i => productPartsKey s.2.id_ ((i : Int) + 1))
    (by
      intro i r hr
      unfold GetPartsByProduct.readSlot
      simp only
      cases hrow : r.2.storage.productParts r.2.id_ ((i : Int) + 1) <;>
        simp [hr, TxnBase.keys, TxnBase.record, TxnBase.fail, Op.key])
    n s rfl
  exact h.2

/-- Keys recorded by the loop of `GetPartsBySupplier::Read`. -/
theorem GetPartsBySupplier_readSlot_loop (n : Nat) (s : Bool × LookupState) :
    (forLoop n GetPartsBySupplier.readSlot s).2.keys =
      s.2.keys ++ (List.range n).map fun (i : Nat) => supplierPartsKey s.2.id_ ((i : Int) + 1) := by
  have h := forLoop_keys (fun r : Bool × LookupState => r.2.keys)
    (fun r => r.2.id_ = s.2.id_) GetPartsBySupplier.readSlot
    (fun i => supplierPartsKey s.2.id_ ((i : Int) + 1))
    (by
      intro i r hr
      unfold GetPartsBySupplier.readSlot
      simp only
      cases hrow : r.2.storage.supplierParts r.2.id_ ((i : Int) + 1) <;>
        simp [hr, TxnBase.keys, TxnBase.record, TxnBase.fail, Op.key])
    n s rfl
  exact h.2

end pps

/-- After `Execute()` the object is in the state left by `Read()` or in the state
left by `Write()` after `Compute()`. -/
theorem PPSTransaction_state_cases {σ : Type} (b : TxnBody σ) (s : σ) :
    (PPSTransaction.Execute b s).state = (b.Read s).2 ∨
    (PPSTransaction.Execute b s).state = (b.Write (b.Compute (b.Read s).2)).2 := by
  unfold PPSTransaction.Execute
  cases hr : (b.Read s).1 <;> cases hw : (b.Write (b.Compute (b.Read s).2)).1 <;> simp [hr, hw]

namespace pps

/-- Keys recorded by `OrderParts::Read`. -/
theorem OrderParts_Read_keys (t : OrderParts) :
    (OrderParts.Read t).2.parts_ids_ = t.parts_ids_ ∧
    (OrderParts.Read t).2.keys = t.keys ++ partKeys t.parts_ids_ :=
  selectAmount_loop t.parts_ids_.length (true, t.toPartsState)

/-- `OrderParts::Compute` records nothing. -/
theorem OrderParts_Compute_keys (t : OrderParts) :
    (OrderParts.Compute t).parts_ids_ = t.parts_ids_ ∧ (OrderParts.Compute t).keys = t.keys := by
  have h := computeAmount_loop (-1) t.parts_ids_.length t.toPartsState
  exact ⟨h.1, by simp only [TxnBase.keys, OrderParts.Compute, h.2.1]⟩

/-- Keys recorded by `OrderParts::Write`. -/
theorem OrderParts_Write_keys (t : OrderParts) :
    (OrderParts.Write t).2.keys = t.keys ++ partKeys t.parts_ids_ :=
  (updateAmount_loop t.parts_ids_.length (true, t.toPartsState)).2

/-- Keys recorded by `OrderProduct::Read`. -/
theorem OrderProduct_Read_keys (kPP : Nat) (t : OrderProduct) :
    (OrderProduct.Read kPP t).2.parts_ids_ = t.parts_ids_ ∧
    (OrderProduct.Read kPP t).2.keys = t.keys ++
      (if t.parts_ids_.length ≠ kPP then []
       else ((List.range kPP).map fun (i : Nat) => productPartsKey t.product_id_ ((i : Int) + 1)) ++
        partKeys t.parts_ids_) := by
  unfold OrderProduct.Read
  by_cases hlen : t.parts_ids_.length ≠ kPP
  · simp only [if_pos hlen, List.append_nil]
    constructor <;> trivial
  · simp only [if_neg hlen]
    have h0 := OrderProduct_checkSlot_loop t.product_id_ kPP (true, t.toPartsState)
    have h1 := selectAmount_loop t.parts_ids_.length
      (forLoop kPP (OrderProduct.checkSlot t.product_id_) (true, t.toPartsState))
    refine ⟨by rw [h1.1, h0.1], ?_⟩
    have := h1.2
    rw [h0.1, h0.2, List.append_assoc] at this
    exact this

/-- `OrderProduct::Compute` records nothing. -/
theorem OrderProduct_Compute_keys (t : OrderProduct) :
    (OrderProduct.Compute t).parts_ids_ = t.parts_ids_ ∧ (OrderProduct.Compute t).keys = t.keys := by
  have h := computeAmount_loop (-1) t.parts_ids_.length t.toPartsState
  exact ⟨h.1, by simp only [TxnBase.keys, OrderProduct.Compute, h.2.1]⟩

/-- Keys recorded by `OrderProduct::Write`. -/
theorem OrderProduct_Write_keys (t : OrderProduct) :
    (OrderProduct.Write t).2.keys = t.keys ++ partKeys t.parts_ids_ :=
  (updateAmount_loop t.parts_ids_.length (true, t.toPartsState)).2

/-- Keys recorded by `SupplierRestock::Read`. -/
theorem SupplierRestock_Read_keys (kSP : Nat) (t : SupplierRestock) :
    (SupplierRestock.Read kSP t).2.parts_ids_ = t.parts_ids_ ∧
    (SupplierRestock.Read kSP t).2.keys = t.keys ++
      (if t.parts_ids_.length ≠ kSP then []
       else ((List.range kSP).map fun (i : Nat) => supplierPartsKey t.suppplier_id_ ((i : Int) + 1)) ++
        partKeys t.parts_ids_) := by
  unfold SupplierRestock.Read
  by_cases hlen : t.parts_ids_.length ≠ kSP
  · simp only [if_pos hlen, List.append_nil]
    constructor <;> trivial
  · simp only [if_neg hlen]
    have h0 := SupplierRestock_checkSlot_loop t.suppplier_id_ kSP (true, t.toPartsState)
    have h1 := selectAmount_loop t.parts_ids_.length
      (forLoop kSP (SupplierRestock.checkSlot t.suppplier_id_) (true, t.toPartsState))
    refine ⟨by rw [h1.1, h0.1], ?_⟩
    have := h1.2
    rw [h0.1, h0.2, List.append_assoc] at this
    exact this

/-- `SupplierRestock::Compute` records nothing. -/
theorem SupplierRestock_Compute_keys (t : SupplierRestock) :
    (SupplierRestock.Compute t).parts_ids_ = t.parts_ids_ ∧
    (SupplierRestock.Compute t).keys = t.keys := by
  have h := computeAmount_loop 1 t.parts_ids_.length t.toPartsState
  exact ⟨h.1, by simp only [TxnBase.keys, SupplierRestock.Compute, h.2.1]⟩

/-- Keys recorded by `SupplierRestock::Write`. -/
theorem SupplierRestock_Write_keys (t : SupplierRestock) :
    (SupplierRestock.Write t).2.keys = t.keys ++ partKeys t.parts_ids_ :=
  (updateAmount_loop t.parts_ids_.length (true, t.toPartsState)).2

/-- Keys recorded by `UpdateProductPart::Read`. -/
theorem UpdateProductPart_Read_keys (kPP : Nat) (t : UpdateProductPart) :
    (UpdateProductPart.Read kPP t).2.product_id_ = t.product_id_ ∧
    (UpdateProductPart.Read kPP t).2.keys = t.keys ++
      [productPartsKey t.product_id_ 1, productPartsKey t.product_id_ (kPP : Int)] := by
  unfold UpdateProductPart.Read
  cases t.storage.productParts t.product_id_ 1 <;>
    cases t.storage.productParts t.product_id_ (kPP : Int) <;>
    simp [TxnBase.keys, TxnBase.record, TxnBase.fail, Op.key]

/-- Keys recorded by `UpdateProductPart::Write`. -/
theorem UpdateProductPart_Write_keys (kPP : Nat) (t : UpdateProductPart) :
    (UpdateProductPart.Write kPP t).2.keys = t.keys ++
      [productPartsKey t.product_id_ 1, productPartsKey t.product_id_ (kPP : Int)] := by
  unfold UpdateProductPart.Write
  simp only
  split <;> split <;> simp [TxnBase.keys, TxnBase.record, TxnBase.fail, Op.key]

/-- Keys recorded by `GetPartsByProduct::Read`. -/
theorem GetPartsByProduct_Read_keys (t : GetPartsByProduct) :
    (GetPartsByProduct.Read t).2.keys = t.keys ++
      (List.range t.parts_ids_.length).map fun (i : Nat) => productPartsKey t.id_ ((i : Int) + 1) :=
  GetPartsByProduct_readSlot_loop t.parts_ids_.length (true, t.toLookupState)

/-- Keys recorded by `GetPartsBySupplier::Read`. -/
theorem GetPartsBySupplier_Read_keys (t : GetPartsBySupplier) :
    (GetPartsBySupplier.Read t).2.keys = t.keys ++
      (List.range t.parts_ids_.length).map fun (i : Nat) => supplierPartsKey t.id_ ((i : Int) + 1) :=
  GetPartsBySupplier_readSlot_loop t.parts_ids_.length (true, t.toLookupState)

/-- Keys recorded by `GetProduct::Read`. -/
theorem GetProduct_Read_keys (t : GetProduct) :
    (GetProduct.Read t).2.keys = t.keys ++ [productKey t.product_id_] := by
  unfold GetProduct.Read
  cases t.storage.product t.product_id_ <;> simp [TxnBase.keys, TxnBase.record, TxnBase.fail, Op.key]

/-- Keys recorded by `GetPart::Read`. -/
theorem GetPart_Read_keys (t : GetPart) :
    (GetPart.Read t).2.keys = t.keys ++ [partKey t.part_id_] := by
  unfold GetPart.Read
  cases t.storage.part t.part_id_ <;> simp [TxnBase.keys, TxnBase.record, TxnBase.fail, Op.key]

/-- `Read()` then `Write()` on any adapter records the read keys followed by the
written keys. -/
theorem pps_keyGenPass_keys (kPP kSP : Nat) (a : StorageAdapter) (c : Procedure) :
    (keyGenPass kPP kSP a c).map Op.key = readKeys kPP kSP c ++ writeKeys kPP c := by
  cases c with
  | get_product id =>
    simpa [keyGenPass, readKeys, writeKeys, TxnBase.keys] using
      GetProduct_Read_keys (GetProduct.new a id)
  | get_part id =>
    simpa [keyGenPass, readKeys, writeKeys, TxnBase.keys] using GetPart_Read_keys (GetPart.new a id)
  | order_parts ids =>
    have h1 := OrderParts_Read_keys (OrderParts.new a ids)
    have h2 := OrderParts_Write_keys (OrderParts.Read (OrderParts.new a ids)).2
    rw [h1.1, h1.2] at h2
    simpa [keyGenPass, readKeys, writeKeys, TxnBase.keys] using h2
  | order_product id ids =>
    have h1 := OrderProduct_Read_keys kPP (OrderProduct.new a id ids)
    have h2 := OrderProduct_Write_keys (OrderProduct.Read kPP (OrderProduct.new a id ids)).2
    rw [h1.1, h1.2] at h2
    simpa [keyGenPass, readKeys, writeKeys, TxnBase.keys] using h2
  | supplier_restock id ids =>
    have h1 := SupplierRestock_Read_keys kSP (SupplierRestock.new a id ids)
    have h2 := SupplierRestock_Write_keys (SupplierRestock.Read kSP (SupplierRestock.new a id ids)).2
    rw [h1.1, h1.2] at h2
    simpa [keyGenPass, readKeys, writeKeys, TxnBase.keys] using h2
  | get_parts_by_product id =>
    have h := GetPartsByProduct_Read_keys (GetPartsByProduct.new kPP a id)
    have e : (GetPartsByProduct.new kPP a id).parts_ids_.length = kPP := by
      simp [GetPartsByProduct.new]
    rw [e] at h
    simpa [keyGenPass, readKeys, writeKeys, TxnBase.keys] using h
  | get_parts_by_supplier id =>
    have h := GetPartsBySupplier_Read_keys (GetPartsBySupplier.new kSP a id)
    have e : (GetPartsBySupplier.new kSP a id).parts_ids_.length = kSP := by
      simp [GetPartsBySupplier.new]
    rw [e] at h
    simpa [keyGenPass, readKeys, writeKeys, TxnBase.keys] using h
  | update_product_part id =>
    have h1 := UpdateProductPart_Read_keys kPP (UpdateProductPart.new a id)
    have h2 := UpdateProductPart_Write_keys kPP (UpdateProductPart.Read kPP (UpdateProductPart.new a id)).2
    rw [h1.1, h1.2] at h2
    simpa [keyGenPass, readKeys, writeKeys, TxnBase.keys] using h2

/-- `Execute()` on any adapter records the read keys, followed by the written
keys when `Write()` is reached. -/
theorem pps_executePass_keys (kPP kSP : Nat) (a : StorageAdapter) (c : Procedure) :
    (executePass kPP kSP a c).2.map Op.key = readKeys kPP kSP c ∨
    (executePass kPP kSP a c).2.map Op.key = readKeys kPP kSP c ++ writeKeys kPP c := by
  cases c with
  | get_product id =>
    have h := GetProduct_Read_keys (GetProduct.new a id)
    rcases PPSTransaction_state_cases GetProduct.body (GetProduct.new a id) with hs | hs <;>
      left <;> simp only [executePass, hs] <;>
      simpa [readKeys, TxnBase.keys, GetProduct.body, GetProduct.Write, GetProduct.Compute] using h
  | get_part id =>
    have h := GetPart_Read_keys (GetPart.new a id)
    rcases PPSTransaction_state_cases GetPart.body (GetPart.new a id) with hs | hs <;>
      left <;> simp only [executePass, hs] <;>
      simpa [readKeys, TxnBase.keys, GetPart.body, GetPart.Write, GetPart.Compute] using h
  | order_parts ids =>
    have h1 := OrderParts_Read_keys (OrderParts.new a ids)
    have hc := OrderParts_Compute_keys (OrderParts.Read (OrderParts.new a ids)).2
    have h2 := OrderParts_Write_keys (OrderParts.Compute (OrderParts.Read (OrderParts.new a ids)).2)
    rw [hc.1, hc.2, h1.1, h1.2] at h2
    rcases PPSTransaction_state_cases OrderParts.body (OrderParts.new a ids) with hs | hs
    · left
      simp only [executePass, hs]
      simpa [readKeys, TxnBase.keys, OrderParts.body] using h1.2
    · right
      simp only [executePass, hs]
      simpa [readKeys, writeKeys, TxnBase.keys, OrderParts.body] using h2
  | order_product id ids =>
    have h1 := OrderProduct_Read_keys kPP (OrderProduct.new a id ids)
    have hc := OrderProduct_Compute_keys (OrderProduct.Read kPP (OrderProduct.new a id ids)).2
    have h2 := OrderProduct_Write_keys
      (OrderProduct.Compute (OrderProduct.Read kPP (OrderProduct.new a id ids)).2)
    rw [hc.1, hc.2, h1.1, h1.2] at h2
    rcases PPSTransaction_state_cases (OrderProduct.body kPP) (OrderProduct.new a id ids) with hs | hs
    · left
      simp only [executePass, hs]
      simpa [readKeys, TxnBase.keys, OrderProduct.body] using h1.2
    · right
      simp only [executePass, hs]
      simpa [readKeys, writeKeys, TxnBase.keys, OrderProduct.body] using h2
  | supplier_restock id ids =>
    have h1 := SupplierRestock_Read_keys kSP (SupplierRestock.new a id ids)
    have hc := SupplierRestock_Compute_keys (SupplierRestock.Read kSP (SupplierRestock.new a id ids)).2
    have h2 := SupplierRestock_Write_keys
      (SupplierRestock.Compute (SupplierRestock.Read kSP (SupplierRestock.new a id ids)).2)
    rw [hc.1, hc.2, h1.1, h1.2] at h2
    rcases PPSTransaction_state_cases (SupplierRestock.body kSP) (SupplierRestock.new a id ids)
      with hs | hs
    · left
      simp only [executePass, hs]
      simpa [readKeys, TxnBase.keys, SupplierRestock.body] using h1.2
    · right
      simp only [executePass, hs]
      simpa [readKeys, writeKeys, TxnBase.keys, SupplierRestock.body] using h2
  | get_parts_by_product id =>
    have h := GetPartsByProduct_Read_keys (GetPartsByProduct.new kPP a id)
    have e : (GetPartsByProduct.new kPP a id).parts_ids_.length = kPP := by
      simp [GetPartsByProduct.new]
    rw [e] at h
    rcases PPSTransaction_state_cases GetPartsByProduct.body (GetPartsByProduct.new kPP a id)
      with hs | hs <;>
      left <;> simp only [executePass, hs] <;>
      simpa [readKeys, TxnBase.keys, GetPartsByProduct.body, GetPartsByProduct.Write,
        GetPartsByProduct.Compute] using h
  | get_parts_by_supplier id =>
    have h := GetPartsBySupplier_Read_keys (GetPartsBySupplier.new kSP a id)
    have e : (GetPartsBySupplier.new kSP a id).parts_ids_.length = kSP := by
      simp [GetPartsBySupplier.new]
    rw [e] at h
    rcases PPSTransaction_state_cases GetPartsBySupplier.body (GetPartsBySupplier.new kSP a id)
      with hs | hs <;>
      left <;> simp only [executePass, hs] <;>
      simpa [readKeys, TxnBase.keys, GetPartsBySupplier.body, GetPartsBySupplier.Write,
        GetPartsBySupplier.Compute] using h
  | update_product_part id =>
    have h1 := UpdateProductPart_Read_keys kPP (UpdateProductPart.new a id)
    have h2 := UpdateProductPart_Write_keys kPP
      (UpdateProductPart.Compute (UpdateProductPart.Read kPP (UpdateProductPart.new a id)).2)
    simp only [UpdateProductPart.Compute] at h2
    rw [h1.1, h1.2] at h2
    rcases PPSTransaction_state_cases (UpdateProductPart.body kPP) (UpdateProductPart.new a id)
      with hs | hs
    · left
      simp only [executePass, hs]
      simpa [readKeys, TxnBase.keys, UpdateProductPart.body] using h1.2
    · right
      simp only [executePass, hs]
      simpa [readKeys, writeKeys, TxnBase.keys, UpdateProductPart.body,
        UpdateProductPart.Compute] using h2

end pps

/-- After `Execute()` the object is in the state left by `Read()` or in the state
left by `Write()` after `Compute()`. -/
theorem SmallBankTransaction_state_cases {σ : Type} (b : TxnBody σ) (s : σ) :
    (SmallBankTransaction.Execute b s).state = (b.Read s).2 ∨
    (SmallBankTransaction.Execute b s).state = (b.Write (b.Compute (b.Read s).2)).2 :=
  PPSTransaction_state_cases b s

namespace smallbank

/-- A `Select` records its key. -/
theorem selectInt_ops (s : Bool × TxnBase) (k : RowKey) (row : Option Int) (msg : String) (d : Int) :
    (selectInt s k row msg d).1.2.ops = s.2.ops ++ [Op.select k] ∧
    (selectInt s k row msg d).1.2.storage = s.2.storage := by
  unfold selectInt
  cases row <;> simp [TxnBase.record, TxnBase.fail]

/-- An `Update` records its key. -/
theorem updateInt_ops (s : Bool × TxnBase) (k : RowKey) (v : Int) (msg : String) :
    (updateInt s k v msg).2.ops = s.2.ops ++ [Op.update k v] ∧
    (updateInt s k v msg).2.storage = s.2.storage := by
  unfold updateInt
  simp only
  split <;> simp [TxnBase.record, TxnBase.fail]

/-- `Read()` then `Write()` on any adapter records the read keys followed by the
written keys. -/
theorem smallbank_keyGenPass_keys (a : StorageAdapter) (c : Procedure) :
    (keyGenPass a c).map Op.key = readKeys c ++ writeKeys c := by
  cases c <;>
    simp [keyGenPass, readKeys, writeKeys, GetCustomerIdByNameTxn.Read, BalanceTxn.Read,
      BalanceTxn.Write, DepositCheckingTxn.Read, DepositCheckingTxn.Write,
      TransactionSavingTxn.Read, TransactionSavingTxn.Write, AmalgamateTxn.Read,
      AmalgamateTxn.Write, WritecheckTxn.Read, WritecheckTxn.Write, selectInt_ops, updateInt_ops,
      GetCustomerIdByNameTxn.new, BalanceTxn.new, DepositCheckingTxn.new,
      TransactionSavingTxn.new, AmalgamateTxn.new, WritecheckTxn.new, TxnBase.fresh, Op.key]
  split <;> simp [updateInt_ops, selectInt_ops, Op.key]

/-- `Execute()` on any adapter records the read keys, followed by the written
keys when `Write()` is reached. -/
theorem smallbank_executePass_keys (a : StorageAdapter) (c : Procedure) :
    (executePass a c).2.map Op.key = readKeys c ∨
    (executePass a c).2.map Op.key = readKeys c ++ writeKeys c := by
  cases c with
  | getCustomerIdByName n =>
    rcases SmallBankTransaction_state_cases GetCustomerIdByNameTxn.body
      (GetCustomerIdByNameTxn.new a n) with hs | hs <;>
      left <;> simp only [executePass, hs] <;>
      simp [readKeys, GetCustomerIdByNameTxn.body, GetCustomerIdByNameTxn.Read,
        GetCustomerIdByNameTxn.Write, GetCustomerIdByNameTxn.Compute, selectInt_ops,
        GetCustomerIdByNameTxn.new, TxnBase.fresh, Op.key]
  | balance n id =>
    rcases SmallBankTransaction_state_cases BalanceTxn.body (BalanceTxn.new a n id) with hs | hs <;>
      left <;> simp only [executePass, hs] <;>
      simp [readKeys, BalanceTxn.body, BalanceTxn.Read, BalanceTxn.Write, BalanceTxn.Compute,
        selectInt_ops, BalanceTxn.new, TxnBase.fresh, Op.key]
  | depositChecking n id amt =>
    rcases SmallBankTransaction_state_cases DepositCheckingTxn.body
      (DepositCheckingTxn.new a n id amt) with hs | hs
    · left
      simp only [executePass, hs]
      simp [readKeys, DepositCheckingTxn.body, DepositCheckingTxn.Read, selectInt_ops,
        DepositCheckingTxn.new, TxnBase.fresh, Op.key]
    · right
      simp only [executePass, hs]
      simp [readKeys, writeKeys, DepositCheckingTxn.body, DepositCheckingTxn.Read,
        DepositCheckingTxn.Write, DepositCheckingTxn.Compute, selectInt_ops, updateInt_ops,
        DepositCheckingTxn.new, TxnBase.fresh, Op.key]
  | transactionSaving n id amt =>
    rcases SmallBankTransaction_state_cases TransactionSavingTxn.body
      (TransactionSavingTxn.new a n id amt) with hs | hs
    · left
      simp only [executePass, hs]
      simp [readKeys, TransactionSavingTxn.body, TransactionSavingTxn.Read, selectInt_ops,
        TransactionSavingTxn.new, TxnBase.fresh, Op.key]
    · right
      simp only [executePass, hs]
      simp [readKeys, writeKeys, TransactionSavingTxn.body, TransactionSavingTxn.Read,
        TransactionSavingTxn.Write, TransactionSavingTxn.Compute, selectInt_ops, updateInt_ops,
        TransactionSavingTxn.new, TxnBase.fresh, Op.key]
  | amalgamate n1 n2 id1 id2 =>
    rcases SmallBankTransaction_state_cases AmalgamateTxn.body
      (AmalgamateTxn.new a n1 n2 id1 id2) with hs | hs
    · left
      simp only [executePass, hs]
      simp [readKeys, AmalgamateTxn.body, AmalgamateTxn.Read, selectInt_ops,
        AmalgamateTxn.new, TxnBase.fresh, Op.key]
    · right
      simp only [executePass, hs]
      simp [readKeys, writeKeys, AmalgamateTxn.body, AmalgamateTxn.Read,
        AmalgamateTxn.Write, AmalgamateTxn.Compute, selectInt_ops, updateInt_ops,
        AmalgamateTxn.new, TxnBase.fresh, Op.key]
  | writecheck n id v =>
    rcases SmallBankTransaction_state_cases WritecheckTxn.body
      (WritecheckTxn.new a n id v) with hs | hs
    · left
      simp only [executePass, hs]
      simp [readKeys, WritecheckTxn.body, WritecheckTxn.Read, selectInt_ops,
        WritecheckTxn.new, TxnBase.fresh, Op.key]
    · right
      simp only [executePass, hs]
      simp only [readKeys, writeKeys, WritecheckTxn.body, WritecheckTxn.Write, WritecheckTxn.Compute]
      split <;>
        simp [WritecheckTxn.Read, selectInt_ops, updateInt_ops, WritecheckTxn.new, TxnBase.fresh,
          Op.key]

end smallbank

/-- C1 (KeyGen superset for PPS and SmallBank): for every PPS body and every
SmallBank body, every argument list and every storage state, each key that the
body selects or updates when `Execute()` runs against the storage is among the
keys recorded when the generator runs `Read()` then `Write()` of the same body
with the same arguments against the key-generation adapter. -/
theorem keygen_superset_pps_smallbank :
    (∀ (kPartsPerProduct kPartsPerSupplier : Nat) (w : pps.Op → Bool) (storage : pps.StorageAdapter)
       (c : pps.Procedure) (k : pps.RowKey),
      k ∈ (pps.executePass kPartsPerProduct kPartsPerSupplier storage c).2.map pps.Op.key →
      k ∈ (pps.keyGenPass kPartsPerProduct kPartsPerSupplier (pps.keyGenAdapter w) c).map pps.Op.key) ∧
    (∀ (w : smallbank.Op → Bool) (storage : smallbank.StorageAdapter) (c : smallbank.Procedure)
       (k : smallbank.RowKey),
      k ∈ (smallbank.executePass storage c).2.map smallbank.Op.key →
      k ∈ (smallbank.keyGenPass (smallbank.keyGenAdapter w) c).map smallbank.Op.key) := by
  constructor
  · intro kPP kSP w storage c k hk
    rw [pps.pps_keyGenPass_keys]
    rcases pps.pps_executePass_keys kPP kSP storage c with h | h <;> rw [h] at hk
    · exact List.mem_append_left _ hk
    · exact hk
  · intro w storage c k hk
    rw [smallbank.smallbank_keyGenPass_keys]
    rcases smallbank.smallbank_executePass_keys storage c with h | h <;> rw [h] at hk
    · exact List.mem_append_left _ hk
    · exact hk

/-- Witness for `keygen_superset_pps_smallbank`: `order_product(1, [5, 6])` with
two parts per product on a storage that holds the product's slots and parts;
the execution reaches `Write()` and the Part key 5 it updates is recorded by the
key-generation pass. -/
theorem keygen_superset_pps_smallbank_witness :
    (pps.executePass 2 2
      { product := fun _ => none, part := fun id => some (10 + id, "part"),
        productParts := fun _ slot => some (4 + slot), supplierParts := fun _ _ => none,
        writeOk := fun _ => true }
      (pps.Procedure.order_product 1 [5, 6])).1 = true ∧
    pps.partKey 5 ∈ (pps.keyGenPass 2 2 (pps.keyGenAdapter fun _ => true)
      (pps.Procedure.order_product 1 [5, 6])).map pps.Op.key :=
  ⟨by decide,
   keygen_superset_pps_smallbank.1 2 2 (fun _ => true)
    { product := fun _ => none, part := fun id => some (10 + id, "part"),
      productParts := fun _ slot => some (4 + slot), supplierParts := fun _ _ => none,
      writeOk := fun _ => true }
    (pps.Procedure.order_product 1 [5, 6]) (pps.partKey 5) (by decide)⟩

/-! ### KeyGen pass of the DSH reservation -/

/-- C2 (evaluation at the failing input): reservation of 1 room by user "1" in
hotel 1 for the nights of 01-01-2020 and 02-01-2020. On a storage that holds
the user and the hotel (capacity 10) `Execute()` returns true and inserts the
Reservation row; the key-generation pass, which also runs `Execute()`, stops
after `Read()` returned false on the empty selects and records no Reservation
key. -/
theorem reservation_keygen_misses_reservation :
    ((dsh.reservationPass
        { users := fun _ => some "1", hotels := fun _ => some ⟨0, 0, 0, 0, 10⟩,
          reservationCounts := fun _ _ => none, writeOk := fun _ => true }
        false "1" "1" "01-01-2020" "03-01-2020" 1 "1" 1).map
      fun r => (r.ret, r.state.fault, decide (dsh.RowKey.reservation 1 none ∈ r.state.keys))) =
      some (true, false, true) ∧
    ((dsh.reservationPass (dsh.keyGenAdapter fun _ => true)
        false "1" "1" "01-01-2020" "03-01-2020" 1 "1" 1).map
      fun r => (r.ret, r.calls, r.state.keys)) =
      some (false, [Phase.Read],
        [dsh.RowKey.user "01_________________1", dsh.RowKey.hotel 1,
         dsh.RowKey.reservationCount 1 "01-01-2020", dsh.RowKey.reservationCount 1 "02-01-2020"]) := by
  decide

namespace dsh

/-- Once the local `ok` of `ReservationTxn::Read` is false, the loop over the
dates only records selects and leaves it false. -/
theorem readCount_loop_false (n : Nat) (s : Bool × ReservationTxn) (h1 : s.1 = false)
    (h2 : ∀ op ∈ s.2.ops, ∃ k, op = Op.select k) :
    (forLoop n ReservationTxn.readCount s).1 = false ∧
    ∀ op ∈ (forLoop n ReservationTxn.readCount s).2.ops, ∃ k, op = Op.select k := by
  apply forLoop_inv (fun r : Bool × ReservationTxn => r.1 = false ∧ ∀ op ∈ r.2.ops, ∃ k, op = Op.select k)
    ReservationTxn.readCount _ n s ⟨h1, h2⟩
  intro i r hr
  unfold ReservationTxn.readCount
  simp only [hr.1, Bool.not_false, if_true, true_and]
  intro op hop
  simp only [TxnBase.record, List.mem_append, List.mem_singleton] at hop
  rcases hop with hop | hop
  · exact hr.2 op hop
  · exact ⟨_, hop⟩

/-- On the key-generation adapter `ReservationTxn::Read` returns false and
records only selects. -/
theorem ReservationTxn_Read_keyGen (w : Op → Bool) (t : ReservationTxn)
    (hs : t.storage = keyGenAdapter w) (hops : t.ops = []) :
    (ReservationTxn.Read t).1 = false ∧
    ∀ op ∈ (ReservationTxn.Read t).2.ops, ∃ k, op = Op.select k := by
  unfold ReservationTxn.Read
  simp only [hs, keyGenAdapter, Bool.false_and, if_false, Bool.false_eq_true]
  cases date_interp t.in_date_ t.out_date_ with
  | none =>
    refine ⟨rfl, ?_⟩
    intro op hop
    simp [TxnBase.record, TxnBase.fail, hops] at hop
    rcases hop with hop | hop <;> exact ⟨_, hop⟩
  | some range =>
    simp only
    apply readCount_loop_false
    · split <;> rfl
    · intro op hop
      split at hop <;>
        (simp [TxnBase.record, TxnBase.fail, hops] at hop
         rcases hop with hop | hop <;> exact ⟨_, hop⟩)

/-- The key-generation pass of a reservation never reaches `Write()`: it
returns false after `Read()` and records selects only, for every argument
list. -/
theorem reservationPass_keyGen (w : Op → Bool) (ptrGreater : Bool)
    (username password in_date out_date : String) (hotel_id : Int) (cust_name : String)
    (num_rooms : Int) (r : ExecResult ReservationTxn)
    (h : reservationPass (keyGenAdapter w) ptrGreater username password in_date out_date hotel_id
      cust_name num_rooms = some r) :
    r.ret = false ∧ r.calls = [Phase.Read] ∧ ∀ op ∈ r.state.ops, ∃ k, op = Op.select k := by
  unfold reservationPass ReservationTxn.new at h
  cases hf : format_uname username with
  | none => simp [hf] at h
  | some uname =>
    simp only [hf, Option.map_some', Option.some.injEq] at h
    subst h
    have hr := ReservationTxn_Read_keyGen w
      { TxnBase.fresh (keyGenAdapter w) with
        in_date_ := in_date, out_date_ := out_date, hotel_id_ := hotel_id, cust_name_ := cust_name,
        num_rooms_ := num_rooms, username_ := uname, password_ := password, new_id_ := none,
        date_range_ := [], hotel_capacity_ := 0, saved_password_ := "",
        new_reservation_count := List.replicate kMaxStay none, correct_password_ := false,
        ptrGreater := ptrGreater } rfl rfl
    unfold DSHTransaction.Execute
    simp only [ReservationTxn.body, hr.1, Bool.not_false, if_true]
    exact ⟨trivial, trivial, hr.2⟩

end dsh

/-! ### Keys selected by the DSH search -/

namespace dsh

/-- Keys recorded and hotels ranked by the first loop of `SearchTxn::Read`. -/
theorem rankHotel_loop (fl : ℚ → ℚ) (ids : List Int)
    (s : (Bool × SearchTxn) × List (ℚ × Int)) :
    (ids.foldl (SearchTxn.rankHotel fl) s).1.2.keys = s.1.2.keys ++ ids.map RowKey.hotel ∧
    (ids.foldl (SearchTxn.rankHotel fl) s).1.2.storage = s.1.2.storage ∧
    (∀ p ∈ (ids.foldl (SearchTxn.rankHotel fl) s).2, p ∈ s.2 ∨ p.2 ∈ ids) ∧
    (s.1.2.storage.hotels = (fun _ => none) → (ids.foldl (SearchTxn.rankHotel fl) s).2 = s.2) := by
  induction ids generalizing s with
  | nil => simp
  | cons id rest ih =>
    simp only [List.foldl_cons]
    obtain ⟨h1, h2, h3, h4⟩ := ih (SearchTxn.rankHotel fl s id)
    have hk : (SearchTxn.rankHotel fl s id).1.2.keys = s.1.2.keys ++ [RowKey.hotel id] := by
      unfold SearchTxn.rankHotel
      simp only
      split <;> simp [TxnBase.keys, TxnBase.record, TxnBase.fail, Op.key]
    have hs : (SearchTxn.rankHotel fl s id).1.2.storage = s.1.2.storage := by
      unfold SearchTxn.rankHotel
      simp only
      split <;> simp [TxnBase.record, TxnBase.fail]
    have hr : ∀ p ∈ (SearchTxn.rankHotel fl s id).2, p ∈ s.2 ∨ p.2 = id := by
      intro p hp
      unfold SearchTxn.rankHotel at hp
      cases hrow : s.1.2.storage.hotels id with
      | none =>
        simp only [hrow] at hp
        exact Or.inl hp
      | some row =>
        simp only [hrow, List.mem_append, List.mem_singleton] at hp
        rcases hp with hp | hp
        · exact Or.inl hp
        · right
          rw [hp]
    refine ⟨?_, ?_, ?_, ?_⟩
    · rw [h1, hk]
      simp
    · rw [h2, hs]
    · intro p hp
      rcases h3 p hp with h | h
      · rcases hr p h with h | h
        · exact Or.inl h
        · exact Or.inr (by simp [h])
      · exact Or.inr (by simp [h])
    · intro hnone
      rw [h4 (by rw [hs]; exact hnone)]
      unfold SearchTxn.rankHotel
      simp [hnone]

/-- Keys recorded by the inner loop of `SearchTxn::Read`. -/
theorem checkDates_keys (hotel : Int) (dates : List String) (s : Bool × SearchTxn) :
    ∃ extra : List RowKey,
      (SearchTxn.checkDates hotel dates s).2.2.keys = s.2.keys ++ extra ∧
      ∀ k ∈ extra, searchKeyOf hotel k := by
  induction dates generalizing s with
  | nil => exact ⟨[], by simp [SearchTxn.checkDates], by simp⟩
  | cons date rest ih =>
    unfold SearchTxn.checkDates
    simp only
    cases hc : s.2.storage.reservationCounts hotel date with
    | some count =>
      simp only
      split
      · exact ⟨[RowKey.reservationCount hotel date],
          by simp [TxnBase.keys, TxnBase.record, Op.key],
          by intro k hk; simp at hk; exact Or.inr ⟨date, hk⟩⟩
      · obtain ⟨extra, h1, h2⟩ := ih (s.1, { s.2 with
          toTxnBase := s.2.toTxnBase.record (Op.select (RowKey.reservationCount hotel date)) })
        refine ⟨RowKey.reservationCount hotel date :: extra, ?_, ?_⟩
        · rw [h1]
          simp [TxnBase.keys, TxnBase.record, Op.key]
        · intro k hk
          rcases List.mem_cons.1 hk with hk | hk
          · exact Or.inr ⟨date, hk⟩
          · exact h2 k hk
    | none =>
      simp only
      cases hh : s.2.storage.hotels hotel with
      | none =>
        simp only
        obtain ⟨extra, h1, h2⟩ := ih (false, { s.2 with
          toTxnBase := ((s.2.toTxnBase.record (Op.select (RowKey.reservationCount hotel date))).record
            (Op.select (RowKey.hotel hotel))).fail "Hotel capacity not found" })
        refine ⟨RowKey.reservationCount hotel date :: RowKey.hotel hotel :: extra, ?_, ?_⟩
        · rw [h1]
          simp [TxnBase.keys, TxnBase.record, TxnBase.fail, Op.key]
        · intro k hk
          rcases List.mem_cons.1 hk with hk | hk
          · exact Or.inr ⟨date, hk⟩
          · rcases List.mem_cons.1 hk with hk | hk
            · exact Or.inl hk
            · exact h2 k hk
      | some row =>
        simp only
        split
        · exact ⟨[RowKey.reservationCount hotel date, RowKey.hotel hotel],
            by simp [TxnBase.keys, TxnBase.record, Op.key],
            by
              intro k hk
              simp at hk
              rcases hk with hk | hk
              · exact Or.inr ⟨date, hk⟩
              · exact Or.inl hk⟩
        · obtain ⟨extra, h1, h2⟩ := ih (s.1, { s.2 with
            toTxnBase := (s.2.toTxnBase.record (Op.select (RowKey.reservationCount hotel date))).record
              (Op.select (RowKey.hotel hotel)) })
          refine ⟨RowKey.reservationCount hotel date :: RowKey.hotel hotel :: extra, ?_, ?_⟩
          · rw [h1]
            simp [TxnBase.keys, TxnBase.record, Op.key]
          · intro k hk
            rcases List.mem_cons.1 hk with hk | hk
            · exact Or.inr ⟨date, hk⟩
            · rcases List.mem_cons.1 hk with hk | hk
              · exact Or.inl hk
              · exact h2 k hk

/-- Keys recorded by the outer loop of `SearchTxn::Read`. -/
theorem checkHotels_keys (dates : List String) (ranking : List (ℚ × Int)) (s : Bool × SearchTxn) :
    ∃ extra : List RowKey,
      (SearchTxn.checkHotels dates ranking s).2.keys = s.2.keys ++ extra ∧
      ∀ k ∈ extra, ∃ p ∈ ranking, searchKeyOf p.2 k := by
  induction ranking generalizing s with
  | nil => exact ⟨[], by simp [SearchTxn.checkHotels], by simp⟩
  | cons hotel rest ih =>
    unfold SearchTxn.checkHotels
    simp only
    obtain ⟨e1, h1, h2⟩ := checkDates_keys hotel.2 dates s
    split
    · exact ⟨e1, h1, fun k hk => ⟨hotel, by simp, h2 k hk⟩⟩
    · obtain ⟨e2, h3, h4⟩ := ih (SearchTxn.checkDates hotel.2 dates s).2
      refine ⟨e1 ++ e2, by rw [h3, h1, List.append_assoc], ?_⟩
      intro k hk
      rcases List.mem_append.1 hk with hk | hk
      · exact ⟨hotel, by simp, h2 k hk⟩
      · obtain ⟨p, hp, hpk⟩ := h4 k hk
        exact ⟨p, by simp [hp], hpk⟩

/-- Shape of the keys selected by `SearchTxn::Read`: the hotels given, then
keys of hotels among them. -/
theorem searchReadKeys_shape (fl : ℚ → ℚ) (a : StorageAdapter) (in_date out_date : String)
    (lat lon : ℚ) (h_ids : List Int) :
    ∃ extra : List RowKey,
      searchReadKeys fl a in_date out_date lat lon h_ids =
        (h_ids.take kRecommendationReadSize).map RowKey.hotel ++ extra ∧
      (∀ k ∈ extra, ∃ h ∈ h_ids.take kRecommendationReadSize, searchKeyOf h k) ∧
      (a.hotels = (fun _ => none) → extra = []) := by
  unfold searchReadKeys SearchTxn.Read
  have e : (SearchTxn.new a in_date out_date lat lon h_ids).hotel_ids_ =
      h_ids.take kRecommendationReadSize := rfl
  have ek : (SearchTxn.new a in_date out_date lat lon h_ids).keys = [] := rfl
  have es : (SearchTxn.new a in_date out_date lat lon h_ids).storage = a := rfl
  obtain ⟨h1, h2, h3, h4⟩ := rankHotel_loop fl (h_ids.take kRecommendationReadSize)
    ((true, SearchTxn.new a in_date out_date lat lon h_ids), [])
  simp only [ek, es, List.nil_append] at h1 h2 h3 h4
  simp only [e]
  split
  · exact ⟨[], by simpa [TxnBase.keys] using h1, by simp, fun _ => rfl⟩
  · cases date_interp (SearchTxn.new a in_date out_date lat lon h_ids).in_date_
        (SearchTxn.new a in_date out_date lat lon h_ids).out_date_ with
    | none => exact ⟨[], by simpa [TxnBase.keys] using h1, by simp, fun _ => rfl⟩
    | some dates =>
      simp only
      obtain ⟨extra, h5, h6⟩ := checkHotels_keys dates
        (List.insertionSort (fun p q : ℚ × Int => p.1 ≤ q.1)
          ((h_ids.take kRecommendationReadSize).foldl (SearchTxn.rankHotel fl)
            ((true, SearchTxn.new a in_date out_date lat lon h_ids), [])).2)
        ((h_ids.take kRecommendationReadSize).foldl (SearchTxn.rankHotel fl)
            ((true, SearchTxn.new a in_date out_date lat lon h_ids), [])).1
      refine ⟨extra, by rw [h5, h1], ?_, ?_⟩
      · intro k hk
        obtain ⟨p, hp, hpk⟩ := h6 k hk
        have hp2 := (List.perm_insertionSort _ _).mem_iff.1 hp
        rcases h3 p hp2 with h | h
        · exact absurd h (by simp)
        · exact ⟨p.2, h, hpk⟩
      · intro hnone
        have hr := h4 hnone
        rw [hr] at h5
        simp only [List.insertionSort, SearchTxn.checkHotels] at h5
        rw [h1] at h5
        have : (h_ids.take kRecommendationReadSize).map RowKey.hotel ++ [] =
            (h_ids.take kRecommendationReadSize).map RowKey.hotel ++ extra := by
          rw [List.append_nil]
          exact h5
        exact (List.append_cancel_left this).symm

end dsh

/-- C3 (counterexample): for the stay 01-01-2020 to 03-01-2020 and the hotel ids
1..10, `SearchTxn::Read` selects the key ReservationCount(3, 01-01-2020) on a
storage that holds hotel 3, and does not select it on the empty storage. -/
theorem search_keys_depend_on_storage :
    dsh.RowKey.reservationCount 3 "01-01-2020" ∈
      dsh.searchReadKeys (fun x => x)
        { users := fun _ => none,
          hotels := fun id => if id = 3 then some ⟨1, 1, 0, 0, 10⟩ else none,
          reservationCounts := fun _ _ => none, writeOk := fun _ => true }
        "01-01-2020" "03-01-2020" 0 0 [1, 2, 3, 4, 5, 6, 7, 8, 9, 10] ∧
    dsh.RowKey.reservationCount 3 "01-01-2020" ∉
      dsh.searchReadKeys (fun x => x)
        { users := fun _ => none, hotels := fun _ => none,
          reservationCounts := fun _ _ => none, writeOk := fun _ => true }
        "01-01-2020" "03-01-2020" 0 0 [1, 2, 3, 4, 5, 6, 7, 8, 9, 10] := by
  decide

/-- C3 (amended): for every `SearchTxn` argument list, the Hotel keys that
`SearchTxn::Read` selects are the same for any two storage states, namely the
keys of the (at most 10) hotel ids given; every other key it selects is a
ReservationCount key of one of these hotels, and on a storage without Hotel
rows, such as the key-generation adapter, it selects the given Hotel keys
only. -/
theorem search_hotel_keys_independent (fl : ℚ → ℚ) (a1 a2 : dsh.StorageAdapter)
    (in_date out_date : String) (lat lon : ℚ) (h_ids : List Int) :
    (∀ id : Int,
      dsh.RowKey.hotel id ∈ dsh.searchReadKeys fl a1 in_date out_date lat lon h_ids ↔
      dsh.RowKey.hotel id ∈ dsh.searchReadKeys fl a2 in_date out_date lat lon h_ids) ∧
    (∀ k ∈ dsh.searchReadKeys fl a1 in_date out_date lat lon h_ids,
      ∃ h ∈ h_ids.take dsh.kRecommendationReadSize,
        k = dsh.RowKey.hotel h ∨ ∃ date, k = dsh.RowKey.reservationCount h date) ∧
    (∀ w : dsh.Op → Bool,
      dsh.searchReadKeys fl (dsh.keyGenAdapter w) in_date out_date lat lon h_ids =
        (h_ids.take dsh.kRecommendationReadSize).map dsh.RowKey.hotel) := by
  have hotelIff : ∀ (a : dsh.StorageAdapter) (id : Int),
      dsh.RowKey.hotel id ∈ dsh.searchReadKeys fl a in_date out_date lat lon h_ids ↔
      id ∈ h_ids.take dsh.kRecommendationReadSize := by
    intro a id
    obtain ⟨extra, h1, h2, _⟩ := dsh.searchReadKeys_shape fl a in_date out_date lat lon h_ids
    rw [h1, List.mem_append]
    constructor
    · rintro (h | h)
      · obtain ⟨x, hx, hxe⟩ := List.mem_map.1 h
        cases hxe
        exact hx
      · obtain ⟨h', hmem, hk⟩ := h2 _ h
        rcases hk with hk | ⟨d, hk⟩
        · cases hk
          exact hmem
        · cases hk
    · intro h
      exact Or.inl (List.mem_map.2 ⟨id, h, rfl⟩)
  refine ⟨fun id => (hotelIff a1 id).trans (hotelIff a2 id).symm, ?_, ?_⟩
  · intro k hk
    obtain ⟨extra, h1, h2, _⟩ := dsh.searchReadKeys_shape fl a1 in_date out_date lat lon h_ids
    rw [h1, List.mem_append] at hk
    rcases hk with hk | hk
    · obtain ⟨h, hmem, rfl⟩ := List.mem_map.1 hk
      exact ⟨h, hmem, Or.inl rfl⟩
    · exact h2 k hk
  · intro w
    obtain ⟨extra, h1, _, h3⟩ := dsh.searchReadKeys_shape fl (dsh.keyGenAdapter w) in_date out_date lat lon h_ids
    rw [h1, h3 rfl, List.append_nil]

/-! ### Agreement of `murmurhash3` with the reference on whole blocks -/

/-- Reduction modulo `2^32` distributes over a bitwise or whose right operand is
below `2^32`. -/
theorem or_mod_two_pow_32 (a b : Nat) (hb : b < 2 ^ 32) :
    (a ||| b) % 2 ^ 32 = a % 2 ^ 32 ||| b := by
  apply Nat.eq_of_testBit_eq
  intro i
  simp only [Nat.testBit_mod_two_pow, Nat.testBit_or]
  by_cases hi : i < 32
  · simp [hi]
  · have hbi : b.testBit i = false := by
      apply Nat.testBit_eq_false_of_lt
      calc b < 2 ^ 32 := hb
        _ ≤ 2 ^ i := Nat.pow_le_pow_right (by norm_num) (by omega)
    simp [hi, hbi]

/-- The rotation of the sources is the rotation of the reference on 32-bit
words. -/
theorem rotl32_eq_ref (x r : Nat) (hx : x < 2 ^ 32) : rotl32 x r = refRotl32 x r := by
  unfold rotl32 refRotl32 u32
  rw [or_mod_two_pow_32]
  calc x >>> (32 - r) ≤ x := by
        rw [Nat.shiftRight_eq_div_pow]
        exact Nat.div_le_self _ _
    _ < 2 ^ 32 := hx

/-- One block round of the sources is one block round of the reference. -/
theorem murmurRound_eq_ref (hash k : Nat) (hh : hash < 2 ^ 32) :
    murmurRound hash k = refRound hash k ∧ murmurRound hash k < 2 ^ 32 := by
  have hk1 : u32 (k * 0xcc9e2d51) < 2 ^ 32 := Nat.mod_lt _ (by norm_num)
  have hmix : u32 (rotl32 (u32 (k * 0xcc9e2d51)) 15 * 0x1b873593) = refMixK k := by
    unfold refMixK
    rw [rotl32_eq_ref _ _ hk1]
    rfl
  have hmixlt : refMixK k < 2 ^ 32 := Nat.mod_lt _ (by norm_num)
  constructor
  · unfold murmurRound refRound
    simp only [hmix]
    rw [rotl32_eq_ref _ _ (Nat.xor_lt_two_pow hh hmixlt)]
    rfl
  · exact Nat.mod_lt _ (by norm_num)

/-- Folding the block rounds of the sources and of the reference gives the same
hash. -/
theorem murmur_foldl_eq_ref (bs : List (Nat × Nat × Nat × Nat)) (hash : Nat) (hh : hash < 2 ^ 32) :
    bs.foldl (fun h b => murmurRound h (load32le b.1 b.2.1 b.2.2.1 b.2.2.2)) hash =
      bs.foldl (fun acc b => refRound acc (load32le b.1 b.2.1 b.2.2.1 b.2.2.2)) hash := by
  induction bs generalizing hash with
  | nil => simp only [List.foldl_nil]
  | cons b rest ih =>
    simp only [List.foldl_cons]
    obtain ⟨h1, h2⟩ := murmurRound_eq_ref hash (load32le b.1 b.2.1 b.2.2.1 b.2.2.2) hh
    rw [← h1]
    exact ih _ h2

/-- The bytes left over by the block loop are the last `length mod 4` bytes. -/
theorem blocks4_rest_length : ∀ s : Bytes, (blocks4 s).2.length = s.length % 4
  | [] => rfl
  | [_] => rfl
  | [_, _] => rfl
  | [_, _, _] => rfl
  | _ :: _ :: _ :: _ :: rest => by
    rw [blocks4]
    simp only [List.length_cons]
    rw [blocks4_rest_length rest]
    omega

/-- On every byte string whose length is a multiple of 4 (such as the 24-byte
client names) `murmurhash3` is the reference `MurmurHash3_x86_32` with seed
42. -/
theorem murmurhash3_eq_reference_on_blocks (charSigned : Bool) (s : Bytes) (h4 : s.length % 4 = 0) :
    murmurhash3 charSigned s = MurmurHash3_x86_32 42 s := by
  have hrest : (blocks4 s).2 = [] := by
    apply List.eq_nil_of_length_eq_zero
    rw [blocks4_rest_length, h4]
  have hmix0 : refMixK 0 = 0 := by decide
  have hfin : ∀ h len : Nat, murmurFinish h 0 len = refFmix32 ((h ^^^ len) % 2 ^ 32) := by
    intro h len
    have ht : u32 (rotl32 (u32 (0 * 0xcc9e2d51)) 15 * 0x1b873593) = 0 := by decide
    unfold murmurFinish
    simp only [ht, Nat.xor_zero]
    rfl
  unfold murmurhash3 MurmurHash3_x86_32 murmurBlocks refBlocks
  simp only [hrest, murmurTail, refTail, hmix0, Nat.xor_zero, hfin]
  rw [murmur_foldl_eq_ref _ _ (by norm_num)]

/-- With a signed `char` a byte of value 0x80 or more is sign-extended before
the xor, and the hash of the sharder leaves FNV-1: the two differ on the single
byte 0x80. -/
theorem FNVHash_signed_high_byte :
    FNVHash true [0x80] = 4210270879 ∧ FNV1_32 [0x80] = 84696479 ∧
    FNVHash false [0x80] = 84696479 := by
  decide

/-! ### Execution wrappers -/

/-- A text that starts with a non-empty text is not empty. -/
theorem append_ne_empty (a b : String) (ha : a ≠ "") : a ++ b ≠ "" := by
  intro h
  apply ha
  have h2 : (a ++ b).data = [] := by rw [h]
  rw [String.data_append] at h2
  have h3 : a.data = [] := (List.append_eq_nil.mp h2).1
  cases a
  simp_all

/-- An abort before a body is built satisfies atomicity. -/
theorem abortWith_atomic {σ : Type} (storage : σ) (txn : Transaction) (reason : String)
    (hr : reason ≠ "") : WrapperAtomic storage (Except.ok (abortWith storage txn reason)) false := by
  refine ⟨_, rfl, ?_, ?_⟩
  · simp [abortWith]
  · intro _
    exact ⟨rfl, hr, rfl, rfl⟩

/-- The tail of a branch satisfies atomicity. -/
theorem conclude_atomic {σ ω : Type} (apply : List ω → σ → σ) (storage : σ) (txn : Transaction)
    (family : String) (ret : Bool) (error : String) (ops : List ω) (hf : family ≠ "") :
    WrapperAtomic storage (Except.ok (conclude apply storage txn family ret error ops)) ret := by
  refine ⟨_, rfl, ?_, ?_⟩
  · cases ret <;> simp [conclude, abortWith]
  · intro h
    subst h
    exact ⟨rfl, append_ne_empty _ _ hf, rfl, rfl⟩

/-- The family texts of PPS are not empty. -/
theorem pps_family_ne (p : pps.Procedure) : pps.family p ≠ "" := by
  cases p <;> (simp only [pps.family, smallbank.family, movie.family]; decide)

/-- The family texts of SmallBank are not empty. -/
theorem smallbank_family_ne (p : smallbank.Procedure) : smallbank.family p ≠ "" := by
  cases p <;> (simp only [pps.family, smallbank.family, movie.family]; decide)

/-- The family text of Movie is not empty. -/
theorem movie_family_ne (p : movie.Procedure) : movie.family p ≠ "" := by
  cases p
  simp only [movie.family]
  decide

/-- A conversion that returned did not fault. -/
theorem bind_ok {α β : Type} (x : Except Fault α) (f : α → Except Fault β) (y : β)
    (h : (x >>= f) = Except.ok y) : ∃ a, x = Except.ok a ∧ f a = Except.ok y := by
  cases x with
  | error e => cases h
  | ok a => exact ⟨a, rfl, h⟩

/-- The reasons with which the PPS dispatch aborts are not empty. -/
theorem pps_reason_ne (args : List String) (reason : String)
    (h : PPSExecution.procedureOf args = Except.ok (Except.error reason)) : reason ≠ "" := by
  unfold PPSExecution.procedureOf at h
  dsimp only at h
  split_ifs at h
  all_goals first
    | (injection h with h; injection h with h; subst h; decide)
    | (exfalso
       repeat obtain ⟨_, _, h⟩ := bind_ok _ _ _ h
       injection h with h
       cases h)

/-- The reasons with which the SmallBank dispatch aborts are not empty. -/
theorem smallbank_reason_ne (args : List String) (reason : String)
    (h : SmallBankExecution.procedureOf args = Except.ok (Except.error reason)) : reason ≠ "" := by
  unfold SmallBankExecution.procedureOf at h
  dsimp only at h
  split_ifs at h
  all_goals first
    | (injection h with h; injection h with h; subst h; decide)
    | (exfalso
       repeat obtain ⟨_, _, h⟩ := bind_ok _ _ _ h
       injection h with h
       cases h)

/-- The reasons with which the Movie dispatch aborts are not empty. -/
theorem movie_reason_ne (args : List String) (reason : String)
    (h : MovieExecution.procedureOf args = Except.ok (Except.error reason)) : reason ≠ "" := by
  unfold MovieExecution.procedureOf at h
  dsimp only at h
  split_ifs at h
  all_goals first
    | (injection h with h; injection h with h; subst h; decide)
    | (exfalso
       repeat obtain ⟨_, _, h⟩ := bind_ok _ _ _ h
       injection h with h
       cases h)

/-- Atomicity of `PPSExecution::Execute` whenever the dispatch returns. -/
theorem pps_wrapper_atomic (kPartsPerProduct kPartsPerSupplier : Nat) (a : pps.StorageAdapter)
    (txn : Transaction) (q : Except String pps.Procedure)
    (hq : PPSExecution.procedureOf txn.args = Except.ok q) :
    WrapperAtomic a (PPSExecution.Execute kPartsPerProduct kPartsPerSupplier a txn)
      (bodyReturnedTrue q fun p => (pps.executeBody kPartsPerProduct kPartsPerSupplier a p).ret) := by
  unfold PPSExecution.Execute
  rw [hq]
  cases q with
  | error reason => exact abortWith_atomic a txn reason (pps_reason_ne _ _ hq)
  | ok p => exact conclude_atomic _ a txn _ _ _ _ (pps_family_ne p)

/-- Atomicity of `SmallBankExecution::Execute` whenever the dispatch returns. -/
theorem smallbank_wrapper_atomic (a : smallbank.StorageAdapter)
    (txn : Transaction) (q : Except String smallbank.Procedure)
    (hq : SmallBankExecution.procedureOf txn.args = Except.ok q) :
    WrapperAtomic a (SmallBankExecution.Execute a txn)
      (bodyReturnedTrue q fun p => (smallbank.executeBody a p).ret) := by
  unfold SmallBankExecution.Execute
  rw [hq]
  cases q with
  | error reason => exact abortWith_atomic a txn reason (smallbank_reason_ne _ _ hq)
  | ok p => exact conclude_atomic _ a txn _ _ _ _ (smallbank_family_ne p)

/-- Atomicity of `MovieExecution::Execute` whenever the dispatch returns. -/
theorem movie_wrapper_atomic (a : movie.StorageAdapter)
    (txn : Transaction) (q : Except String movie.Procedure)
    (hq : MovieExecution.procedureOf txn.args = Except.ok q) :
    WrapperAtomic a (MovieExecution.Execute a txn)
      (bodyReturnedTrue q fun p => (movie.executeBody a p).ret) := by
  unfold MovieExecution.Execute
  rw [hq]
  cases q with
  | error reason => exact abortWith_atomic a txn reason (movie_reason_ne _ _ hq)
  | ok p => exact conclude_atomic _ a txn _ _ _ _ (movie_family_ne p)
/-- C11, as stated, fails: the SmallBank transaction `balance("Client17", "x")`
has a known procedure name and the right number of arguments, but `std::stoi`
throws on "x"; the wrapper does not return, so the transaction is neither
COMMITTED nor ABORTED by it and no abort reason is set. -/
theorem wrapper_throws_on_non_numeric_argument :
    faultOf (SmallBankExecution.Execute smallbank.sampleStorage
      (Transaction.submit [["balance", "Client17", "x"]])) =
        some (Fault.exception "std::invalid_argument") ∧
    ∀ b, ¬ WrapperAtomic smallbank.sampleStorage
      (SmallBankExecution.Execute smallbank.sampleStorage
        (Transaction.submit [["balance", "Client17", "x"]])) b := by
  constructor
  · decide
  · rintro b ⟨r, hr, _⟩
    have hf : faultOf (SmallBankExecution.Execute smallbank.sampleStorage
        (Transaction.submit [["balance", "Client17", "x"]])) =
          some (Fault.exception "std::invalid_argument") := by decide
    rw [hr] at hf
    cases hf

/-- The reasons with which the PPS dispatch aborts are the two it names. -/
theorem pps_reason_mem (args : List String) (reason : String)
    (h : PPSExecution.procedureOf args = Except.ok (Except.error reason)) :
    reason ∈ PPSExecution.dispatchReasons := by
  unfold PPSExecution.procedureOf at h
  dsimp only at h
  split_ifs at h
  all_goals first
    | (injection h with h; injection h with h; subst h; decide)
    | (exfalso
       repeat obtain ⟨_, _, h⟩ := bind_ok _ _ _ h
       injection h with h
       cases h)

/-- The reasons with which the SmallBank dispatch aborts are the ones listed. -/
theorem smallbank_reason_mem (args : List String) (reason : String)
    (h : SmallBankExecution.procedureOf args = Except.ok (Except.error reason)) :
    reason ∈ SmallBankExecution.dispatchReasons := by
  unfold SmallBankExecution.procedureOf at h
  dsimp only at h
  split_ifs at h
  all_goals first
    | (injection h with h; injection h with h; subst h; decide)
    | (exfalso
       repeat obtain ⟨_, _, h⟩ := bind_ok _ _ _ h
       injection h with h
       cases h)

/-- The reasons with which the Movie dispatch aborts are the ones listed. -/
theorem movie_reason_mem (args : List String) (reason : String)
    (h : MovieExecution.procedureOf args = Except.ok (Except.error reason)) :
    reason ∈ MovieExecution.dispatchReasons := by
  unfold MovieExecution.procedureOf at h
  dsimp only at h
  split_ifs at h
  all_goals first
    | (injection h with h; injection h with h; subst h; decide)
    | (exfalso
       repeat obtain ⟨_, _, h⟩ := bind_ok _ _ _ h
       injection h with h
       cases h)

/-- The tail of a branch leaves the outcome of its body. -/
theorem conclude_outcome {σ π ω : Type} (apply : List ω → σ → σ) (family : π → String)
    (body : π → BodyRun ω) (reasons : List String) (storage : σ) (txn : Transaction) (p : π) :
    WrapperOutcome apply family body reasons storage txn (Except.ok p)
      (Except.ok (conclude apply storage txn (family p) (body p).ret (body p).error (body p).ops)) := by
  refine ⟨_, rfl, ?_, ?_⟩
  · intro h
    simp only [conclude, h, Bool.not_false, if_true, abortWith, and_self]
  · intro h
    simp only [conclude, h, Bool.not_true, Bool.false_eq_true, if_false, and_self]

/-- The outcome of `PPSExecution::Execute` whenever the dispatch returns. -/
theorem pps_wrapper_outcome (kPartsPerProduct kPartsPerSupplier : Nat) (a : pps.StorageAdapter)
    (txn : Transaction) (q : Except String pps.Procedure)
    (hq : PPSExecution.procedureOf txn.args = Except.ok q) :
    WrapperOutcome pps.applyWrites pps.family
      (pps.executeBody kPartsPerProduct kPartsPerSupplier a) PPSExecution.dispatchReasons a txn q
      (PPSExecution.Execute kPartsPerProduct kPartsPerSupplier a txn) := by
  unfold PPSExecution.Execute
  rw [hq]
  cases q with
  | error reason => exact ⟨_, rfl, pps_reason_mem _ _ hq, rfl, rfl, rfl⟩
  | ok p => exact conclude_outcome _ _ _ _ a txn p

/-- The outcome of `SmallBankExecution::Execute` whenever the dispatch returns. -/
theorem smallbank_wrapper_outcome (a : smallbank.StorageAdapter)
    (txn : Transaction) (q : Except String smallbank.Procedure)
    (hq : SmallBankExecution.procedureOf txn.args = Except.ok q) :
    WrapperOutcome smallbank.applyWrites smallbank.family (smallbank.executeBody a)
      SmallBankExecution.dispatchReasons a txn q (SmallBankExecution.Execute a txn) := by
  unfold SmallBankExecution.Execute
  rw [hq]
  cases q with
  | error reason => exact ⟨_, rfl, smallbank_reason_mem _ _ hq, rfl, rfl, rfl⟩
  | ok p => exact conclude_outcome _ _ _ _ a txn p

/-- The outcome of `MovieExecution::Execute` whenever the dispatch returns. -/
theorem movie_wrapper_outcome (a : movie.StorageAdapter)
    (txn : Transaction) (q : Except String movie.Procedure)
    (hq : MovieExecution.procedureOf txn.args = Except.ok q) :
    WrapperOutcome movie.applyWrites movie.family (movie.executeBody a)
      MovieExecution.dispatchReasons a txn q (MovieExecution.Execute a txn) := by
  unfold MovieExecution.Execute
  rw [hq]
  cases q with
  | error reason => exact ⟨_, rfl, movie_reason_mem _ _ hq, rfl, rfl, rfl⟩
  | ok p => exact conclude_outcome _ _ _ _ a txn p

/-- C11 (amended): for `PPSExecution::Execute`, `SmallBankExecution::Execute`
and `MovieExecution::Execute`, on every storage and every transaction whose
arguments the dispatch converts without a fault (no `std::stoi` or `std::stoll`
exception, no argument read past the end of the list), the wrapper returns. The
final status is COMMITTED and `ApplyWrites` is invoked iff the first procedure
has a known name (and, for SmallBank and Movie, the right number of arguments)
and the body's `Execute()` returned true, and the storage is then the given one
with the writes staged by the body applied by `ApplyWrites`. In every other case
the status is ABORTED, the storage is the one given, `ApplyWrites` is not
invoked, and `abort_reason` is not empty: it is "Invalid code", "Unknown
procedure name" or an "Invalid number of arguments" text of the family when no
body was built, and the family text followed by the body's `error()` when the
body's `Execute()` returned false. -/
theorem wrapper_commit_abort_atomicity
    (kPartsPerProduct kPartsPerSupplier : Nat)
    (ap : pps.StorageAdapter) (tp : Transaction) (qp : Except String pps.Procedure)
    (hp : PPSExecution.procedureOf tp.args = Except.ok qp)
    (as : smallbank.StorageAdapter) (ts : Transaction) (qs : Except String smallbank.Procedure)
    (hs : SmallBankExecution.procedureOf ts.args = Except.ok qs)
    (am : movie.StorageAdapter) (tm : Transaction) (qm : Except String movie.Procedure)
    (hm : MovieExecution.procedureOf tm.args = Except.ok qm) :
    (WrapperAtomic ap (PPSExecution.Execute kPartsPerProduct kPartsPerSupplier ap tp)
      (bodyReturnedTrue qp fun p => (pps.executeBody kPartsPerProduct kPartsPerSupplier ap p).ret) ∧
     WrapperOutcome pps.applyWrites pps.family
      (pps.executeBody kPartsPerProduct kPartsPerSupplier ap) PPSExecution.dispatchReasons ap tp qp
      (PPSExecution.Execute kPartsPerProduct kPartsPerSupplier ap tp)) ∧
    (WrapperAtomic as (SmallBankExecution.Execute as ts)
      (bodyReturnedTrue qs fun p => (smallbank.executeBody as p).ret) ∧
     WrapperOutcome smallbank.applyWrites smallbank.family (smallbank.executeBody as)
      SmallBankExecution.dispatchReasons as ts qs (SmallBankExecution.Execute as ts)) ∧
    (WrapperAtomic am (MovieExecution.Execute am tm)
      (bodyReturnedTrue qm fun p => (movie.executeBody am p).ret) ∧
     WrapperOutcome movie.applyWrites movie.family (movie.executeBody am)
      MovieExecution.dispatchReasons am tm qm (MovieExecution.Execute am tm)) :=
  ⟨⟨pps_wrapper_atomic _ _ ap tp qp hp, pps_wrapper_outcome _ _ ap tp qp hp⟩,
    ⟨smallbank_wrapper_atomic as ts qs hs, smallbank_wrapper_outcome as ts qs hs⟩,
    ⟨movie_wrapper_atomic am tm qm hm, movie_wrapper_outcome am tm qm hm⟩⟩

/-- C11 at concrete transactions: `get_product(1)` commits,
`depositChecking("Client17", 17, 5)` commits and the storage afterwards holds
the checking balance 505 where it held 500, and a `new_review` of a movie that
does not exist aborts with the family text followed by the body's error and
leaves the storage as it was. -/
theorem wrapper_commit_abort_atomicity_witness :
    ((WrapperAtomic pps.sampleStorage
        (PPSExecution.Execute 2 2 pps.sampleStorage (Transaction.submit [["get_product", "1"]]))
        (bodyReturnedTrue (Except.ok (pps.Procedure.get_product 1))
          fun p => (pps.executeBody 2 2 pps.sampleStorage p).ret) ∧
      WrapperOutcome pps.applyWrites pps.family (pps.executeBody 2 2 pps.sampleStorage)
        PPSExecution.dispatchReasons pps.sampleStorage (Transaction.submit [["get_product", "1"]])
        (Except.ok (pps.Procedure.get_product 1))
        (PPSExecution.Execute 2 2 pps.sampleStorage (Transaction.submit [["get_product", "1"]]))) ∧
     (WrapperAtomic smallbank.sampleStorage
        (SmallBankExecution.Execute smallbank.sampleStorage
          (Transaction.submit [["depositChecking", "Client17", "17", "5"]]))
        (bodyReturnedTrue (Except.ok (smallbank.Procedure.depositChecking "Client17" 17 5))
          fun p => (smallbank.executeBody smallbank.sampleStorage p).ret) ∧
      WrapperOutcome smallbank.applyWrites smallbank.family
        (smallbank.executeBody smallbank.sampleStorage) SmallBankExecution.dispatchReasons
        smallbank.sampleStorage (Transaction.submit [["depositChecking", "Client17", "17", "5"]])
        (Except.ok (smallbank.Procedure.depositChecking "Client17" 17 5))
        (SmallBankExecution.Execute smallbank.sampleStorage
          (Transaction.submit [["depositChecking", "Client17", "17", "5"]]))) ∧
     (WrapperAtomic movie.sampleStorage
        (MovieExecution.Execute movie.sampleStorage
          (Transaction.submit [["new_review", "000000000001_username", "nothing", "5", "100", "1",
            "text", "9"]]))
        (bodyReturnedTrue
          (Except.ok (movie.Procedure.new_review 1 5 "000000000001_username" "nothing" 100 9 "text"))
          fun p => (movie.executeBody movie.sampleStorage p).ret) ∧
      WrapperOutcome movie.applyWrites movie.family (movie.executeBody movie.sampleStorage)
        MovieExecution.dispatchReasons movie.sampleStorage
        (Transaction.submit [["new_review", "000000000001_username", "nothing", "5", "100", "1",
          "text", "9"]])
        (Except.ok (movie.Procedure.new_review 1 5 "000000000001_username" "nothing" 100 9 "text"))
        (MovieExecution.Execute movie.sampleStorage
          (Transaction.submit [["new_review", "000000000001_username", "nothing", "5", "100", "1",
            "text", "9"]])))) ∧
    smallbank.sampleStorage.checking 17 = some 500 ∧
    ((SmallBankExecution.Execute smallbank.sampleStorage
        (Transaction.submit [["depositChecking", "Client17", "17", "5"]])).toOption.map
      fun r => (r.txn.status, r.txn.abort_reason, r.applied, r.storage.checking 17)) =
      some (TransactionStatus.COMMITTED, "", true, some 505) ∧
    ((MovieExecution.Execute movie.sampleStorage
        (Transaction.submit [["new_review", "000000000001_username", "nothing", "5", "100", "1",
          "text", "9"]])).toOption.map
      fun r => (r.txn.status, r.applied, (r.txn.abort_reason.toList.take 13))) =
      some (TransactionStatus.ABORTED, false, ("Review Txn - ").toList) :=
  ⟨wrapper_commit_abort_atomicity 2 2
    pps.sampleStorage (Transaction.submit [["get_product", "1"]])
    (Except.ok (pps.Procedure.get_product 1)) rfl
    smallbank.sampleStorage (Transaction.submit [["depositChecking", "Client17", "17", "5"]])
    (Except.ok (smallbank.Procedure.depositChecking "Client17" 17 5)) rfl
    movie.sampleStorage
    (Transaction.submit [["new_review", "000000000001_username", "nothing", "5", "100", "1",
      "text", "9"]])
    (Except.ok (movie.Procedure.new_review 1 5 "000000000001_username" "nothing" 100 9 "text")) rfl,
    by decide, by decide, by decide⟩

/-- `SmallBankExecution::Execute` aborts a known procedure with a wrong number
of arguments before any argument is read. -/
theorem smallbank_wrong_count_aborts (a : smallbank.StorageAdapter) (txn : Transaction)
    (name : String) (n : Nat) (hn : (name, n) ∈ SmallBankExecution.argCount)
    (hname : txn.args.head? = some name) (hlen : txn.args.length ≠ n) :
    ∃ r, SmallBankExecution.Execute a txn = Except.ok r ∧
      r.txn.status = TransactionStatus.ABORTED ∧ r.txn.abort_reason ≠ "" ∧ r.applied = false ∧
      r.storage = a := by
  have hne : txn.args.isEmpty = false := by
    cases h : txn.args with
    | nil => rw [h] at hname; cases hname
    | cons x xs => rfl
  have hhd : txn.args.headD "" = name := by
    cases h : txn.args with
    | nil => rw [h] at hname; cases hname
    | cons x xs => rw [h] at hname; simpa using hname
  simp only [SmallBankExecution.argCount, List.mem_cons, Prod.mk.injEq, List.mem_singleton,
    List.not_mem_nil, or_false] at hn
  unfold SmallBankExecution.Execute SmallBankExecution.procedureOf
  rcases hn with ⟨h1, h2⟩ | ⟨h1, h2⟩ | ⟨h1, h2⟩ | ⟨h1, h2⟩ | ⟨h1, h2⟩ | ⟨h1, h2⟩ <;>
    subst h1 <;> subst h2 <;>
    simp only [hne, hhd, hlen, Bool.false_eq_true, if_false, if_true, ne_eq, not_false_eq_true,
      String.reduceEq, pure, Except.pure] <;>
    exact ⟨_, rfl, rfl, by simp only [abortWith]; decide, rfl, rfl⟩

/-- `MovieExecution::Execute` aborts `new_review` with a wrong number of
arguments before any argument is read. -/
theorem movie_wrong_count_aborts (a : movie.StorageAdapter) (txn : Transaction)
    (name : String) (n : Nat) (hn : (name, n) ∈ MovieExecution.argCount)
    (hname : txn.args.head? = some name) (hlen : txn.args.length ≠ n) :
    ∃ r, MovieExecution.Execute a txn = Except.ok r ∧
      r.txn.status = TransactionStatus.ABORTED ∧ r.txn.abort_reason ≠ "" ∧ r.applied = false ∧
      r.storage = a := by
  have hne : txn.args.isEmpty = false := by
    cases h : txn.args with
    | nil => rw [h] at hname; cases hname
    | cons x xs => rfl
  have hhd : txn.args.headD "" = name := by
    cases h : txn.args with
    | nil => rw [h] at hname; cases hname
    | cons x xs => rw [h] at hname; simpa using hname
  simp only [MovieExecution.argCount, List.mem_cons, Prod.mk.injEq, List.mem_singleton,
    List.not_mem_nil, or_false] at hn
  unfold MovieExecution.Execute MovieExecution.procedureOf
  obtain ⟨h1, h2⟩ := hn
  subst h1
  subst h2
  simp only [hne, hhd, hlen, Bool.false_eq_true, if_false, if_true, ne_eq, not_false_eq_true,
      String.reduceEq, pure, Except.pure]
  exact ⟨_, rfl, rfl, by simp only [abortWith]; decide, rfl, rfl⟩

/-- C12: `PPSExecution::Execute` does not compare `args.size()` with the number
of arguments a procedure needs. On the transaction `get_product` without a
product id it reads `args[1]` past the end of the argument list (undefined
behaviour) instead of aborting; on `get_product` with two ids it ignores the
second and commits. -/
theorem pps_wrapper_reads_missing_argument :
    faultOf (PPSExecution.Execute 2 2 pps.sampleStorage (Transaction.submit [["get_product"]])) =
      some Fault.undefined ∧
    ((PPSExecution.Execute 2 2 pps.sampleStorage
        (Transaction.submit [["get_product", "1", "2"]])).toOption.map
      fun r => (r.txn.status, r.txn.abort_reason, r.applied)) =
      some (TransactionStatus.COMMITTED, "", true) := by
  decide

/-- `std::stoi` reads back what `std::to_string` wrote, for every `int`. -/
theorem stoi_to_string (n : Int) (hlo : -(2 ^ 31) ≤ n) (hhi : n < 2 ^ 31) :
    stoi (to_string n) = Except.ok n := by
  have key : ∀ k : Nat, ∃ d rest, (Nat.toDigits 10 k).map Char.toNat = d :: rest ∧
      isDigitByte d = true ∧ (∀ b ∈ d :: rest, isDigitByte b = true) ∧
      digitsValue (d :: rest) = k := by
    intro k
    obtain ⟨h1, h2, h3⟩ := toDigitsCore_spec (k + 1) k (by omega)
    have hT : Nat.toDigits 10 k = Nat.toDigitsCore 10 (k + 1) k [] := rfl
    rw [← hT] at h1 h2 h3
    cases hds : (Nat.toDigits 10 k).map Char.toNat with
    | nil =>
      have : ((Nat.toDigits 10 k).map Char.toNat).length = 0 := by rw [hds]; rfl
      simp at this
      rw [this] at h3
      simp at h3
    | cons d rest =>
      rw [hds] at h1 h2
      exact ⟨d, rest, rfl, h1 d (List.mem_cons_self _ _), h1, h2⟩
  have htw : ∀ ds : Bytes, (∀ b ∈ ds, isDigitByte b = true) → ds.takeWhile isDigitByte = ds := by
    intro ds h
    rw [List.takeWhile_eq_self_iff]
    exact h
  cases n with
  | ofNat k =>
    obtain ⟨d, rest, hds, hd, hall, hval⟩ := key k
    have hb : bytesOf (to_string (Int.ofNat k)) = d :: rest := by
      rw [← hds]
      rfl
    have hsp : isSpaceByte d = false := by
      simp only [isDigitByte, isSpaceByte, Bool.and_eq_true, decide_eq_true_eq] at hd ⊢
      simp only [Bool.or_eq_false_iff, Bool.and_eq_false_iff, decide_eq_false_iff_not]
      omega
    have h45 : d ≠ 45 := by
      simp only [isDigitByte, Bool.and_eq_true, decide_eq_true_eq] at hd
      omega
    have h43 : d ≠ 43 := by
      simp only [isDigitByte, Bool.and_eq_true, decide_eq_true_eq] at hd
      omega
    unfold stoi strtoRange
    simp only [hb, List.dropWhile_cons_of_neg (by simp [hsp] : ¬ isSpaceByte d = true), List.head?_cons,
      Option.some.injEq, h45, h43, or_self, if_false, htw _ hall, List.isEmpty_cons,
      Bool.false_eq_true, hval]
    have hk : (k : Int) < 2 ^ 31 := hhi
    have hk0 : (0 : Int) ≤ (k : Int) := Int.ofNat_nonneg k
    rw [if_neg (by omega)]
    rfl
  | negSucc k =>
    obtain ⟨d, rest, hds, hd, hall, hval⟩ := key (k + 1)
    have hb : bytesOf (to_string (Int.negSucc k)) = 45 :: d :: rest := by
      rw [← hds]
      simp only [to_string, bytesOf_append]
      rfl
    unfold stoi strtoRange
    simp only [hb, List.dropWhile_cons_of_neg (by decide : ¬ isSpaceByte 45 = true), List.head?_cons,
      true_or, if_true, List.tail_cons, htw _ hall, List.isEmpty_cons, Bool.false_eq_true, if_false,
      hval]
    have hk : -(2 ^ 31 : Int) ≤ Int.negSucc k := hlo
    have hneg : Int.negSucc k = -((k + 1 : Nat) : Int) := rfl
    rw [if_neg (by push_cast at hneg ⊢; omega)]
    rw [hneg]

/-! ### SmallBank operations -/

/-- A committed SmallBank transaction leaves the storage of `afterCommit`. -/
theorem smallbank_wrapper_storage (a a' : smallbank.StorageAdapter) (txn : Transaction)
    (p : smallbank.Procedure)
    (hq : SmallBankExecution.procedureOf txn.args = Except.ok (Except.ok p))
    (hc : smallbank.afterCommit a p = some a') :
    ∃ r, SmallBankExecution.Execute a txn = Except.ok r ∧
      r.txn.status = TransactionStatus.COMMITTED ∧ r.applied = true ∧ r.storage = a' := by
  unfold SmallBankExecution.Execute
  rw [hq]
  unfold smallbank.afterCommit at hc
  dsimp only at hc ⊢
  cases hr : (smallbank.executeBody a p).ret with
  | false => rw [hr] at hc; simp at hc
  | true =>
    rw [hr] at hc
    simp only [if_true, Option.some.injEq] at hc
    refine ⟨_, rfl, ?_, ?_, ?_⟩ <;> simp [conclude, hc]

/-- What `AmalgamateTxn` does on rows that exist: the new checking balance of
the second customer is the sum of the checking and savings balances of the
first and of the savings balance (not the checking balance) of the second. -/
theorem amalgamate_effect (a a' : smallbank.StorageAdapter) (n1 n2 : String)
    (id1 id2 i1 i2 c1 s1 s2 : Int) (hne : id1 ≠ id2)
    (ha1 : a.accounts n1 = some i1) (ha2 : a.accounts n2 = some i2)
    (hc1 : a.checking id1 = some c1) (hs1 : a.savings id1 = some s1)
    (hs2 : a.savings id2 = some s2)
    (hc : smallbank.afterCommit a (smallbank.Procedure.amalgamate n1 n2 id1 id2) = some a') :
    a'.checking id2 = (a.checking id2).map (fun _ => c1 + s1 + s2) ∧ a'.checking id1 = some 0 ∧
      a'.savings id1 = some 0 ∧ a'.savings id2 = some s2 ∧ a'.accounts = a.accounts := by
  unfold smallbank.afterCommit smallbank.executeBody at hc
  cases h1 : a.writeOk (smallbank.Op.update (smallbank.RowKey.checking id1) 0) <;>
  cases h2 : a.writeOk (smallbank.Op.update (smallbank.RowKey.savings id1) 0) <;>
  cases h3 : a.writeOk (smallbank.Op.update (smallbank.RowKey.checking id2) (c1 + s1 + s2)) <;>
  simp [SmallBankTransaction.Execute, smallbank.AmalgamateTxn.body, smallbank.AmalgamateTxn.Read,
    smallbank.AmalgamateTxn.new, smallbank.TxnBase.fresh, smallbank.selectInt, ha1, ha2, hc1, hs1, hs2,
    smallbank.TxnBase.record, smallbank.TxnBase.fail, smallbank.AmalgamateTxn.Compute,
    smallbank.AmalgamateTxn.Write, smallbank.updateInt, h1, h2, h3] at hc
  subst hc
  simp [smallbank.applyWrites, smallbank.applyWrite, hne, Ne.symm hne, hc1, hs1, hs2]
/-- C13: on the storage with checking[17] = 500, savings[17] = 300,
checking[2] = 100 and savings[2] = 7, the committed transaction
`amalgamate("Client17", "Client2", 17, 2)` leaves checking[2] = 807 =
500 + 300 + savings[2], where the claim gives 100 + 500 + 300 = 900:
`AmalgamateTxn::Read` selects the Savings row of the destination into
`w_checking_second_customer_id_`. The other three balances are as claimed. -/
theorem amalgamate_adds_destination_savings :
    ((SmallBankExecution.Execute smallbank.sampleStorage
        (Transaction.submit [["amalgamate", "Client17", "Client2", "17", "2"]])).toOption.map
      fun r => (r.txn.status, r.storage.checking 2, r.storage.checking 17, r.storage.savings 17,
        r.storage.savings 2)) =
      some (TransactionStatus.COMMITTED, some 807, some 0, some 0, some 7) := by
  decide

/-- `WritecheckTxn` succeeds on rows that exist when the adapter accepts the
update of the checking balance. -/
theorem writecheck_succeeds (a : smallbank.StorageAdapter) (name : String) (id v i c s : Int)
    (ha : a.accounts name = some i) (hc : a.checking id = some c) (hs : a.savings id = some s)
    (hw : a.writeOk (smallbank.Op.update (smallbank.RowKey.checking id)
      (if c + s < v then c - (v + 1) else c - v)) = true) :
    (smallbank.afterCommit a (smallbank.Procedure.writecheck name id v)).isSome = true := by
  unfold smallbank.afterCommit smallbank.executeBody
  by_cases hlt : c + s < v <;>
  simp [SmallBankTransaction.Execute, smallbank.WritecheckTxn.body, smallbank.WritecheckTxn.Read,
    smallbank.WritecheckTxn.new, smallbank.TxnBase.fresh, smallbank.selectInt, ha, hc, hs,
    smallbank.TxnBase.record, smallbank.TxnBase.fail, smallbank.WritecheckTxn.Compute,
    smallbank.WritecheckTxn.Write, smallbank.updateInt, hlt] at hw ⊢ <;>
  simp [hw]

/-- C14: for every storage in which the account name and the checking and
savings rows of `id` exist, with balances `c` and `s`, and every `v` for which
no 32-bit overflow occurs, after a successful `WritecheckTxn(name, id, v)` whose
writes were applied the checking balance of `id` is `c - (v + 1)` if `c + s < v`
and `c - v` otherwise; the savings rows, the accounts and every other checking
row are unchanged. -/
theorem writecheck_effect (a a' : smallbank.StorageAdapter) (name : String) (id v i c s : Int)
    (ha : a.accounts name = some i) (hc : a.checking id = some c) (hs : a.savings id = some s)
    (_hfit : fitsInt32 (c + s) = true ∧
      (if c + s < v then fitsInt32 (v + 1) = true ∧ fitsInt32 (c - (v + 1)) = true
       else fitsInt32 (c - v) = true))
    (hcommit : smallbank.afterCommit a (smallbank.Procedure.writecheck name id v) = some a') :
    a'.checking id = some (if c + s < v then c - (v + 1) else c - v) ∧
      a'.savings = a.savings ∧ a'.accounts = a.accounts ∧
      ∀ j, j ≠ id → a'.checking j = a.checking j := by
  unfold smallbank.afterCommit smallbank.executeBody at hcommit
  by_cases hlt : c + s < v
  · cases hw : a.writeOk (smallbank.Op.update (smallbank.RowKey.checking id) (c - (v + 1))) <;>
    simp [SmallBankTransaction.Execute, smallbank.WritecheckTxn.body, smallbank.WritecheckTxn.Read,
      smallbank.WritecheckTxn.new, smallbank.TxnBase.fresh, smallbank.selectInt, ha, hc, hs,
      smallbank.TxnBase.record, smallbank.TxnBase.fail, smallbank.WritecheckTxn.Compute,
      smallbank.WritecheckTxn.Write, smallbank.updateInt, hlt, hw] at hcommit
    subst hcommit
    simp [smallbank.applyWrites, smallbank.applyWrite, hc, hlt]
    intro j hj
    simp [hj]
  · cases hw : a.writeOk (smallbank.Op.update (smallbank.RowKey.checking id) (c - v)) <;>
    simp [SmallBankTransaction.Execute, smallbank.WritecheckTxn.body, smallbank.WritecheckTxn.Read,
      smallbank.WritecheckTxn.new, smallbank.TxnBase.fresh, smallbank.selectInt, ha, hc, hs,
      smallbank.TxnBase.record, smallbank.TxnBase.fail, smallbank.WritecheckTxn.Compute,
      smallbank.WritecheckTxn.Write, smallbank.updateInt, hlt, hw] at hcommit
    subst hcommit
    simp [smallbank.applyWrites, smallbank.applyWrite, hc, hlt]
    intro j hj
    simp [hj]

/-- C14 on the sample storage: `writecheck("Client17", 17, 900)` finds
500 + 300 < 900 and leaves checking[17] = 500 - 901. -/
theorem writecheck_effect_witness :
    (smallbank.applyWrites
        (smallbank.executeBody smallbank.sampleStorage
          (smallbank.Procedure.writecheck "Client17" 17 900)).ops
        smallbank.sampleStorage).checking 17 = some (-401) :=
  (writecheck_effect smallbank.sampleStorage _ "Client17" 17 900 17 500 300 rfl rfl rfl
    (by decide) rfl).1
/-- The dispatch of a `balance` call whose id was written by `std::to_string`. -/
theorem smallbank_procedureOf_balance (name : String) (id : Int) (hid : fitsInt32 id = true) :
    SmallBankExecution.procedureOf ["balance", name, to_string id] =
      Except.ok (Except.ok (smallbank.Procedure.balance name id)) := by
  have h := stoi_to_string id (by simp [fitsInt32] at hid; exact hid.1)
    (by simp [fitsInt32] at hid; exact hid.2)
  unfold SmallBankExecution.procedureOf
  simp only [List.isEmpty_cons, Bool.false_eq_true, if_false, List.headD_cons, String.reduceEq,
    List.length_cons, List.length_nil, ne_eq, not_true_eq_false, argAt, List.get?_cons_succ,
    List.get?_cons_zero, Nat.reduceAdd]
  simp only [bind, Except.bind, h, pure, Except.pure]
  rfl

/-- C15: for every storage in which the account name and the checking and
savings rows of `id` exist, with balances `c` and `s` whose sum is an `int32_t`,
`BalanceTxn(name, id).Execute()` returns true, leaves `c + s` in
`w_total_balance_` and stages no write (every facade call is a `Select`), and
`SmallBankExecution::Execute` on `balance(name, id)` marks the transaction
COMMITTED and leaves the storage as it was; if any of the three rows is missing,
`Execute()` returns false. -/
theorem balance_total (a : smallbank.StorageAdapter) (name : String) (id : Int)
    (hid : fitsInt32 id = true) :
    (∀ i c s : Int, a.accounts name = some i → a.checking id = some c → a.savings id = some s →
      fitsInt32 (c + s) = true →
      (SmallBankTransaction.Execute smallbank.BalanceTxn.body
        (smallbank.BalanceTxn.new a name id)).ret = true ∧
      (SmallBankTransaction.Execute smallbank.BalanceTxn.body
        (smallbank.BalanceTxn.new a name id)).state.w_total_balance_ = c + s ∧
      (∀ op ∈ (SmallBankTransaction.Execute smallbank.BalanceTxn.body
        (smallbank.BalanceTxn.new a name id)).state.ops, ∃ k, op = smallbank.Op.select k) ∧
      ∃ r, SmallBankExecution.Execute a (Transaction.submit [["balance", name, to_string id]]) =
          Except.ok r ∧
        r.txn.status = TransactionStatus.COMMITTED ∧ r.storage.accounts = a.accounts ∧
        r.storage.checking = a.checking ∧ r.storage.savings = a.savings) ∧
    ((a.accounts name = none ∨ a.checking id = none ∨ a.savings id = none) →
      (SmallBankTransaction.Execute smallbank.BalanceTxn.body
        (smallbank.BalanceTxn.new a name id)).ret = false) := by
  constructor
  · intro i c s ha hc hs _
    refine ⟨?_, ?_, ?_, ?_⟩
    · simp [SmallBankTransaction.Execute, smallbank.BalanceTxn.body, smallbank.BalanceTxn.Read,
        smallbank.BalanceTxn.new, smallbank.TxnBase.fresh, smallbank.TxnBase.record, smallbank.TxnBase.fail, smallbank.selectInt, ha, hc, hs, smallbank.BalanceTxn.Write]
    · simp [SmallBankTransaction.Execute, smallbank.BalanceTxn.body, smallbank.BalanceTxn.Read,
        smallbank.BalanceTxn.new, smallbank.TxnBase.fresh, smallbank.TxnBase.record, smallbank.TxnBase.fail, smallbank.selectInt, ha, hc, hs, smallbank.BalanceTxn.Write,
        smallbank.BalanceTxn.Compute]
    · simp [SmallBankTransaction.Execute, smallbank.BalanceTxn.body, smallbank.BalanceTxn.Read,
        smallbank.BalanceTxn.new, smallbank.TxnBase.fresh, smallbank.TxnBase.record, smallbank.TxnBase.fail, smallbank.selectInt, ha, hc, hs, smallbank.BalanceTxn.Write,
        smallbank.BalanceTxn.Compute, smallbank.TxnBase.record, smallbank.TxnBase.fresh]
    · unfold SmallBankExecution.Execute
      have hq : (Transaction.submit [["balance", name, to_string id]]).args =
          ["balance", name, to_string id] := rfl
      rw [hq, smallbank_procedureOf_balance name id hid]
      refine ⟨_, rfl, ?_, ?_, ?_, ?_⟩ <;>
      simp [conclude, smallbank.executeBody, SmallBankTransaction.Execute, smallbank.BalanceTxn.body,
        smallbank.BalanceTxn.Read, smallbank.BalanceTxn.new, smallbank.TxnBase.fresh, smallbank.TxnBase.record, smallbank.TxnBase.fail, smallbank.selectInt, ha, hc, hs,
        smallbank.BalanceTxn.Write, smallbank.BalanceTxn.Compute, smallbank.TxnBase.record,
        smallbank.TxnBase.fresh, smallbank.applyWrites, smallbank.applyWrite]
  · intro h
    cases h1 : a.accounts name <;> cases h2 : a.checking id <;> cases h3 : a.savings id <;>
    simp [SmallBankTransaction.Execute, smallbank.BalanceTxn.body, smallbank.BalanceTxn.Read,
      smallbank.BalanceTxn.new, smallbank.TxnBase.fresh, smallbank.TxnBase.record,
      smallbank.TxnBase.fail, smallbank.selectInt, h1, h2, h3]
    simp [h1, h2, h3] at h

/-- C15 on the scenario of the specification: checking[17] = 500 and
savings[17] = 300 give a total balance of 800. -/
theorem balance_total_witness :
    (SmallBankTransaction.Execute smallbank.BalanceTxn.body
      (smallbank.BalanceTxn.new smallbank.sampleStorage "Client17" 17)).ret = true ∧
    (SmallBankTransaction.Execute smallbank.BalanceTxn.body
      (smallbank.BalanceTxn.new smallbank.sampleStorage "Client17" 17)).state.w_total_balance_ =
        500 + 300 :=
  have h := (balance_total smallbank.sampleStorage "Client17" 17 (by decide)).1 17 500 300
    rfl rfl rfl (by decide)
  ⟨h.1, h.2.1⟩

/-! ### PPS part amounts -/

/-- A loop keeps an invariant that may depend on the number of iterations. -/
theorem forLoop_indexed {σ : Type} (I : Nat → σ → Prop) (body : Nat → σ → σ) (s : σ) (n : Nat)
    (h : ∀ i r, i < n → I i r → I (i + 1) (body i r)) (hs : I 0 s) : I n (forLoop n body s) := by
  induction n with
  | zero => simpa [forLoop] using hs
  | succ m ih =>
    rw [forLoop_succ]
    exact h m _ (Nat.lt_succ_self m) (ih fun i r hi => h i r (Nat.lt_succ_of_lt hi))

/-- Reading `l[i]` after `l[k] = v`. -/
theorem getD_set_int (l : List Int) (k i : Nat) (v : Int) (hk : k < l.length) :
    (l.set k v).getD i 0 = if i = k then v else l.getD i 0 := by
  simp only [List.getD_eq_getElem?_getD, List.getElem?_set]
  by_cases h : k = i
  · subst h
    simp [hk]
  · simp [h, Ne.symm h]

namespace pps

/-- `ApplyWrites` only looks at the staged writes. -/
theorem applyWrites_writesOf (ops : List Op) (a : StorageAdapter) :
    applyWrites ops a = applyWrites (writesOf ops) a := by
  induction ops generalizing a with
  | nil => rfl
  | cons op rest ih =>
    cases op with
    | select k =>
      simp only [applyWrites, List.foldl_cons, applyWrite, writesOf, List.filter_cons,
        Bool.false_eq_true, if_false]
      exact ih a
    | update k v =>
      simp only [applyWrites, List.foldl_cons, writesOf, List.filter_cons, if_true]
      exact ih _

/-- The staged writes of a longer record. -/
theorem writesOf_append (xs ys : List Op) : writesOf (xs ++ ys) = writesOf xs ++ writesOf ys := by
  simp [writesOf]

/-- A `Select` stages nothing. -/
theorem writesOf_select (k : RowKey) : writesOf [Op.select k] = [] := rfl

/-- An `Update` is staged. -/
theorem writesOf_update (k : RowKey) (v : Int) : writesOf [Op.update k v] = [Op.update k v] := rfl

/-- The amount-reading loop on parts that exist: the amounts read are those of
the storage, nothing is staged and the flag is kept. -/
theorem selectAmount_loop_values (s : Bool × PartsState) (n : Nat)
    (hn : n ≤ s.2.parts_ids_.length) (hlen : s.2.parts_amounts_.length = s.2.parts_ids_.length)
    (hex : ∀ i, i < n → ∃ row, s.2.storage.part (s.2.parts_ids_.getD i 0) = some row) :
    (forLoop n selectAmount s).1 = s.1 ∧
    (forLoop n selectAmount s).2.storage = s.2.storage ∧
    (forLoop n selectAmount s).2.parts_ids_ = s.2.parts_ids_ ∧
    (forLoop n selectAmount s).2.new_parts_amounts_ = s.2.new_parts_amounts_ ∧
    (forLoop n selectAmount s).2.parts_amounts_.length = s.2.parts_ids_.length ∧
    (∀ i, i < n → (forLoop n selectAmount s).2.parts_amounts_.getD i 0 =
      amountOf s.2.storage (s.2.parts_ids_.getD i 0)) ∧
    writesOf (forLoop n selectAmount s).2.ops = writesOf s.2.ops := by
  refine forLoop_indexed (fun k r =>
    r.1 = s.1 ∧ r.2.storage = s.2.storage ∧ r.2.parts_ids_ = s.2.parts_ids_ ∧
    r.2.new_parts_amounts_ = s.2.new_parts_amounts_ ∧
    r.2.parts_amounts_.length = s.2.parts_ids_.length ∧
    (∀ i, i < k → r.2.parts_amounts_.getD i 0 = amountOf s.2.storage (s.2.parts_ids_.getD i 0)) ∧
    writesOf r.2.ops = writesOf s.2.ops) selectAmount s n ?_ ?_
  · intro k r hk ⟨h1, h2, h3, h4, h5, h6, h7⟩
    obtain ⟨row, hrow⟩ := hex k hk
    have hkl : k < r.2.parts_amounts_.length := by rw [h5]; omega
    have hrow2 : r.2.storage.part (r.2.parts_ids_.getD k 0) = some row := by rw [h2, h3]; exact hrow
    have hamt : amountOf s.2.storage (s.2.parts_ids_.getD k 0) = row.1 := by
      unfold amountOf
      rw [hrow]
    have hstep : selectAmount k r =
        (r.1, { r.2 with toTxnBase := r.2.toTxnBase.record (Op.select (partKey (r.2.parts_ids_.getD k 0))),
                         parts_amounts_ := r.2.parts_amounts_.set k row.1 }) := by
      unfold selectAmount
      simp only [hrow2]
    rw [hstep]
    refine ⟨h1, h2, h3, h4, ?_, ?_, ?_⟩
    · simp only [List.length_set]
      exact h5
    · intro i hi
      show (r.2.parts_amounts_.set k row.1).getD i 0 = _
      rw [getD_set_int _ _ _ _ hkl]
      by_cases hik : i = k
      · subst hik
        rw [if_pos rfl, hamt]
      · rw [if_neg hik]
        exact h6 i (by omega)
    · show writesOf (r.2.ops ++ [Op.select (partKey (r.2.parts_ids_.getD k 0))]) = _
      rw [writesOf_append, writesOf_select, List.append_nil, h7]
  · exact ⟨rfl, rfl, rfl, rfl, hlen, by intro i hi; omega, rfl⟩

/-- The `Compute` loop: every new amount is the amount read plus `delta`. -/
theorem computeAmount_loop_values (delta : Int) (t : PartsState) (n : Nat)
    (hn : n ≤ t.new_parts_amounts_.length) :
    (forLoop n (computeAmount delta) t).storage = t.storage ∧
    (forLoop n (computeAmount delta) t).parts_ids_ = t.parts_ids_ ∧
    (forLoop n (computeAmount delta) t).parts_amounts_ = t.parts_amounts_ ∧
    (forLoop n (computeAmount delta) t).ops = t.ops ∧
    (forLoop n (computeAmount delta) t).error_ = t.error_ ∧
    (forLoop n (computeAmount delta) t).new_parts_amounts_.length = t.new_parts_amounts_.length ∧
    (∀ i, i < n → (forLoop n (computeAmount delta) t).new_parts_amounts_.getD i 0 =
      t.parts_amounts_.getD i 0 + delta) := by
  refine forLoop_indexed (fun k r =>
    r.storage = t.storage ∧ r.parts_ids_ = t.parts_ids_ ∧ r.parts_amounts_ = t.parts_amounts_ ∧
    r.ops = t.ops ∧ r.error_ = t.error_ ∧
    r.new_parts_amounts_.length = t.new_parts_amounts_.length ∧
    (∀ i, i < k → r.new_parts_amounts_.getD i 0 = t.parts_amounts_.getD i 0 + delta))
    (computeAmount delta) t n ?_ ?_
  · intro k r hk ⟨h1, h2, h3, h4, h5, h6, h7⟩
    have hkl : k < r.new_parts_amounts_.length := by rw [h6]; omega
    unfold computeAmount
    refine ⟨h1, h2, h3, h4, h5, by simp [h6], ?_⟩
    intro i hi
    simp only
    rw [getD_set_int _ _ _ _ hkl]
    by_cases hik : i = k
    · subst hik
      simp [h3]
    · simp only [hik, if_false]
      exact h7 i (by omega)
  · exact ⟨rfl, rfl, rfl, rfl, rfl, rfl, by intro i hi; omega⟩

/-- The `Write` loop stages one update per listed part, in order. -/
theorem updateAmount_loop_values (s : Bool × PartsState) (n : Nat) :
    (forLoop n updateAmount s).2.storage = s.2.storage ∧
    (forLoop n updateAmount s).2.parts_ids_ = s.2.parts_ids_ ∧
    (forLoop n updateAmount s).2.new_parts_amounts_ = s.2.new_parts_amounts_ ∧
    writesOf (forLoop n updateAmount s).2.ops = writesOf s.2.ops ++
      (List.range n).map fun (i : Nat) =>
        Op.update (partKey (s.2.parts_ids_.getD i 0)) (s.2.new_parts_amounts_.getD i 0) := by
  refine forLoop_indexed (fun k r =>
    r.2.storage = s.2.storage ∧ r.2.parts_ids_ = s.2.parts_ids_ ∧
    r.2.new_parts_amounts_ = s.2.new_parts_amounts_ ∧
    writesOf r.2.ops = writesOf s.2.ops ++
      (List.range k).map fun (i : Nat) =>
        Op.update (partKey (s.2.parts_ids_.getD i 0)) (s.2.new_parts_amounts_.getD i 0))
    updateAmount s n ?_ ?_
  · intro k r _ ⟨h1, h2, h3, h4⟩
    have hops : writesOf (r.2.ops ++
        [Op.update (partKey (r.2.parts_ids_.getD k 0)) (r.2.new_parts_amounts_.getD k 0)]) =
        writesOf s.2.ops ++ (List.range (k + 1)).map fun (i : Nat) =>
          Op.update (partKey (s.2.parts_ids_.getD i 0)) (s.2.new_parts_amounts_.getD i 0) := by
      rw [writesOf_append, writesOf_update, h4, h2, h3, List.range_succ, List.map_append,
        List.append_assoc]
      rfl
    unfold updateAmount
    dsimp only
    split
    · exact ⟨h1, h2, h3, hops⟩
    · exact ⟨h1, h2, h3, hops⟩
  · simp

end pps
/-- When `Execute()` returns true, `Read` and `Write` returned true and the
object is the one `Write` left. -/
theorem PPSTransaction_ret_true {σ : Type} (b : TxnBody σ) (s : σ)
    (h : (PPSTransaction.Execute b s).ret = true) :
    (b.Read s).1 = true ∧ (b.Write (b.Compute (b.Read s).2)).1 = true ∧
    (PPSTransaction.Execute b s).state = (b.Write (b.Compute (b.Read s).2)).2 := by
  unfold PPSTransaction.Execute at h ⊢
  cases hr : (b.Read s).1 <;> cases hw : (b.Write (b.Compute (b.Read s).2)).1 <;>
    simp [hr, hw] at h ⊢

/-- Mapping over the indices of a list is mapping over the list. -/
theorem range_map_getD {β : Type} (ids : List Int) (g : Int → β) :
    ((List.range ids.length).map fun (i : Nat) => g (ids.getD i 0)) = ids.map g := by
  apply List.ext_getElem
  · simp
  · intro i h1 h2
    simp only [List.length_map, List.length_range] at h1
    simp [List.getD_eq_getElem?_getD, h1]

namespace pps

/-- The slot-checking loop of `OrderProduct::Read` stages nothing and leaves the
ids and amounts alone. -/
theorem OrderProduct_checkSlot_frame (pid : Int) (n : Nat) (s : Bool × PartsState) :
    (forLoop n (OrderProduct.checkSlot pid) s).2.storage = s.2.storage ∧
    (forLoop n (OrderProduct.checkSlot pid) s).2.parts_ids_ = s.2.parts_ids_ ∧
    (forLoop n (OrderProduct.checkSlot pid) s).2.parts_amounts_ = s.2.parts_amounts_ ∧
    (forLoop n (OrderProduct.checkSlot pid) s).2.new_parts_amounts_ = s.2.new_parts_amounts_ ∧
    writesOf (forLoop n (OrderProduct.checkSlot pid) s).2.ops = writesOf s.2.ops := by
  refine forLoop_inv (fun r : Bool × PartsState =>
    r.2.storage = s.2.storage ∧ r.2.parts_ids_ = s.2.parts_ids_ ∧
    r.2.parts_amounts_ = s.2.parts_amounts_ ∧ r.2.new_parts_amounts_ = s.2.new_parts_amounts_ ∧
    writesOf r.2.ops = writesOf s.2.ops) (OrderProduct.checkSlot pid) ?_ n s ⟨rfl, rfl, rfl, rfl, rfl⟩
  intro i r ⟨h1, h2, h3, h4, h5⟩
  have hops : writesOf (r.2.ops ++ [Op.select (productPartsKey pid ((i : Int) + 1))]) =
      writesOf s.2.ops := by
    rw [writesOf_append, writesOf_select, List.append_nil, h5]
  unfold OrderProduct.checkSlot
  dsimp only
  split
  · exact ⟨h1, h2, h3, h4, hops⟩
  · split
    · exact ⟨h1, h2, h3, h4, hops⟩
    · exact ⟨h1, h2, h3, h4, hops⟩

/-- The slot-checking loop of `SupplierRestock::Read` stages nothing and leaves
the ids and amounts alone. -/
theorem SupplierRestock_checkSlot_frame (sid : Int) (n : Nat) (s : Bool × PartsState) :
    (forLoop n (SupplierRestock.checkSlot sid) s).2.storage = s.2.storage ∧
    (forLoop n (SupplierRestock.checkSlot sid) s).2.parts_ids_ = s.2.parts_ids_ ∧
    (forLoop n (SupplierRestock.checkSlot sid) s).2.parts_amounts_ = s.2.parts_amounts_ ∧
    (forLoop n (SupplierRestock.checkSlot sid) s).2.new_parts_amounts_ = s.2.new_parts_amounts_ ∧
    writesOf (forLoop n (SupplierRestock.checkSlot sid) s).2.ops = writesOf s.2.ops := by
  refine forLoop_inv (fun r : Bool × PartsState =>
    r.2.storage = s.2.storage ∧ r.2.parts_ids_ = s.2.parts_ids_ ∧
    r.2.parts_amounts_ = s.2.parts_amounts_ ∧ r.2.new_parts_amounts_ = s.2.new_parts_amounts_ ∧
    writesOf r.2.ops = writesOf s.2.ops) (SupplierRestock.checkSlot sid) ?_ n s
    ⟨rfl, rfl, rfl, rfl, rfl⟩
  intro i r ⟨h1, h2, h3, h4, h5⟩
  have hops : writesOf (r.2.ops ++ [Op.select (supplierPartsKey sid ((i : Int) + 1))]) =
      writesOf s.2.ops := by
    rw [writesOf_append, writesOf_select, List.append_nil, h5]
  unfold SupplierRestock.checkSlot
  dsimp only
  split
  · exact ⟨h1, h2, h3, h4, hops⟩
  · split
    · exact ⟨h1, h2, h3, h4, hops⟩
    · exact ⟨h1, h2, h3, h4, hops⟩

/-- Applying one amount update per listed part: a listed part that exists gets
the amount `f` gives it and keeps its name, every other row is left alone. -/
theorem partUpdates_apply (f : Int → Int) (ids : List Int) (b : StorageAdapter) :
    (∀ j, (applyWrites (ids.map fun id => Op.update (partKey id) (f id)) b).part j =
      if j ∈ ids then (b.part j).map (fun row => (f j, row.2)) else b.part j) ∧
    (applyWrites (ids.map fun id => Op.update (partKey id) (f id)) b).product = b.product ∧
    (applyWrites (ids.map fun id => Op.update (partKey id) (f id)) b).productParts = b.productParts ∧
    (applyWrites (ids.map fun id => Op.update (partKey id) (f id)) b).supplierParts =
      b.supplierParts := by
  induction ids generalizing b with
  | nil => simp [applyWrites]
  | cons id rest ih =>
    have hstep : applyWrites ((id :: rest).map fun id => Op.update (partKey id) (f id)) b =
        applyWrites (rest.map fun id => Op.update (partKey id) (f id))
          (applyWrite b (Op.update (partKey id) (f id))) := rfl
    rw [hstep]
    obtain ⟨h1, h2, h3, h4⟩ := ih (applyWrite b (Op.update (partKey id) (f id)))
    refine ⟨?_, ?_, ?_, ?_⟩
    · intro j
      rw [h1 j]
      simp only [applyWrite, partKey, List.mem_cons]
      by_cases hj : j = id
      · subst hj
        by_cases hr : j ∈ rest
        · simp [hr, Option.map_map, Function.comp_def]
        · simp [hr]
      · by_cases hr : j ∈ rest <;> simp [hj, hr]
    · rw [h2]; rfl
    · rw [h3]; rfl
    · rw [h4]; rfl

/-- The three loops of the part-updating bodies, one after the other, on parts
that exist: the writes staged are one update per listed part, to the amount of
the storage plus `delta`. -/
theorem parts_pipeline (delta : Int) (flag : Bool) (t : PartsState)
    (hlen1 : t.parts_amounts_.length = t.parts_ids_.length)
    (hlen2 : t.new_parts_amounts_.length = t.parts_ids_.length)
    (hex : ∀ id ∈ t.parts_ids_, ∃ row, t.storage.part id = some row) :
    writesOf (forLoop t.parts_ids_.length updateAmount
      (true, forLoop t.parts_ids_.length (computeAmount delta)
        (forLoop t.parts_ids_.length selectAmount (flag, t)).2)).2.ops =
      writesOf t.ops ++ t.parts_ids_.map fun id =>
        Op.update (partKey id) (amountOf t.storage id + delta) := by
  have hex2 : ∀ i, i < t.parts_ids_.length →
      ∃ row, t.storage.part (t.parts_ids_.getD i 0) = some row := by
    intro i hi
    apply hex
    simp [List.getD_eq_getElem?_getD, hi]
  obtain ⟨_, r2, r3, r4, r5, r6, r7⟩ :=
    selectAmount_loop_values (flag, t) t.parts_ids_.length (le_refl _) hlen1 hex2
  simp only at r2 r3 r4 r5 r6 r7
  obtain ⟨c1, c2, c3, c4, _, c6, c7⟩ := computeAmount_loop_values delta
    (forLoop t.parts_ids_.length selectAmount (flag, t)).2 t.parts_ids_.length
    (by rw [r4, hlen2])
  obtain ⟨_, _, _, w4⟩ := updateAmount_loop_values
    (true, forLoop t.parts_ids_.length (computeAmount delta)
      (forLoop t.parts_ids_.length selectAmount (flag, t)).2) t.parts_ids_.length
  rw [w4]
  simp only [c4, r7, c2, r3]
  congr 1
  rw [← range_map_getD]
  apply List.map_congr_left
  intro i hi
  rw [List.mem_range] at hi
  rw [c7 i hi, r6 i hi]

end pps
namespace pps

/-- Applying the staged writes of a part-updating body gives the shifted
amounts. -/
theorem amountsShifted_of_writes (delta : Int) (ids : List Int) (a : StorageAdapter) (ops : List Op)
    (h : writesOf ops = ids.map fun id => Op.update (partKey id) (amountOf a id + delta)) :
    AmountsShifted delta ids a (applyWrites ops a) := by
  rw [applyWrites_writesOf, h]
  obtain ⟨h1, h2, h3, h4⟩ := partUpdates_apply (fun id => amountOf a id + delta) ids a
  refine ⟨?_, ?_, h2, h3, h4⟩
  · intro id hid amt name hrow
    rw [h1 id, if_pos hid, hrow]
    simp [amountOf, hrow]
  · intro id hid
    rw [h1 id, if_neg hid]

/-- The writes staged by a successful `OrderParts`. -/
theorem order_parts_writes (a : StorageAdapter) (ids : List Int)
    (hex : ∀ id ∈ ids, ∃ row, a.part id = some row) :
    writesOf (OrderParts.Write (OrderParts.Compute (OrderParts.Read (OrderParts.new a ids)).2)).2.ops =
      ids.map fun id => Op.update (partKey id) (amountOf a id + (-1)) := by
  have hex2 : ∀ i, i < ids.length →
      ∃ row, (true, PartsState.new a ids).2.storage.part
        ((true, PartsState.new a ids).2.parts_ids_.getD i 0) = some row := by
    intro i hi
    apply hex
    simp [PartsState.new, List.getD_eq_getElem?_getD, hi]
  have hp := parts_pipeline (-1) true (PartsState.new a ids) (by simp [PartsState.new])
    (by simp [PartsState.new]) (by simpa [PartsState.new, TxnBase.fresh] using hex)
  obtain ⟨_, _, hr, hr4, _, _, _⟩ := selectAmount_loop_values (true, PartsState.new a ids) ids.length
    (by simp [PartsState.new]) (by simp [PartsState.new]) hex2
  have hr' : (forLoop ids.length selectAmount (true, PartsState.new a ids)).2.parts_ids_ = ids := hr
  have hc : (forLoop ids.length (computeAmount (-1))
      (forLoop ids.length selectAmount (true, PartsState.new a ids)).2).parts_ids_ = ids := by
    rw [(computeAmount_loop_values (-1)
      (forLoop ids.length selectAmount (true, PartsState.new a ids)).2 ids.length
      (by rw [hr4]; simp [PartsState.new])).2.1]
    exact hr'
  have hp' : writesOf (forLoop ids.length updateAmount
      (true, forLoop ids.length (computeAmount (-1))
        (forLoop ids.length selectAmount (true, PartsState.new a ids)).2)).2.ops =
      ids.map fun id => Op.update (partKey id) (amountOf a id + (-1)) := by
    simpa [PartsState.new, TxnBase.fresh, writesOf] using hp
  have hid : (OrderParts.new a ids).parts_ids_ = ids := rfl
  have hps : (OrderParts.new a ids).toPartsState = PartsState.new a ids := rfl
  have hid2 : (PartsState.new a ids).parts_ids_ = ids := rfl
  simp only [OrderParts.Write, OrderParts.Compute, OrderParts.Read, hid, hps, hid2, hr', hc]
  exact hp'

end pps
namespace pps

/-- The three loops on an object whose ids, storage and staged writes are
known. -/
theorem parts_pipeline_at (delta : Int) (flag : Bool) (t : PartsState) (ids : List Int)
    (a : StorageAdapter) (hids : t.parts_ids_ = ids) (hst : t.storage = a)
    (hops : writesOf t.ops = [])
    (hlen1 : t.parts_amounts_.length = ids.length) (hlen2 : t.new_parts_amounts_.length = ids.length)
    (hex : ∀ id ∈ ids, ∃ row, a.part id = some row) :
    (forLoop ids.length selectAmount (flag, t)).2.parts_ids_ = ids ∧
    (forLoop ids.length (computeAmount delta)
      (forLoop ids.length selectAmount (flag, t)).2).parts_ids_ = ids ∧
    writesOf (forLoop ids.length updateAmount
      (true, forLoop ids.length (computeAmount delta)
        (forLoop ids.length selectAmount (flag, t)).2)).2.ops =
      ids.map fun id => Op.update (partKey id) (amountOf a id + delta) := by
  subst hids
  subst hst
  have hex2 : ∀ i, i < t.parts_ids_.length →
      ∃ row, (flag, t).2.storage.part ((flag, t).2.parts_ids_.getD i 0) = some row := by
    intro i hi
    apply hex
    simp [List.getD_eq_getElem?_getD, hi]
  obtain ⟨_, _, hr, hr4, _, _, _⟩ := selectAmount_loop_values (flag, t) t.parts_ids_.length
    (le_refl _) hlen1 hex2
  have hc := (computeAmount_loop_values delta
    (forLoop t.parts_ids_.length selectAmount (flag, t)).2 t.parts_ids_.length
    (by rw [hr4]; exact le_of_eq hlen2.symm)).2.1
  have hp := parts_pipeline delta flag t hlen1 hlen2 hex
  rw [hops, List.nil_append] at hp
  exact ⟨hr, hc.trans hr, hp⟩

/-- The writes staged by a successful `OrderProduct`. -/
theorem order_product_writes (kPartsPerProduct : Nat) (a : StorageAdapter) (pid : Int)
    (ids : List Int) (hex : ∀ id ∈ ids, ∃ row, a.part id = some row)
    (hread : (OrderProduct.Read kPartsPerProduct (OrderProduct.new a pid ids)).1 = true) :
    writesOf (OrderProduct.Write (OrderProduct.Compute
      (OrderProduct.Read kPartsPerProduct (OrderProduct.new a pid ids)).2)).2.ops =
      ids.map fun id => Op.update (partKey id) (amountOf a id + (-1)) := by
  have hid : (OrderProduct.new a pid ids).parts_ids_ = ids := rfl
  have hps : (OrderProduct.new a pid ids).toPartsState = PartsState.new a ids := rfl
  by_cases hl : ids.length ≠ kPartsPerProduct
  · simp [OrderProduct.Read, hid, hl] at hread
  · obtain ⟨f1, f2, f3, f4, f5⟩ := OrderProduct_checkSlot_frame
      (OrderProduct.new a pid ids).product_id_ kPartsPerProduct (true, PartsState.new a ids)
    obtain ⟨hr, hc, hp⟩ := parts_pipeline_at (-1)
      (forLoop kPartsPerProduct (OrderProduct.checkSlot (OrderProduct.new a pid ids).product_id_)
        (true, PartsState.new a ids)).1
      (forLoop kPartsPerProduct (OrderProduct.checkSlot (OrderProduct.new a pid ids).product_id_)
        (true, PartsState.new a ids)).2 ids a f2 f1 (by rw [f5]; rfl)
      (by rw [f3]; simp [PartsState.new]) (by rw [f4]; simp [PartsState.new]) hex
    have hid2 : (PartsState.new a ids).parts_ids_ = ids := rfl
    simp only [Prod.mk.eta] at hr hc hp
    have hRead : OrderProduct.Read kPartsPerProduct (OrderProduct.new a pid ids) =
        ((forLoop ids.length selectAmount (forLoop kPartsPerProduct
            (OrderProduct.checkSlot (OrderProduct.new a pid ids).product_id_)
            (true, PartsState.new a ids))).1,
          { OrderProduct.new a pid ids with
            toPartsState := (forLoop ids.length selectAmount (forLoop kPartsPerProduct
              (OrderProduct.checkSlot (OrderProduct.new a pid ids).product_id_)
              (true, PartsState.new a ids))).2 }) := by
      unfold OrderProduct.Read
      rw [if_neg (by rw [hid]; exact hl)]
      simp only [hid, hps, hid2]
    rw [hRead]
    simp only [OrderProduct.Write, OrderProduct.Compute, hr, hc]
    exact hp

/-- The writes staged by a successful `SupplierRestock`. -/
theorem supplier_restock_writes (kPartsPerSupplier : Nat) (a : StorageAdapter) (sid : Int)
    (ids : List Int) (hex : ∀ id ∈ ids, ∃ row, a.part id = some row)
    (hread : (SupplierRestock.Read kPartsPerSupplier (SupplierRestock.new a sid ids)).1 = true) :
    writesOf (SupplierRestock.Write (SupplierRestock.Compute
      (SupplierRestock.Read kPartsPerSupplier (SupplierRestock.new a sid ids)).2)).2.ops =
      ids.map fun id => Op.update (partKey id) (amountOf a id + 1) := by
  have hid : (SupplierRestock.new a sid ids).parts_ids_ = ids := rfl
  have hps : (SupplierRestock.new a sid ids).toPartsState = PartsState.new a ids := rfl
  by_cases hl : ids.length ≠ kPartsPerSupplier
  · simp [SupplierRestock.Read, hid, hl] at hread
  · obtain ⟨f1, f2, f3, f4, f5⟩ := SupplierRestock_checkSlot_frame
      (SupplierRestock.new a sid ids).suppplier_id_ kPartsPerSupplier (true, PartsState.new a ids)
    obtain ⟨hr, hc, hp⟩ := parts_pipeline_at 1
      (forLoop kPartsPerSupplier
        (SupplierRestock.checkSlot (SupplierRestock.new a sid ids).suppplier_id_)
        (true, PartsState.new a ids)).1
      (forLoop kPartsPerSupplier
        (SupplierRestock.checkSlot (SupplierRestock.new a sid ids).suppplier_id_)
        (true, PartsState.new a ids)).2 ids a f2 f1 (by rw [f5]; rfl)
      (by rw [f3]; simp [PartsState.new]) (by rw [f4]; simp [PartsState.new]) hex
    have hid2 : (PartsState.new a ids).parts_ids_ = ids := rfl
    simp only [Prod.mk.eta] at hr hc hp
    have hRead : SupplierRestock.Read kPartsPerSupplier (SupplierRestock.new a sid ids) =
        ((forLoop ids.length selectAmount (forLoop kPartsPerSupplier
            (SupplierRestock.checkSlot (SupplierRestock.new a sid ids).suppplier_id_)
            (true, PartsState.new a ids))).1,
          { SupplierRestock.new a sid ids with
            toPartsState := (forLoop ids.length selectAmount (forLoop kPartsPerSupplier
              (SupplierRestock.checkSlot (SupplierRestock.new a sid ids).suppplier_id_)
              (true, PartsState.new a ids))).2 }) := by
      unfold SupplierRestock.Read
      rw [if_neg (by rw [hid]; exact hl)]
      simp only [hid, hps, hid2]
    rw [hRead]
    simp only [SupplierRestock.Write, SupplierRestock.Compute, hr, hc]
    exact hp

end pps

/-- C16: for every list of part ids whose Part rows all exist (a list may repeat
an id) and whose amounts can be decremented and incremented within `int32_t`,
after a successful `OrderParts` or `OrderProduct` whose writes were applied each
listed part has its previous amount minus 1, after a successful
`SupplierRestock` each listed part has its previous amount plus 1, and in both
cases the name of a listed part, every part not listed and every other table are
unchanged. -/
theorem part_amounts_change_by_one (kPartsPerProduct kPartsPerSupplier : Nat)
    (a a' : pps.StorageAdapter) (ids : List Int)
    (hex : ∀ id ∈ ids, ∃ row, a.part id = some row)
    (_hfit : ∀ id ∈ ids, fitsInt32 (pps.amountOf a id - 1) = true ∧
      fitsInt32 (pps.amountOf a id + 1) = true) :
    (pps.afterCommit kPartsPerProduct kPartsPerSupplier a (pps.Procedure.order_parts ids) = some a' →
      pps.AmountsShifted (-1) ids a a') ∧
    (∀ pid, pps.afterCommit kPartsPerProduct kPartsPerSupplier a
        (pps.Procedure.order_product pid ids) = some a' → pps.AmountsShifted (-1) ids a a') ∧
    (∀ sid, pps.afterCommit kPartsPerProduct kPartsPerSupplier a
        (pps.Procedure.supplier_restock sid ids) = some a' → pps.AmountsShifted 1 ids a a') := by
  refine ⟨?_, ?_, ?_⟩
  · intro h
    unfold pps.afterCommit pps.executeBody at h
    dsimp only at h
    split_ifs at h with hret
    obtain ⟨_, _, hstate⟩ := PPSTransaction_ret_true _ _ hret
    simp only [Option.some.injEq] at h
    subst h
    apply pps.amountsShifted_of_writes
    rw [hstate]
    exact pps.order_parts_writes a ids hex
  · intro pid h
    unfold pps.afterCommit pps.executeBody at h
    dsimp only at h
    split_ifs at h with hret
    obtain ⟨hread, _, hstate⟩ := PPSTransaction_ret_true _ _ hret
    simp only [Option.some.injEq] at h
    subst h
    apply pps.amountsShifted_of_writes
    rw [hstate]
    exact pps.order_product_writes kPartsPerProduct a pid ids hex hread
  · intro sid h
    unfold pps.afterCommit pps.executeBody at h
    dsimp only at h
    split_ifs at h with hret
    obtain ⟨hread, _, hstate⟩ := PPSTransaction_ret_true _ _ hret
    simp only [Option.some.injEq] at h
    subst h
    apply pps.amountsShifted_of_writes
    rw [hstate]
    exact pps.supplier_restock_writes kPartsPerSupplier a sid ids hex hread

/-- C16 on the sample storage: `order_parts([5, 5, 7])` leaves parts 5 and 7
with amount 9 (part 5 is listed twice and still loses 1), and part 6 with
amount 10. -/
theorem part_amounts_change_by_one_witness :
    (pps.applyWrites (pps.executeBody 2 2 pps.sampleStorage
        (pps.Procedure.order_parts [5, 5, 7])).ops pps.sampleStorage).part 5 = some (10 + (-1), "part") ∧
    (pps.applyWrites (pps.executeBody 2 2 pps.sampleStorage
        (pps.Procedure.order_parts [5, 5, 7])).ops pps.sampleStorage).part 6 =
      pps.sampleStorage.part 6 :=
  have h := (part_amounts_change_by_one 2 2 pps.sampleStorage _ [5, 5, 7]
    (by
      intro id hid
      simp only [List.mem_cons, List.mem_singleton, List.not_mem_nil, or_false] at hid
      rcases hid with h | h | h <;> subst h <;> exact ⟨(10, "part"), rfl⟩)
    (by decide)).1 rfl
  ⟨h.1 5 (by decide) 10 "part" rfl, h.2.1 6 (by decide)⟩

/-! ### DSH reservation capacity check -/

namespace dsh

/-- The `for` loop of `ReservationTxn::Read` when the flag is true on entry and
`i` is the first date whose stored count is below the rooms asked for: the loop
ends with the flag false and the error naming that date; it selects only and
stays inside the 14-slot array. -/
theorem readCount_loop_first_full (a : StorageAdapter) (hotel_id num_rooms : Int)
    (range : List String) (i : Nat) (c : Int) (s : Bool × ReservationTxn)
    (hs1 : s.1 = true) (hst : s.2.storage = a) (hh : s.2.hotel_id_ = hotel_id)
    (hn : s.2.num_rooms_ = num_rooms) (hr : s.2.date_range_ = range) (he : s.2.error_ = "")
    (hf : s.2.fault = false) (hops : ∀ op ∈ s.2.ops, ∃ k, op = Op.select k)
    (hlen : range.length ≤ kMaxStay) (hi : i < range.length)
    (hc : a.reservationCounts hotel_id (range.getD i "") = some c) (hneg : c - num_rooms < 0)
    (hfirst : ∀ j, j < i → ∀ c', a.reservationCounts hotel_id (range.getD j "") = some c' →
      0 ≤ c' - num_rooms) (n : Nat) (hnl : n ≤ range.length) :
    (n ≤ i → (forLoop n ReservationTxn.readCount s).1 = true ∧
      (forLoop n ReservationTxn.readCount s).2.error_ = "") ∧
    (i < n → (forLoop n ReservationTxn.readCount s).1 = false ∧
      (forLoop n ReservationTxn.readCount s).2.error_ =
        "Too many reservations on " ++ range.getD i "") ∧
    (forLoop n ReservationTxn.readCount s).2.storage = a ∧
    (forLoop n ReservationTxn.readCount s).2.hotel_id_ = hotel_id ∧
    (forLoop n ReservationTxn.readCount s).2.num_rooms_ = num_rooms ∧
    (forLoop n ReservationTxn.readCount s).2.date_range_ = range ∧
    (forLoop n ReservationTxn.readCount s).2.fault = false ∧
    (∀ op ∈ (forLoop n ReservationTxn.readCount s).2.ops, ∃ k, op = Op.select k) := by
  refine forLoop_indexed (fun k r =>
    (k ≤ i → r.1 = true ∧ r.2.error_ = "") ∧
    (i < k → r.1 = false ∧ r.2.error_ = "Too many reservations on " ++ range.getD i "") ∧
    r.2.storage = a ∧ r.2.hotel_id_ = hotel_id ∧ r.2.num_rooms_ = num_rooms ∧
    r.2.date_range_ = range ∧ r.2.fault = false ∧ (∀ op ∈ r.2.ops, ∃ k, op = Op.select k))
    ReservationTxn.readCount s n ?_ ?_
  · intro k r hk ⟨p1, p2, q1, q2, q3, q4, q5, q6⟩
    have hk14 : k < kMaxStay := by omega
    have hops2 : ∀ op ∈ r.2.ops ++ [Op.select (RowKey.reservationCount hotel_id (range.getD k ""))],
        ∃ k, op = Op.select k := by
      intro op hop
      rcases List.mem_append.mp hop with h | h
      · exact q6 op h
      · exact ⟨_, List.mem_singleton.mp h⟩
    by_cases hflag : r.1 = true
    · have hki : k ≤ i := by
        by_contra hcon
        have := (p2 (by omega)).1
        rw [this] at hflag
        cases hflag
      have herr := (p1 hki).2
      by_cases hkeq : k = i
      · subst hkeq
        have hstep : ReservationTxn.readCount k r =
            (false, { r.2 with
              toTxnBase := (r.2.toTxnBase.record
                (Op.select (RowKey.reservationCount hotel_id (range.getD k "")))).fail
                  ("Too many reservations on " ++ range.getD k ""),
              new_reservation_count := r.2.new_reservation_count.set k (some (c - num_rooms)) }) := by
          simp [ReservationTxn.readCount, ReservationTxn.setCount, hflag, q1, q2, q3, q4, hc, hneg, hk14,
            ← List.getD_eq_getElem?_getD]
        rw [hstep]
        refine ⟨fun h => absurd h (by omega), fun _ => ⟨rfl, ?_⟩, q1, q2, q3, q4, q5, hops2⟩
        show SetError r.2.error_ _ = _
        rw [herr]
        rfl
      · have hlt : k < i := by omega
        cases hcount : a.reservationCounts hotel_id (range.getD k "") with
        | none =>
          have hstep : ReservationTxn.readCount k r =
              (true, { r.2 with
                toTxnBase := r.2.toTxnBase.record
                  (Op.select (RowKey.reservationCount hotel_id (range.getD k ""))),
                new_reservation_count :=
                  r.2.new_reservation_count.set k (some (r.2.hotel_capacity_ - num_rooms)) }) := by
            simp [ReservationTxn.readCount, ReservationTxn.setCount, hflag, q1, q2, q3, q4, hcount,
              hk14, ← List.getD_eq_getElem?_getD]
          rw [hstep]
          exact ⟨fun _ => ⟨rfl, herr⟩, fun h => absurd h (by omega), q1, q2, q3, q4, q5, hops2⟩
        | some c' =>
          have hge := hfirst k hlt c' hcount
          have hstep : ReservationTxn.readCount k r =
              (true, { r.2 with
                toTxnBase := r.2.toTxnBase.record
                  (Op.select (RowKey.reservationCount hotel_id (range.getD k ""))),
                new_reservation_count :=
                  r.2.new_reservation_count.set k (some (c' - num_rooms)) }) := by
            simp [ReservationTxn.readCount, ReservationTxn.setCount, hflag, q1, q2, q3, q4, hcount,
              hk14, not_lt.mpr hge, ← List.getD_eq_getElem?_getD]
          rw [hstep]
          exact ⟨fun _ => ⟨rfl, herr⟩, fun h => absurd h (by omega), q1, q2, q3, q4, q5, hops2⟩
    · have hfalse : r.1 = false := by simpa using hflag
      have hik : i < k := by
        by_contra hcon
        have := (p1 (by omega)).1
        rw [this] at hfalse
        cases hfalse
      have hstep : ReservationTxn.readCount k r =
          (false, { r.2 with
            toTxnBase := r.2.toTxnBase.record
              (Op.select (RowKey.reservationCount hotel_id (range.getD k ""))) }) := by
        simp [ReservationTxn.readCount, hfalse, q2, q4, ← List.getD_eq_getElem?_getD]
      rw [hstep]
      exact ⟨fun h => absurd h (by omega), fun _ => ⟨rfl, (p2 hik).2⟩, q1, q2, q3, q4, q5, hops2⟩
  · exact ⟨fun _ => ⟨hs1, he⟩, fun h => absurd h (by omega), hst, hh, hn, hr, hf, hops⟩

end dsh
namespace dsh

/-- What the capacity check does when the comparison `num_rooms_ >
hotel_capacity_` of the two scalar pointers comes out false: for a reservation
whose user and hotel rows exist and whose stay has at most 14 nights, if `i` is
the first night with a stored count `c` such that `c - rooms < 0`, `Execute()`
returns false, `error()` is "Too many reservations on " followed by that date,
and the body only selected (no Reservation or ReservationCount row is
written). -/
theorem reservation_capacity_check_by_value (a : StorageAdapter)
    (username password in_date out_date : String) (hotel_id : Int) (cust_name : String)
    (num_rooms : Int) (t : ReservationTxn) (pw : String) (row : HotelRow) (range : List String)
    (i : Nat) (c : Int)
    (hnew : ReservationTxn.new a false username password in_date out_date hotel_id cust_name
      num_rooms = some t)
    (huser : a.users t.username_ = some pw) (hhotel : a.hotels hotel_id = some row)
    (hrange : date_interp in_date out_date = some range) (hlen : range.length ≤ kMaxStay)
    (hi : i < range.length)
    (hc : a.reservationCounts hotel_id (range.getD i "") = some c) (hneg : c - num_rooms < 0)
    (hfirst : ∀ j, j < i → ∀ c', a.reservationCounts hotel_id (range.getD j "") = some c' →
      0 ≤ c' - num_rooms) :
    (DSHTransaction.Execute ReservationTxn.body t).ret = false ∧
    (DSHTransaction.Execute ReservationTxn.body t).state.error_ =
      "Too many reservations on " ++ range.getD i "" ∧
    (DSHTransaction.Execute ReservationTxn.body t).state.fault = false ∧
    ∀ op ∈ (DSHTransaction.Execute ReservationTxn.body t).state.ops, ∃ k, op = Op.select k := by
  unfold ReservationTxn.new at hnew
  cases hu : format_uname username with
  | none => rw [hu] at hnew; cases hnew
  | some uname =>
    rw [hu] at hnew
    simp only [Option.map_some', Option.some.injEq] at hnew
    subst hnew
    simp only at huser
    have hread : ReservationTxn.Read
        { TxnBase.fresh a with
          in_date_ := in_date, out_date_ := out_date, hotel_id_ := hotel_id, cust_name_ := cust_name,
          num_rooms_ := num_rooms, username_ := uname, password_ := password, new_id_ := none,
          date_range_ := [], hotel_capacity_ := 0, saved_password_ := "",
          new_reservation_count := List.replicate kMaxStay none, correct_password_ := false,
          ptrGreater := false } =
        forLoop range.length ReservationTxn.readCount
          (true, { storage := a,
                   ops := [Op.select (RowKey.user uname), Op.select (RowKey.hotel hotel_id)],
                   error_ := "", fault := false,
                   in_date_ := in_date, out_date_ := out_date, hotel_id_ := hotel_id,
                   cust_name_ := cust_name, num_rooms_ := num_rooms, username_ := uname,
                   password_ := password, new_id_ := none, date_range_ := range,
                   hotel_capacity_ := row.capacity, saved_password_ := pw,
                   new_reservation_count := List.replicate kMaxStay none, correct_password_ := false,
                   ptrGreater := false }) := by
      simp [ReservationTxn.Read, TxnBase.fresh, TxnBase.record, huser, hhotel, hrange,
        not_lt.mpr hlen]
    obtain ⟨_, l2, l3, l4, l5, l6, l7, l8⟩ := readCount_loop_first_full a hotel_id num_rooms range i c
      (true, { storage := a,
               ops := [Op.select (RowKey.user uname), Op.select (RowKey.hotel hotel_id)],
               error_ := "", fault := false,
               in_date_ := in_date, out_date_ := out_date, hotel_id_ := hotel_id,
               cust_name_ := cust_name, num_rooms_ := num_rooms, username_ := uname,
               password_ := password, new_id_ := none, date_range_ := range,
               hotel_capacity_ := row.capacity, saved_password_ := pw,
               new_reservation_count := List.replicate kMaxStay none, correct_password_ := false,
               ptrGreater := false })
      rfl rfl rfl rfl rfl rfl rfl
      (by
        intro op hop
        simp only [List.mem_cons, List.mem_singleton, List.not_mem_nil, or_false] at hop
        rcases hop with h | h <;> exact ⟨_, h⟩)
      hlen hi hc hneg hfirst range.length (le_refl _)
    obtain ⟨m1, m2⟩ := l2 hi
    unfold DSHTransaction.Execute
    simp only [ReservationTxn.body, hread, m1, Bool.not_false, if_true]
    exact ⟨trivial, m2, l7, l8⟩

end dsh

/-- C17: on the scenario of the specification (hotel 1 of capacity 2, a stored
count of 1 on 01-06-2020, 2 rooms asked for the night of 01-06-2020), when the
comparison `num_rooms_ > hotel_capacity_` of the two scalar pointers comes out
true, `Execute()` returns false with `error()` equal to "Hotel capacity is too
low" although 2 rooms do not exceed the capacity 2, where the claim gives "Too
many reservations on 01-06-2020"; nothing is written. When the comparison comes
out false the error is the claimed one. -/
theorem reservation_capacity_compares_pointers :
    ((dsh.reservationPass dsh.sampleStorage true "1" "1" "01-06-2020" "02-06-2020" 1 "c" 2).map
      fun r => (r.ret, r.state.error_, r.state.ops)) =
      some (false, "Hotel capacity is too low",
        [dsh.Op.select (dsh.RowKey.user "01_________________1"), dsh.Op.select (dsh.RowKey.hotel 1),
         dsh.Op.select (dsh.RowKey.reservationCount 1 "01-06-2020")]) ∧
    ((dsh.reservationPass dsh.sampleStorage false "1" "1" "01-06-2020" "02-06-2020" 1 "c" 2).map
      fun r => (r.ret, r.state.error_)) =
      some (false, "Too many reservations on 01-06-2020") := by
  decide

/-! ### DSH recommendation -/

namespace dsh

/-- A loop of `Compute` over hotels none of which is strictly better than the
current choice keeps the choice. -/
theorem choose_foldl_keep (better : ℚ → ℚ → Bool) (value : RecommendationScalar → ℚ)
    (rows : List RecommendationScalar) (chosen : ℚ × Int)
    (h : ∀ y ∈ rows, better (value y) chosen.1 = false) :
    rows.foldl (RecommendTxn.choose better value) chosen = chosen := by
  induction rows with
  | nil => rfl
  | cons y rest ih =>
    have hy := h y (List.mem_cons_self _ _)
    simp only [List.foldl_cons, RecommendTxn.choose, hy, Bool.false_eq_true, if_false]
    exact ih fun z hz => h z (List.mem_cons_of_mem _ hz)

/-- A loop of `Compute` over hotels all of which are strictly worse than `x`
leaves a choice that `x` still beats. -/
theorem choose_foldl_worse (better : ℚ → ℚ → Bool) (value : RecommendationScalar → ℚ)
    (x : RecommendationScalar) (pre : List RecommendationScalar) (chosen : ℚ × Int)
    (hpre : ∀ y ∈ pre, better (value x) (value y) = true)
    (hx : better (value x) chosen.1 = true) :
    better (value x) (pre.foldl (RecommendTxn.choose better value) chosen).1 = true := by
  induction pre generalizing chosen with
  | nil => exact hx
  | cons y rest ih =>
    simp only [List.foldl_cons]
    refine ih _ (fun z hz => hpre z (List.mem_cons_of_mem _ hz)) ?_
    unfold RecommendTxn.choose
    split
    · exact hpre y (List.mem_cons_self _ _)
    · exact hx

/-- A hotel that is strictly better than the choice replaces it. -/
theorem choose_of_better (better : ℚ → ℚ → Bool) (value : RecommendationScalar → ℚ)
    (chosen : ℚ × Int) (s : RecommendationScalar) (h : better (value s) chosen.1 = true) :
    RecommendTxn.choose better value chosen s = (value s, s.h_id) := by
  unfold RecommendTxn.choose
  rw [if_pos h]

/-- A loop of `Compute` ends on the first hotel that beats the start value, is
strictly better than every hotel before it and not beaten by a hotel after
it. -/
theorem choose_foldl_first_best (better : ℚ → ℚ → Bool) (value : RecommendationScalar → ℚ)
    (x : RecommendationScalar) (pre post : List RecommendationScalar) (chosen : ℚ × Int)
    (hpre : ∀ y ∈ pre, better (value x) (value y) = true)
    (hpost : ∀ y ∈ post, better (value y) (value x) = false)
    (hx : better (value x) chosen.1 = true) :
    (pre ++ x :: post).foldl (RecommendTxn.choose better value) chosen = (value x, x.h_id) := by
  rw [List.foldl_append, List.foldl_cons]
  have h1 := choose_foldl_worse better value x pre chosen hpre hx
  rw [choose_of_better better value _ x h1]
  exact choose_foldl_keep better value post _ hpost

/-- The entries of an array without null scalars. -/
theorem allSome_map_some (rows : List RecommendationScalar) :
    (rows.map some).allSome = some rows := by
  unfold List.allSome
  rw [← List.mapM'_eq_mapM]
  induction rows with
  | nil => rfl
  | cons x rest ih => simp [List.mapM', ih]

end dsh

/-- The loops of `Compute` end on the first hotel of minimal cost when its cost
is below the start value. -/
theorem dsh.compute_first_optimum_core (fl : ℚ → ℚ) (t : dsh.RecommendTxn)
    (pre post : List dsh.RecommendationScalar) (x : dsh.RecommendationScalar)
    (hrows : t.read_recommendations_ = (pre ++ x :: post).map some)
    (hstart : t.chosen_dist_ = 0xFFFFFFFF ∧ t.chosen_price_ = dsh.kMaxHotelPrice ∧
      t.chosen_rating_ = 0)
    (hpre : ∀ y ∈ pre, dsh.RecommendTxn.cost fl t.type_ t.lat_ t.lon_ x <
      dsh.RecommendTxn.cost fl t.type_ t.lat_ t.lon_ y)
    (hpost : ∀ y ∈ post, dsh.RecommendTxn.cost fl t.type_ t.lat_ t.lon_ x ≤
      dsh.RecommendTxn.cost fl t.type_ t.lat_ t.lon_ y)
    (hbelow : dsh.RecommendTxn.cost fl t.type_ t.lat_ t.lon_ x <
      dsh.RecommendTxn.startCost t.type_) :
    (dsh.RecommendTxn.Compute fl t).chosen_hotel_id_ = x.h_id ∧
    (dsh.RecommendTxn.Compute fl t).fault = t.fault := by
  obtain ⟨hd, hp, hr⟩ := hstart
  unfold dsh.RecommendTxn.Compute
  rw [hrows, dsh.allSome_map_some]
  cases htype : t.type_ with
  | DISTANCE =>
    rw [htype] at hpre hpost hbelow
    simp only [dsh.RecommendTxn.cost, dsh.RecommendTxn.startCost] at hpre hpost hbelow
    simp only
    rw [dsh.choose_foldl_first_best _ _ x pre post _
      (fun y hy => by simpa using hpre y hy) (fun y hy => by simpa using hpost y hy)
      (by simpa [hd] using hbelow)]
    refine ⟨?_, ?_⟩ <;> first | rfl | trivial
  | PRICE =>
    rw [htype] at hpre hpost hbelow
    simp only [dsh.RecommendTxn.cost, dsh.RecommendTxn.startCost] at hpre hpost hbelow
    simp only
    rw [dsh.choose_foldl_first_best _ _ x pre post _
      (fun y hy => by simpa using hpre y hy) (fun y hy => by simpa using hpost y hy)
      (by simpa [hp] using hbelow)]
    refine ⟨?_, ?_⟩ <;> first | rfl | trivial
  | RATING =>
    rw [htype] at hpre hpost hbelow
    simp only [dsh.RecommendTxn.cost, dsh.RecommendTxn.startCost] at hpre hpost hbelow
    simp only
    rw [dsh.choose_foldl_first_best _ _ x pre post _
      (fun y hy => by
        have := hpre y hy
        simp only [gt_iff_lt, decide_eq_true_eq]
        linarith)
      (fun y hy => by
        have := hpost y hy
        simp only [gt_iff_lt, decide_eq_false_iff_not, not_lt]
        linarith)
      (by
        simp only [hr, gt_iff_lt, decide_eq_true_eq]
        linarith)]
    refine ⟨?_, ?_⟩ <;> first | rfl | trivial

/-- The loops of `Compute` keep the chosen hotel id when no hotel read has a
cost below the start value. -/
theorem dsh.compute_keeps_choice_core (fl : ℚ → ℚ) (t : dsh.RecommendTxn)
    (rows : List dsh.RecommendationScalar)
    (hrows : t.read_recommendations_ = rows.map some)
    (hstart : t.chosen_dist_ = 0xFFFFFFFF ∧ t.chosen_price_ = dsh.kMaxHotelPrice ∧
      t.chosen_rating_ = 0)
    (hnone : ∀ y ∈ rows, dsh.RecommendTxn.startCost t.type_ ≤
      dsh.RecommendTxn.cost fl t.type_ t.lat_ t.lon_ y) :
    (dsh.RecommendTxn.Compute fl t).chosen_hotel_id_ = t.chosen_hotel_id_ ∧
    (dsh.RecommendTxn.Compute fl t).fault = t.fault := by
  obtain ⟨hd, hp, hr⟩ := hstart
  unfold dsh.RecommendTxn.Compute
  rw [hrows, dsh.allSome_map_some]
  cases htype : t.type_ with
  | DISTANCE =>
    rw [htype] at hnone
    simp only [dsh.RecommendTxn.cost, dsh.RecommendTxn.startCost] at hnone
    simp only
    rw [dsh.choose_foldl_keep _ _ rows _ (fun y hy => by
      have := hnone y hy
      simp only [hd, decide_eq_false_iff_not, not_lt]
      exact this)]
    refine ⟨?_, ?_⟩ <;> first | rfl | trivial
  | PRICE =>
    rw [htype] at hnone
    simp only [dsh.RecommendTxn.cost, dsh.RecommendTxn.startCost] at hnone
    simp only
    rw [dsh.choose_foldl_keep _ _ rows _ (fun y hy => by
      have := hnone y hy
      simp only [hp, decide_eq_false_iff_not, not_lt]
      exact this)]
    refine ⟨?_, ?_⟩ <;> first | rfl | trivial
  | RATING =>
    rw [htype] at hnone
    simp only [dsh.RecommendTxn.cost, dsh.RecommendTxn.startCost] at hnone
    simp only
    rw [dsh.choose_foldl_keep _ _ rows _ (fun y hy => by
      have := hnone y hy
      simp only [hr, gt_iff_lt, decide_eq_false_iff_not, not_lt]
      linarith)]
    refine ⟨?_, ?_⟩ <;> first | rfl | trivial

namespace dsh

/-- Writing slot `done.length` of an array whose first `done.length` slots are
filled. -/
theorem set_after_filled {α : Type} (done : List α) (v w : α) (rest : List α) :
    (done ++ w :: rest).set done.length v = done ++ v :: rest := by
  induction done with
  | nil => rfl
  | cons d ds ih => simp [List.set, ih]

/-- The loop of `RecommendTxn::Read` over ids whose Hotel rows exist fills the
next slots with the rows read and keeps the flag and the other members. -/
theorem readHotel_foldl (a : StorageAdapter) (ids : List Int)
    (hex : ∀ id ∈ ids, ∃ row, a.hotels id = some row)
    (s : (Bool × RecommendTxn) × Nat) (done : List RecommendationScalar) (m : Nat)
    (hslots : s.1.2.read_recommendations_ = done.map some ++ List.replicate (ids.length + m) none)
    (hcount : s.2 = done.length) (hst : s.1.2.storage = a) :
    (ids.foldl RecommendTxn.readHotel s).1.1 = s.1.1 ∧
    (ids.foldl RecommendTxn.readHotel s).1.2.read_recommendations_ =
      (done ++ ids.map (recommendationOf a)).map some ++ List.replicate m none ∧
    (ids.foldl RecommendTxn.readHotel s).1.2.type_ = s.1.2.type_ ∧
    (ids.foldl RecommendTxn.readHotel s).1.2.lat_ = s.1.2.lat_ ∧
    (ids.foldl RecommendTxn.readHotel s).1.2.lon_ = s.1.2.lon_ ∧
    (ids.foldl RecommendTxn.readHotel s).1.2.chosen_hotel_id_ = s.1.2.chosen_hotel_id_ ∧
    (ids.foldl RecommendTxn.readHotel s).1.2.chosen_dist_ = s.1.2.chosen_dist_ ∧
    (ids.foldl RecommendTxn.readHotel s).1.2.chosen_price_ = s.1.2.chosen_price_ ∧
    (ids.foldl RecommendTxn.readHotel s).1.2.chosen_rating_ = s.1.2.chosen_rating_ ∧
    (ids.foldl RecommendTxn.readHotel s).1.2.fault = s.1.2.fault := by
  induction ids generalizing s done with
  | nil =>
    simp only [List.length_nil, Nat.zero_add] at hslots
    refine ⟨rfl, ?_, rfl, rfl, rfl, rfl, rfl, rfl, rfl, rfl⟩
    simp only [List.foldl_nil, List.map_nil, List.append_nil]
    exact hslots
  | cons id rest ih =>
    obtain ⟨row, hrow⟩ := hex id (List.mem_cons_self _ _)
    have hrow2 : s.1.2.storage.hotels id = some row := by rw [hst]; exact hrow
    have hrec : recommendationOf a id =
        { h_id := id, lat := row.lat, lon := row.lon, rating := row.rating, price := row.price } := by
      unfold recommendationOf
      rw [hrow]
    have hstep : RecommendTxn.readHotel s id =
        ((s.1.1, { s.1.2 with
            toTxnBase := s.1.2.toTxnBase.record (Op.select (RowKey.hotel id)),
            read_recommendations_ := s.1.2.read_recommendations_.set s.2
              (some (recommendationOf a id)) }), s.2 + 1) := by
      unfold RecommendTxn.readHotel
      simp only [hrow2, hrec]
    have hslots2 : (s.1.2.read_recommendations_.set s.2 (some (recommendationOf a id))) =
        (done ++ [recommendationOf a id]).map some ++ List.replicate (rest.length + m) none := by
      rw [hslots, hcount]
      have hrep : List.replicate ((id :: rest).length + m) (none : Option RecommendationScalar) =
          none :: List.replicate (rest.length + m) none := by
        have : (id :: rest).length + m = (rest.length + m) + 1 := by simp; omega
        rw [this, List.replicate_succ]
      rw [hrep]
      have hl : done.length = (done.map some).length := by simp
      rw [hl, set_after_filled]
      simp
    simp only [List.foldl_cons, hstep]
    obtain ⟨i1, i2, i3, i4, i5, i6, i7, i8, i9, i10⟩ := ih
      (fun z hz => hex z (List.mem_cons_of_mem _ hz))
      ((s.1.1, { s.1.2 with
            toTxnBase := s.1.2.toTxnBase.record (Op.select (RowKey.hotel id)),
            read_recommendations_ := s.1.2.read_recommendations_.set s.2
              (some (recommendationOf a id)) }), s.2 + 1)
      (done ++ [recommendationOf a id]) hslots2 (by simp [hcount]) hst
    refine ⟨i1, ?_, i3, i4, i5, i6, i7, i8, i9, i10⟩
    rw [i2]
    simp

/-- `RecommendTxn::Read` on ten ids whose Hotel rows exist returns true and
holds the rows of the ids, in order. -/
theorem recommend_read_rows (a : StorageAdapter) (type : RecommendationType) (lat lon : ℚ)
    (ids : List Int) (hlen : ids.length = kRecommendationReadSize)
    (hex : ∀ id ∈ ids, ∃ row, a.hotels id = some row) :
    (RecommendTxn.Read (RecommendTxn.new a type lat lon ids)).1 = true ∧
    (RecommendTxn.Read (RecommendTxn.new a type lat lon ids)).2.read_recommendations_ =
      (ids.map (recommendationOf a)).map some ∧
    (RecommendTxn.Read (RecommendTxn.new a type lat lon ids)).2.type_ = type ∧
    (RecommendTxn.Read (RecommendTxn.new a type lat lon ids)).2.lat_ = lat ∧
    (RecommendTxn.Read (RecommendTxn.new a type lat lon ids)).2.lon_ = lon ∧
    (RecommendTxn.Read (RecommendTxn.new a type lat lon ids)).2.chosen_dist_ = 0xFFFFFFFF ∧
    (RecommendTxn.Read (RecommendTxn.new a type lat lon ids)).2.chosen_price_ = kMaxHotelPrice ∧
    (RecommendTxn.Read (RecommendTxn.new a type lat lon ids)).2.chosen_rating_ = 0 := by
  have htake : ids.take kRecommendationReadSize = ids := by
    rw [← hlen]
    exact List.take_length ids
  have hids : (RecommendTxn.new a type lat lon ids).hotel_ids_ = ids := htake
  obtain ⟨i1, i2, i3, i4, i5, _, i7, i8, i9, _⟩ := readHotel_foldl a ids hex
    ((true, RecommendTxn.new a type lat lon ids), 0) [] 0
    (by
      simp only [List.map_nil, List.nil_append, Nat.add_zero, hlen]
      rfl) rfl rfl
  unfold RecommendTxn.Read
  simp only [hids, hlen, lt_irrefl, if_false]
  simp only [List.nil_append, List.replicate_zero, List.append_nil] at i2
  exact ⟨i1, i2, i3, i4, i5, i7, i8, i9⟩

end dsh

/-- End to end: on ten ids whose Hotel rows exist, where `x` is the first id of
minimal cost and its cost is below the start value of the type, `Execute()`
returns true and the chosen hotel id is `x`. -/
theorem recommend_execute_first_optimum (fl : ℚ → ℚ) (a : dsh.StorageAdapter)
    (type : dsh.RecommendationType) (lat lon : ℚ) (pre post : List Int) (x : Int)
    (hlen : (pre ++ x :: post).length = dsh.kRecommendationReadSize)
    (hex : ∀ id ∈ pre ++ x :: post, ∃ row, a.hotels id = some row)
    (hpre : ∀ y ∈ pre, dsh.RecommendTxn.cost fl type lat lon (dsh.recommendationOf a x) <
      dsh.RecommendTxn.cost fl type lat lon (dsh.recommendationOf a y))
    (hpost : ∀ y ∈ post, dsh.RecommendTxn.cost fl type lat lon (dsh.recommendationOf a x) ≤
      dsh.RecommendTxn.cost fl type lat lon (dsh.recommendationOf a y))
    (hbelow : dsh.RecommendTxn.cost fl type lat lon (dsh.recommendationOf a x) <
      dsh.RecommendTxn.startCost type) :
    (DSHTransaction.Execute (dsh.RecommendTxn.body fl)
      (dsh.RecommendTxn.new a type lat lon (pre ++ x :: post))).ret = true ∧
    (DSHTransaction.Execute (dsh.RecommendTxn.body fl)
      (dsh.RecommendTxn.new a type lat lon (pre ++ x :: post))).state.chosen_hotel_id_ = x := by
  obtain ⟨r1, r2, r3, r4, r5, r6, r7, r8⟩ :=
    dsh.recommend_read_rows a type lat lon (pre ++ x :: post) hlen hex
  have hcore := dsh.compute_first_optimum_core fl
    (dsh.RecommendTxn.Read (dsh.RecommendTxn.new a type lat lon (pre ++ x :: post))).2
    (pre.map (dsh.recommendationOf a)) (post.map (dsh.recommendationOf a))
    (dsh.recommendationOf a x)
    (by rw [r2]; simp) ⟨r6, r7, r8⟩
    (by
      intro y hy
      obtain ⟨z, hz, rfl⟩ := List.mem_map.mp hy
      rw [r3, r4, r5]
      exact hpre z hz)
    (by
      intro y hy
      obtain ⟨z, hz, rfl⟩ := List.mem_map.mp hy
      rw [r3, r4, r5]
      exact hpost z hz)
    (by rw [r3, r4, r5]; exact hbelow)
  have hid : (dsh.recommendationOf a x).h_id = x := by
    unfold dsh.recommendationOf
    split <;> rfl
  unfold DSHTransaction.Execute
  simp only [dsh.RecommendTxn.body, r1, Bool.not_true, Bool.false_eq_true, if_false,
    dsh.RecommendTxn.Write]
  exact ⟨trivial, hcore.1.trans hid⟩

/-- End to end: on ten ids whose Hotel rows exist and none of which has a cost
below the start value of the type, `Execute()` returns true and the chosen hotel
id is still 0, the value it has in a new object. -/
theorem recommend_execute_keeps_start (fl : ℚ → ℚ) (a : dsh.StorageAdapter)
    (type : dsh.RecommendationType) (lat lon : ℚ) (ids : List Int)
    (hlen : ids.length = dsh.kRecommendationReadSize)
    (hex : ∀ id ∈ ids, ∃ row, a.hotels id = some row)
    (hnone : ∀ y ∈ ids, dsh.RecommendTxn.startCost type ≤
      dsh.RecommendTxn.cost fl type lat lon (dsh.recommendationOf a y)) :
    (DSHTransaction.Execute (dsh.RecommendTxn.body fl)
      (dsh.RecommendTxn.new a type lat lon ids)).ret = true ∧
    (DSHTransaction.Execute (dsh.RecommendTxn.body fl)
      (dsh.RecommendTxn.new a type lat lon ids)).state.chosen_hotel_id_ = 0 := by
  obtain ⟨r1, r2, r3, r4, r5, r6, r7, r8⟩ := dsh.recommend_read_rows a type lat lon ids hlen hex
  have hcore := dsh.compute_keeps_choice_core fl
    (dsh.RecommendTxn.Read (dsh.RecommendTxn.new a type lat lon ids)).2
    (ids.map (dsh.recommendationOf a)) r2 ⟨r6, r7, r8⟩
    (by
      intro y hy
      obtain ⟨z, hz, rfl⟩ := List.mem_map.mp hy
      rw [r3, r4, r5]
      exact hnone z hz)
  have hid : (dsh.RecommendTxn.Read (dsh.RecommendTxn.new a type lat lon ids)).2.chosen_hotel_id_ =
      0 := by
    have htake : ids.take dsh.kRecommendationReadSize = ids := by
      rw [← hlen]
      exact List.take_length ids
    obtain ⟨_, _, _, _, _, i6, _⟩ := dsh.readHotel_foldl a ids hex
      ((true, dsh.RecommendTxn.new a type lat lon ids), 0) [] 0
      (by
        simp only [List.map_nil, List.nil_append, Nat.add_zero, hlen]
        rfl) rfl rfl
    unfold dsh.RecommendTxn.Read
    have hids : (dsh.RecommendTxn.new a type lat lon ids).hotel_ids_ = ids := htake
    simp only [hids, hlen, lt_irrefl, if_false]
    exact i6
  unfold DSHTransaction.Execute
  simp only [dsh.RecommendTxn.body, r1, Bool.not_true, Bool.false_eq_true, if_false,
    dsh.RecommendTxn.Write]
  exact ⟨trivial, hcore.1.trans hid⟩

/-- The rows of the ten hotels of `recommendStorage`. -/
theorem recommendStorage_rows :
    ∀ id ∈ [1, 2, 3, 4, 5, 6, 7, 8, 9, (10 : Int)],
      dsh.recommendStorage.hotels id =
        some { lat := 100000, lon := 0, rating := 0, price := 10000, capacity := 10 } := by
  decide

/-- C18, as stated, fails: on ten hotels that all have rating 0, price 10000
and squared distance 10^10 from the query point, `Execute()` returns true and
the chosen hotel id is still 0 for each of the three types, although the first
hotel with the maximal rating (minimal price, minimal distance) is hotel 1: no
value is strictly better than the start values 0, `kMaxHotelPrice` and
`0xFFFFFFFF`. The distance is computed without rounding: every intermediate
value is an integer that a `double` holds exactly. -/
theorem recommend_keeps_start_choice :
    (DSHTransaction.Execute (dsh.RecommendTxn.body fun x => x)
      (dsh.RecommendTxn.new dsh.recommendStorage dsh.RecommendationType.RATING 0 0
        [1, 2, 3, 4, 5, 6, 7, 8, 9, 10])).ret = true ∧
    (DSHTransaction.Execute (dsh.RecommendTxn.body fun x => x)
      (dsh.RecommendTxn.new dsh.recommendStorage dsh.RecommendationType.RATING 0 0
        [1, 2, 3, 4, 5, 6, 7, 8, 9, 10])).state.chosen_hotel_id_ = 0 ∧
    (DSHTransaction.Execute (dsh.RecommendTxn.body fun x => x)
      (dsh.RecommendTxn.new dsh.recommendStorage dsh.RecommendationType.PRICE 0 0
        [1, 2, 3, 4, 5, 6, 7, 8, 9, 10])).state.chosen_hotel_id_ = 0 ∧
    (DSHTransaction.Execute (dsh.RecommendTxn.body fun x => x)
      (dsh.RecommendTxn.new dsh.recommendStorage dsh.RecommendationType.DISTANCE 0 0
        [1, 2, 3, 4, 5, 6, 7, 8, 9, 10])).state.chosen_hotel_id_ = 0 := by
  have hex : ∀ id ∈ [1, 2, 3, 4, 5, 6, 7, 8, 9, (10 : Int)],
      ∃ row, dsh.recommendStorage.hotels id = some row :=
    fun id hid => ⟨_, recommendStorage_rows id hid⟩
  have hrec : ∀ id ∈ [1, 2, 3, 4, 5, 6, 7, 8, 9, (10 : Int)],
      dsh.recommendationOf dsh.recommendStorage id =
        { h_id := id, lat := 100000, lon := 0, rating := 0, price := 10000 } := by
    intro id hid
    unfold dsh.recommendationOf
    rw [recommendStorage_rows id hid]
  have hR := recommend_execute_keeps_start (fun x => x) dsh.recommendStorage
    dsh.RecommendationType.RATING 0 0 [1, 2, 3, 4, 5, 6, 7, 8, 9, 10] rfl hex
    (by
      intro y hy
      rw [hrec y hy]
      norm_num [dsh.RecommendTxn.cost, dsh.RecommendTxn.startCost])
  have hP := recommend_execute_keeps_start (fun x => x) dsh.recommendStorage
    dsh.RecommendationType.PRICE 0 0 [1, 2, 3, 4, 5, 6, 7, 8, 9, 10] rfl hex
    (by
      intro y hy
      rw [hrec y hy]
      norm_num [dsh.RecommendTxn.cost, dsh.RecommendTxn.startCost, dsh.kMaxHotelPrice])
  have hD := recommend_execute_keeps_start (fun x => x) dsh.recommendStorage
    dsh.RecommendationType.DISTANCE 0 0 [1, 2, 3, 4, 5, 6, 7, 8, 9, 10] rfl hex
    (by
      intro y hy
      rw [hrec y hy]
      norm_num [dsh.RecommendTxn.cost, dsh.RecommendTxn.startCost, dsh.dist])
  exact ⟨hR.1, hR.2, hP.2, hD.2⟩

/-- C18 (amended): for every list of hotel rows read (finite doubles, compared
as the numbers they stand for) and an object whose chosen values are the start
values `0xFFFFFFFF`, `kMaxHotelPrice` = 10000 and rating 0. The cost of a hotel
is the value that `dist` returns for it and the query point `(lat, lon)` for
DISTANCE, whatever the rounding `fl` of the `double` arithmetic, its price for
PRICE and its negated rating for RATING. If `x` is the first hotel of minimal
cost and its cost is strictly below the start value of the type, then after
`Compute()` the chosen hotel id is the id of `x`. If no hotel has a cost
strictly below the start value of the type, then after `Compute()` the chosen
hotel id is the one the object held before. -/
theorem recommend_picks_first_optimum (fl : ℚ → ℚ) (t : dsh.RecommendTxn)
    (hstart : t.chosen_dist_ = 0xFFFFFFFF ∧ t.chosen_price_ = dsh.kMaxHotelPrice ∧
      t.chosen_rating_ = 0) :
    (∀ (pre post : List dsh.RecommendationScalar) (x : dsh.RecommendationScalar),
      t.read_recommendations_ = (pre ++ x :: post).map some →
      (∀ y ∈ pre, dsh.RecommendTxn.cost fl t.type_ t.lat_ t.lon_ x <
        dsh.RecommendTxn.cost fl t.type_ t.lat_ t.lon_ y) →
      (∀ y ∈ post, dsh.RecommendTxn.cost fl t.type_ t.lat_ t.lon_ x ≤
        dsh.RecommendTxn.cost fl t.type_ t.lat_ t.lon_ y) →
      dsh.RecommendTxn.cost fl t.type_ t.lat_ t.lon_ x < dsh.RecommendTxn.startCost t.type_ →
      (dsh.RecommendTxn.Compute fl t).chosen_hotel_id_ = x.h_id ∧
      (dsh.RecommendTxn.Compute fl t).fault = t.fault) ∧
    (∀ rows : List dsh.RecommendationScalar,
      t.read_recommendations_ = rows.map some →
      (∀ y ∈ rows, dsh.RecommendTxn.startCost t.type_ ≤
        dsh.RecommendTxn.cost fl t.type_ t.lat_ t.lon_ y) →
      (dsh.RecommendTxn.Compute fl t).chosen_hotel_id_ = t.chosen_hotel_id_ ∧
      (dsh.RecommendTxn.Compute fl t).fault = t.fault) :=
  ⟨fun pre post x hrows hpre hpost hbelow =>
      dsh.compute_first_optimum_core fl t pre post x hrows hstart hpre hpost hbelow,
    fun rows hrows hnone => dsh.compute_keeps_choice_core fl t rows hrows hstart hnone⟩

/-- C18 on hotels 1 to 10 with ratings 1, 2, 3, 0, 1, 2, 3, 0, 1, 2: for type
RATING the rows read make hotel 3 the first one of maximal rating, and
`Compute()` chooses it. On the ten hotels of price 10000 no price is below
`kMaxHotelPrice`, and for type PRICE `Compute()` leaves the chosen id at 0. -/
theorem recommend_picks_first_optimum_witness :
    (dsh.RecommendTxn.Compute (fun x => x)
      (dsh.RecommendTxn.Read
        (dsh.RecommendTxn.new dsh.variedStorage dsh.RecommendationType.RATING 0 0
          [1, 2, 3, 4, 5, 6, 7, 8, 9, 10])).2).chosen_hotel_id_ = 3 ∧
    (dsh.RecommendTxn.Read
      (dsh.RecommendTxn.new dsh.recommendStorage dsh.RecommendationType.PRICE 0 0
        [1, 2, 3, 4, 5, 6, 7, 8, 9, 10])).2.chosen_hotel_id_ = 0 ∧
    (dsh.RecommendTxn.Compute (fun x => x)
      (dsh.RecommendTxn.Read
        (dsh.RecommendTxn.new dsh.recommendStorage dsh.RecommendationType.PRICE 0 0
          [1, 2, 3, 4, 5, 6, 7, 8, 9, 10])).2).chosen_hotel_id_ =
      (dsh.RecommendTxn.Read
        (dsh.RecommendTxn.new dsh.recommendStorage dsh.RecommendationType.PRICE 0 0
          [1, 2, 3, 4, 5, 6, 7, 8, 9, 10])).2.chosen_hotel_id_ :=
  ⟨((recommend_picks_first_optimum (fun x => x)
      (dsh.RecommendTxn.Read
        (dsh.RecommendTxn.new dsh.variedStorage dsh.RecommendationType.RATING 0 0
          [1, 2, 3, 4, 5, 6, 7, 8, 9, 10])).2
      (by decide)).1
      ([1, 2].map (dsh.recommendationOf dsh.variedStorage))
      ([4, 5, 6, 7, 8, 9, 10].map (dsh.recommendationOf dsh.variedStorage))
      (dsh.recommendationOf dsh.variedStorage 3)
      (by decide) (by decide) (by decide) (by decide)).1,
    by decide,
    ((recommend_picks_first_optimum (fun x => x)
      (dsh.RecommendTxn.Read
        (dsh.RecommendTxn.new dsh.recommendStorage dsh.RecommendationType.PRICE 0 0
          [1, 2, 3, 4, 5, 6, 7, 8, 9, 10])).2
      (by decide)).2
      ([1, 2, 3, 4, 5, 6, 7, 8, 9, 10].map (dsh.recommendationOf dsh.recommendStorage))
      (by decide) (by decide)).1⟩

/-! ### PPS get_product on a missing product -/

/-- The dispatch of a `get_product` call whose id was written by
`std::to_string`. -/
theorem pps_procedureOf_get_product (n : Int) (hn : fitsInt32 n = true) :
    PPSExecution.procedureOf ["get_product", to_string n] =
      Except.ok (Except.ok (pps.Procedure.get_product n)) := by
  have h := stoi_to_string n (by simp [fitsInt32] at hn; exact hn.1)
    (by simp [fitsInt32] at hn; exact hn.2)
  unfold PPSExecution.procedureOf
  simp only [List.isEmpty_cons, Bool.false_eq_true, if_false, List.headD_cons, if_true, argAt,
    List.get?_cons_succ, List.get?_cons_zero]
  simp only [bind, Except.bind, h, pure, Except.pure]

/-- C19, as stated, fails on its own example: with 100 products loaded,
`get_product(999999)` is aborted with the reason "GetProduct Txn - The product
with id 999999 does not exist": the wrapper puts the family text in front of
the body's `error()`. -/
theorem get_product_abort_reason_has_family_text :
    ((PPSExecution.Execute 2 2 pps.sampleStorage
        (Transaction.submit [["get_product", "999999"]])).toOption.map
      fun r => (r.txn.status, r.txn.abort_reason)) =
      some (TransactionStatus.ABORTED,
        "GetProduct Txn - The product with id 999999 does not exist") ∧
    "GetProduct Txn - The product with id 999999 does not exist" ≠
      "The product with id 999999 does not exist" := by
  decide

/-- C19 (amended): for every product id `n` (an `int`) for which the Product
table has no row, `GetProduct(n).Execute()` returns false with `error()` exactly
"The product with id n does not exist" (`n` in decimal), and
`PPSExecution::Execute` returns with the transaction ABORTED, the reason
"GetProduct Txn - The product with id n does not exist", `ApplyWrites` not
invoked and the storage unchanged. -/
theorem get_product_missing (kPartsPerProduct kPartsPerSupplier : Nat) (a : pps.StorageAdapter)
    (n : Int) (hn : fitsInt32 n = true) (hmiss : a.product n = none) :
    (PPSTransaction.Execute pps.GetProduct.body (pps.GetProduct.new a n)).ret = false ∧
    (PPSTransaction.Execute pps.GetProduct.body (pps.GetProduct.new a n)).state.error_ =
      "The product with id " ++ to_string n ++ " does not exist" ∧
    ∃ r, PPSExecution.Execute kPartsPerProduct kPartsPerSupplier a
        (Transaction.submit [["get_product", to_string n]]) = Except.ok r ∧
      r.txn.status = TransactionStatus.ABORTED ∧
      r.txn.abort_reason =
        "GetProduct Txn - " ++ ("The product with id " ++ to_string n ++ " does not exist") ∧
      r.applied = false ∧ r.storage = a := by
  have hret : (PPSTransaction.Execute pps.GetProduct.body (pps.GetProduct.new a n)).ret = false := by
    simp [PPSTransaction.Execute, pps.GetProduct.body, pps.GetProduct.Read, pps.GetProduct.new,
      pps.TxnBase.fresh, hmiss]
  have herr : (PPSTransaction.Execute pps.GetProduct.body (pps.GetProduct.new a n)).state.error_ =
      "The product with id " ++ to_string n ++ " does not exist" := by
    simp [PPSTransaction.Execute, pps.GetProduct.body, pps.GetProduct.Read, pps.GetProduct.new,
      pps.TxnBase.fresh, pps.TxnBase.record, pps.TxnBase.fail, hmiss]
    rfl
  refine ⟨hret, herr, ?_⟩
  unfold PPSExecution.Execute
  have hq : (Transaction.submit [["get_product", to_string n]]).args =
      ["get_product", to_string n] := rfl
  rw [hq, pps_procedureOf_get_product n hn]
  refine ⟨_, rfl, ?_, ?_, ?_, ?_⟩ <;>
    simp only [conclude, pps.executeBody, pps.family, hret, herr, Bool.not_false, if_true, abortWith]

/-- C19 on the scenario of the specification: 100 products, `get_product(999999)`. -/
theorem get_product_missing_witness :
    (PPSTransaction.Execute pps.GetProduct.body
      (pps.GetProduct.new pps.sampleStorage 999999)).state.error_ =
      "The product with id " ++ to_string 999999 ++ " does not exist" :=
  (get_product_missing 2 2 pps.sampleStorage 999999 (by decide) (by decide)).2.1

/-! ### DSH date range -/

namespace dsh

/-- The days of the twelve months. -/
theorem daysInMonth_cases (m : Int) (h1 : 1 ≤ m) (h2 : m ≤ 12) :
    (m = 1 ∧ daysInMonth m = 31 ∧ daysBeforeMonth m = 0) ∨
    (m = 2 ∧ daysInMonth m = 28 ∧ daysBeforeMonth m = 31) ∨
    (m = 3 ∧ daysInMonth m = 31 ∧ daysBeforeMonth m = 59) ∨
    (m = 4 ∧ daysInMonth m = 30 ∧ daysBeforeMonth m = 90) ∨
    (m = 5 ∧ daysInMonth m = 31 ∧ daysBeforeMonth m = 120) ∨
    (m = 6 ∧ daysInMonth m = 30 ∧ daysBeforeMonth m = 151) ∨
    (m = 7 ∧ daysInMonth m = 31 ∧ daysBeforeMonth m = 181) ∨
    (m = 8 ∧ daysInMonth m = 31 ∧ daysBeforeMonth m = 212) ∨
    (m = 9 ∧ daysInMonth m = 30 ∧ daysBeforeMonth m = 243) ∨
    (m = 10 ∧ daysInMonth m = 31 ∧ daysBeforeMonth m = 273) ∨
    (m = 11 ∧ daysInMonth m = 30 ∧ daysBeforeMonth m = 304) ∨
    (m = 12 ∧ daysInMonth m = 31 ∧ daysBeforeMonth m = 334) := by
  interval_cases m <;> decide

/-- A valid day lies between the first and the last day of its year. -/
theorem dayOfYear_bounds (d m y : Int) (h : validDay d m y) :
    1 ≤ daysBeforeMonth m + d ∧ daysBeforeMonth m + d ≤ 365 := by
  obtain ⟨h1, h2, h3, h4, _⟩ := h
  rcases daysInMonth_cases m h1 h2 with ⟨_, e1, e2⟩ | ⟨_, e1, e2⟩ | ⟨_, e1, e2⟩ | ⟨_, e1, e2⟩ |
    ⟨_, e1, e2⟩ | ⟨_, e1, e2⟩ | ⟨_, e1, e2⟩ | ⟨_, e1, e2⟩ | ⟨_, e1, e2⟩ | ⟨_, e1, e2⟩ |
    ⟨_, e1, e2⟩ | ⟨_, e1, e2⟩ <;>
    (rw [e1] at h4; rw [e2]; omega)

/-- Two valid days with the same day number are the same day. -/
theorem dayNumber_injective (d1 m1 y1 d2 m2 y2 : Int) (h1 : validDay d1 m1 y1)
    (h2 : validDay d2 m2 y2) (h : dayNumber d1 m1 y1 = dayNumber d2 m2 y2) :
    d1 = d2 ∧ m1 = m2 ∧ y1 = y2 := by
  have b1 := dayOfYear_bounds d1 m1 y1 h1
  have b2 := dayOfYear_bounds d2 m2 y2 h2
  unfold dayNumber at h
  have hy : y1 = y2 := by omega
  subst hy
  have hr : daysBeforeMonth m1 + d1 = daysBeforeMonth m2 + d2 := by omega
  obtain ⟨p1, p2, p3, p4, _⟩ := h1
  obtain ⟨q1, q2, q3, q4, _⟩ := h2
  rcases daysInMonth_cases m1 p1 p2 with ⟨a0, a1, a2⟩ | ⟨a0, a1, a2⟩ | ⟨a0, a1, a2⟩ | ⟨a0, a1, a2⟩ |
    ⟨a0, a1, a2⟩ | ⟨a0, a1, a2⟩ | ⟨a0, a1, a2⟩ | ⟨a0, a1, a2⟩ | ⟨a0, a1, a2⟩ | ⟨a0, a1, a2⟩ |
    ⟨a0, a1, a2⟩ | ⟨a0, a1, a2⟩ <;>
  rcases daysInMonth_cases m2 q1 q2 with ⟨b0, b1, b2⟩ | ⟨b0, b1, b2⟩ | ⟨b0, b1, b2⟩ | ⟨b0, b1, b2⟩ |
    ⟨b0, b1, b2⟩ | ⟨b0, b1, b2⟩ | ⟨b0, b1, b2⟩ | ⟨b0, b1, b2⟩ | ⟨b0, b1, b2⟩ | ⟨b0, b1, b2⟩ |
    ⟨b0, b1, b2⟩ | ⟨b0, b1, b2⟩ <;>
  (rw [a1] at p4; rw [b1] at q4; rw [a2, b2] at hr; omega)

/-- The order of the guard of `date_interp` is the order of the day numbers. -/
theorem guard_iff_dayNumber_lt (d1 m1 y1 d2 m2 y2 : Int) (h1 : validDay d1 m1 y1)
    (h2 : validDay d2 m2 y2) :
    (y1 < y2 ∨ (y1 = y2 ∧ (m1 < m2 ∨ (m1 = m2 ∧ d1 < d2)))) ↔
      dayNumber d1 m1 y1 < dayNumber d2 m2 y2 := by
  have b1 := dayOfYear_bounds d1 m1 y1 h1
  have b2 := dayOfYear_bounds d2 m2 y2 h2
  unfold dayNumber
  obtain ⟨p1, p2, p3, p4, _⟩ := h1
  obtain ⟨q1, q2, q3, q4, _⟩ := h2
  rcases daysInMonth_cases m1 p1 p2 with ⟨a0, a1, a2⟩ | ⟨a0, a1, a2⟩ | ⟨a0, a1, a2⟩ | ⟨a0, a1, a2⟩ |
    ⟨a0, a1, a2⟩ | ⟨a0, a1, a2⟩ | ⟨a0, a1, a2⟩ | ⟨a0, a1, a2⟩ | ⟨a0, a1, a2⟩ | ⟨a0, a1, a2⟩ |
    ⟨a0, a1, a2⟩ | ⟨a0, a1, a2⟩ <;>
  rcases daysInMonth_cases m2 q1 q2 with ⟨b0, b1, b2⟩ | ⟨b0, b1, b2⟩ | ⟨b0, b1, b2⟩ | ⟨b0, b1, b2⟩ |
    ⟨b0, b1, b2⟩ | ⟨b0, b1, b2⟩ | ⟨b0, b1, b2⟩ | ⟨b0, b1, b2⟩ | ⟨b0, b1, b2⟩ | ⟨b0, b1, b2⟩ |
    ⟨b0, b1, b2⟩ | ⟨b0, b1, b2⟩ <;>
  (rw [a1] at p4; rw [b1] at q4; rw [a2, b2]; omega)

/-- The day after a valid day is valid and has the next day number. -/
theorem nextDay_spec (d m y : Int) (h : validDay d m y) :
    validDay (nextDay (d, m, y)).1 (nextDay (d, m, y)).2.1 (nextDay (d, m, y)).2.2 ∧
    dayNumber (nextDay (d, m, y)).1 (nextDay (d, m, y)).2.1 (nextDay (d, m, y)).2.2 =
      dayNumber d m y + 1 := by
  obtain ⟨p1, p2, p3, p4, p5⟩ := h
  unfold nextDay
  simp only
  by_cases hd : d < daysInMonth m
  · simp only [hd, if_true]
    exact ⟨⟨p1, p2, by omega, by omega, p5⟩, by unfold dayNumber; omega⟩
  · simp only [hd, if_false]
    by_cases hm : m < 12
    · simp only [hm, if_true]
      have hm1 : 1 ≤ m + 1 := by omega
      have hm2 : m + 1 ≤ 12 := by omega
      rcases daysInMonth_cases m p1 p2 with ⟨a0, a1, a2⟩ | ⟨a0, a1, a2⟩ | ⟨a0, a1, a2⟩ |
        ⟨a0, a1, a2⟩ | ⟨a0, a1, a2⟩ | ⟨a0, a1, a2⟩ | ⟨a0, a1, a2⟩ | ⟨a0, a1, a2⟩ | ⟨a0, a1, a2⟩ |
        ⟨a0, a1, a2⟩ | ⟨a0, a1, a2⟩ | ⟨a0, a1, a2⟩ <;>
      rcases daysInMonth_cases (m + 1) hm1 hm2 with ⟨b0, b1, b2⟩ | ⟨b0, b1, b2⟩ | ⟨b0, b1, b2⟩ |
        ⟨b0, b1, b2⟩ | ⟨b0, b1, b2⟩ | ⟨b0, b1, b2⟩ | ⟨b0, b1, b2⟩ | ⟨b0, b1, b2⟩ | ⟨b0, b1, b2⟩ |
        ⟨b0, b1, b2⟩ | ⟨b0, b1, b2⟩ | ⟨b0, b1, b2⟩ <;>
      first
        | omega
        | (refine ⟨⟨hm1, hm2, le_refl _, by rw [b1]; omega, p5⟩, ?_⟩
           unfold dayNumber
           rw [a1] at p4 hd
           rw [a2, b2]
           omega)
    · simp only [hm, if_false]
      have hm12 : m = 12 := by omega
      subst hm12
      have e1 : daysInMonth 12 = 31 := by decide
      have e2 : daysBeforeMonth 12 = 334 := by decide
      have e3 : daysInMonth 1 = 31 := by decide
      have e4 : daysBeforeMonth 1 = 0 := by decide
      refine ⟨⟨by omega, by omega, le_refl _, by rw [e3]; omega, by omega⟩, ?_⟩
      unfold dayNumber
      rw [e1] at p4 hd
      rw [e2, e4]
      omega

/-- The day `k` days after a valid day is valid and its day number is `k`
more. -/
theorem addDays_spec (k : Nat) (d m y : Int) (h : validDay d m y) :
    validDay (addDays k (d, m, y)).1 (addDays k (d, m, y)).2.1 (addDays k (d, m, y)).2.2 ∧
    dayNumber (addDays k (d, m, y)).1 (addDays k (d, m, y)).2.1 (addDays k (d, m, y)).2.2 =
      dayNumber d m y + k := by
  induction k generalizing d m y with
  | zero => exact ⟨h, by simp [addDays]⟩
  | succ j ih =>
    obtain ⟨n1, n2⟩ := nextDay_spec d m y h
    obtain ⟨i1, i2⟩ := ih _ _ _ n1
    simp only [addDays]
    refine ⟨i1, ?_⟩
    rw [i2, n2]
    push_cast
    omega

end dsh
namespace dsh

/-- One turn of the loop of `date_interp` moves the cursor to the next day. -/
theorem date_interp_loop_step (d2 m2 y2 : Int) (fuel : Nat) (d1 m1 y1 : Int)
    (hne : d1 ≠ d2 ∨ m1 ≠ m2 ∨ y1 ≠ y2) (hm1 : 1 ≤ m1) (hm2 : m1 ≤ 12) :
    date_interp_loop d2 m2 y2 (fuel + 1) d1 m1 y1 =
      (date_interp_loop d2 m2 y2 fuel (nextDay (d1, m1, y1)).1 (nextDay (d1, m1, y1)).2.1
        (nextDay (d1, m1, y1)).2.2).map fun r => format_date d1 m1 y1 :: r := by
  have hrange : ¬ (m1 < 1 ∨ m1 > 12) := by omega
  rw [date_interp_loop]
  simp only [hne, if_true, hrange, if_false]
  unfold nextDay daysInMonth
  by_cases hd : d1 < months_in_year.getD (m1 - 1).toNat 0
  · have hd2 : ¬ (d1 + 1 > months_in_year.getD (m1 - 1).toNat 0) := by omega
    simp only [hd, hd2, if_true, if_false]
  · have hd2 : d1 + 1 > months_in_year.getD (m1 - 1).toNat 0 := by omega
    by_cases hm : m1 < 12
    · have hm3 : ¬ (m1 + 1 > 12) := by omega
      simp only [hd, hd2, hm, hm3, if_true, if_false]
    · have hm3 : m1 + 1 > 12 := by omega
      simp only [hd, hd2, hm, hm3, if_true, if_false]

/-- The loop of `date_interp` from a valid day to a valid day `n` days later,
with more than `n` turns allowed: it returns the texts of the `n` days from the
first one on. -/
theorem date_interp_loop_spec (d2 m2 y2 : Int) (h2 : validDay d2 m2 y2) (n : Nat) :
    ∀ (fuel : Nat) (d1 m1 y1 : Int), validDay d1 m1 y1 →
      dayNumber d2 m2 y2 = dayNumber d1 m1 y1 + n → n < fuel →
      date_interp_loop d2 m2 y2 fuel d1 m1 y1 =
        some ((List.range n).map fun (k : Nat) => formatDay (addDays k (d1, m1, y1))) := by
  induction n with
  | zero =>
    intro fuel d1 m1 y1 h1 hN hfuel
    obtain ⟨f, rfl⟩ : ∃ f, fuel = f + 1 := ⟨fuel - 1, by omega⟩
    have heq := dayNumber_injective d1 m1 y1 d2 m2 y2 h1 h2 (by simp at hN; omega)
    have hcond : ¬ (d1 ≠ d2 ∨ m1 ≠ m2 ∨ y1 ≠ y2) := by
      rintro (h | h | h)
      · exact h heq.1
      · exact h heq.2.1
      · exact h heq.2.2
    rw [date_interp_loop]
    simp only [hcond, if_false, List.range_zero, List.map_nil]
  | succ j ih =>
    intro fuel d1 m1 y1 h1 hN hfuel
    obtain ⟨f, rfl⟩ : ∃ f, fuel = f + 1 := ⟨fuel - 1, by omega⟩
    have hne : d1 ≠ d2 ∨ m1 ≠ m2 ∨ y1 ≠ y2 := by
      by_contra hcon
      push_neg at hcon
      obtain ⟨e1, e2, e3⟩ := hcon
      subst e1 e2 e3
      push_cast at hN
      omega
    obtain ⟨n1, n2⟩ := nextDay_spec d1 m1 y1 h1
    rw [date_interp_loop_step d2 m2 y2 f d1 m1 y1 hne h1.1 h1.2.1]
    rw [ih f _ _ _ n1 (by rw [n2, hN]; push_cast; omega) (by omega)]
    simp only [Option.map_some', List.range_succ_eq_map, List.map_cons, List.map_map]
    rfl

end dsh

namespace dsh

/-- The bytes of `std::to_string` of a four-digit number. -/
theorem bytesOf_to_string_four (y : Nat) (h1 : 1000 ≤ y) (h2 : y ≤ 9999) :
    bytesOf (to_string (y : Int)) =
      [48 + y / 1000, 48 + y / 100 % 10, 48 + y / 10 % 10, 48 + y % 10] := by
  rw [bytesOf_to_string]
  obtain ⟨k, rfl⟩ : ∃ k, y = k + 1000 := ⟨y - 1000, by omega⟩
  have e1 : (k + 1000) / 10 ≠ 0 := by omega
  have e2 : (k + 1000) / 10 / 10 ≠ 0 := by omega
  have e3 : (k + 1000) / 10 / 10 / 10 ≠ 0 := by omega
  have e4 : (k + 1000) / 10 / 10 / 10 / 10 = 0 := by omega
  have hfuel : k + 1000 + 1 = (k + 997) + 1 + 1 + 1 + 1 := by omega
  have hstep : ∀ (f n : Nat) (ds : List Char), Nat.toDigitsCore 10 (f + 1) n ds =
      if n / 10 = 0 then Nat.digitChar (n % 10) :: ds
      else Nat.toDigitsCore 10 f (n / 10) (Nat.digitChar (n % 10) :: ds) := by
    intro f n ds
    rfl
  unfold Nat.toDigits
  rw [hfuel, hstep, if_neg e1, hstep, if_neg e2, hstep, if_neg e3, hstep, if_pos e4]
  simp only [List.map_cons, List.map_nil]
  rw [digitChar_toNat _ (Nat.mod_lt _ (by norm_num)), digitChar_toNat _ (Nat.mod_lt _ (by norm_num)),
    digitChar_toNat _ (Nat.mod_lt _ (by norm_num)), digitChar_toNat _ (Nat.mod_lt _ (by norm_num))]
  have a1 : (k + 1000) / 10 / 10 / 10 % 10 = (k + 1000) / 1000 := by omega
  have a2 : (k + 1000) / 10 / 10 % 10 = (k + 1000) / 100 % 10 := by omega
  rw [a1, a2]

/-- The bytes of a zero-padded day or month, in front of what follows. -/
theorem bytesOf_two_digits (n : Nat) (h1 : 1 ≤ n) (h2 : n ≤ 31) (rest : Bytes) :
    bytesOf (if (n : Int) < 10 then "0" else "") ++ (bytesOf (to_string (n : Int)) ++ rest) =
      (48 + n / 10) :: (48 + n % 10) :: rest := by
  interval_cases n <;> rfl

/-- `from_chars` reads a zero-padded day or month back. -/
theorem from_chars_int_two (n : Nat) (h1 : 1 ≤ n) (h2 : n ≤ 31) :
    from_chars_int [48 + n / 10, 48 + n % 10] = some (n : Int) := by
  interval_cases n <;> rfl

/-- `from_chars` reads a four-digit year back. -/
theorem from_chars_int_four (y : Nat) (h1 : 1000 ≤ y) (h2 : y ≤ 9999) :
    from_chars_int [48 + y / 1000, 48 + y / 100 % 10, 48 + y / 10 % 10, 48 + y % 10] =
      some (y : Int) := by
  obtain ⟨q, hq⟩ : ∃ q, y / 1000 = q := ⟨_, rfl⟩
  obtain ⟨b, hb⟩ : ∃ b, y / 100 % 10 = b := ⟨_, rfl⟩
  obtain ⟨c, hc⟩ : ∃ c, y / 10 % 10 = c := ⟨_, rfl⟩
  obtain ⟨e, he⟩ : ∃ e, y % 10 = e := ⟨_, rfl⟩
  have hq1 : 1 ≤ q := by omega
  have hq2 : q ≤ 9 := by omega
  have hb2 : b ≤ 9 := by omega
  have hc2 : c ≤ 9 := by omega
  have he2 : e ≤ 9 := by omega
  have hy : y = 1000 * q + 100 * b + 10 * c + e := by omega
  rw [hq, hb, hc, he]
  have d1 : isDigitByte (48 + b) = true := by simp [isDigitByte]; omega
  have d2 : isDigitByte (48 + c) = true := by simp [isDigitByte]; omega
  have d3 : isDigitByte (48 + e) = true := by simp [isDigitByte]; omega
  interval_cases q <;>
    (simp only [from_chars_int, List.takeWhile_cons, d1, d2, d3, if_true, List.takeWhile_nil,
      List.isEmpty_cons, Bool.false_eq_true, if_false, digitsValue, List.foldl_cons, List.foldl_nil]
     simp only [isDigitByte, Nat.reduceAdd, Nat.reduceLeDiff, decide_True, Bool.and_self, if_true,
       List.isEmpty_cons, Bool.false_eq_true, if_false, List.foldl_cons, List.foldl_nil]
     rw [if_pos (by omega)]
     congr 1
     push_cast
     omega)

/-- The bytes of the `dd-mm-yyyy` text of a valid day with a four-digit year. -/
theorem bytesOf_format_date (d m y : Nat) (hd1 : 1 ≤ d) (hd2 : d ≤ 31) (hm1 : 1 ≤ m) (hm2 : m ≤ 12)
    (hy1 : 1000 ≤ y) (hy2 : y ≤ 9999) :
    bytesOf (format_date (d : Int) (m : Int) (y : Int)) =
      [48 + d / 10, 48 + d % 10, 45, 48 + m / 10, 48 + m % 10, 45,
       48 + y / 1000, 48 + y / 100 % 10, 48 + y / 10 % 10, 48 + y % 10] := by
  unfold format_date
  simp only [bytesOf_append, List.append_assoc]
  rw [bytesOf_two_digits d hd1 hd2]
  have hdash : bytesOf "-" = [45] := rfl
  rw [hdash, List.singleton_append, bytesOf_two_digits m hm1 (by omega), List.singleton_append,
    bytesOf_to_string_four y hy1 hy2]

end dsh

namespace dsh

/-- A month has at most 31 days. -/
theorem daysInMonth_le (m : Int) (h1 : 1 ≤ m) (h2 : m ≤ 12) : daysInMonth m ≤ 31 := by
  rcases daysInMonth_cases m h1 h2 with ⟨_, e, _⟩ | ⟨_, e, _⟩ | ⟨_, e, _⟩ | ⟨_, e, _⟩ | ⟨_, e, _⟩ |
    ⟨_, e, _⟩ | ⟨_, e, _⟩ | ⟨_, e, _⟩ | ⟨_, e, _⟩ | ⟨_, e, _⟩ | ⟨_, e, _⟩ | ⟨_, e, _⟩ <;>
    omega

/-- `date_interp` reads back the fields of two `dd-mm-yyyy` texts of valid days
with four-digit years and then runs its guard and its loop on them. -/
theorem date_interp_parsed (d1 m1 y1 d2 m2 y2 : Int) (h1 : validDay d1 m1 y1)
    (h2 : validDay d2 m2 y2) (hy1 : 1000 ≤ y1 ∧ y1 ≤ 9999) (hy2 : 1000 ≤ y2 ∧ y2 ≤ 9999) :
    date_interp (format_date d1 m1 y1) (format_date d2 m2 y2) =
      if ¬ (y1 < y2 ∨ (y1 = y2 ∧ (m1 < m2 ∨ (m1 = m2 ∧ d1 < d2)))) then some []
      else date_interp_loop d2 m2 y2 (366 * (y2 - y1 + 1).toNat + 100) d1 m1 y1 := by
  obtain ⟨p1, p2, p3, p4, p5⟩ := h1
  obtain ⟨q1, q2, q3, q4, q5⟩ := h2
  have p6 := daysInMonth_le m1 p1 p2
  have q6 := daysInMonth_le m2 q1 q2
  lift d1 to ℕ using (by omega)
  lift m1 to ℕ using (by omega)
  lift y1 to ℕ using (by omega)
  lift d2 to ℕ using (by omega)
  lift m2 to ℕ using (by omega)
  lift y2 to ℕ using (by omega)
  have b1 := bytesOf_format_date d1 m1 y1 (by omega) (by omega) (by omega) (by omega)
    (by omega) (by omega)
  have b2 := bytesOf_format_date d2 m2 y2 (by omega) (by omega) (by omega) (by omega)
    (by omega) (by omega)
  unfold date_interp
  simp only [b1, b2, List.length_cons, List.length_nil, List.take, List.drop]
  rw [from_chars_int_two d1 (by omega) (by omega), from_chars_int_two m1 (by omega) (by omega),
    from_chars_int_four y1 (by omega) (by omega), from_chars_int_two d2 (by omega) (by omega),
    from_chars_int_two m2 (by omega) (by omega), from_chars_int_four y2 (by omega) (by omega)]
  simp

end dsh

/-- The number of characters of a text is the number of its bytes in the model. -/
theorem length_eq_bytesOf (s : String) : s.length = (bytesOf s).length := by
  rcases s with ⟨l⟩
  simp only [bytesOf, String.toList, String.length, List.length_map]

/-- C20, as stated, fails for years below 1000: `format_date` does not pad the
year, so `date_interp("01-01-0999", "02-01-0999")` returns the single entry
"01-01-999", which has 9 characters and is not the text "01-01-0999" of the
first day. -/
theorem date_interp_short_year :
    dsh.date_interp "01-01-0999" "02-01-0999" = some ["01-01-999"] ∧
    ("01-01-999" : String).length = 9 := by
  decide

/-- C20 (amended): for every pair of valid days `in = (d1, m1, y1)` and
`out = (d2, m2, y2)` of the 365-day calendar with years from 1000 to 9999,
written as `dd-mm-yyyy`, `date_interp(in, out)` terminates and returns exactly
`max(0, N(out) - N(in))` entries; the `k`-th entry (from 0) is the text of the
day `k` days after `in`, which is a valid day with day number `N(in) + k` (below
`N(out)`) and a text of 10 characters. So the list starts at `in`, is strictly
increasing, excludes `out`, and is empty whenever `in >= out`. -/
theorem date_interp_enumerates_stay (d1 m1 y1 d2 m2 y2 : Int) (h1 : dsh.validDay d1 m1 y1)
    (h2 : dsh.validDay d2 m2 y2) (hy1 : 1000 ≤ y1 ∧ y1 ≤ 9999) (hy2 : 1000 ≤ y2 ∧ y2 ≤ 9999) :
    dsh.date_interp (dsh.format_date d1 m1 y1) (dsh.format_date d2 m2 y2) =
      some ((List.range (dsh.nights d1 m1 y1 d2 m2 y2)).map fun (k : Nat) =>
        dsh.formatDay (dsh.addDays k (d1, m1, y1))) ∧
    ∀ k : Nat, k < dsh.nights d1 m1 y1 d2 m2 y2 →
      dsh.validDay (dsh.addDays k (d1, m1, y1)).1 (dsh.addDays k (d1, m1, y1)).2.1
        (dsh.addDays k (d1, m1, y1)).2.2 ∧
      dsh.dayNumber (dsh.addDays k (d1, m1, y1)).1 (dsh.addDays k (d1, m1, y1)).2.1
        (dsh.addDays k (d1, m1, y1)).2.2 = dsh.dayNumber d1 m1 y1 + k ∧
      dsh.dayNumber d1 m1 y1 + k < dsh.dayNumber d2 m2 y2 ∧
      (dsh.formatDay (dsh.addDays k (d1, m1, y1))).length = 10 := by
  have b1 := dsh.dayOfYear_bounds d1 m1 y1 h1
  have b2 := dsh.dayOfYear_bounds d2 m2 y2 h2
  have hN1 : dsh.dayNumber d1 m1 y1 = 365 * y1 + (dsh.daysBeforeMonth m1 + d1) := by
    unfold dsh.dayNumber
    omega
  have hN2 : dsh.dayNumber d2 m2 y2 = 365 * y2 + (dsh.daysBeforeMonth m2 + d2) := by
    unfold dsh.dayNumber
    omega
  constructor
  · rw [dsh.date_interp_parsed d1 m1 y1 d2 m2 y2 h1 h2 hy1 hy2]
    by_cases hg : y1 < y2 ∨ (y1 = y2 ∧ (m1 < m2 ∨ (m1 = m2 ∧ d1 < d2)))
    · have hlt := (dsh.guard_iff_dayNumber_lt d1 m1 y1 d2 m2 y2 h1 h2).mp hg
      rw [if_neg (not_not.mpr hg)]
      apply dsh.date_interp_loop_spec d2 m2 y2 h2 _ _ d1 m1 y1 h1
      · unfold dsh.nights
        rw [Int.toNat_of_nonneg (by omega)]
        omega
      · unfold dsh.nights
        omega
    · have hge : ¬ dsh.dayNumber d1 m1 y1 < dsh.dayNumber d2 m2 y2 :=
        fun h => hg ((dsh.guard_iff_dayNumber_lt d1 m1 y1 d2 m2 y2 h1 h2).mpr h)
      rw [if_pos hg]
      have hn : dsh.nights d1 m1 y1 d2 m2 y2 = 0 := by
        unfold dsh.nights
        omega
      rw [hn]
      rfl
  · intro k hk
    obtain ⟨v, hv⟩ := dsh.addDays_spec k d1 m1 y1 h1
    have hk2 : dsh.dayNumber d1 m1 y1 + k < dsh.dayNumber d2 m2 y2 := by
      unfold dsh.nights at hk
      omega
    refine ⟨v, hv, hk2, ?_⟩
    generalize dsh.addDays k (d1, m1, y1) = c at v hv ⊢
    obtain ⟨cd, cm, cy⟩ := c
    simp only at v hv
    have b3 := dsh.dayOfYear_bounds cd cm cy v
    have hN3 : dsh.dayNumber cd cm cy = 365 * cy + (dsh.daysBeforeMonth cm + cd) := by
      unfold dsh.dayNumber
      omega
    obtain ⟨v1, v2, v3, v4, v5⟩ := v
    have v6 := dsh.daysInMonth_le cm v1 v2
    have hcy1 : 1000 ≤ cy := by omega
    have hcy2 : cy ≤ 9999 := by omega
    lift cd to ℕ using (by omega)
    lift cm to ℕ using (by omega)
    lift cy to ℕ using (by omega)
    rw [length_eq_bytesOf]
    unfold dsh.formatDay
    simp only
    rw [dsh.bytesOf_format_date cd cm cy (by omega) (by omega) (by omega) (by omega) (by omega)
      (by omega)]
    rfl

/-- C20 on a stay across the end of a month: from 30-01-2020 to 02-02-2020
`date_interp` returns the three nights 30-01-2020, 31-01-2020 and 01-02-2020. -/
theorem date_interp_enumerates_stay_witness :
    dsh.date_interp (dsh.format_date 30 1 2020) (dsh.format_date 2 2 2020) =
      some ((List.range (dsh.nights 30 1 2020 2 2 2020)).map fun (k : Nat) =>
        dsh.formatDay (dsh.addDays k (30, 1, 2020))) :=
  (date_interp_enumerates_stay 30 1 2020 2 2 2020 (by unfold dsh.validDay; decide)
    (by unfold dsh.validDay; decide) (by decide) (by decide)).1

/-- The three nights of the stay from 30-01-2020 to 02-02-2020, and the empty
result when the end is not after the start. -/
theorem date_interp_example :
    dsh.date_interp "30-01-2020" "02-02-2020" = some ["30-01-2020", "31-01-2020", "01-02-2020"] ∧
    dsh.date_interp "02-02-2020" "30-01-2020" = some [] ∧
    dsh.date_interp "02-02-2020" "02-02-2020" = some [] := by
  decide

/-- C24: every transaction that `MovieWorkload::NewReview` emits is aborted by
`MovieExecution::Execute` with "Unknown procedure name": the generator names the
procedure "newReview", the wrapper only knows "new_review". No `NewReviewTxn` is
built and the storage is left as it was. -/
theorem movie_generator_name_not_recognised (movies : Int → String)
    (user_id reviewid titleindex rating : Int) (text : String) (storage : movie.StorageAdapter)
    (p : movie.Procedure) (args : List String)
    (h : MovieWorkload.NewReview movies user_id reviewid titleindex rating text = Except.ok (p, args)) :
    MovieExecution.procedureOf args = Except.ok (Except.error "Unknown procedure name") ∧
    MovieExecution.Execute storage (Transaction.submit [args]) =
      Except.ok (abortWith storage (Transaction.submit [args]) "Unknown procedure name") := by
  have hargs : ∃ rest, args = "newReview" :: rest := by
    unfold MovieWorkload.NewReview at h
    simp only [bind, Except.bind, pure, Except.pure] at h
    split at h
    · cases h
    · split at h
      · cases h
      · split at h
        · cases h
        · injection h with h
          injection h with _ h2
          exact ⟨_, h2.symm⟩
  obtain ⟨rest, rfl⟩ := hargs
  have hp : MovieExecution.procedureOf ("newReview" :: rest) =
      Except.ok (Except.error "Unknown procedure name") := by
    unfold MovieExecution.procedureOf
    have h1 : ("newReview" :: rest).isEmpty = false := rfl
    have h2 : ("newReview" :: rest).headD "" = "newReview" := rfl
    have h3 : ¬ ("newReview" = "new_review") := by decide
    simp only [h1, h2, h3, if_false, Bool.false_eq_true]
    rfl
  refine ⟨hp, ?_⟩
  unfold MovieExecution.Execute
  have : (Transaction.submit ["newReview" :: rest]).args = "newReview" :: rest := rfl
  rw [this, hp]

/-- C24 at a generated transaction: user 3, review and title index 5, rating 7. -/
theorem movie_generator_name_not_recognised_witness :
    MovieExecution.procedureOf
      (MovieWorkload.procedureArgs 5 7 "000000000003_username"
        ("000000000005_Avatar" ++ String.mk (List.replicate 81 ' ')) 5 5 "text") =
      Except.ok (Except.error "Unknown procedure name") :=
  (movie_generator_name_not_recognised (fun _ => "Avatar") 3 5 5 7 "text" movie.sampleStorage
    _ _ (by rfl)).1

/-- Arithmetic of the product layout: block `c / P`, region `r`, partition
`c % P` and category `cat` are recovered from the product id. -/
theorem selectProduct_arith (P R N c r cat : Nat) (hP : 1 ≤ P) (hR : 1 ≤ R)
    (hc : c < N / (4 * P * R) * P) (hr : r < R) (hcat : cat ≤ 3) :
    c / P * (4 * P * R) + r * P + c % P + 1 + cat * P * R ≤ N ∧
    (c / P * (4 * P * R) + r * P + c % P + cat * P * R) % P = c % P ∧
    (c / P * (4 * P * R) + r * P + c % P + cat * P * R) / P % R = r ∧
    (c / P * (4 * P * R) + r * P + c % P + cat * P * R) % (4 * P * R) / (P * R) = cat := by
  have hq : c % P < P := Nat.mod_lt _ (by omega)
  have hb : c / P < N / (4 * P * R) := by
    apply Nat.div_lt_of_lt_mul
    rw [Nat.mul_comm]
    exact hc
  have hN : N / (4 * P * R) * (4 * P * R) ≤ N := Nat.div_mul_le_self _ _
  have hPR : 0 < P * R := Nat.mul_pos (by omega) (by omega)
  have hrP : r * P + c % P < P * R := by
    have : (r + 1) * P ≤ R * P := Nat.mul_le_mul_right _ (by omega)
    have e1 : (r + 1) * P = r * P + P := by ring
    have e2 : R * P = P * R := by ring
    omega
  have hcatPR : cat * P * R ≤ 3 * (P * R) := by
    have : cat * (P * R) ≤ 3 * (P * R) := Nat.mul_le_mul_right _ hcat
    have e : cat * P * R = cat * (P * R) := by ring
    omega
  generalize hbe : c / P = b at *
  generalize hqe : c % P = q at *
  refine ⟨?_, ?_, ?_, ?_⟩
  · have h1 : (b + 1) * (4 * P * R) ≤ N / (4 * P * R) * (4 * P * R) :=
      Nat.mul_le_mul_right _ (by omega)
    have e1 : (b + 1) * (4 * P * R) = b * (4 * P * R) + 4 * (P * R) := by ring
    omega
  · have e : b * (4 * P * R) + r * P + q + cat * P * R = q + P * (b * (4 * R) + r + cat * R) := by
      ring
    rw [e, Nat.add_mul_mod_self_left, Nat.mod_eq_of_lt hq]
  · have e : b * (4 * P * R) + r * P + q + cat * P * R = q + P * (r + R * (4 * b + cat)) := by
      ring
    rw [e, Nat.add_mul_div_left _ _ (by omega : 0 < P), Nat.div_eq_of_lt hq, Nat.zero_add,
      Nat.add_mul_mod_self_left, Nat.mod_eq_of_lt hr]
  · have e : b * (4 * P * R) + r * P + q + cat * P * R =
        (r * P + q + cat * P * R) + (4 * P * R) * b := by ring
    have e4 : 4 * P * R = 4 * (P * R) := by ring
    rw [e, Nat.add_mul_mod_self_left, Nat.mod_eq_of_lt (by omega)]
    have e2 : r * P + q + cat * P * R = (r * P + q) + (P * R) * cat := by ring
    rw [e2, Nat.add_mul_div_left _ _ hPR, Nat.div_eq_of_lt hrP, Nat.zero_add]
/-- `PPSMetadataInitializer::Compute` on a key that starts with the encoding of
`id`. -/
theorem PPSMetadata_encode (id P R : Nat) (h1 : 1 ≤ id) (h2 : id < 2 ^ 31) (rest : Bytes) :
    pps.PPSMetadataInitializer.Compute R P (encode32le id ++ rest) = some ((id - 1) / P % R) := by
  unfold pps.PPSMetadataInitializer.Compute
  rw [readU32_encode32le id (by omega)]
  simp only [Option.map_some', Option.some.injEq]
  have : u32 (id + 2 ^ 32 - 1) = id - 1 := by
    unfold u32
    omega
  rw [this]

/-- The category of `selectProduct` is `2 * is_mh + is_mp`, at most 3. -/
theorem cateogry_eq (d : PPSWorkload.Draws) :
    PPSWorkload.cateogry d = 2 * d.is_mh.toNat + d.is_mp.toNat ∧ PPSWorkload.cateogry d ≤ 3 := by
  unfold PPSWorkload.cateogry
  cases d.is_mh <;> cases d.is_mp <;> decide

/-- `choice` of `selectProduct` as a natural number. -/
theorem choice_eq (P R N : Nat) (hP : 1 ≤ P) (hR : 1 ≤ R) (hN : 4 * P * R ≤ N)
    (d : PPSWorkload.Draws) :
    PPSWorkload.choice (N : Int) (P : Int) (R : Int) d =
      (((d.rand1 ||| d.rand2) % (N / (4 * P * R) * P) : Nat) : Int) ∧
    (d.rand1 ||| d.rand2) % (N / (4 * P * R) * P) < N / (4 * P * R) * P := by
  have hPR : 0 < 4 * P * R := by positivity
  have htb : 1 ≤ N / (4 * P * R) := (Nat.one_le_div_iff hPR).2 hN
  have hn : 0 < N / (4 * P * R) * P := Nat.mul_pos (by omega) (by omega)
  refine ⟨?_, Nat.mod_lt _ hn⟩
  unfold PPSWorkload.choice PPSWorkload.NURand
  have e1 : Int.tdiv (N : Int) (4 * (P : Int) * (R : Int)) = ((N / (4 * P * R) : Nat) : Int) := by
    rw [Int.tdiv_eq_ediv (by positivity) (by positivity)]
    push_cast
    rfl
  simp only [e1]
  have e2 : ((N / (4 * P * R) : Nat) : Int) * (P : Int) - 1 - 0 + 1 =
      ((N / (4 * P * R) * P : Nat) : Int) := by
    push_cast
    ring
  rw [e2, Int.tmod_eq_emod (by positivity) (by positivity)]
  push_cast
  simp
/-- `selectProduct` in closed form, over the natural numbers. -/
theorem selectProduct_eq (P R N : Nat) (hP : 1 ≤ P) (hR : 1 ≤ R) (hN : 4 * P * R ≤ N)
    (target nearest loc : Int) (d : PPSWorkload.Draws) (r : Nat)
    (hr : PPSWorkload.chosenRegion target nearest loc d = (r : Int)) (hrR : r < R) :
    PPSWorkload.selectProduct (N : Int) (P : Int) (R : Int) target nearest loc d =
      some (((((d.rand1 ||| d.rand2) % (N / (4 * P * R) * P)) / P * (4 * P * R) + r * P +
        ((d.rand1 ||| d.rand2) % (N / (4 * P * R) * P)) % P + 1 +
        PPSWorkload.cateogry d * P * R : Nat)) : Int) := by
  obtain ⟨hc, hclt⟩ := choice_eq P R N hP hR hN d
  obtain ⟨_, hcat⟩ := cateogry_eq d
  obtain ⟨h1, _, _, _⟩ := selectProduct_arith P R N _ r _ hP hR hclt hrR hcat
  unfold PPSWorkload.selectProduct
  simp only [hc, hr]
  generalize (d.rand1 ||| d.rand2) % (N / (4 * P * R) * P) = c at *
  have e1 : Int.tdiv (c : Int) (P : Int) = ((c / P : Nat) : Int) := by
    rw [Int.tdiv_eq_ediv (by positivity) (by positivity)]
    push_cast
    rfl
  have e2 : Int.tmod (c : Int) (P : Int) = ((c % P : Nat) : Int) := by
    rw [Int.tmod_eq_emod (by positivity) (by positivity)]
    push_cast
    rfl
  rw [e1, e2]
  have e3 : ((c / P : Nat) : Int) * (4 * (P : Int) * (R : Int)) + (r : Int) * (P : Int) +
      ((c % P : Nat) : Int) + 1 + ((PPSWorkload.cateogry d : Nat) : Int) * (P : Int) * (R : Int) =
      ((c / P * (4 * P * R) + r * P + c % P + 1 + PPSWorkload.cateogry d * P * R : Nat) : Int) := by
    push_cast
    ring
  rw [e3]
  rw [if_pos]
  constructor
  · have : 0 < c / P * (4 * P * R) + r * P + c % P + 1 + PPSWorkload.cateogry d * P * R := by omega
    exact_mod_cast this
  · exact_mod_cast h1

/-- C29 (PPS product selection round trip): for `P, R ≥ 1`, `num_products ≥ 4PR`
(a 32-bit value), any Bernoulli results `is_mh`, `is_mp`, any two draws of
`NURand` and a chosen region `r` in `[0, R)`: `NURand` returns `choice` in
`[0, n-1]` with `n = (num_products / (4PR)) * P`, and `selectProduct` returns an
id in `[1, num_products]` whose `PPSSharder` partition is `choice mod P`, whose
`PPSMetadataInitializer` home is `r`, and whose category
`((id-1) mod 4PR) / (PR)` is `2 * is_mh + is_mp`. -/
theorem pps_select_product_round_trip (P R N : Nat) (hP : 1 ≤ P) (hR : 1 ≤ R)
    (hN : 4 * P * R ≤ N) (hN32 : N < 2 ^ 31) (target nearest loc : Int) (d : PPSWorkload.Draws)
    (r : Nat) (hr : PPSWorkload.chosenRegion target nearest loc d = (r : Int)) (hrR : r < R)
    (rest : Bytes) :
    ∃ choice id : Nat,
      PPSWorkload.choice (N : Int) (P : Int) (R : Int) d = (choice : Int) ∧
      choice ≤ N / (4 * P * R) * P - 1 ∧
      PPSWorkload.selectProduct (N : Int) (P : Int) (R : Int) target nearest loc d = some (id : Int) ∧
      1 ≤ id ∧ id ≤ N ∧
      PPSSharder.compute_partition P (encode32le id ++ rest) = some (choice % P) ∧
      pps.PPSMetadataInitializer.Compute R P (encode32le id ++ rest) = some r ∧
      (id - 1) % (4 * P * R) / (P * R) = 2 * d.is_mh.toNat + d.is_mp.toNat := by
  obtain ⟨hc, hclt⟩ := choice_eq P R N hP hR hN d
  obtain ⟨hcat2, hcat⟩ := cateogry_eq d
  obtain ⟨h1, h2, h3, h4⟩ := selectProduct_arith P R N _ r _ hP hR hclt hrR hcat
  have hsel := selectProduct_eq P R N hP hR hN target nearest loc d r hr hrR
  generalize (d.rand1 ||| d.rand2) % (N / (4 * P * R) * P) = c at *
  refine ⟨c, _, hc, by omega, hsel, by omega, h1, ?_, ?_, ?_⟩
  · rw [PPSSharder_encode _ P (by omega) (by omega)]
    have e : c / P * (4 * P * R) + r * P + c % P + 1 + PPSWorkload.cateogry d * P * R - 1 =
        c / P * (4 * P * R) + r * P + c % P + PPSWorkload.cateogry d * P * R := by omega
    rw [e, h2]
  · rw [PPSMetadata_encode _ P R (by omega) (by omega)]
    have e : c / P * (4 * P * R) + r * P + c % P + 1 + PPSWorkload.cateogry d * P * R - 1 =
        c / P * (4 * P * R) + r * P + c % P + PPSWorkload.cateogry d * P * R := by omega
    rw [e, h3]
  · have e : c / P * (4 * P * R) + r * P + c % P + 1 + PPSWorkload.cateogry d * P * R - 1 =
        c / P * (4 * P * R) + r * P + c % P + PPSWorkload.cateogry d * P * R := by omega
    rw [e, h4, hcat2]

/-- C29 at `P = 4`, `R = 3`, 96 products: a multi-home single-partition draw
with `choice = 7` and region 2 selects product 84. -/
theorem pps_select_product_round_trip_witness :
    ∃ choice id : Nat,
      PPSWorkload.choice ((96 : Nat) : Int) ((4 : Nat) : Int) ((3 : Nat) : Int)
        { is_mh := true, is_mp := false, follow_sunflower := false, region := 2, rand1 := 5,
          rand2 := 6 } = (choice : Int) ∧
      choice ≤ 96 / (4 * 4 * 3) * 4 - 1 ∧
      PPSWorkload.selectProduct ((96 : Nat) : Int) ((4 : Nat) : Int) ((3 : Nat) : Int) (-1) 1 0
        { is_mh := true, is_mp := false, follow_sunflower := false, region := 2, rand1 := 5,
          rand2 := 6 } = some (id : Int) ∧
      1 ≤ id ∧ id ≤ 96 ∧
      PPSSharder.compute_partition 4 (encode32le id ++ []) = some (choice % 4) ∧
      pps.PPSMetadataInitializer.Compute 3 4 (encode32le id ++ []) = some 2 ∧
      (id - 1) % (4 * 4 * 3) / (4 * 3) =
        2 * (true).toNat + (false).toNat :=
  pps_select_product_round_trip 4 3 96 (by decide) (by decide) (by decide) (by decide) (-1) 1 0
    { is_mh := true, is_mp := false, follow_sunflower := false, region := 2, rand1 := 5, rand2 := 6 }
    2 (by decide) (by decide) []

/-- An `int` result that fits is the exact result. -/
theorem wrapInt32_natCast (k : Nat) (h : k < 2 ^ 31) : wrapInt32 (k : Int) = (k : Int) := by
  unfold wrapInt32
  rw [ofInt32_natCast k (by omega), toInt32_of_lt k h]

/-- The loader ranges over the natural numbers when no product overflows:
thread `i` gets `[i * range, min ((i+1) * range) n)` with `range = n / t + 1`. -/
theorem ranges_eq (n t : Nat) (hfit : t * (n / t + 1) < 2 ^ 31) :
    smallbank.LoadTables.ranges (n : Int) (t : Int) =
      (List.range t).map fun (i : Nat) =>
        (((i * (n / t + 1) : Nat) : Int), ((min ((i + 1) * (n / t + 1)) n : Nat) : Int)) := by
  unfold smallbank.LoadTables.ranges
  simp only [Int.toNat_ofNat]
  apply List.map_congr_left
  intro i hi
  have hi2 : i < t := List.mem_range.1 hi
  have e1 : Int.tdiv (n : Int) (t : Int) = ((n / t : Nat) : Int) := by
    rw [Int.tdiv_eq_ediv (by positivity) (by positivity)]
    rfl
  have h1 : n / t + 1 ≤ t * (n / t + 1) := Nat.le_mul_of_pos_left _ (by omega)
  have h2 : i * (n / t + 1) ≤ t * (n / t + 1) := Nat.mul_le_mul_right _ (le_of_lt hi2)
  have h3 : (i + 1) * (n / t + 1) ≤ t * (n / t + 1) := Nat.mul_le_mul_right _ hi2
  have r1 : wrapInt32 (((n / t : Nat) : Int) + 1) = ((n / t + 1 : Nat) : Int) := by
    have := wrapInt32_natCast (n / t + 1) (by omega)
    rw [← this]
    push_cast
    rfl
  have r2 : wrapInt32 ((i : Int) * ((n / t + 1 : Nat) : Int)) = ((i * (n / t + 1) : Nat) : Int) := by
    have := wrapInt32_natCast (i * (n / t + 1)) (by omega)
    rw [← this]
    push_cast
    rfl
  have r3 : wrapInt32 (((i : Int) + 1) * ((n / t + 1 : Nat) : Int)) =
      (((i + 1) * (n / t + 1) : Nat) : Int) := by
    have := wrapInt32_natCast ((i + 1) * (n / t + 1)) (by omega)
    rw [← this]
    push_cast
    rfl
  rw [e1, r1, r2, r3]
  push_cast
  rfl

/-- Every id below `n` lies in the range of thread `id / range`, which is one of
the `t` threads. -/
theorem ranges_cover (n t id : Nat) (ht : 1 ≤ t) (hid : id < n) :
    id / (n / t + 1) < t ∧ id / (n / t + 1) * (n / t + 1) ≤ id ∧
      id < min ((id / (n / t + 1) + 1) * (n / t + 1)) n := by
  have hlt : n < t * (n / t + 1) := Nat.lt_mul_div_succ n (by omega)
  have hr : 0 < n / t + 1 := Nat.succ_pos _
  refine ⟨?_, Nat.div_mul_le_self _ _, ?_⟩
  · apply Nat.div_lt_of_lt_mul
    rw [Nat.mul_comm]
    exact lt_trans hid hlt
  · have := Nat.lt_div_mul_add (a := id) hr
    have e : (id / (n / t + 1) + 1) * (n / t + 1) = id / (n / t + 1) * (n / t + 1) + (n / t + 1) := by
      ring
    rw [e]
    exact lt_min this hid

/-- The bound that keeps the products of the loader inside `int`, over the
natural numbers. -/
theorem ranges_fit (n t : Nat)
    (hfit : (t : Int) * (Int.tdiv (n : Int) (t : Int) + 1) < 2 ^ 31) :
    t * (n / t + 1) < 2 ^ 31 := by
  have e1 : Int.tdiv (n : Int) (t : Int) = ((n / t : Nat) : Int) := by
    rw [Int.tdiv_eq_ediv (by positivity) (by positivity)]
    rfl
  rw [e1] at hfit
  exact_mod_cast hfit

/-- An id lies in the range of some loader thread exactly when it lies in
`[0, num_clients)`, provided no product of the loader overflows. -/
theorem ranges_mem_iff (num_clients num_threads : Int) (hn : 0 ≤ num_clients)
    (ht : 1 ≤ num_threads)
    (hfit : num_threads * (Int.tdiv num_clients num_threads + 1) < 2 ^ 31) (id : Int) :
    (∃ r ∈ smallbank.LoadTables.ranges num_clients num_threads, r.1 ≤ id ∧ id < r.2) ↔
      (0 ≤ id ∧ id < num_clients) := by
  obtain ⟨n, rfl⟩ := Int.eq_ofNat_of_zero_le hn
  obtain ⟨t, rfl⟩ := Int.eq_ofNat_of_zero_le (by omega : 0 ≤ num_threads)
  have ht1 : 1 ≤ t := by exact_mod_cast ht
  rw [ranges_eq n t (ranges_fit n t hfit)]
  constructor
  · rintro ⟨r, hr, h1, h2⟩
    simp only [List.mem_map, List.mem_range] at hr
    obtain ⟨i, _, rfl⟩ := hr
    simp only at h1 h2
    have h3 : ((min ((i + 1) * (n / t + 1)) n : Nat) : Int) ≤ (n : Int) := by
      exact_mod_cast Nat.min_le_right _ _
    have h4 : (0 : Int) ≤ ((i * (n / t + 1) : Nat) : Int) := by positivity
    omega
  · rintro ⟨h0, h1⟩
    obtain ⟨k, rfl⟩ := Int.eq_ofNat_of_zero_le h0
    have hk : k < n := by exact_mod_cast h1
    obtain ⟨c1, c2, c3⟩ := ranges_cover n t k ht1 hk
    refine ⟨_, List.mem_map.2 ⟨k / (n / t + 1), List.mem_range.2 c1, rfl⟩, ?_, ?_⟩
    · show ((k / (n / t + 1) * (n / t + 1) : Nat) : Int) ≤ (k : Int)
      exact_mod_cast c2
    · show (k : Int) < ((min ((k / (n / t + 1) + 1) * (n / t + 1)) n : Nat) : Int)
      exact_mod_cast c3

/-- The ranges of two different loader threads share no id. -/
theorem ranges_pairwise (num_clients num_threads : Int) (hn : 0 ≤ num_clients)
    (ht : 1 ≤ num_threads)
    (hfit : num_threads * (Int.tdiv num_clients num_threads + 1) < 2 ^ 31) :
    (smallbank.LoadTables.ranges num_clients num_threads).Pairwise
      (fun a b => ∀ id : Int, ¬ ((a.1 ≤ id ∧ id < a.2) ∧ (b.1 ≤ id ∧ id < b.2))) := by
  obtain ⟨n, rfl⟩ := Int.eq_ofNat_of_zero_le hn
  obtain ⟨t, rfl⟩ := Int.eq_ofNat_of_zero_le (by omega : 0 ≤ num_threads)
  rw [ranges_eq n t (ranges_fit n t hfit), List.pairwise_map]
  refine List.Pairwise.imp ?_ (List.pairwise_lt_range t)
  intro i j hij id
  simp only
  rintro ⟨⟨_, h2⟩, ⟨h3, _⟩⟩
  have h5 : (i + 1) * (n / t + 1) ≤ j * (n / t + 1) := Nat.mul_le_mul_right _ hij
  have h6 : min ((i + 1) * (n / t + 1)) n ≤ (i + 1) * (n / t + 1) := Nat.min_le_left _ _
  have h7 : ((min ((i + 1) * (n / t + 1)) n : Nat) : Int) ≤ ((j * (n / t + 1) : Nat) : Int) := by
    exact_mod_cast le_trans h6 h5
  omega

/-- C28, as stated, fails: with 2147483646 clients and 4 threads `range` is
`2^29` and the product `(3 + 1) * range = 2^31` does not fit an `int`; with the
wrapped value the last thread gets the empty range that starts at 1610612736,
so the client id 2147483645 lies in the range of no thread. -/
theorem smallbank_ranges_overflow :
    (4 : Int) * (Int.tdiv 2147483646 4 + 1) = 2 ^ 31 ∧
    smallbank.LoadTables.ranges 2147483646 4 =
      [(0, 536870912), (536870912, 1073741824), (1073741824, 1610612736),
       (1610612736, -2147483648)] ∧
    ¬ ∃ r ∈ smallbank.LoadTables.ranges 2147483646 4, r.1 ≤ 2147483645 ∧ 2147483645 < r.2 := by
  decide

/-- C28 (amended): for `num_clients ≥ 0` and `num_threads ≥ 1` such that
`num_threads * range` fits an `int`, with
`range = num_clients / num_threads + 1`, the intervals
`[i * range, min ((i+1) * range, num_clients))` of the threads
`i = 0 .. num_threads - 1` are pairwise disjoint and an id lies in one of them
exactly when it lies in `[0, num_clients)`. -/
theorem smallbank_ranges_partition (num_clients num_threads : Int) (hn : 0 ≤ num_clients)
    (ht : 1 ≤ num_threads)
    (hfit : num_threads * (Int.tdiv num_clients num_threads + 1) < 2 ^ 31) :
    (smallbank.LoadTables.ranges num_clients num_threads).length = num_threads.toNat ∧
    (∀ id : Int, (∃ r ∈ smallbank.LoadTables.ranges num_clients num_threads, r.1 ≤ id ∧ id < r.2) ↔
      (0 ≤ id ∧ id < num_clients)) ∧
    (smallbank.LoadTables.ranges num_clients num_threads).Pairwise
      (fun a b => ∀ id : Int, ¬ ((a.1 ≤ id ∧ id < a.2) ∧ (b.1 ≤ id ∧ id < b.2))) := by
  refine ⟨?_, ranges_mem_iff num_clients num_threads hn ht hfit,
    ranges_pairwise num_clients num_threads hn ht hfit⟩
  unfold smallbank.LoadTables.ranges
  simp

/-- C28 at 10 clients and 3 threads: the ranges are `[0,4)`, `[4,8)`, `[8,10)`. -/
theorem smallbank_ranges_partition_witness :
    smallbank.LoadTables.ranges 10 3 = [(0, 4), (4, 8), (8, 10)] ∧
    (smallbank.LoadTables.ranges 10 3).length = (3 : Int).toNat ∧
    (∀ id : Int, (∃ r ∈ smallbank.LoadTables.ranges 10 3, r.1 ≤ id ∧ id < r.2) ↔
      (0 ≤ id ∧ id < 10)) ∧
    (smallbank.LoadTables.ranges 10 3).Pairwise
      (fun a b => ∀ id : Int, ¬ ((a.1 ≤ id ∧ id < a.2) ∧ (b.1 ≤ id ∧ id < b.2))) :=
  ⟨by decide, smallbank_ranges_partition 10 3 (by decide) (by decide) (by decide)⟩
/-- The rows of the loader loop, balances blanked, do not depend on the number
of balances drawn before. -/
theorem loop_forgetBalance (cs : Bool) (bal : Nat → Int) (p P : Int) (ids : List Int) (draws : Nat) :
    (smallbank.PartitionedSmallBankDataLoader.loop cs bal p P ids draws).map
        smallbank.Row.forgetBalance =
      ids.flatMap (smallbank.rowsOfClient cs p P) := by
  induction ids generalizing draws with
  | nil => rfl
  | cons id rest ih =>
    rw [smallbank.PartitionedSmallBankDataLoader.loop, List.flatMap_cons]
    simp only [smallbank.rowsOfClient]
    split_ifs with h1 h2 h2
    · simp [ih, smallbank.Row.forgetBalance]
    · simp [ih, smallbank.Row.forgetBalance]
    · simp [ih, smallbank.Row.forgetBalance]
    · simp [ih, smallbank.Row.forgetBalance]

/-- Membership in the rows of all threads, balances blanked: the row belongs to
a client id of `[0, num_clients)`. -/
theorem loadTables_forgetBalance_mem (cs : Bool) (bal : Nat → Int) (n P p t : Int)
    (hmem : ∀ id : Int, (∃ r ∈ smallbank.LoadTables.ranges n t, r.1 ≤ id ∧ id < r.2) ↔
      (0 ≤ id ∧ id < n)) (row : smallbank.Row) :
    row ∈ (smallbank.LoadTables cs bal n P p t).map smallbank.Row.forgetBalance ↔
      ∃ id : Int, 0 ≤ id ∧ id < n ∧ row ∈ smallbank.rowsOfClient cs p P id := by
  unfold smallbank.LoadTables smallbank.PartitionedSmallBankDataLoader.LoadAccounts
  rw [List.map_flatMap]
  simp only [loop_forgetBalance, List.mem_flatMap, List.mem_map, List.mem_range]
  constructor
  · rintro ⟨r, hr, id, ⟨k, hk, rfl⟩, hrow⟩
    have := (hmem (r.1 + (k : Int))).1 ⟨r, hr, by omega, by omega⟩
    exact ⟨_, this.1, this.2, hrow⟩
  · rintro ⟨id, h0, h1, hrow⟩
    obtain ⟨r, hr, h2, h3⟩ := (hmem id).2 ⟨h0, h1⟩
    refine ⟨r, hr, id, ⟨(id - r.1).toNat, by omega, by omega⟩, hrow⟩
/-- With 4 clients on one partition, one thread draws the balances of client 3
as the seventh and eighth value of its engine; with two threads the second
thread draws them as the first and second value of its own engine. -/
theorem smallbank_threads_restart_engine (bal_rnd : Nat → Int) :
    smallbank.LoadTables true bal_rnd 4 1 0 1 =
      [smallbank.Row.accounts (smallbank.clientName 0) 0, smallbank.Row.checking 0 (bal_rnd 0),
       smallbank.Row.savings 0 (bal_rnd 1),
       smallbank.Row.accounts (smallbank.clientName 1) 1, smallbank.Row.checking 1 (bal_rnd 2),
       smallbank.Row.savings 1 (bal_rnd 3),
       smallbank.Row.accounts (smallbank.clientName 2) 2, smallbank.Row.checking 2 (bal_rnd 4),
       smallbank.Row.savings 2 (bal_rnd 5),
       smallbank.Row.accounts (smallbank.clientName 3) 3, smallbank.Row.checking 3 (bal_rnd 6),
       smallbank.Row.savings 3 (bal_rnd 7)] ∧
    smallbank.LoadTables true bal_rnd 4 1 0 2 =
      [smallbank.Row.accounts (smallbank.clientName 0) 0, smallbank.Row.checking 0 (bal_rnd 0),
       smallbank.Row.savings 0 (bal_rnd 1),
       smallbank.Row.accounts (smallbank.clientName 1) 1, smallbank.Row.checking 1 (bal_rnd 2),
       smallbank.Row.savings 1 (bal_rnd 3),
       smallbank.Row.accounts (smallbank.clientName 2) 2, smallbank.Row.checking 2 (bal_rnd 4),
       smallbank.Row.savings 2 (bal_rnd 5),
       smallbank.Row.accounts (smallbank.clientName 3) 3, smallbank.Row.checking 3 (bal_rnd 0),
       smallbank.Row.savings 3 (bal_rnd 1)] := by
  constructor <;> rfl
/-- An Accounts row is in a list exactly when it is in the list with the
balances blanked. -/
theorem accounts_mem_forgetBalance (l : List smallbank.Row) (name : String) (id : Int) :
    smallbank.Row.accounts name id ∈ l ↔
      smallbank.Row.accounts name id ∈ l.map smallbank.Row.forgetBalance := by
  rw [List.mem_map]
  constructor
  · intro h
    exact ⟨_, h, rfl⟩
  · rintro ⟨r, hr, he⟩
    cases r <;> simp only [smallbank.Row.forgetBalance, reduceCtorEq] at he
    rw [← he]
    exact hr

/-- Some Checking row of `id` is in a list exactly when the blanked row is in
the blanked list. -/
theorem checking_mem_forgetBalance (l : List smallbank.Row) (id : Int) :
    (∃ b, smallbank.Row.checking id b ∈ l) ↔
      smallbank.Row.checking id 0 ∈ l.map smallbank.Row.forgetBalance := by
  rw [List.mem_map]
  constructor
  · rintro ⟨b, h⟩
    exact ⟨_, h, rfl⟩
  · rintro ⟨r, hr, he⟩
    cases r <;> simp only [smallbank.Row.forgetBalance, reduceCtorEq] at he
    rename_i i b
    injection he with h1 _
    subst h1
    exact ⟨b, hr⟩

/-- Some Savings row of `id` is in a list exactly when the blanked row is in the
blanked list. -/
theorem savings_mem_forgetBalance (l : List smallbank.Row) (id : Int) :
    (∃ b, smallbank.Row.savings id b ∈ l) ↔
      smallbank.Row.savings id 0 ∈ l.map smallbank.Row.forgetBalance := by
  rw [List.mem_map]
  constructor
  · rintro ⟨b, h⟩
    exact ⟨_, h, rfl⟩
  · rintro ⟨r, hr, he⟩
    cases r <;> simp only [smallbank.Row.forgetBalance, reduceCtorEq] at he
    rename_i i b
    injection he with h1 _
    subst h1
    exact ⟨b, hr⟩

/-- C27 (corrected): for fixed `num_clients ≥ 0`, `num_partitions` and
`partition`, the Accounts rows loaded by `smallbank::LoadTables` and the ids
that receive a Checking row and a Savings row are the same for every two
thread counts `t ≥ 1` for which `t * (num_clients / t + 1)` fits an `int`,
whatever values the balance engine yields. -/
theorem smallbank_loaded_keys_independent_of_threads (charSigned : Bool) (bal_rnd : Nat → Int)
    (num_clients num_partitions partition t1 t2 : Int) (hn : 0 ≤ num_clients)
    (h1 : 1 ≤ t1) (h2 : 1 ≤ t2)
    (hfit1 : t1 * (Int.tdiv num_clients t1 + 1) < 2 ^ 31)
    (hfit2 : t2 * (Int.tdiv num_clients t2 + 1) < 2 ^ 31) :
    (∀ name id, smallbank.Row.accounts name id ∈
        smallbank.LoadTables charSigned bal_rnd num_clients num_partitions partition t1 ↔
      smallbank.Row.accounts name id ∈
        smallbank.LoadTables charSigned bal_rnd num_clients num_partitions partition t2) ∧
    (∀ id, (∃ b, smallbank.Row.checking id b ∈
        smallbank.LoadTables charSigned bal_rnd num_clients num_partitions partition t1) ↔
      (∃ b, smallbank.Row.checking id b ∈
        smallbank.LoadTables charSigned bal_rnd num_clients num_partitions partition t2)) ∧
    (∀ id, (∃ b, smallbank.Row.savings id b ∈
        smallbank.LoadTables charSigned bal_rnd num_clients num_partitions partition t1) ↔
      (∃ b, smallbank.Row.savings id b ∈
        smallbank.LoadTables charSigned bal_rnd num_clients num_partitions partition t2)) := by
  have key : ∀ row, row ∈ (smallbank.LoadTables charSigned bal_rnd num_clients num_partitions
        partition t1).map smallbank.Row.forgetBalance ↔
      row ∈ (smallbank.LoadTables charSigned bal_rnd num_clients num_partitions
        partition t2).map smallbank.Row.forgetBalance := by
    intro row
    rw [loadTables_forgetBalance_mem _ _ _ _ _ _ (ranges_mem_iff num_clients t1 hn h1 hfit1),
      loadTables_forgetBalance_mem _ _ _ _ _ _ (ranges_mem_iff num_clients t2 hn h2 hfit2)]
  refine ⟨fun name id => ?_, fun id => ?_, fun id => ?_⟩
  · exact (accounts_mem_forgetBalance _ name id).trans
      ((key _).trans (accounts_mem_forgetBalance _ name id).symm)
  · exact (checking_mem_forgetBalance _ id).trans
      ((key _).trans (checking_mem_forgetBalance _ id).symm)
  · exact (savings_mem_forgetBalance _ id).trans
      ((key _).trans (savings_mem_forgetBalance _ id).symm)

/-- C27 at 4 clients on the single partition of a one-partition deployment, one
thread against two: the Accounts rows and the ids with balances agree. -/
theorem smallbank_loaded_keys_independent_of_threads_witness :
    (∀ name id, smallbank.Row.accounts name id ∈
        smallbank.LoadTables true (fun (k : Nat) => 100 + (k : Int)) 4 1 0 1 ↔
      smallbank.Row.accounts name id ∈
        smallbank.LoadTables true (fun (k : Nat) => 100 + (k : Int)) 4 1 0 2) ∧
    (∀ id, (∃ b, smallbank.Row.checking id b ∈
        smallbank.LoadTables true (fun (k : Nat) => 100 + (k : Int)) 4 1 0 1) ↔
      (∃ b, smallbank.Row.checking id b ∈
        smallbank.LoadTables true (fun (k : Nat) => 100 + (k : Int)) 4 1 0 2)) ∧
    (∀ id, (∃ b, smallbank.Row.savings id b ∈
        smallbank.LoadTables true (fun (k : Nat) => 100 + (k : Int)) 4 1 0 1) ↔
      (∃ b, smallbank.Row.savings id b ∈
        smallbank.LoadTables true (fun (k : Nat) => 100 + (k : Int)) 4 1 0 2)) :=
  smallbank_loaded_keys_independent_of_threads true (fun (k : Nat) => 100 + (k : Int)) 4 1 0 1 2
    (by decide) (by decide) (by decide) (by decide) (by decide)

/-- C27 as stated fails: with 4 clients on one partition the two-thread load
gives client 3 the first balance of the second thread's engine, the one-thread
load gives it the seventh balance of the only engine. For an engine whose
`k`-th balance is `100 + k` the Checking row `(3, 100)` is loaded by two threads
and not by one. -/
theorem smallbank_balances_depend_on_thread_count :
    smallbank.Row.checking 3 100 ∈
        smallbank.LoadTables true (fun (k : Nat) => 100 + (k : Int)) 4 1 0 2 ∧
    smallbank.Row.checking 3 100 ∉
        smallbank.LoadTables true (fun (k : Nat) => 100 + (k : Int)) 4 1 0 1 ∧
    smallbank.Row.checking 3 106 ∈
        smallbank.LoadTables true (fun (k : Nat) => 100 + (k : Int)) 4 1 0 1 := by
  decide

/-- One call of `updateForSunflowerScenario` keeps the percentage a multiple of
10 in `[0, 100]`. -/
theorem sunflower_step_invariant (target pct duration elapsed : Int) (hd : 0 < duration)
    (he : elapsed ≤ duration) (h10 : 10 ∣ pct) (h0 : 0 ≤ pct) (h100 : pct ≤ 100) :
    10 ∣ PPSWorkload.updateForSunflowerScenario target pct duration elapsed ∧
    0 ≤ PPSWorkload.updateForSunflowerScenario target pct duration elapsed ∧
    PPSWorkload.updateForSunflowerScenario target pct duration elapsed ≤ 100 := by
  unfold PPSWorkload.updateForSunflowerScenario
  split_ifs with h1 h2
  · exact ⟨h10, h0, h100⟩
  · have hdq : (0 : ℚ) < (duration : ℚ) := by exact_mod_cast hd
    have heq : (elapsed : ℚ) ≤ (duration : ℚ) := by exact_mod_cast he
    have hle : (1 : ℚ) * (elapsed : ℚ) / (duration : ℚ) ≤ 1 := by
      rw [one_mul]
      exact (div_le_one hdq).2 heq
    have hlt : (pct : ℚ) / 100 < 1 := lt_of_lt_of_le h2 hle
    have hlt2 : (pct : ℚ) < 100 := by
      have := (div_lt_one (by norm_num : (0 : ℚ) < 100)).1 hlt
      exact this
    have hlt3 : pct < 100 := by exact_mod_cast hlt2
    refine ⟨?_, by omega, by omega⟩
    omega
  · exact ⟨h10, h0, h100⟩

/-- The run of a sequence of calls followed by one more call. -/
theorem sunflowerRun_append (target : Int) (calls : List (Int × Int)) (c : Int × Int) :
    PPSWorkload.sunflowerRun target (calls ++ [c]) =
      PPSWorkload.updateForSunflowerScenario target (PPSWorkload.sunflowerRun target calls) c.1 c.2 := by
  unfold PPSWorkload.sunflowerRun
  rw [List.foldl_append]
  rfl

/-- After every sequence of calls the percentage is a multiple of 10 in
`[0, 100]`. -/
theorem sunflowerRun_invariant (target : Int) (calls : List (Int × Int))
    (h : ∀ c ∈ calls, 0 < c.1 ∧ 0 ≤ c.2 ∧ c.2 ≤ c.1) :
    10 ∣ PPSWorkload.sunflowerRun target calls ∧ 0 ≤ PPSWorkload.sunflowerRun target calls ∧
      PPSWorkload.sunflowerRun target calls ≤ 100 := by
  induction calls using List.reverseRecOn with
  | nil => exact ⟨⟨0, rfl⟩, le_refl 0, by show (0 : Int) ≤ 100; decide⟩
  | append_singleton l c ih =>
    have hl : ∀ c ∈ l, 0 < c.1 ∧ 0 ≤ c.2 ∧ c.2 ≤ c.1 := fun x hx =>
      h x (List.mem_append_left _ hx)
    have hc := h c (List.mem_append_right _ (List.mem_singleton_self c))
    obtain ⟨i1, i2, i3⟩ := ih hl
    rw [sunflowerRun_append]
    exact sunflower_step_invariant target _ c.1 c.2 hc.1 hc.2.2 i1 i2 i3

/-- C26 (PPS linear sunflower ramp): for every sequence of calls
`updateForSunflowerScenario(duration, elapsed)` with `duration > 0` and
`0 ≤ elapsed ≤ duration` on a freshly built generator, and one more such call:
when `sunflower_target_region_ != -1` the call adds exactly 10 to
`sunflower_redirect_pct_` if `elapsed / duration > pct / 100` (compared exactly)
and leaves it unchanged otherwise, and the percentage is a multiple of 10 in
`[0, 100]` before and after the call; when the target is `-1` the percentage
never changes (it stays 0). -/
theorem pps_sunflower_ramp (target : Int) (calls : List (Int × Int)) (duration elapsed : Int)
    (h : ∀ c ∈ calls, 0 < c.1 ∧ 0 ≤ c.2 ∧ c.2 ≤ c.1)
    (hd : 0 < duration) (he0 : 0 ≤ elapsed) (he : elapsed ≤ duration) :
    (target ≠ -1 →
      PPSWorkload.sunflowerRun target (calls ++ [(duration, elapsed)]) =
        if (elapsed : ℚ) / (duration : ℚ) > (PPSWorkload.sunflowerRun target calls : ℚ) / 100 then
          PPSWorkload.sunflowerRun target calls + 10
        else PPSWorkload.sunflowerRun target calls) ∧
    (10 ∣ PPSWorkload.sunflowerRun target calls ∧ 0 ≤ PPSWorkload.sunflowerRun target calls ∧
      PPSWorkload.sunflowerRun target calls ≤ 100) ∧
    (10 ∣ PPSWorkload.sunflowerRun target (calls ++ [(duration, elapsed)]) ∧
      0 ≤ PPSWorkload.sunflowerRun target (calls ++ [(duration, elapsed)]) ∧
      PPSWorkload.sunflowerRun target (calls ++ [(duration, elapsed)]) ≤ 100) ∧
    (target = -1 →
      PPSWorkload.sunflowerRun target calls = 0 ∧
      PPSWorkload.sunflowerRun target (calls ++ [(duration, elapsed)]) = 0) := by
  have hall : ∀ c ∈ calls ++ [(duration, elapsed)], 0 < c.1 ∧ 0 ≤ c.2 ∧ c.2 ≤ c.1 := by
    intro c hc
    rcases List.mem_append.1 hc with hc | hc
    · exact h c hc
    · rw [List.mem_singleton.1 hc]
      exact ⟨hd, he0, he⟩
  refine ⟨?_, sunflowerRun_invariant target calls h, sunflowerRun_invariant target _ hall, ?_⟩
  · intro ht
    rw [sunflowerRun_append]
    unfold PPSWorkload.updateForSunflowerScenario
    rw [if_neg ht, one_mul]
  · intro ht
    subst ht
    have hz : ∀ l : List (Int × Int), PPSWorkload.sunflowerRun (-1) l = 0 := by
      intro l
      induction l using List.reverseRecOn with
      | nil => rfl
      | append_singleton l c ih =>
        rw [sunflowerRun_append, ih]
        rfl
    exact ⟨hz _, hz _⟩

/-- C26 on a run of 100 time units towards region 1: after the calls at
`elapsed = 5` and `elapsed = 12` the percentage is 20, and the call at
`elapsed = 15` leaves it at 20. -/
theorem pps_sunflower_ramp_witness :
    PPSWorkload.sunflowerRun 1 [(100, 5), (100, 12)] = 20 ∧
    PPSWorkload.sunflowerRun 1 ([(100, 5), (100, 12)] ++ [(100, 15)]) = 20 ∧
    PPSWorkload.sunflowerRun 1 ([(100, 5), (100, 12)] ++ [(100, 25)]) = 30 ∧
    ((1 : Int) ≠ -1 →
      PPSWorkload.sunflowerRun 1 ([(100, 5), (100, 12)] ++ [(100, 15)]) =
        if ((15 : Int) : ℚ) / ((100 : Int) : ℚ) >
            (PPSWorkload.sunflowerRun 1 [(100, 5), (100, 12)] : ℚ) / 100 then
          PPSWorkload.sunflowerRun 1 [(100, 5), (100, 12)] + 10
        else PPSWorkload.sunflowerRun 1 [(100, 5), (100, 12)]) :=
  ⟨by norm_num [PPSWorkload.sunflowerRun, PPSWorkload.updateForSunflowerScenario],
    by norm_num [PPSWorkload.sunflowerRun, PPSWorkload.updateForSunflowerScenario],
    by norm_num [PPSWorkload.sunflowerRun, PPSWorkload.updateForSunflowerScenario],
    (pps_sunflower_ramp 1 [(100, 5), (100, 12)] 100 15
      (by
        intro c hc
        simp only [List.mem_cons, List.mem_singleton, List.not_mem_nil, or_false] at hc
        rcases hc with rfl | rfl <;> decide)
      (by decide) (by decide) (by decide)).1⟩

/-- The weights that `load_sunflower` stores for a line with the `R + 1` fields
`t, w_0, ..., w_{R-1}` are the conversions of the first `R` fields, the time
included and the last weight left out. -/
theorem load_sunflower_row {δ : Type} (stod : String → δ) (R : Nat) (line : String)
    (fields : List String) (hs : Split line "," = fields) (hl : fields.length = R + 1) :
    DeathStarHotelWorkload.load_sunflower stod R [line] =
      some [(stod (fields.getD 0 ""), (fields.take R).map stod)] := by
  unfold DeathStarHotelWorkload.load_sunflower
  simp only [List.mapM_cons, List.mapM_nil, hs, hl, ne_eq, not_true_eq_false, if_false,
    Option.pure_def, Option.bind_eq_bind, Option.some_bind]
  congr 3
  apply List.ext_getElem
  · simp [hl]
  · intro i h1 h2
    simp only [List.length_map, List.length_range] at h1
    simp only [List.getElem_map, List.getElem_range, List.getElem_take]
    congr 1
    rw [List.getD_eq_getElem _ _ (by omega)]

/-- C25: `load_sunflower` on the file of the two-region scenario with the rows
"0.3,1,0" and "1.0,0,1" stores the weights `[0.3, 1]` and `[1.0, 0]`: the loop
converts `values[i]` for `i < num_regions`, so the time is taken as the first
weight and the weight of the last region is dropped. The rows should yield
`[1, 0]` and `[0, 1]`. -/
theorem dsh_load_sunflower_takes_time_as_weight {δ : Type} (stod : String → δ) :
    DeathStarHotelWorkload.load_sunflower stod 2 ["0.3,1,0", "1.0,0,1"] =
      some [(stod "0.3", [stod "0.3", stod "1"]), (stod "1.0", [stod "1.0", stod "0"])] := by
  rfl

/-- The numbers below `n` other than `l < n` are `n - 1` many. -/
theorem length_filter_ne_range (n l : Nat) (hl : l < n) :
    (((List.range n).map fun (i : Nat) => (i : Int)).filter fun i => decide (i ≠ (l : Int))).length =
      n - 1 := by
  rw [List.filter_map, List.length_map]
  have e : (List.range n).filter ((fun i : Int => decide (i ≠ (l : Int))) ∘ fun (i : Nat) => (i : Int)) =
      (List.range n).filter (fun i => decide (i ≠ l)) := by
    apply List.filter_congr
    intro x _
    simp
  have e2 : (List.range n).filter (fun i => decide (i ≠ l)) = (List.range n).filter (fun i => i != l) := by
    apply List.filter_congr
    intro x _
    by_cases hx : x = l <;> simp [hx, bne]
  rw [e, e2, ← List.Nodup.erase_eq_filter (List.nodup_range n),
    List.length_erase_of_mem (List.mem_range.2 hl), List.length_range]

/-- `remote_partitions_` has `num_partitions - 1` entries. -/
theorem remotePartitions_length (P l : Nat) (hl : l < P) :
    (pps.PartitionedPPSDataLoader.remotePartitions (P : Int) (l : Int)).length = P - 1 := by
  unfold pps.PartitionedPPSDataLoader.remotePartitions
  rw [Int.toNat_ofNat]
  exact length_filter_ne_range P l hl

/-- `remote_regions_` has a row for every region, of `num_regions - 1` entries. -/
theorem remoteRegions_row (R r : Nat) (hr : r < R) :
    ∃ row, (pps.PartitionedPPSDataLoader.remoteRegions (R : Int))[r]? = some row ∧
      row.length = R - 1 := by
  unfold pps.PartitionedPPSDataLoader.remoteRegions
  rw [Int.toNat_ofNat]
  refine ⟨((List.range R).map fun (j : Nat) => (j : Int)).filter fun j => decide ((r : Int) ≠ j),
    ?_, ?_⟩
  · rw [List.getElem?_map, List.getElem?_range hr]
    rfl
  · have := length_filter_ne_range R r hr
    rw [← this]
    congr 1
    apply List.filter_congr
    intro x _
    simp [eq_comm]
/-- Reading `remote_partitions_` in a category branch stays inside the list. -/
theorem chosenPartition_in_bounds (P l : Nat) (maxP idx : Int) (hl : l < P)
    (hmax : maxP ≤ (P : Int)) (rp : List Int)
    (hrp : rp.Perm (pps.PartitionedPPSDataLoader.remotePartitions (P : Int) (l : Int)))
    (h0 : 0 ≤ idx) (h1 : idx ≤ maxP - 1) :
    ∃ p, pps.PartitionedPPSDataLoader.chosenPartition rp maxP (l : Int) idx = some p := by
  unfold pps.PartitionedPPSDataLoader.chosenPartition
  split_ifs with h
  · exact ⟨_, rfl⟩
  · have hlen : rp.length = P - 1 := by rw [hrp.length_eq, remotePartitions_length P l hl]
    have hi : idx.toNat < rp.length := by omega
    unfold vectorAt
    rw [if_neg (by omega), List.getElem?_eq_getElem hi]
    exact ⟨_, rfl⟩

/-- Reading `remote_regions_[product_region]` in a category branch stays inside
both lists. -/
theorem chosenRegion_in_bounds (R r : Nat) (maxR idx : Int) (hr : r < R)
    (hmax : maxR ≤ (R : Int)) (rr : List (List Int))
    (hrr : List.Forall₂ List.Perm rr (pps.PartitionedPPSDataLoader.remoteRegions (R : Int)))
    (h0 : 0 ≤ idx) (h1 : idx ≤ maxR - 1) :
    (∃ row, vectorAt rr (r : Int) = some row ∧ row.length = R - 1) ∧
    ∃ c, pps.PartitionedPPSDataLoader.chosenRegion rr maxR (r : Int) idx = some c := by
  obtain ⟨row0, hrow0, hlen0⟩ := remoteRegions_row R r hr
  have hr0 : r < (pps.PartitionedPPSDataLoader.remoteRegions (R : Int)).length := by
    by_contra hc
    rw [List.getElem?_eq_none (by omega)] at hrow0
    cases hrow0
  have hrlen : r < rr.length := by rw [hrr.length_eq]; exact hr0
  have hperm := hrr.get hrlen hr0
  have hrow0' : (pps.PartitionedPPSDataLoader.remoteRegions (R : Int)).get ⟨r, hr0⟩ = row0 := by
    rw [List.getElem?_eq_getElem hr0] at hrow0
    exact Option.some.inj hrow0
  have hv : vectorAt rr (r : Int) = some (rr.get ⟨r, hrlen⟩) := by
    unfold vectorAt
    rw [if_neg (by omega), Int.toNat_ofNat, List.getElem?_eq_getElem hrlen]
    rfl
  have hlen : (rr.get ⟨r, hrlen⟩).length = R - 1 := by
    rw [hperm.length_eq, hrow0', hlen0]
  refine ⟨⟨_, hv, hlen⟩, ?_⟩
  unfold pps.PartitionedPPSDataLoader.chosenRegion
  split_ifs with h
  · exact ⟨_, rfl⟩
  · rw [hv, Option.some_bind]
    have hi : idx.toNat < (rr.get ⟨r, hrlen⟩).length := by omega
    unfold vectorAt
    rw [if_neg (by omega), List.getElem?_eq_getElem hi]
    exact ⟨_, rfl⟩
/-- One iteration of any category branch returns a part id when its draws are
inside the ranges of their distributions. -/
theorem selectPart_in_bounds (P R l r : Nat) (maxR maxP : Int) (hl : l < P) (hr : r < R)
    (hmaxP : maxP ≤ (P : Int)) (hmaxR : maxR ≤ (R : Int)) (rp : List Int)
    (hrp : rp.Perm (pps.PartitionedPPSDataLoader.remotePartitions (P : Int) (l : Int)))
    (rr : List (List Int))
    (hrr : List.Forall₂ List.Perm rr (pps.PartitionedPPSDataLoader.remoteRegions (R : Int)))
    (category : Nat) (d : pps.PartitionedPPSDataLoader.PartDraw)
    (hp0 : 0 ≤ d.chosen_partition_index) (hp1 : d.chosen_partition_index ≤ maxP - 1)
    (hr0 : 0 ≤ d.chosen_region_index) (hr1 : d.chosen_region_index ≤ maxR - 1) :
    ∃ part, pps.PartitionedPPSDataLoader.selectPart (P : Int) (R : Int) (l : Int) maxR maxP rp rr
      category (r : Int) d = some part := by
  obtain ⟨p, hp⟩ := chosenPartition_in_bounds P l maxP _ hl hmaxP rp hrp hp0 hp1
  obtain ⟨_, c, hc⟩ := chosenRegion_in_bounds R r maxR _ hr hmaxR rr hrr hr0 hr1
  unfold pps.PartitionedPPSDataLoader.selectPart
  split
  · exact ⟨_, rfl⟩
  · rw [hp]
    exact ⟨_, rfl⟩
  · rw [hc]
    exact ⟨_, rfl⟩
  · rw [hp, hc]
    exact ⟨_, rfl⟩

/-- C30 (the PPS loader never indexes outside its remote lists): for every
configuration with `0 ≤ local_partition < num_partitions`,
`1 ≤ max_partitions ≤ num_partitions` and `1 ≤ max_regions ≤ num_regions`
(`num_partitions = 1` and `num_regions = 1` included), whatever order the
shuffles left `remote_partitions_` and the rows of `remote_regions_` in, for
every product id `≥ 1`, every value of `count_product_parts` and all draws of
`chosen_partition_index` in `[0, max_partitions - 1]` and of
`chosen_region_index` in `[0, max_regions - 1]`: the row
`remote_regions_[product_region]` exists, and every iteration of the category
branch reads `remote_partitions_` and that row inside their bounds, so the
branch yields one part per draw. -/
theorem pps_loader_remote_index_in_bounds (num_partitions num_regions local_partition : Int)
    (max_regions max_partitions : Int)
    (hl0 : 0 ≤ local_partition) (hl1 : local_partition < num_partitions)
    (_hP0 : 1 ≤ max_partitions) (hP1 : max_partitions ≤ num_partitions)
    (hR0 : 1 ≤ max_regions) (hR1 : max_regions ≤ num_regions)
    (remote_partitions_ : List Int)
    (hrp : remote_partitions_.Perm
      (pps.PartitionedPPSDataLoader.remotePartitions num_partitions local_partition))
    (remote_regions_ : List (List Int))
    (hrr : List.Forall₂ List.Perm remote_regions_
      (pps.PartitionedPPSDataLoader.remoteRegions num_regions))
    (count_product_parts product_id : Int) (hid : 1 ≤ product_id)
    (draws : List pps.PartitionedPPSDataLoader.PartDraw)
    (hd : ∀ d ∈ draws, (0 ≤ d.chosen_partition_index ∧ d.chosen_partition_index ≤ max_partitions - 1) ∧
      (0 ≤ d.chosen_region_index ∧ d.chosen_region_index ≤ max_regions - 1)) :
    (∃ row, vectorAt remote_regions_
        (pps.PartitionedPPSDataLoader.computeRegion num_partitions num_regions product_id) = some row ∧
      (row.length : Int) = num_regions - 1) ∧
    ((remote_partitions_.length : Int) = num_partitions - 1) ∧
    (∀ d ∈ draws,
      (∃ p, pps.PartitionedPPSDataLoader.chosenPartition remote_partitions_ max_partitions
        local_partition d.chosen_partition_index = some p) ∧
      (∃ c, pps.PartitionedPPSDataLoader.chosenRegion remote_regions_ max_regions
        (pps.PartitionedPPSDataLoader.computeRegion num_partitions num_regions product_id)
        d.chosen_region_index = some c)) ∧
    ∃ parts, pps.PartitionedPPSDataLoader.selectParts num_partitions num_regions local_partition
      max_regions max_partitions remote_partitions_ remote_regions_ count_product_parts product_id
      draws = some parts ∧ parts.length = draws.length := by
  obtain ⟨P, rfl⟩ := Int.eq_ofNat_of_zero_le (by omega : 0 ≤ num_partitions)
  obtain ⟨R, rfl⟩ := Int.eq_ofNat_of_zero_le (by omega : 0 ≤ num_regions)
  obtain ⟨l, rfl⟩ := Int.eq_ofNat_of_zero_le hl0
  obtain ⟨id, rfl⟩ := Int.eq_ofNat_of_zero_le (by omega : 0 ≤ product_id)
  have hlP : l < P := by exact_mod_cast hl1
  have hid1 : 1 ≤ id := by exact_mod_cast hid
  have hR : 0 < R := by omega
  rw [pps_computeRegion_eq id P R hid1]
  have hr : (id - 1) / P % R < R := Nat.mod_lt _ hR
  generalize (id - 1) / P % R = r at hr
  have hrow := (chosenRegion_in_bounds R r max_regions 0 hr hR1 remote_regions_ hrr (le_refl 0)
    (by omega)).1
  have hplen : remote_partitions_.length = P - 1 := by
    rw [hrp.length_eq, remotePartitions_length P l hlP]
  refine ⟨?_, by omega, ?_, ?_⟩
  · obtain ⟨row, h1, h2⟩ := hrow
    exact ⟨row, h1, by omega⟩
  · intro d hdm
    obtain ⟨⟨a1, a2⟩, ⟨b1, b2⟩⟩ := hd d hdm
    exact ⟨chosenPartition_in_bounds P l max_partitions _ hlP hP1 remote_partitions_ hrp a1 a2,
      (chosenRegion_in_bounds R r max_regions _ hr hR1 remote_regions_ hrr b1 b2).2⟩
  · unfold pps.PartitionedPPSDataLoader.selectParts
    rw [pps_computeRegion_eq id P R hid1]
    simp only
    generalize (Int.tmod (Int.tdiv count_product_parts (R : Int)) 4).toNat = category
    have hr' : (id - 1) / P % R < R := Nat.mod_lt _ hR
    generalize (id - 1) / P % R = r' at hr'
    clear hrow
    induction draws with
    | nil => exact ⟨[], rfl, rfl⟩
    | cons d rest ih =>
      obtain ⟨⟨a1, a2⟩, ⟨b1, b2⟩⟩ := hd d (List.mem_cons_self _ _)
      obtain ⟨part, hpart⟩ := selectPart_in_bounds P R l r' max_regions max_partitions hlP hr' hP1
        hR1 remote_partitions_ hrp remote_regions_ hrr category d a1 a2 b1 b2
      obtain ⟨parts, hparts, hlen⟩ := ih (fun x hx => hd x (List.mem_cons_of_mem _ hx))
      refine ⟨part :: parts, ?_, by simp [hlen]⟩
      rw [List.mapM_cons, hpart, hparts]
      rfl

/-- C30 on a single partition and a single region (both remote lists empty) and
on three partitions and two regions with shuffled lists. -/
theorem pps_loader_remote_index_in_bounds_witness :
    pps.PartitionedPPSDataLoader.selectParts 1 1 0 1 1 [] [[]] 3 5
      [{ chosen_partition_index := 0, chosen_region_index := 0, part_index_within_class := 2 }] =
      some [2] ∧
    ∃ parts, pps.PartitionedPPSDataLoader.selectParts 3 2 1 2 3 [2, 0] [[1], [0]] 7 5
      [{ chosen_partition_index := 1, chosen_region_index := 0, part_index_within_class := 2 },
       { chosen_partition_index := 2, chosen_region_index := 1, part_index_within_class := 1 }] =
      some parts ∧ parts.length = 2 :=
  ⟨by decide,
    (pps_loader_remote_index_in_bounds 3 2 1 2 3 (by decide) (by decide) (by decide) (by decide)
      (by decide) (by decide) [2, 0] (by decide) [[1], [0]] (by decide) 7 5 (by decide)
      [{ chosen_partition_index := 1, chosen_region_index := 0, part_index_within_class := 2 },
       { chosen_partition_index := 2, chosen_region_index := 1, part_index_within_class := 1 }]
      (by
        intro d hd
        simp only [List.mem_cons, List.mem_singleton, List.not_mem_nil, or_false] at hd
        rcases hd with rfl | rfl <;> decide)).2.2.2⟩

/-- Writing the values of pairwise distinct slots into a list: every slot holds
its value afterwards and the length is unchanged. -/
theorem set_slots_spec (pairs : List (Int × Int)) (init : List Int)
    (hn : (pairs.map Prod.fst).Nodup) (hr : ∀ p ∈ pairs, 1 ≤ p.1 ∧ p.1 ≤ (init.length : Int)) :
    (pairs.foldl (fun acc p => acc.set (p.1 - 1).toNat p.2) init).length = init.length ∧
    ∀ p ∈ pairs,
      (pairs.foldl (fun acc p => acc.set (p.1 - 1).toNat p.2) init).getD (p.1 - 1).toNat 0 = p.2 := by
  induction pairs using List.reverseRecOn with
  | nil => exact ⟨rfl, fun p hp => absurd hp (List.not_mem_nil p)⟩
  | append_singleton l q ih =>
    rw [List.map_append, List.nodup_append] at hn
    obtain ⟨hn1, _, hdisj⟩ := hn
    obtain ⟨ihlen, ihval⟩ := ih hn1 (fun p hp => hr p (List.mem_append_left _ hp))
    have hq := hr q (List.mem_append_right _ (List.mem_singleton_self q))
    rw [List.foldl_append]
    simp only [List.foldl_cons, List.foldl_nil]
    refine ⟨by rw [List.length_set, ihlen], ?_⟩
    intro p hp
    rw [getD_set_int _ _ _ _ (by rw [ihlen]; omega)]
    rcases List.mem_append.1 hp with hp | hp
    · have hne : p.1 ≠ q.1 := by
        intro he
        exact hdisj (List.mem_map_of_mem Prod.fst hp) (by rw [he]; simp)
      have hp1 := hr p (List.mem_append_left _ hp)
      rw [if_neg (by omega)]
      exact ihval p hp
    · rw [List.mem_singleton.1 hp, if_pos rfl]

/-- The loop of `NextTransaction` over the keys of `prev_txn_`, when every key
carries a slot index in `1..K` and a value. -/
theorem retrievePart_fold (K : Nat) (keys : List KeyEntry) (pairs : List (Int × Int))
    (init : List Int)
    (hk : keys.map (fun k => (memcpyInt k.key 5, memcpyInt k.value 0)) =
      pairs.map (fun p => (some p.1, some p.2)))
    (hr : ∀ p ∈ pairs, 1 ≤ p.1 ∧ p.1 ≤ (K : Int)) (hlen : init.length = K) :
    keys.foldlM (PPSWorkload.retrievePart K) init =
      some (pairs.foldl (fun acc p => acc.set (p.1 - 1).toNat p.2) init) := by
  induction keys generalizing pairs init with
  | nil =>
    cases pairs with
    | nil => rfl
    | cons p ps => simp at hk
  | cons k ks ih =>
    cases pairs with
    | nil => simp at hk
    | cons p ps =>
      simp only [List.map_cons, List.cons.injEq, Prod.mk.injEq] at hk
      obtain ⟨⟨h1, h2⟩, h3⟩ := hk
      have hp := hr p (List.mem_cons_self _ _)
      have hstep : PPSWorkload.retrievePart K init k = some (init.set (p.1 - 1).toNat p.2) := by
        unfold PPSWorkload.retrievePart
        rw [h1, h2]
        simp only [Option.bind_eq_bind, Option.some_bind]
        rw [if_pos ⟨by omega, hp.2⟩, if_pos (by omega)]
      rw [List.foldlM_cons, hstep]
      simp only [Option.bind_eq_bind, Option.some_bind, List.foldl_cons]
      exact ih ps _ h3 (fun x hx => hr x (List.mem_cons_of_mem _ hx))
        (by rw [List.length_set, hlen])
/-- `K` pairwise distinct slot indices in `1..K` cover every slot. -/
theorem slots_cover (K : Nat) (slots : List Int) (hn : slots.Nodup) (hlen : slots.length = K)
    (hr : ∀ s ∈ slots, 1 ≤ s ∧ s ≤ (K : Int)) (s : Int) (h1 : 1 ≤ s) (h2 : s ≤ (K : Int)) :
    s ∈ slots := by
  have hsub : slots ⊆ (List.range' 1 K).map fun (i : Nat) => (i : Int) := by
    intro x hx
    obtain ⟨a, b⟩ := hr x hx
    rw [List.mem_map]
    refine ⟨x.toNat, ?_, by omega⟩
    rw [List.mem_range'_1]
    omega
  have hperm := (List.subperm_of_subset hn hsub).perm_of_length_le (by simp [hlen])
  rw [hperm.mem_iff, List.mem_map]
  refine ⟨s.toNat, ?_, by omega⟩
  rw [List.mem_range'_1]
  omega

/-- The category `CHECK` of `orderProductTransaction` passes for every positive
product id. -/
theorem order_product_category (P R p : Int) (hP : 1 ≤ P) (hR : 1 ≤ R) (hp : 1 ≤ p) :
    Int.tdiv (Int.tmod (p - 1) (4 * P * R)) (P * R) ≥ 0 ∧
      Int.tdiv (Int.tmod (p - 1) (4 * P * R)) (P * R) < 4 := by
  have hPR : 0 < P * R := Int.mul_pos (by omega) (by omega)
  have h4 : 4 * P * R = 4 * (P * R) := by ring
  rw [h4, Int.tmod_eq_emod (by omega) (by omega)]
  have hx0 : 0 ≤ (p - 1) % (4 * (P * R)) := Int.emod_nonneg _ (by omega)
  have hx1 : (p - 1) % (4 * (P * R)) < 4 * (P * R) := Int.emod_lt_of_pos _ (by omega)
  rw [Int.tdiv_eq_ediv hx0 (by omega)]
  exact ⟨Int.ediv_nonneg hx0 (by omega), Int.ediv_lt_of_lt_mul hPR hx1⟩

/-- C22 (PPS dependent transaction): when `prev_txn_` holds a completed
`get_parts_by_product` for product `p` with exactly `kPartsPerProduct` keys, key
`i` carrying the slot index `s_i` in `1..K` (little-endian `int` at byte offset
5 of the key) and the value `v_i`, the slot indices pairwise distinct (so every
slot `1..K` is carried by a key), then `NextTransaction` returns the arguments
`"order_product", decimal(p), part of slot 1, ..., part of slot K` where the
part of slot `s_i` is `v_i`, the profile says `SECOND_PHASE`, and `prev_txn_` is
null afterwards. When `prev_txn_` is null on entry the call never returns
`SECOND_PHASE`. `pairs` lists `(s_i, v_i)` in the order of the keys. -/
theorem pps_dependent_transaction (K KS : Nat) (wr : pps.Op → Bool) (w : PPSWorkload)
    (rnd : PPSWorkload.Rand) :
    (∀ (prev : ReturnedTransaction) (p : Int) (pairs : List (Int × Int)),
      w.prev_txn_ = some prev →
      prev.procedures = [["get_parts_by_product", to_string p]] →
      prev.keys.length = K →
      prev.keys.map (fun k => (memcpyInt k.key 5, memcpyInt k.value 0)) =
        pairs.map (fun q => (some q.1, some q.2)) →
      (∀ q ∈ pairs, 1 ≤ q.1 ∧ q.1 ≤ (K : Int)) →
      (pairs.map Prod.fst).Nodup →
      w.parts_to_retrieve_.length = K →
      1 ≤ w.num_partitions_ → 1 ≤ w.num_regions_ →
      1 ≤ p → p ≤ w.num_products_ → w.num_products_ < 2 ^ 31 →
      ∃ (w' : PPSWorkload) (e : Emitted pps.Op) (parts : List Int),
        PPSWorkload.NextTransaction K KS wr w rnd = some (w', e) ∧
        parts.length = K ∧
        (∀ q ∈ pairs, parts.getD (q.1 - 1).toNat 0 = q.2) ∧
        (∀ s : Int, 1 ≤ s → s ≤ (K : Int) → s ∈ pairs.map Prod.fst) ∧
        e.procedure = "order_product" :: to_string p :: parts.map to_string ∧
        e.profile.dependency_type = some DependencyType.SECOND_PHASE ∧
        w'.prev_txn_ = none) ∧
    (w.prev_txn_ = none → ∀ w' e,
      PPSWorkload.NextTransaction K KS wr w rnd = some (w', e) →
      e.profile.dependency_type ≠ some DependencyType.SECOND_PHASE) := by
  constructor
  · intro prev p pairs hprev hproc hklen hk hr hn hlen hP hR hp1 hp2 h32
    have hfold := retrievePart_fold K prev.keys pairs w.parts_to_retrieve_ hk hr hlen
    obtain ⟨hslen, hsval⟩ := set_slots_spec pairs w.parts_to_retrieve_ hn
      (fun q hq => by rw [hlen]; exact hr q hq)
    have hplen : pairs.length = K := by
      have := congrArg List.length hk
      simp only [List.length_map] at this
      omega
    have hcat := order_product_category w.num_partitions_ w.num_regions_ p hP hR hp1
    have hnext : PPSWorkload.NextTransaction K KS wr w rnd =
        some ({ w with
                parts_to_retrieve_ :=
                  pairs.foldl (fun acc q => acc.set (q.1 - 1).toNat q.2) w.parts_to_retrieve_,
                prev_txn_ := none,
                client_txn_id_counter_ := w.client_txn_id_counter_ + 1 },
              PPSWorkload.emit K KS wr
                { PPSWorkload.startProfile w with
                  dependency_type := some DependencyType.SECOND_PHASE }
                (pps.Procedure.order_product p
                  (pairs.foldl (fun acc q => acc.set (q.1 - 1).toNat q.2) w.parts_to_retrieve_))
                ("order_product" :: to_string p ::
                  (pairs.foldl (fun acc q => acc.set (q.1 - 1).toNat q.2)
                    w.parts_to_retrieve_).map to_string)) := by
      unfold PPSWorkload.NextTransaction
      simp only [hprev]
      rw [if_neg (by simp [hklen])]
      simp only [hfold, hproc, Option.bind_eq_bind, Option.some_bind, List.get?_cons_zero,
        List.get?_cons_succ, stoi_to_string p (by omega) (by omega), Except.toOption]
      rw [if_pos ⟨by omega, hp2⟩]
      unfold PPSWorkload.orderProductTransaction
      simp only
      rw [if_pos hcat]
      rfl
    refine ⟨_, _, pairs.foldl (fun acc q => acc.set (q.1 - 1).toNat q.2) w.parts_to_retrieve_, hnext,
      by rw [hslen, hlen], hsval,
      fun s h1 h2 => slots_cover K _ hn (by simp [hplen]) (fun x hx => by
        obtain ⟨q, hq, rfl⟩ := List.mem_map.1 hx
        exact hr q hq) s h1 h2, ?_, ?_, ?_⟩ <;> rfl
  · intro hnone w' e h
    unfold PPSWorkload.NextTransaction at h
    simp only [hnone] at h
    split at h
    all_goals first
      | (simp only [Option.map_eq_some'] at h
         obtain ⟨_, _, h⟩ := h
         cases h
         simp [PPSWorkload.emit, PPSWorkload.startProfile])
      | (cases h
         simp [PPSWorkload.emit, PPSWorkload.startProfile])
      | cases h
/-- C22 on a generator with two parts per product that holds the completed
first phase for product 13, whose keys came back in the order slot 2, slot 1:
the call emits `order_product 13 1 4` as second phase. -/
theorem pps_dependent_transaction_witness :
    (PPSWorkload.NextTransaction 2 2 (fun _ => true) PPSWorkload.sampleSecondPhase
        PPSWorkload.sampleRand).map (fun r => (r.2.procedure, r.2.profile.dependency_type,
          r.1.prev_txn_)) =
      some (["order_product", "13", "1", "4"], some DependencyType.SECOND_PHASE, none) ∧
    ∃ (w' : PPSWorkload) (e : Emitted pps.Op) (parts : List Int),
      PPSWorkload.NextTransaction 2 2 (fun _ => true) PPSWorkload.sampleSecondPhase
        PPSWorkload.sampleRand = some (w', e) ∧
      parts.length = 2 ∧
      (∀ q ∈ [((2 : Int), (4 : Int)), (1, 1)], parts.getD (q.1 - 1).toNat 0 = q.2) ∧
      (∀ s : Int, 1 ≤ s → s ≤ ((2 : Nat) : Int) → s ∈ [((2 : Int), (4 : Int)), (1, 1)].map Prod.fst) ∧
      e.procedure = "order_product" :: to_string 13 :: parts.map to_string ∧
      e.profile.dependency_type = some DependencyType.SECOND_PHASE ∧
      w'.prev_txn_ = none :=
  ⟨by rfl,
    (pps_dependent_transaction 2 2 (fun _ => true) PPSWorkload.sampleSecondPhase
      PPSWorkload.sampleRand).1
      { keys := [{ key := [13, 0, 0, 0, 3, 2, 0, 0, 0], value := [4, 0, 0, 0] },
                 { key := [13, 0, 0, 0, 3, 1, 0, 0, 0], value := [1, 0, 0, 0] }],
        procedures := [["get_parts_by_product", "13"]] }
      13 [(2, 4), (1, 1)] rfl rfl rfl (by decide) (by decide) (by decide) rfl (by decide) (by decide)
      (by decide) (by decide) (by decide)⟩

/-- C23 as stated fails for `mh = 0`: a generator that holds both completed
first phases of an amalgamate (`pending_amalgamate_txn_` and
`previous_amalgamate_txn_`) does not emit the amalgamate; the guard
`params_.GetDouble(MH) != 0` sends the call to the `else` branch, which emits a
fresh first phase and leaves both pointers set. -/
theorem smallbank_amalgamate_not_emitted_when_mh_zero :
    (SmallBankWorkload.NextTransaction (fun _ => true) (SmallBankWorkload.sampleAmalgamate 0)
        SmallBankWorkload.sampleRand).map
      (fun r => (r.2.procedure, r.2.profile.dependency_type, r.1.pending_amalgamate_txn_.isSome,
        r.1.previous_amalgamate_txn_.isSome)) =
      some (["getCustomerIdByName", smallbank.clientName 3], some DependencyType.FIRST_PHASE, true,
        true) := by
  simp [SmallBankWorkload.NextTransaction, SmallBankWorkload.sampleAmalgamate,
    SmallBankWorkload.freshTransaction, SmallBankWorkload.sampleRand, SmallBankWorkload.firstPhase]

/-- C23 (corrected): on entry to `SmallBankWorkload::NextTransaction`, the first
pending first-phase result in the order balance, deposit, saving, writecheck
(for every parameter setting), or, when none of these is set and `mh` is not 0,
the pair `previous_amalgamate_txn_`, `pending_amalgamate_txn_`, is consumed: the
call emits the corresponding follow-up for the customer id(s) read from the
value of the single key, as `SECOND_PHASE`, and clears the pointers it
consumed. -/
theorem smallbank_pending_follow_up (wr : smallbank.Op → Bool) (w : SmallBankWorkload)
    (rnd : SmallBankWorkload.Rand) :
    (∀ t id, w.pending_balance_txn_ = some t → SmallBankWorkload.returnedId t = some id →
      ∃ w' e, SmallBankWorkload.NextTransaction wr w rnd = some (w', e) ∧
        e.procedure = ["balance", w.client_names_by_id_ id, to_string id] ∧
        e.profile.dependency_type = some DependencyType.SECOND_PHASE ∧
        w'.pending_balance_txn_ = none) ∧
    (∀ t id, w.pending_balance_txn_ = none → w.pending_deposit_txn_ = some t →
      SmallBankWorkload.returnedId t = some id →
      ∃ w' e, SmallBankWorkload.NextTransaction wr w rnd = some (w', e) ∧
        e.procedure = ["depositChecking", w.client_names_by_id_ id, to_string id,
          to_string rnd.amount] ∧
        e.profile.dependency_type = some DependencyType.SECOND_PHASE ∧
        w'.pending_deposit_txn_ = none) ∧
    (∀ t id, w.pending_balance_txn_ = none → w.pending_deposit_txn_ = none →
      w.pending_saving_txn_ = some t → SmallBankWorkload.returnedId t = some id →
      ∃ w' e, SmallBankWorkload.NextTransaction wr w rnd = some (w', e) ∧
        e.procedure = ["transactionSaving", w.client_names_by_id_ id, to_string id,
          to_string rnd.amount] ∧
        e.profile.dependency_type = some DependencyType.SECOND_PHASE ∧
        w'.pending_saving_txn_ = none) ∧
    (∀ t id, w.pending_balance_txn_ = none → w.pending_deposit_txn_ = none →
      w.pending_saving_txn_ = none → w.pending_writecheck_txn_ = some t →
      SmallBankWorkload.returnedId t = some id →
      ∃ w' e, SmallBankWorkload.NextTransaction wr w rnd = some (w', e) ∧
        e.procedure = ["writecheck", w.client_names_by_id_ id, to_string id,
          to_string rnd.amount] ∧
        e.profile.dependency_type = some DependencyType.SECOND_PHASE ∧
        w'.pending_writecheck_txn_ = none) ∧
    (∀ t1 t2 id1 id2, w.pending_balance_txn_ = none → w.pending_deposit_txn_ = none →
      w.pending_saving_txn_ = none → w.pending_writecheck_txn_ = none →
      w.previous_amalgamate_txn_ = some t1 → w.pending_amalgamate_txn_ = some t2 →
      w.mh ≠ 0 →
      SmallBankWorkload.returnedId t1 = some id1 → SmallBankWorkload.returnedId t2 = some id2 →
      ∃ w' e, SmallBankWorkload.NextTransaction wr w rnd = some (w', e) ∧
        e.procedure = ["amalgamate", w.client_names_by_id_ id1, w.client_names_by_id_ id2,
          to_string id1, to_string id2] ∧
        e.profile.dependency_type = some DependencyType.SECOND_PHASE ∧
        w'.pending_amalgamate_txn_ = none ∧ w'.previous_amalgamate_txn_ = none) := by
  refine ⟨?_, ?_, ?_, ?_, ?_⟩
  · intro t id h1 hid
    unfold SmallBankWorkload.NextTransaction
    simp only [h1, hid, Option.map_some']
    exact ⟨_, _, rfl, rfl, rfl, rfl⟩
  · intro t id h1 h2 hid
    unfold SmallBankWorkload.NextTransaction
    simp only [h1, h2, hid, Option.map_some']
    exact ⟨_, _, rfl, rfl, rfl, rfl⟩
  · intro t id h1 h2 h3 hid
    unfold SmallBankWorkload.NextTransaction
    simp only [h1, h2, h3, hid, Option.map_some']
    exact ⟨_, _, rfl, rfl, rfl, rfl⟩
  · intro t id h1 h2 h3 h4 hid
    unfold SmallBankWorkload.NextTransaction
    simp only [h1, h2, h3, h4, hid, Option.map_some']
    exact ⟨_, _, rfl, rfl, rfl, rfl⟩
  · intro t1 t2 id1 id2 h1 h2 h3 h4 h5 h6 hmh hid1 hid2
    unfold SmallBankWorkload.NextTransaction
    simp only [h1, h2, h3, h4, h5, h6, hid1, hid2, if_pos hmh, Option.bind_eq_bind,
      Option.some_bind]
    exact ⟨_, _, rfl, rfl, rfl, rfl, rfl⟩

/-- C23 (corrected) on a generator with `mh = 50` that holds both completed
first phases of an amalgamate, for clients 1 and 2: the call emits
`amalgamate` for the two clients and clears both pointers. -/
theorem smallbank_pending_follow_up_witness :
    ∃ w' e, SmallBankWorkload.NextTransaction (fun _ => true) (SmallBankWorkload.sampleAmalgamate 50)
        SmallBankWorkload.sampleRand = some (w', e) ∧
      e.procedure = ["amalgamate", (SmallBankWorkload.sampleAmalgamate 50).client_names_by_id_ 1,
        (SmallBankWorkload.sampleAmalgamate 50).client_names_by_id_ 2, to_string 1, to_string 2] ∧
      e.profile.dependency_type = some DependencyType.SECOND_PHASE ∧
      w'.pending_amalgamate_txn_ = none ∧ w'.previous_amalgamate_txn_ = none :=
  (smallbank_pending_follow_up (fun _ => true) (SmallBankWorkload.sampleAmalgamate 50)
    SmallBankWorkload.sampleRand).2.2.2.2 _ _ 1 2 rfl rfl rfl rfl rfl rfl
    (by norm_num [SmallBankWorkload.sampleAmalgamate]) (by rfl) (by rfl)
/-- `SmallBankSharder` and `SmallBankMetadataInitializer` on a key that starts
with the encoding of a client id and is not 26 bytes long. -/
theorem SmallBank_id_key (cs : Bool) (i P R : Nat) (hi : i < 2 ^ 31) (s : Bytes)
    (hs : s.length ≠ 22) :
    SmallBankSharder.compute_partition cs P (encode32le i ++ s) = some (i % P) ∧
    smallbank.SmallBankMetadataInitializer.Compute cs R P (encode32le i ++ s) = some (i / P % R) := by
  have hlen : (encode32le i ++ s).length ≠ 26 := by
    simp only [encode32le, List.length_append, List.length_cons, List.length_nil]
    omega
  unfold SmallBankSharder.compute_partition smallbank.SmallBankMetadataInitializer.Compute
  rw [if_neg hlen, if_neg hlen, readU32_encode32le i (by omega)]
  simp only [Option.map_some', Option.some.injEq, and_true]
  rw [toInt32_of_lt i hi, ofInt32_natCast i (by omega)]

/-- No call of the PPS generator sets a locality flag of the profile. -/
theorem pps_profile_flags (K KS : Nat) (wr : pps.Op → Bool) (w : PPSWorkload)
    (rnd : PPSWorkload.Rand) (w' : PPSWorkload) (e : Emitted pps.Op)
    (h : PPSWorkload.NextTransaction K KS wr w rnd = some (w', e)) :
    e.profile.is_multi_home = false ∧ e.profile.is_multi_partition = false := by
  unfold PPSWorkload.NextTransaction at h
  cases hprev : w.prev_txn_ with
  | some prev =>
    simp only [hprev] at h
    split at h
    · cases h
    · simp only [Option.bind_eq_bind, Option.bind_eq_some] at h
      obtain ⟨parts, _, arg, _, product_id, _, h⟩ := h
      split at h
      · simp only [Option.bind_eq_some] at h
        obtain ⟨e', he', h⟩ := h
        cases h
        unfold PPSWorkload.orderProductTransaction at he'
        simp only at he'
        split at he'
        · cases he'
          exact ⟨rfl, rfl⟩
        · cases he'
      · cases h
  | none =>
    simp only [hprev] at h
    split at h
    all_goals first
      | (simp only [Option.map_eq_some'] at h
         obtain ⟨_, _, h⟩ := h
         cases h
         exact ⟨rfl, rfl⟩)
      | (cases h
         exact ⟨rfl, rfl⟩)
      | cases h

/-- A first phase of the SmallBank generator leaves the locality flags as they
are. -/
theorem smallbank_fresh_flags (wr : smallbank.Op → Bool) (pro : TransactionProfile)
    (rnd : SmallBankWorkload.Rand) (e : Emitted smallbank.Op)
    (h : SmallBankWorkload.freshTransaction wr pro rnd = some e) :
    e.profile.is_multi_home = pro.is_multi_home ∧
      e.profile.is_multi_partition = pro.is_multi_partition := by
  unfold SmallBankWorkload.freshTransaction at h
  split at h <;> first
    | (cases h
       exact ⟨rfl, rfl⟩)
    | cases h

/-- No call of the SmallBank generator sets a locality flag of the profile. -/
theorem smallbank_profile_flags (wr : smallbank.Op → Bool) (w : SmallBankWorkload)
    (rnd : SmallBankWorkload.Rand) (w' : SmallBankWorkload) (e : Emitted smallbank.Op)
    (h : SmallBankWorkload.NextTransaction wr w rnd = some (w', e)) :
    e.profile.is_multi_home = false ∧ e.profile.is_multi_partition = false := by
  unfold SmallBankWorkload.NextTransaction at h
  simp only at h
  split at h
  · simp only [Option.map_eq_some'] at h
    obtain ⟨_, _, h⟩ := h
    cases h
    exact ⟨rfl, rfl⟩
  · split at h
    · simp only [Option.map_eq_some'] at h
      obtain ⟨_, _, h⟩ := h
      cases h
      exact ⟨rfl, rfl⟩
    · split at h
      · simp only [Option.map_eq_some'] at h
        obtain ⟨_, _, h⟩ := h
        cases h
        exact ⟨rfl, rfl⟩
      · split at h
        · simp only [Option.map_eq_some'] at h
          obtain ⟨_, _, h⟩ := h
          cases h
          exact ⟨rfl, rfl⟩
        · split at h
          · simp only [Option.map_eq_some'] at h
            obtain ⟨_, _, h⟩ := h
            cases h
            exact ⟨rfl, rfl⟩
          · split at h
            · simp only [Option.bind_eq_bind, Option.bind_eq_some] at h
              obtain ⟨_, _, _, _, h⟩ := h
              cases h
              exact ⟨rfl, rfl⟩
            · simp only [Option.map_eq_some'] at h
              obtain ⟨e', he', h⟩ := h
              cases h
              exact smallbank_fresh_flags wr _ rnd _ he'
          · simp only [Option.map_eq_some'] at h
            obtain ⟨e', he', h⟩ := h
            cases h
            exact smallbank_fresh_flags wr _ rnd _ he'

/-- `SmallBankSharder` and `SmallBankMetadataInitializer` on a key made of a
24-byte name and two more bytes. -/
theorem SmallBank_name_key (cs : Bool) (P R : Nat) (n : Bytes) (hn : n.length = 24) (b1 b2 : Nat) :
    SmallBankSharder.compute_partition cs P (n ++ [b1, b2]) = some (murmurhash3 cs n % P) ∧
    smallbank.SmallBankMetadataInitializer.Compute cs R P (n ++ [b1, b2]) =
      some (smallbank.murmurhash3 cs n / P % R) := by
  have hlen : (n ++ [b1, b2]).length = 26 := by simp [hn]
  have htake : (n ++ [b1, b2]).take 24 = n := by
    rw [← hn, List.take_left']
    rfl
  unfold SmallBankSharder.compute_partition smallbank.SmallBankMetadataInitializer.Compute
  rw [if_pos hlen, if_pos hlen, htake]
  exact ⟨rfl, rfl⟩
/-- C21: the PPS and SmallBank generators never set `is_multi_home` or
`is_multi_partition`, so the profile says single-home and single-partition for
every transaction, also for those whose keys span regions and partitions. On
two partitions and two regions: the second phase `order_product 13 1 4` touches
the ProductParts key `(13, 1)` (home 0, partition 0) and the Part key 4 (home 1,
partition 1); the second phase `balance` for client 1 touches the Accounts key
of its name (home 1, partition 0) and the Checking key 1 (home 0, partition 1).
Both profiles carry `is_multi_home = false` and `is_multi_partition = false`. -/
theorem generator_profile_flags_never_set :
    (∀ (K KS : Nat) (wr : pps.Op → Bool) (w : PPSWorkload) (rnd : PPSWorkload.Rand)
        (w' : PPSWorkload) (e : Emitted pps.Op),
      PPSWorkload.NextTransaction K KS wr w rnd = some (w', e) →
      e.profile.is_multi_home = false ∧ e.profile.is_multi_partition = false) ∧
    (∀ (wr : smallbank.Op → Bool) (w : SmallBankWorkload) (rnd : SmallBankWorkload.Rand)
        (w' : SmallBankWorkload) (e : Emitted smallbank.Op),
      SmallBankWorkload.NextTransaction wr w rnd = some (w', e) →
      e.profile.is_multi_home = false ∧ e.profile.is_multi_partition = false) ∧
    (∃ (w' : PPSWorkload) (e : Emitted pps.Op),
      PPSWorkload.NextTransaction 2 2 (fun _ => true) PPSWorkload.sampleSecondPhase
        PPSWorkload.sampleRand = some (w', e) ∧
      e.procedure = ["order_product", "13", "1", "4"] ∧
      e.profile.is_multi_home = false ∧ e.profile.is_multi_partition = false ∧
      pps.productPartsKey 13 1 ∈ e.ops.map pps.Op.key ∧ pps.partKey 4 ∈ e.ops.map pps.Op.key ∧
      ∀ s1 s2 : Bytes,
        pps.PPSMetadataInitializer.Compute 2 2 (pps.storageKey (pps.productPartsKey 13 1) s1) = some 0 ∧
        pps.PPSMetadataInitializer.Compute 2 2 (pps.storageKey (pps.partKey 4) s2) = some 1 ∧
        PPSSharder.compute_partition 2 (pps.storageKey (pps.productPartsKey 13 1) s1) = some 0 ∧
        PPSSharder.compute_partition 2 (pps.storageKey (pps.partKey 4) s2) = some 1) ∧
    (∃ (w' : SmallBankWorkload) (e : Emitted smallbank.Op),
      SmallBankWorkload.NextTransaction (fun _ => true) SmallBankWorkload.sampleBalance
        SmallBankWorkload.sampleRand = some (w', e) ∧
      e.procedure = ["balance", smallbank.clientName 1, "1"] ∧
      e.profile.is_multi_home = false ∧ e.profile.is_multi_partition = false ∧
      smallbank.RowKey.accounts (smallbank.clientName 1) ∈ e.ops.map smallbank.Op.key ∧
      smallbank.RowKey.checking 1 ∈ e.ops.map smallbank.Op.key ∧
      ∀ (cs : Bool) (b1 b2 : Nat) (s : Bytes), s.length ≠ 22 →
        smallbank.SmallBankMetadataInitializer.Compute cs 2 2
          (smallbank.storageKey (smallbank.RowKey.accounts (smallbank.clientName 1)) [b1, b2]) =
          some 1 ∧
        smallbank.SmallBankMetadataInitializer.Compute cs 2 2
          (smallbank.storageKey (smallbank.RowKey.checking 1) s) = some 0 ∧
        SmallBankSharder.compute_partition cs 2
          (smallbank.storageKey (smallbank.RowKey.accounts (smallbank.clientName 1)) [b1, b2]) =
          some 0 ∧
        SmallBankSharder.compute_partition cs 2
          (smallbank.storageKey (smallbank.RowKey.checking 1) s) = some 1) := by
  refine ⟨pps_profile_flags, smallbank_profile_flags, ?_, ?_⟩
  · refine ⟨_, _, rfl, by decide, rfl, rfl, by decide, by decide, ?_⟩
    intro s1 s2
    have e1 : pps.storageKey (pps.productPartsKey 13 1) s1 =
        encode32le 13 ++ (encode32le 1 ++ s1) := by
      simp [pps.storageKey, pps.productPartsKey, ofInt32, List.flatMap]
    have e2 : pps.storageKey (pps.partKey 4) s2 = encode32le 4 ++ s2 := by
      simp [pps.storageKey, pps.partKey, ofInt32, List.flatMap]
    rw [e1, e2, PPSMetadata_encode 13 2 2 (by decide) (by decide),
      PPSMetadata_encode 4 2 2 (by decide) (by decide),
      PPSSharder_encode 13 2 (by decide) (by decide), PPSSharder_encode 4 2 (by decide) (by decide)]
    exact ⟨rfl, rfl, rfl, rfl⟩
  · refine ⟨_, _, rfl, by decide, rfl, rfl, by decide, by decide, ?_⟩
    intro cs b1 b2 s hs
    have e2 : smallbank.storageKey (smallbank.RowKey.checking 1) s = encode32le 1 ++ s := by
      simp [smallbank.storageKey, ofInt32]
    have e1 : smallbank.storageKey (smallbank.RowKey.accounts (smallbank.clientName 1)) [b1, b2] =
        bytesOf (smallbank.clientName 1) ++ [b1, b2] := rfl
    obtain ⟨h1, h2⟩ := SmallBank_id_key cs 1 2 2 (by decide) s hs
    obtain ⟨h3, h4⟩ := SmallBank_name_key cs 2 2 (bytesOf (smallbank.clientName 1)) (by decide) b1 b2
    rw [e1, e2, h1, h2, h3, h4]
    refine ⟨?_, rfl, ?_, rfl⟩
    · cases cs <;> decide
    · cases cs <;> decide

/-- C21 at the generated second phase `order_product 13 1 4`: the profile that
comes with it says single-home and single-partition. -/
theorem generator_profile_flags_never_set_witness :
    ∃ e : Emitted pps.Op,
      (PPSWorkload.NextTransaction 2 2 (fun _ => true) PPSWorkload.sampleSecondPhase
        PPSWorkload.sampleRand).map Prod.snd = some e ∧
      e.profile.is_multi_home = false ∧ e.profile.is_multi_partition = false :=
  ⟨_, rfl, generator_profile_flags_never_set.1 2 2 (fun _ => true) PPSWorkload.sampleSecondPhase
    PPSWorkload.sampleRand _ _ rfl⟩

/-- The length of what `format_uname` returns: 20 characters for names of at
most 9 characters, 21 characters for names of 10 to 18 characters. -/
theorem format_uname_length (u : String) (h : u.length ≤ 18) :
    ∃ s, dsh.format_uname u = some s ∧ s.length = if u.length ≤ 9 then 20 else 21 := by
  unfold dsh.format_uname
  simp only [gt_iff_lt, Nat.not_lt.2 h, if_false]
  refine ⟨_, rfl, ?_⟩
  simp only [String.length_append, String.length_mk, List.length_replicate]
  generalize hl : u.length = l at h
  have hto : (to_string (l : Int)).length = if l ≤ 9 then 1 else 2 := by
    interval_cases l <;> rfl
  rw [hto]
  have h0 : ("0" : String).length = 1 := rfl
  rw [h0]
  split_ifs <;> omega

/-- C39: `format_uname` on the 10-character name "abcdefghij" returns the 21
characters "010________abcdefghij": the length is written as "0" followed by its
decimal digits, so a two-digit length takes three characters. The key should
have 20 characters and start with the two-digit length "10". -/
theorem format_uname_two_digit_length :
    dsh.format_uname "abcdefghij" = some "010________abcdefghij" ∧
    ("010________abcdefghij" : String).length = 21 ∧
    ("010________abcdefghij" : String).toList.take 2 ≠ ("10" : String).toList := by
  decide

/-- C35: with two regions, local region 0 and the only possible draw 0,
`user_login` computes the region `0 >= 0 ? 0 : 1 = 0`, the local region itself;
with local region 1 the draw 0 gives `0 + 1 = 1`, again the local region. The
comment on the statement says it selects a region which is not the local one.
The computed region does lie in `[0, R)`, and it equals the local region
exactly when the draw is `l` or `l - 1`. -/
theorem user_login_foreign_region_is_local :
    DeathStarHotelWorkload.foreignRegion 0 0 = 0 ∧
    DeathStarHotelWorkload.foreignRegion 1 0 = 1 ∧
    (∀ R l d : Int, 2 ≤ R → 0 ≤ l → l < R → 0 ≤ d → d ≤ R - 2 →
      (0 ≤ DeathStarHotelWorkload.foreignRegion l d ∧
        DeathStarHotelWorkload.foreignRegion l d < R) ∧
      (DeathStarHotelWorkload.foreignRegion l d = l ↔ d = l ∨ d = l - 1)) := by
  refine ⟨by decide, by decide, ?_⟩
  intro R l d _ _ _ _ _
  unfold DeathStarHotelWorkload.foreignRegion
  split_ifs <;> omega

/-- C35 evaluated on three regions with local region 1: the draws 0 and 1 both
give the local region. -/
theorem user_login_foreign_region_is_local_witness :
    (0 ≤ DeathStarHotelWorkload.foreignRegion 1 0 ∧ DeathStarHotelWorkload.foreignRegion 1 0 < 3) ∧
    (DeathStarHotelWorkload.foreignRegion 1 0 = 1 ↔ (0 : Int) = 1 ∨ (0 : Int) = 1 - 1) :=
  user_login_foreign_region_is_local.2.2 3 1 0 (by decide) (by decide) (by decide) (by decide)
    (by decide)

/-- C36: `sample_once` on a source of 5 elements. With `hot_cnt = 0` (the value
of `num_hot_users_` and `num_hot_hotels_` when no hot set is configured) the
non-hot branch builds the distribution with the lower bound
`0 - 1 = 2^64 - 1` above the upper bound 5. With `hot_cnt = 1` the bounds are
`[0, 5]` and the draw 5 reads `source[5]`, one past the end. With
`hot_cnt = 0` the hot branch draws from `[0, 2^64 - 1]`. -/
theorem sample_once_reads_outside_source :
    DeathStarHotelWorkload.sampleBounds 5 0 false = (2 ^ 64 - 1, 5) ∧
    DeathStarHotelWorkload.sample_once [10, 11, 12, 13, 14] 0 false 3 = none ∧
    DeathStarHotelWorkload.sampleBounds 5 1 false = (0, 5) ∧
    DeathStarHotelWorkload.sample_once [10, 11, 12, 13, 14] 1 false 5 = none ∧
    DeathStarHotelWorkload.sampleBounds 5 0 true = (0, 2 ^ 64 - 1) ∧
    DeathStarHotelWorkload.sample_once [10, 11, 12, 13, 14] 0 true 5 = none := by
  decide
/-- C31: on two partitions and two regions the constructor of
`DeathStarHotelWorkload` files id 2 under home `(2 - 1) / 2 % 2 = 0`, while the
loader's `computeRegion(2) = 2 / 2 % 2 = 1`; id 0 is filed under home
`(2^32 - 1) / 2 % 2 = 1`, while `computeRegion(0) = 0`. The partitions agree for
every id, and the home of every id `i ≥ 1` is the loader's region of `i - 1`:
the generator subtracts 1 from ids that start at 0. -/
theorem dsh_index_home_differs_from_loader :
    DeathStarHotelWorkload.indexHome 2 2 2 = 0 ∧
    dsh.PartitionedDSHLoader.computeRegion 2 2 2 = 1 ∧
    DeathStarHotelWorkload.indexHome 2 2 0 = 1 ∧
    dsh.PartitionedDSHLoader.computeRegion 2 2 0 = 0 ∧
    (∀ P i : Nat, i < 2 ^ 31 →
      DeathStarHotelWorkload.indexPartition P i = dsh.PartitionedDSHLoader.computePartition P (i : Int)) ∧
    (∀ P R i : Nat, 1 ≤ i → i < 2 ^ 31 →
      DeathStarHotelWorkload.indexHome P R i =
        dsh.PartitionedDSHLoader.computeRegion P R ((i : Int) - 1)) := by
  refine ⟨by decide, by decide, by decide, by decide, ?_, ?_⟩
  · intro P i hi
    unfold DeathStarHotelWorkload.indexPartition dsh.PartitionedDSHLoader.computePartition
    rw [ofInt32_natCast i (by omega)]
    have : u32 i = i := by unfold u32; omega
    rw [this]
  · intro P R i h1 hi
    unfold DeathStarHotelWorkload.indexHome dsh.PartitionedDSHLoader.computeRegion
    have e : ((i : Int) - 1) = ((i - 1 : Nat) : Int) := by omega
    rw [e, ofInt32_natCast (i - 1) (by omega)]
    have : u32 (i + 2 ^ 32 - 1) = i - 1 := by unfold u32; omega
    rw [this]

/-- C31 evaluated at id 5 on two partitions and three regions: partition 1 on
both sides, and the generator's home is the loader's region of id 4. -/
theorem dsh_index_home_differs_from_loader_witness :
    DeathStarHotelWorkload.indexPartition 2 5 =
      dsh.PartitionedDSHLoader.computePartition 2 ((5 : Nat) : Int) ∧
    DeathStarHotelWorkload.indexHome 2 3 5 =
      dsh.PartitionedDSHLoader.computeRegion 2 3 (((5 : Nat) : Int) - 1) :=
  ⟨dsh_index_home_differs_from_loader.2.2.2.2.1 2 5 (by decide),
    dsh_index_home_differs_from_loader.2.2.2.2.2 2 3 5 (by decide) (by decide)⟩

/-- Arithmetic of the part layout: the part id of class `(r, p)` with index
`idx ≥ 1` inside the class lies in `[1, num_parts]` and its partition and region
are `p` and `r`. -/
theorem chooseRandomPart_arith (P R N idx r p : Nat) (hidx1 : 1 ≤ idx)
    (hidx : idx ≤ N / (P * R)) (hr : r < R) (hp : p < P) :
    (idx - 1) * P * R + (P * r + p + 1) ≤ N ∧
    ((idx - 1) * P * R + (P * r + p + 1) - 1) % P = p ∧
    ((idx - 1) * P * R + (P * r + p + 1) - 1) / P % R = r := by
  have hN : N / (P * R) * (P * R) ≤ N := Nat.div_mul_le_self _ _
  have h1 : idx * (P * R) ≤ N / (P * R) * (P * R) := Nat.mul_le_mul_right _ hidx
  have hrp : P * r + p + 1 ≤ P * R := by
    have : P * (r + 1) ≤ P * R := Nat.mul_le_mul_left _ (by omega)
    have e : P * (r + 1) = P * r + P := by ring
    omega
  obtain ⟨k, rfl⟩ : ∃ k, idx = k + 1 := ⟨idx - 1, by omega⟩
  simp only [Nat.add_sub_cancel]
  have e0 : k * P * R + (P * r + p + 1) - 1 = k * P * R + (P * r + p) := by omega
  rw [e0]
  refine ⟨?_, ?_, ?_⟩
  · have e1 : (k + 1) * (P * R) = k * P * R + P * R := by ring
    omega
  · have e : k * P * R + (P * r + p) = p + P * (k * R + r) := by ring
    rw [e, Nat.add_mul_mod_self_left, Nat.mod_eq_of_lt hp]
  · have e : k * P * R + (P * r + p) = p + P * (r + R * k) := by ring
    rw [e, Nat.add_mul_div_left _ _ (by omega : 0 < P), Nat.div_eq_of_lt hp, Nat.zero_add,
      Nat.add_mul_mod_self_left, Nat.mod_eq_of_lt hr]

/-- C34 (`chooseRandomPart` returns a part of the requested class): for
`P, R ≥ 1` with `num_parts_per_class = num_parts / (P * R) ≥ 1`, every region
`r` in `[0, R)`, partition `p` in `[0, P)` and every draw in
`[1, num_parts_per_class]`, the returned part id lies in `[1, num_parts]` and
the loader's `computePartition` and `computeRegion` of it are `p` and `r`. -/
theorem choose_random_part_class (num_partitions num_regions num_parts : Int)
    (part_index_within_class chosen_region chosen_partition : Int)
    (hP : 1 ≤ num_partitions) (hR : 1 ≤ num_regions)
    (hc : 1 ≤ Int.tdiv num_parts (num_partitions * num_regions))
    (hr0 : 0 ≤ chosen_region) (hr : chosen_region < num_regions)
    (hp0 : 0 ≤ chosen_partition) (hp : chosen_partition < num_partitions)
    (hd1 : 1 ≤ part_index_within_class)
    (hd : part_index_within_class ≤ Int.tdiv num_parts (num_partitions * num_regions)) :
    1 ≤ pps.PartitionedPPSDataLoader.chooseRandomPart num_partitions num_regions
      part_index_within_class chosen_region chosen_partition ∧
    pps.PartitionedPPSDataLoader.chooseRandomPart num_partitions num_regions
      part_index_within_class chosen_region chosen_partition ≤ num_parts ∧
    pps.PartitionedPPSDataLoader.computePartition num_partitions
      (pps.PartitionedPPSDataLoader.chooseRandomPart num_partitions num_regions
        part_index_within_class chosen_region chosen_partition) = chosen_partition ∧
    pps.PartitionedPPSDataLoader.computeRegion num_partitions num_regions
      (pps.PartitionedPPSDataLoader.chooseRandomPart num_partitions num_regions
        part_index_within_class chosen_region chosen_partition) = chosen_region := by
  obtain ⟨P, rfl⟩ := Int.eq_ofNat_of_zero_le (by omega : 0 ≤ num_partitions)
  obtain ⟨R, rfl⟩ := Int.eq_ofNat_of_zero_le (by omega : 0 ≤ num_regions)
  obtain ⟨r, rfl⟩ := Int.eq_ofNat_of_zero_le hr0
  obtain ⟨p, rfl⟩ := Int.eq_ofNat_of_zero_le hp0
  obtain ⟨idx, rfl⟩ := Int.eq_ofNat_of_zero_le (by omega : 0 ≤ part_index_within_class)
  have hN0 : 0 ≤ num_parts := by
    by_contra hneg
    have h1 : 0 ≤ Int.tdiv (-num_parts) ((P : Int) * (R : Int)) :=
      Int.tdiv_nonneg (by omega) (by positivity)
    rw [Int.neg_tdiv] at h1
    omega
  obtain ⟨N, rfl⟩ := Int.eq_ofNat_of_zero_le hN0
  have etd : Int.tdiv (N : Int) ((P : Int) * (R : Int)) = ((N / (P * R) : Nat) : Int) := by
    rw [Int.tdiv_eq_ediv (by positivity) (by positivity)]
    push_cast
    rfl
  rw [etd] at hd
  have hidx1 : 1 ≤ idx := by exact_mod_cast hd1
  have hidx : idx ≤ N / (P * R) := by exact_mod_cast hd
  have hrR : r < R := by exact_mod_cast hr
  have hpP : p < P := by exact_mod_cast hp
  obtain ⟨a1, a2, a3⟩ := chooseRandomPart_arith P R N idx r p hidx1 hidx hrR hpP
  have eid : pps.PartitionedPPSDataLoader.chooseRandomPart (P : Int) (R : Int) (idx : Int) (r : Int)
      (p : Int) = (((idx - 1) * P * R + (P * r + p + 1) : Nat) : Int) := by
    unfold pps.PartitionedPPSDataLoader.chooseRandomPart
    push_cast [Nat.cast_sub hidx1]
    ring
  rw [eid, pps_computePartition_eq _ P (by omega), pps_computeRegion_eq _ P R (by omega), a2, a3]
  refine ⟨?_, ?_, rfl, rfl⟩
  · have : 1 ≤ (idx - 1) * P * R + (P * r + p + 1) := by omega
    exact_mod_cast this
  · exact_mod_cast a1

/-- C34 at `P = 4`, `R = 3`, 36 parts: the third part of class `(0, 2)` is
part 27. -/
theorem choose_random_part_class_witness :
    pps.PartitionedPPSDataLoader.chooseRandomPart 4 3 3 0 2 = 27 ∧
    1 ≤ pps.PartitionedPPSDataLoader.chooseRandomPart 4 3 3 0 2 ∧
    pps.PartitionedPPSDataLoader.chooseRandomPart 4 3 3 0 2 ≤ 36 ∧
    pps.PartitionedPPSDataLoader.computePartition 4
      (pps.PartitionedPPSDataLoader.chooseRandomPart 4 3 3 0 2) = 2 ∧
    pps.PartitionedPPSDataLoader.computeRegion 4 3
      (pps.PartitionedPPSDataLoader.chooseRandomPart 4 3 3 0 2) = 0 :=
  ⟨by decide, choose_random_part_class 4 3 36 3 0 2 (by decide) (by decide) (by decide) (by decide)
    (by decide) (by decide) (by decide) (by decide) (by decide)⟩

/-- The category of the `k`-th product of a partition, computed from `k` and
computed from the product id. -/
theorem category_arith (P R p k : Nat) (hP : 1 ≤ P) (hR : 1 ≤ R) (hp : p < P) :
    k / R % 4 = (k * P + p) % (4 * P * R) / (P * R) := by
  have hb : k % (4 * R) < 4 * R := Nat.mod_lt _ (by omega)
  have hk : k = k % (4 * R) + 4 * R * (k / (4 * R)) := (Nat.mod_add_div k (4 * R)).symm
  generalize k % (4 * R) = b at hb hk
  generalize k / (4 * R) = a at hk
  subst hk
  have hbR : b / R < 4 := Nat.div_lt_of_lt_mul (by omega)
  have e1 : (b + 4 * R * a) / R = b / R + 4 * a := by
    have : b + 4 * R * a = b + R * (4 * a) := by ring
    rw [this, Nat.add_mul_div_left _ _ (by omega : 0 < R)]
  have hlt : b * P + p < 4 * P * R := by
    have h1 : (b + 1) * P ≤ 4 * R * P := Nat.mul_le_mul_right _ (by omega)
    have e2 : (b + 1) * P = b * P + P := by ring
    have e3 : 4 * R * P = 4 * P * R := by ring
    omega
  have e4 : (b + 4 * R * a) * P + p = (b * P + p) + (4 * P * R) * a := by ring
  have e5 : (b * P + p) / (P * R) = b / R := by
    rw [← Nat.div_div_eq_div_mul]
    have : b * P + p = p + P * b := by ring
    rw [this, Nat.add_mul_div_left _ _ (by omega : 0 < P), Nat.div_eq_of_lt hp, Nat.zero_add]
  rw [e1, Nat.add_mul_mod_self_left, Nat.mod_eq_of_lt hbR, e4, Nat.add_mul_mod_self_left,
    Nat.mod_eq_of_lt hlt, e5]

/-- The products that the loader of partition `p` handles among the ids
`s, s+1, ...` are `j * P + p + 1` for the values `j` of its counter. -/
theorem productVisits_spec (P p : Nat) (hp : p < P) :
    ∀ (len s k : Nat), 1 ≤ s → s ≤ k * P + p + 1 → k * P + p + 1 < s + P →
      ∀ x c, (x, c) ∈ pps.PartitionedPPSDataLoader.productVisits (P : Int) (p : Int)
          ((List.range' s len).map fun (i : Nat) => (i : Int)) (k : Int) →
        ∃ j : Nat, c = (j : Int) ∧ x = ((j * P + p + 1 : Nat) : Int) := by
  intro len
  induction len with
  | zero =>
    intro s k _ _ _ x c h
    simp [pps.PartitionedPPSDataLoader.productVisits] at h
  | succ len ih =>
    intro s k hs h1 h2 x c h
    rw [List.range'_succ, List.map_cons, pps.PartitionedPPSDataLoader.productVisits,
      pps_computePartition_eq s P hs] at h
    have hmod : (k * P + p) % P = p := by
      rw [Nat.add_comm, Nat.add_mul_mod_self_right, Nat.mod_eq_of_lt hp]
    have hs1 : (k + 1) * P = k * P + P := by ring
    by_cases hc : (s - 1) % P = p
    · have heq : k * P + p = s - 1 := by
        have hsub : (k * P + p - (s - 1)) % P = 0 :=
          Nat.sub_mod_eq_zero_of_mod_eq (by rw [hmod, hc])
        have hlt : k * P + p - (s - 1) < P := by omega
        rw [Nat.mod_eq_of_lt hlt] at hsub
        omega
      rw [if_pos (by rw [hc])] at h
      rcases List.mem_cons.1 h with h | h
      · refine ⟨k, ?_, ?_⟩
        · exact (Prod.mk.inj h).2
        · rw [(Prod.mk.inj h).1]
          have : s = k * P + p + 1 := by omega
          exact_mod_cast this
      · have hk1 : ((k : Int) + 1) = ((k + 1 : Nat) : Int) := by push_cast; rfl
        rw [hk1] at h
        exact ih (s + 1) (k + 1) (by omega) (by omega) (by omega) x c h
    · have hne : ¬ (((s - 1) % P : Nat) : Int) = (p : Int) := by
        intro he
        exact hc (by exact_mod_cast he)
      rw [if_neg hne] at h
      have hne2 : k * P + p ≠ s - 1 := by
        intro he
        rw [he] at hmod
        exact hc hmod
      exact ih (s + 1) k (by omega) (by omega) (by omega) x c h

/-- C33 (PPS loader and generator assign the same category to a product): for
`P, R ≥ 1` and a partition `p` in `[0, P)`, the loader's category
`(count_product_parts / R) mod 4` with `count_product_parts = k` equals the
generator's category `((id - 1) mod (4PR)) / (PR)` of the product
`id = k * P + p + 1`; and every product that the loader of partition `p` handles
among the ids `1..num_products`, with the value of `count_product_parts` on its
visit, is such a pair, so the loader's branch for it is the generator's
category of its id. -/
theorem pps_loader_generator_same_category (P R p : Nat) (hP : 1 ≤ P) (hR : 1 ≤ R) (hp : p < P) :
    (∀ k : Nat, pps.PartitionedPPSDataLoader.category (R : Int) (k : Int) =
      PPSWorkload.categoryOf (P : Int) (R : Int) (((k * P + p + 1 : Nat)) : Int)) ∧
    (∀ (num_products : Nat) (product_id count_product_parts : Int),
      (product_id, count_product_parts) ∈
        pps.PartitionedPPSDataLoader.productVisits (P : Int) (p : Int)
          ((List.range' 1 num_products).map fun (i : Nat) => (i : Int)) 0 →
      1 ≤ product_id ∧ product_id ≤ (num_products : Int) ∧
      pps.PartitionedPPSDataLoader.category (R : Int) count_product_parts =
        PPSWorkload.categoryOf (P : Int) (R : Int) product_id) := by
  have key : ∀ k : Nat, pps.PartitionedPPSDataLoader.category (R : Int) (k : Int) =
      PPSWorkload.categoryOf (P : Int) (R : Int) (((k * P + p + 1 : Nat)) : Int) := by
    intro k
    unfold pps.PartitionedPPSDataLoader.category PPSWorkload.categoryOf
    have e1 : Int.tmod (Int.tdiv (k : Int) (R : Int)) 4 = ((k / R % 4 : Nat) : Int) := by
      rw [Int.tdiv_eq_ediv (by positivity) (by positivity),
        Int.tmod_eq_emod (by positivity) (by decide)]
      push_cast
      rfl
    have e2 : (((k * P + p + 1 : Nat)) : Int) - 1 = ((k * P + p : Nat) : Int) := by
      push_cast
      ring
    have e3 : Int.tdiv (Int.tmod ((k * P + p : Nat) : Int) (4 * (P : Int) * (R : Int)))
        ((P : Int) * (R : Int)) = (((k * P + p) % (4 * P * R) / (P * R) : Nat) : Int) := by
      rw [show (4 * (P : Int) * (R : Int)) = ((4 * P * R : Nat) : Int) by push_cast; rfl,
        show (P : Int) * (R : Int) = ((P * R : Nat) : Int) by push_cast; rfl,
        ← Int.ofNat_tmod, ← Int.ofNat_tdiv]
    rw [e1, e2, e3, category_arith P R p k hP hR hp]
  refine ⟨key, ?_⟩
  intro n x c h
  obtain ⟨j, rfl, rfl⟩ := productVisits_spec P p hp n 1 0 (le_refl 1) (by omega) (by omega) x c
    (by simpa using h)
  refine ⟨by exact_mod_cast (by omega : 1 ≤ j * P + p + 1), ?_, key j⟩
  clear key
  have hmem : ∀ (len s : Nat) (k : Int) (y d : Int),
      (y, d) ∈ pps.PartitionedPPSDataLoader.productVisits (P : Int) (p : Int)
        ((List.range' s len).map fun (i : Nat) => (i : Int)) k → y < ((s + len : Nat) : Int) := by
    intro len
    induction len with
    | zero =>
      intro s k y d hy
      simp [pps.PartitionedPPSDataLoader.productVisits] at hy
    | succ len ih =>
      intro s k y d hy
      rw [List.range'_succ, List.map_cons, pps.PartitionedPPSDataLoader.productVisits] at hy
      split_ifs at hy
      · rcases List.mem_cons.1 hy with hy | hy
        · rw [(Prod.mk.inj hy).1]
          push_cast
          omega
        · have := ih (s + 1) _ y d hy
          push_cast at this ⊢
          omega
      · have := ih (s + 1) _ y d hy
        push_cast at this ⊢
        omega
  have := hmem n 1 0 _ _ h
  push_cast at this ⊢
  omega

/-- C33 at `P = 4`, `R = 3`, partition 2: the loader visits product 55 as its
14th product (counter 13), category `(13 / 3) mod 4 = 0`, and the generator
computes `((55 - 1) mod 48) / 12 = 0`. -/
theorem pps_loader_generator_same_category_witness :
    (55, 13) ∈ pps.PartitionedPPSDataLoader.productVisits 4 2
      ((List.range' 1 60).map fun (i : Nat) => (i : Int)) 0 ∧
    pps.PartitionedPPSDataLoader.category 3 13 = 0 ∧
    PPSWorkload.categoryOf 4 3 55 = 0 ∧
    (∀ k : Nat, pps.PartitionedPPSDataLoader.category ((3 : Nat) : Int) (k : Int) =
      PPSWorkload.categoryOf ((4 : Nat) : Int) ((3 : Nat) : Int) (((k * 4 + 2 + 1 : Nat)) : Int)) :=
  ⟨by decide, by decide, by decide,
    (pps_loader_generator_same_category 4 3 2 (by decide) (by decide) (by decide)).1⟩

namespace dsh

/-- The `for` loop of `ReservationTxn::Read` and the array
`new_reservation_count`: when the flag can only be true for a stay of at most
14 nights, the loop never indexes outside the array, and while its flag is true
every slot below the loop counter has been assigned. -/
theorem readCount_loop_slots (range : List String) (s : Bool × ReservationTxn)
    (hr : s.2.date_range_ = range) (hf : s.2.fault = false)
    (hl : s.2.new_reservation_count.length = kMaxStay)
    (hlen : s.1 = true → range.length ≤ kMaxStay) (n : Nat) (hn : n ≤ range.length) :
    (forLoop n ReservationTxn.readCount s).2.date_range_ = range ∧
    (forLoop n ReservationTxn.readCount s).2.fault = false ∧
    (forLoop n ReservationTxn.readCount s).2.new_reservation_count.length = kMaxStay ∧
    ((forLoop n ReservationTxn.readCount s).1 = true → range.length ≤ kMaxStay ∧
      ∀ i, i < n → ∃ v,
        (forLoop n ReservationTxn.readCount s).2.new_reservation_count[i]? = some (some v)) := by
  refine forLoop_indexed (fun k r =>
    r.2.date_range_ = range ∧ r.2.fault = false ∧ r.2.new_reservation_count.length = kMaxStay ∧
    (r.1 = true → range.length ≤ kMaxStay ∧
      ∀ i, i < k → ∃ v, r.2.new_reservation_count[i]? = some (some v)))
    ReservationTxn.readCount s n ?_ ?_
  · intro k r hk ⟨q1, q2, q3, q4⟩
    by_cases hflag : r.1 = true
    · obtain ⟨hl14, hsl⟩ := q4 hflag
      have hk14 : k < kMaxStay := by omega
      have hset : ∀ (v : Int) (i : Nat), i < k + 1 →
          ∃ v', (r.2.new_reservation_count.set k (some v))[i]? = some (some v') := by
        intro v i hi
        by_cases hik : i = k
        · subst hik
          exact ⟨v, by rw [List.getElem?_set_self (by omega)]⟩
        · obtain ⟨v', hv'⟩ := hsl i (by omega)
          exact ⟨v', by rw [List.getElem?_set_ne (fun h => hik h.symm)]; exact hv'⟩
      have hlset : ∀ v : Int, (r.2.new_reservation_count.set k (some v)).length = kMaxStay := by
        intro v
        rw [List.length_set]
        exact q3
      cases hcount : r.2.storage.reservationCounts r.2.hotel_id_ (r.2.date_range_.getD k "") with
      | none =>
        have hstep : ReservationTxn.readCount k r =
            (true, { r.2 with
              toTxnBase := r.2.toTxnBase.record
                (Op.select (RowKey.reservationCount r.2.hotel_id_ (r.2.date_range_.getD k ""))),
              new_reservation_count :=
                r.2.new_reservation_count.set k (some (r.2.hotel_capacity_ - r.2.num_rooms_)) }) := by
          simp [ReservationTxn.readCount, ReservationTxn.setCount, hflag, hcount, hk14,
            ← List.getD_eq_getElem?_getD]
        rw [hstep]
        exact ⟨q1, q2, hlset _, fun _ => ⟨hl14, hset _⟩⟩
      | some c =>
        by_cases hneg : c - r.2.num_rooms_ < 0
        · have hstep : ReservationTxn.readCount k r =
              (false, { r.2 with
                toTxnBase := (r.2.toTxnBase.record
                  (Op.select (RowKey.reservationCount r.2.hotel_id_ (r.2.date_range_.getD k "")))).fail
                    ("Too many reservations on " ++ r.2.date_range_.getD k ""),
                new_reservation_count := r.2.new_reservation_count.set k (some (c - r.2.num_rooms_)) }) := by
            simp [ReservationTxn.readCount, ReservationTxn.setCount, hflag, hcount, hneg, hk14,
              ← List.getD_eq_getElem?_getD]
          rw [hstep]
          exact ⟨q1, q2, hlset _, fun _ => ⟨hl14, hset _⟩⟩
        · have hstep : ReservationTxn.readCount k r =
              (true, { r.2 with
                toTxnBase := r.2.toTxnBase.record
                  (Op.select (RowKey.reservationCount r.2.hotel_id_ (r.2.date_range_.getD k ""))),
                new_reservation_count := r.2.new_reservation_count.set k (some (c - r.2.num_rooms_)) }) := by
            simp [ReservationTxn.readCount, ReservationTxn.setCount, hflag, hcount, hneg, hk14,
              ← List.getD_eq_getElem?_getD]
          rw [hstep]
          exact ⟨q1, q2, hlset _, fun _ => ⟨hl14, hset _⟩⟩
    · have hfalse : r.1 = false := by simpa using hflag
      have hstep : ReservationTxn.readCount k r =
          (false, { r.2 with
            toTxnBase := r.2.toTxnBase.record
              (Op.select (RowKey.reservationCount r.2.hotel_id_ (r.2.date_range_.getD k ""))) }) := by
        simp [ReservationTxn.readCount, hfalse, ← List.getD_eq_getElem?_getD]
      rw [hstep]
      exact ⟨q1, q2, q3, fun h => by cases h⟩
  · exact ⟨hr, hf, hl, fun h => ⟨hlen h, fun i hi => absurd hi (by omega)⟩⟩

/-- The `for` loop of `ReservationTxn::Write` reads only assigned slots when
every slot it visits has been assigned. -/
theorem writeCounts_no_fault : ∀ (l : List Nat) (t : ReservationTxn), t.fault = false →
    (∀ i ∈ l, ∃ v, t.new_reservation_count[i]? = some (some v)) →
    (ReservationTxn.writeCounts l t).2.fault = false := by
  intro l
  induction l with
  | nil => intro t hf _; exact hf
  | cons i rest ih =>
    intro t hf hs
    obtain ⟨v, hv⟩ := hs i (List.mem_cons_self _ _)
    have hget : t.new_reservation_count.getD i none = some v := by
      rw [List.getD_eq_getElem?_getD, hv]
      rfl
    rw [ReservationTxn.writeCounts, hget]
    simp only
    split_ifs <;>
      first
        | exact hf
        | exact ih _ hf (fun j hj => hs j (List.mem_cons_of_mem _ hj))

end dsh

namespace dsh

/-- `ReservationTxn::Read` up to its `for` loop: the loop starts on a state that
holds the stay, keeps the array and the fault flag of the object, and has the
flag true only for a stay of at most 14 nights. -/
theorem Read_before_loop (t : ReservationTxn) (range : List String)
    (hrange : date_interp t.in_date_ t.out_date_ = some range) :
    ∃ s : Bool × ReservationTxn,
      ReservationTxn.Read t = forLoop range.length ReservationTxn.readCount s ∧
      s.2.date_range_ = range ∧ s.2.fault = t.fault ∧
      s.2.new_reservation_count = t.new_reservation_count ∧
      (s.1 = true → range.length ≤ kMaxStay) := by
  by_cases hlen : range.length > kMaxStay <;>
  cases hu : t.storage.users t.username_ <;>
  cases hh : t.storage.hotels t.hotel_id_ <;>
  cases hp : t.ptrGreater <;>
  simp only [ReservationTxn.Read, hrange, hu, hh, hp, hlen, if_true, if_false, Bool.and_true,
    Bool.and_false, Bool.false_and, Bool.true_and, Bool.false_eq_true] <;>
  refine ⟨_, rfl, rfl, rfl, rfl, ?_⟩ <;>
  intro h <;>
  first
    | exact not_lt.mp hlen
    | exact (Bool.false_ne_true h).elim

/-- `ReservationTxn::Read` on dates for which `date_interp` does not return:
the loop is not reached, no slot of the array is assigned. -/
theorem Read_no_stay (t : ReservationTxn) (hnone : date_interp t.in_date_ t.out_date_ = none) :
    (ReservationTxn.Read t).1 = false ∧
    (ReservationTxn.Read t).2.new_reservation_count = t.new_reservation_count := by
  cases hu : t.storage.users t.username_ <;>
  cases hh : t.storage.hotels t.hotel_id_ <;>
  cases hp : t.ptrGreater <;>
  simp only [ReservationTxn.Read, hnone, hu, hh, hp, and_self, Bool.and_true, Bool.and_false,
    Bool.false_eq_true, if_true, if_false]

end dsh

namespace dsh

/-- `ReservationTxn::Write` reads only assigned slots when every slot below the
length of the stay has been assigned. -/
theorem Write_no_fault (t : ReservationTxn) (hf : t.fault = false)
    (hs : ∀ i, i < t.date_range_.length → ∃ v, t.new_reservation_count[i]? = some (some v)) :
    (ReservationTxn.Write t).2.fault = false := by
  have h := writeCounts_no_fault (List.range t.date_range_.length) t hf
    (fun i hi => hs i (List.mem_range.mp hi))
  unfold ReservationTxn.Write
  simp only
  split_ifs <;> exact h

end dsh

/-- C37 (ReservationTxn never writes past its 14-slot array): for a reservation
object built by the constructor, on every storage and every pair of dates.
When `date_interp` does not return for the dates, `Read` assigns no slot of
`new_reservation_count` and `Write` is not called. When it returns the stay
`range` (of any length), `Read` never indexes the array outside its 14 slots
(the fault flag stays false and the array keeps its 14 slots); when `Read`
returns true the stay has at most 14 nights and every slot below the length of
the stay has been assigned by `Read`; `Execute()` calls `Write` only for a stay
of at most 14 nights, and the whole run reads no unassigned slot and indexes
nothing outside the array. -/
theorem reservation_stays_inside_slot_array (a : dsh.StorageAdapter) (ptrGreater : Bool)
    (username password in_date out_date : String) (hotel_id : Int) (cust_name : String)
    (num_rooms : Int) (t : dsh.ReservationTxn)
    (hnew : dsh.ReservationTxn.new a ptrGreater username password in_date out_date hotel_id cust_name
      num_rooms = some t) :
    (dsh.date_interp in_date out_date = none →
      (dsh.ReservationTxn.Read t).2.new_reservation_count = List.replicate dsh.kMaxStay none ∧
      (DSHTransaction.Execute dsh.ReservationTxn.body t).calls = [Phase.Read]) ∧
    (∀ range, dsh.date_interp in_date out_date = some range →
      (dsh.ReservationTxn.Read t).2.fault = false ∧
      (dsh.ReservationTxn.Read t).2.new_reservation_count.length = dsh.kMaxStay ∧
      (dsh.ReservationTxn.Read t).2.date_range_ = range ∧
      ((dsh.ReservationTxn.Read t).1 = true → range.length ≤ dsh.kMaxStay ∧
        ∀ i, i < range.length → ∃ v,
          (dsh.ReservationTxn.Read t).2.new_reservation_count.getD i none = some v) ∧
      (Phase.Write ∈ (DSHTransaction.Execute dsh.ReservationTxn.body t).calls →
        range.length ≤ dsh.kMaxStay) ∧
      (DSHTransaction.Execute dsh.ReservationTxn.body t).state.fault = false) := by
  unfold dsh.ReservationTxn.new at hnew
  cases hu : dsh.format_uname username with
  | none => rw [hu] at hnew; cases hnew
  | some uname =>
    rw [hu] at hnew
    simp only [Option.map_some', Option.some.injEq] at hnew
    refine ⟨?_, ?_⟩
    · intro hnone
      have e1 : t.in_date_ = in_date := by subst hnew; rfl
      have e2 : t.out_date_ = out_date := by subst hnew; rfl
      have e4 : t.new_reservation_count = List.replicate dsh.kMaxStay none := by subst hnew; rfl
      have hread := dsh.Read_no_stay t (by rw [e1, e2]; exact hnone)
      refine ⟨hread.2.trans e4, ?_⟩
      unfold DSHTransaction.Execute
      simp only [dsh.ReservationTxn.body, hread.1, Bool.not_false, if_true]
    · intro range hrange
      have e1 : t.in_date_ = in_date := by subst hnew; rfl
      have e2 : t.out_date_ = out_date := by subst hnew; rfl
      have e3 : t.fault = false := by subst hnew; rfl
      have e4 : t.new_reservation_count.length = dsh.kMaxStay := by subst hnew; rfl
      obtain ⟨s, hread, hs1, hs2, hs3, hs4⟩ := dsh.Read_before_loop t range
        (by rw [e1, e2]; exact hrange)
      obtain ⟨l1, l2, l3, l4⟩ := dsh.readCount_loop_slots range s hs1 (hs2.trans e3)
        (by rw [hs3]; exact e4) hs4 range.length (le_refl _)
      rw [← hread] at l1 l2 l3 l4
      refine ⟨l2, l3, l1, ?_, ?_, ?_⟩
      · intro h
        obtain ⟨m1, m2⟩ := l4 h
        refine ⟨m1, fun i hi => ?_⟩
        obtain ⟨v, hv⟩ := m2 i hi
        exact ⟨v, by rw [List.getD_eq_getElem?_getD, hv]; rfl⟩
      · unfold DSHTransaction.Execute
        simp only [dsh.ReservationTxn.body]
        intro hmem
        by_cases hflag : (dsh.ReservationTxn.Read t).1 = true
        · exact (l4 hflag).1
        · have hfalse : (dsh.ReservationTxn.Read t).1 = false := by simpa using hflag
          rw [hfalse] at hmem
          simp at hmem
      · unfold DSHTransaction.Execute
        simp only [dsh.ReservationTxn.body]
        by_cases hflag : (dsh.ReservationTxn.Read t).1 = true
        · have hw := dsh.Write_no_fault (dsh.ReservationTxn.Compute (dsh.ReservationTxn.Read t).2) l2
            (by
              intro i hi
              have hi2 : i < range.length := by
                rw [← l1]
                exact hi
              exact (l4 hflag).2 i hi2)
          rw [hflag]
          simp only [Bool.not_true, Bool.false_eq_true, if_false]
          split_ifs <;> exact hw
        · have hfalse : (dsh.ReservationTxn.Read t).1 = false := by simpa using hflag
          rw [hfalse]
          exact l2

/-- C37 on the sample storage: a stay of two nights for one room in hotel 1
runs all three phases and assigns the slots 0 and 1; a stay of 15 nights is
refused by `Read`, which assigns no slot. -/
theorem reservation_stays_inside_slot_array_witness :
    dsh.date_interp "01-06-2020" "03-06-2020" = some ["01-06-2020", "02-06-2020"] ∧
    ((dsh.reservationPass dsh.sampleStorage false "1" "1" "01-06-2020" "03-06-2020" 1 "c" 1).map
      fun r => (r.ret, r.calls, r.state.fault, r.state.new_reservation_count.take 3)) =
      some (true, [Phase.Read, Phase.Compute, Phase.Write], false, [some 0, some 1, none]) ∧
    ((dsh.reservationPass dsh.sampleStorage false "1" "1" "01-06-2020" "16-06-2020" 1 "c" 1).map
      fun r => (r.ret, r.calls, r.state.date_range_.length, r.state.new_reservation_count)) =
      some (false, [Phase.Read], 15, List.replicate 14 none) ∧
    (DSHTransaction.Execute dsh.ReservationTxn.body
      ((dsh.ReservationTxn.new dsh.sampleStorage false "1" "1" "01-06-2020" "03-06-2020" 1 "c" 1).get
        (by decide))).state.fault = false :=
  ⟨by decide, by decide, by decide,
    ((reservation_stays_inside_slot_array dsh.sampleStorage false "1" "1" "01-06-2020" "03-06-2020" 1
      "c" 1 _ (Option.some_get _).symm).2 ["01-06-2020", "02-06-2020"] (by decide)).2.2.2.2.2⟩

/-- A loop whose body commutes with a map of the state commutes with it. -/
theorem forLoop_comm {σ : Type} (f : σ → σ) (body : Nat → σ → σ)
    (h : ∀ i s, body i (f s) = f (body i s)) (n : Nat) (s : σ) :
    forLoop n body (f s) = f (forLoop n body s) := by
  induction n with
  | zero => simp [forLoop]
  | succ m ih => rw [forLoop_succ, forLoop_succ, ih, h]

namespace dsh

/-- The body of the loop of `Read` does not look at the password. -/
theorem readCount_withPassword (p : String) (c : Bool) (i : Nat) (s : Bool × ReservationTxn) :
    ReservationTxn.readCount i (s.1, s.2.withPassword p c) =
      ((ReservationTxn.readCount i s).1, (ReservationTxn.readCount i s).2.withPassword p c) := by
  obtain ⟨flag, ⟨⟨st, ops, err, fault⟩, ind, outd, hid, cn, nr, un, pw, nid, dr, hc, sp, nrc, cp, pg⟩⟩ := s
  unfold ReservationTxn.readCount ReservationTxn.setCount
  dsimp only [ReservationTxn.withPassword]
  cases flag
  · rfl
  · cases st.reservationCounts hid (dr.getD i "") with
    | none =>
      dsimp only
      split_ifs <;> rfl
    | some count =>
      dsimp only
      split_ifs <;> rfl

/-- `ReservationTxn::Read` does not look at the password. -/
theorem Read_withPassword (p : String) (c : Bool) (t : ReservationTxn) :
    ReservationTxn.Read (t.withPassword p c) =
      ((ReservationTxn.Read t).1, (ReservationTxn.Read t).2.withPassword p c) := by
  obtain ⟨⟨st, ops, err, fault⟩, ind, outd, hid, cn, nr, un, pw, nid, dr, hc, sp, nrc, cp, pg⟩ := t
  cases hd : date_interp ind outd with
  | none =>
    cases hu : st.users un <;>
    cases hh : st.hotels hid <;>
    cases pg <;>
    simp only [ReservationTxn.Read, ReservationTxn.withPassword, hd, hu, hh, if_true, if_false,
      Bool.and_true, Bool.and_false, Bool.false_eq_true]
  | some range =>
    have key : ∃ s : Bool × ReservationTxn,
        ReservationTxn.Read
          ⟨⟨st, ops, err, fault⟩, ind, outd, hid, cn, nr, un, pw, nid, dr, hc, sp, nrc, cp, pg⟩ =
          forLoop range.length ReservationTxn.readCount s ∧
        ReservationTxn.Read (ReservationTxn.withPassword
          ⟨⟨st, ops, err, fault⟩, ind, outd, hid, cn, nr, un, pw, nid, dr, hc, sp, nrc, cp, pg⟩ p c) =
          forLoop range.length ReservationTxn.readCount (s.1, s.2.withPassword p c) := by
      by_cases hlen : range.length > kMaxStay <;>
      cases hu : st.users un <;>
      cases hh : st.hotels hid <;>
      cases pg <;>
      simp only [ReservationTxn.Read, ReservationTxn.withPassword, hd, hu, hh, hlen, if_true,
        if_false, Bool.and_true, Bool.and_false, Bool.false_eq_true] <;>
      exact ⟨_, rfl, rfl⟩
    obtain ⟨s, h1, h2⟩ := key
    rw [h1, h2]
    exact forLoop_comm (fun s : Bool × ReservationTxn => (s.1, s.2.withPassword p c))
      ReservationTxn.readCount (fun i s => readCount_withPassword p c i s) range.length s

/-- The loop of `ReservationTxn::Write` does not look at the password. -/
theorem writeCounts_withPassword (p : String) (c : Bool) :
    ∀ (l : List Nat) (t : ReservationTxn),
      ReservationTxn.writeCounts l (t.withPassword p c) =
        ((ReservationTxn.writeCounts l t).1, (ReservationTxn.writeCounts l t).2.withPassword p c) := by
  intro l
  induction l with
  | nil => intro t; rfl
  | cons i rest ih =>
    intro t
    obtain ⟨⟨st, ops, err, fault⟩, ind, outd, hid, cn, nr, un, pw, nid, dr, hc, sp, nrc, cp, pg⟩ := t
    rw [ReservationTxn.writeCounts, ReservationTxn.writeCounts]
    cases hget : nrc.getD i none with
    | none =>
      dsimp only [ReservationTxn.withPassword]
      simp only [hget]
    | some count =>
      by_cases hcap : count + nr = hc <;> [
        cases hw : st.writeOk (Op.insert (RowKey.reservationCount hid (dr.getD i "")) [Cell.int count]);
        cases hw : st.writeOk (Op.update (RowKey.reservationCount hid (dr.getD i "")) [Cell.int count])]
      · simp only [ReservationTxn.withPassword, hget, hcap, hw, if_true, Bool.not_false]
      · simp only [ReservationTxn.withPassword, hget, hcap, hw, if_true, if_false, Bool.not_true,
          Bool.false_eq_true]
        exact ih ⟨⟨st, ops ++ [Op.insert (RowKey.reservationCount hid (dr.getD i "")) [Cell.int count]],
          err, fault⟩, ind, outd, hid, cn, nr, un, pw, nid, dr, hc, sp, nrc, cp, pg⟩
      · simp only [ReservationTxn.withPassword, hget, hcap, hw, if_true, if_false, Bool.not_false]
      · simp only [ReservationTxn.withPassword, hget, hcap, hw, if_true, if_false, Bool.not_true,
          Bool.false_eq_true]
        exact ih ⟨⟨st, ops ++ [Op.update (RowKey.reservationCount hid (dr.getD i "")) [Cell.int count]],
          err, fault⟩, ind, outd, hid, cn, nr, un, pw, nid, dr, hc, sp, nrc, cp, pg⟩

/-- `ReservationTxn::Write` does not look at the password. -/
theorem Write_withPassword (p : String) (c : Bool) (t : ReservationTxn) :
    ReservationTxn.Write (t.withPassword p c) =
      ((ReservationTxn.Write t).1, (ReservationTxn.Write t).2.withPassword p c) := by
  have e1 : (t.withPassword p c).date_range_ = t.date_range_ := rfl
  have e2 : (t.withPassword p c).storage = t.storage := rfl
  have e3 : (t.withPassword p c).hotel_id_ = t.hotel_id_ := rfl
  have e4 : (t.withPassword p c).new_id_ = t.new_id_ := rfl
  have e5 : (t.withPassword p c).cust_name_ = t.cust_name_ := rfl
  have e6 : (t.withPassword p c).in_date_ = t.in_date_ := rfl
  have e7 : (t.withPassword p c).out_date_ = t.out_date_ := rfl
  have e8 : (t.withPassword p c).num_rooms_ = t.num_rooms_ := rfl
  unfold ReservationTxn.Write
  rw [e1, e2, e3, e4, e5, e6, e7, e8, writeCounts_withPassword]
  generalize ReservationTxn.writeCounts (List.range t.date_range_.length) t = r
  obtain ⟨flag, ⟨⟨st, ops, err, fault⟩, ind, outd, hid, cn, nr, un, pw, nid, dr, hc, sp, nrc, cp, pg⟩⟩ := r
  cases flag
  · rfl
  · dsimp only [ReservationTxn.withPassword]
    split_ifs <;> rfl

/-- `Execute()` of a reservation with another password: the same result, the
same phases, and the same object apart from the password members. -/
theorem Execute_withPassword (p : String) (c : Bool) (t : ReservationTxn) :
    ∃ c2, DSHTransaction.Execute ReservationTxn.body (t.withPassword p c) =
      { ret := (DSHTransaction.Execute ReservationTxn.body t).ret,
        state := (DSHTransaction.Execute ReservationTxn.body t).state.withPassword p c2,
        calls := (DSHTransaction.Execute ReservationTxn.body t).calls } := by
  unfold DSHTransaction.Execute
  simp only [ReservationTxn.body, Read_withPassword]
  cases hflag : (ReservationTxn.Read t).1 with
  | false => exact ⟨c, rfl⟩
  | true =>
    simp only [Bool.not_true, Bool.false_eq_true, if_false]
    have hc : ReservationTxn.Compute ((ReservationTxn.Read t).2.withPassword p c) =
        (ReservationTxn.Compute (ReservationTxn.Read t).2).withPassword p
          (decide ((ReservationTxn.Read t).2.saved_password_ = p)) := rfl
    rw [hc, Write_withPassword]
    simp only
    refine ⟨decide ((ReservationTxn.Read t).2.saved_password_ = p), ?_⟩
    split_ifs <;> rfl

end dsh

/-- The reservation and the password, for a fixed outcome of the pointer
comparison `num_rooms_ > hotel_capacity_` in `Read`: for every storage, outcome
of that comparison, username, dates, hotel id, customer name and room count, and
any two passwords, running the reservation gives the same result of
`Execute()`, the same `error()` text, the same facade calls in the same order
(selects, inserts and updates with their cells), the same phases and the same
fault flag; the constructor aborts for one password exactly when it aborts for
the other. Whether two passwords lead to the same outcome of the comparison is
a matter of where the heap places the two cells, which this development does
not describe. -/
theorem reservation_outcome_independent_of_password (a : dsh.StorageAdapter) (ptrGreater : Bool)
    (username password1 password2 in_date out_date : String) (hotel_id : Int) (cust_name : String)
    (num_rooms : Int) :
    ((dsh.reservationPass a ptrGreater username password1 in_date out_date hotel_id cust_name
        num_rooms).map fun r => (r.ret, r.state.error_, r.state.ops, r.calls, r.state.fault)) =
    ((dsh.reservationPass a ptrGreater username password2 in_date out_date hotel_id cust_name
        num_rooms).map fun r => (r.ret, r.state.error_, r.state.ops, r.calls, r.state.fault)) := by
  unfold dsh.reservationPass dsh.ReservationTxn.new
  cases dsh.format_uname username with
  | none => rfl
  | some uname =>
    simp only [Option.map_some']
    obtain ⟨c2, h⟩ := dsh.Execute_withPassword password2 false
      { dsh.TxnBase.fresh a with
        in_date_ := in_date, out_date_ := out_date, hotel_id_ := hotel_id, cust_name_ := cust_name,
        num_rooms_ := num_rooms, username_ := uname, password_ := password1, new_id_ := none,
        date_range_ := [], hotel_capacity_ := 0, saved_password_ := "",
        new_reservation_count := List.replicate dsh.kMaxStay none, correct_password_ := false,
        ptrGreater := ptrGreater }
    have h2 : DSHTransaction.Execute dsh.ReservationTxn.body
        { dsh.TxnBase.fresh a with
          in_date_ := in_date, out_date_ := out_date, hotel_id_ := hotel_id, cust_name_ := cust_name,
          num_rooms_ := num_rooms, username_ := uname, password_ := password2, new_id_ := none,
          date_range_ := [], hotel_capacity_ := 0, saved_password_ := "",
          new_reservation_count := List.replicate dsh.kMaxStay none, correct_password_ := false,
          ptrGreater := ptrGreater } = _ := h
    rw [h2]
    rfl

/-- C32: with the bounds `{1,1,2020}` and `{31,6,2020}` that the generator
passes, the draws year 2020, month 6, day 31, length 14 are inside the bounds
of the four distributions (the end day 31 is taken for June, which has 30
days), and `rand_date_range_from_range` returns ("31-06-2020", "15-07-2020"):
the first date is not a day of the calendar, `date_interp` gives 15 entries for
the pair (31-06, then 01-07 to 14-07), and the reservation on these dates is
refused with "Stay is too long" on a storage that holds the user and the hotel.
With day 30 instead, the same draws give the 14 nights from 30-06-2020. -/
theorem generated_stay_exceeds_kMaxStay :
    DeathStarHotelWorkload.rand_date_range_from_range ⟨1, 1, 2020⟩ ⟨31, 6, 2020⟩ ⟨2020, 6, 31, 14⟩ =
      some ("31-06-2020", "15-07-2020") ∧
    dsh.months_in_year.getD 5 0 = 30 ∧
    (dsh.date_interp "31-06-2020" "15-07-2020").map List.length = some 15 ∧
    (dsh.date_interp "31-06-2020" "15-07-2020").map (List.take 2) =
      some ["31-06-2020", "01-07-2020"] ∧
    dsh.kMaxStay = 14 ∧
    ((dsh.reservationPass dsh.sampleStorage false "1" "1" "31-06-2020" "15-07-2020" 1 "1" 1).map
      fun r => (r.ret, r.state.error_, r.calls)) = some (false, "Stay is too long", [Phase.Read]) ∧
    DeathStarHotelWorkload.rand_date_range_from_range ⟨1, 1, 2020⟩ ⟨31, 6, 2020⟩ ⟨2020, 6, 30, 14⟩ =
      some ("30-06-2020", "14-07-2020") ∧
    (dsh.date_interp "30-06-2020" "14-07-2020").map List.length = some 14 := by
  decide

/-- C40: the second phase of amalgamate works with the member
`am_returned_first_customer_id`, which no branch of `NextTransaction` assigns
before phase 3, and not with the id that the pending first phase returned. On
two partitions and two regions with 12 clients (three per class), the pending
transaction returned customer 5 (partition 1, home 0). With the member holding
2, the source class is (0, 1) and the draws "single home, single partition,
index 1" give the destination "Client6"; with the member holding 5 the same
pending transaction and draws give the class (1, 0) and the destination
"Client5", the source account itself, because the guard compares the customer id
with the index drawn. The name looked up never depends on the pending
transaction. With the member holding 2 and multi-home, multi-partition draws the
loops end when the draws allow it, the index 2 being drawn again because it
equals the id 2. -/
theorem amalgamate_second_phase_uses_held_id :
    (SmallBankWorkload.samplePhaseTwo 5 2).pending_amalgamate_txn_.bind
      SmallBankWorkload.returnedId = some 5 ∧
    SmallBankWorkload.amalgamateSource 2 2 (SmallBankWorkload.samplePhaseTwo 5 2) = (0, 1) ∧
    SmallBankWorkload.amalgamateSource 2 2 (SmallBankWorkload.samplePhaseTwo 5 5) = (1, 0) ∧
    SmallBankWorkload.amalgamateDst 2 2 (SmallBankWorkload.samplePhaseTwo 5 2)
      ⟨false, false, [], [], [(0, 1)]⟩ = some (smallbank.clientName 6) ∧
    SmallBankWorkload.amalgamateDst 2 2 (SmallBankWorkload.samplePhaseTwo 5 5)
      ⟨false, false, [], [], [(0, 1)]⟩ = some (smallbank.clientName 5) ∧
    ((SmallBankWorkload.NextTransaction (fun _ => true) (SmallBankWorkload.samplePhaseTwo 5 2)
        { txn := 0, name := "", amount := 0,
          dst := SmallBankWorkload.amalgamateDst 2 2 (SmallBankWorkload.samplePhaseTwo 5 2)
            ⟨false, false, [], [], [(0, 1)]⟩ }).map
      fun r => (r.2.procedure, r.1.am_returned_first_customer_id)) =
      some (["getCustomerIdByName", smallbank.clientName 6], 2) ∧
    SmallBankWorkload.amalgamateDst 2 2 (SmallBankWorkload.samplePhaseTwo 5 2)
      ⟨true, true, [0, 1], [1, 0], [(0, 2), (0, 0)]⟩ = some (smallbank.clientName 1) ∧
    (∀ (P R : Nat) (w : SmallBankWorkload) (t : Option ReturnedTransaction)
        (dr : SmallBankWorkload.AmalgamateDraws),
      SmallBankWorkload.amalgamateSource P R { w with pending_amalgamate_txn_ := t } =
        SmallBankWorkload.amalgamateSource P R w ∧
      SmallBankWorkload.amalgamateDst P R { w with pending_amalgamate_txn_ := t } dr =
        SmallBankWorkload.amalgamateDst P R w dr) := by
  refine ⟨by decide, by decide, by decide, by decide, by decide, by decide, by decide, ?_⟩
  intro P R w t dr
  exact ⟨rfl, rfl⟩

end Gaia
